import Mathlib

/-!
# BC1 / DXT1 block compressor (`rrdxtccompress.cpp`): shallow embedding

The definitions below follow `rrdxtccompress.cpp` function by function and keep
its names.  Machine words are natural numbers; a pointer that walks an output
array (`*pEndPoints++ = ep`) is the list of the entries written so far; an
in/out parameter (`pBlock`, `pError`, `pData`) is an argument and a component of
the result.  Everything the file calls but does not define (palette
construction, index search, batch scoring, quantisation, the single-colour
tables, the float kernels, the random generator) is a field of `Deps`.
-/

namespace RR

/-! ## Data model -/

/-- A pixel: the four byte fields `u.b, u.g, u.r, u.a` of `rrColor32BGRA`. -/
structure rrColor32BGRA where
  b : Nat
  g : Nat
  r : Nat
  a : Nat
deriving DecidableEq, Repr, Inhabited

/-- The `dw` view of the union: the four bytes read as one little-endian word. -/
def rrColor32BGRA.dw (c : rrColor32BGRA) : Nat :=
  c.b + 256 * c.g + 65536 * c.r + 16777216 * c.a

/-- A 5:6:5 colour unpacked to bytes but not dequantised.  The source reads and
writes it through `dw` (`Wiggle`, `endptr->c[0].dw = 0`) with the byte layout of
`rrColor32BGRA`, so the word is the representation. -/
structure rrColorUnpacked565 where
  dw : Nat
deriving DecidableEq, Repr, Inhabited

def rrColorUnpacked565.b (c : rrColorUnpacked565) : Nat := c.dw % 256
def rrColorUnpacked565.g (c : rrColorUnpacked565) : Nat := c.dw / 256 % 256
def rrColorUnpacked565.r (c : rrColorUnpacked565) : Nat := c.dw / 65536 % 256
def rrColorUnpacked565.a (c : rrColorUnpacked565) : Nat := c.dw / 16777216 % 256

/-- Modelled from the spec: constructor `rrColorUnpacked565(r,g,b)` of the absent
header `rrdxtcblock.h`; the three fields go to their bytes, alpha byte 0. -/
def rrColorUnpacked565.ofRGB (r g b : Nat) : rrColorUnpacked565 :=
  ⟨b % 256 + 256 * (g % 256) + 65536 * (r % 256)⟩

/-- Modelled from the spec: `rrColorUnpacked565::pack()` of the absent header; the
packed 16-bit word has the 5:6:5 R:G:B bit layout of the BC1 wire format. -/
def rrColorUnpacked565.pack (c : rrColorUnpacked565) : Nat :=
  (c.r % 32) * 2048 + (c.g % 64) * 32 + c.b % 32

/-- Modelled from the spec: constructor `rrColorUnpacked565(rrColor565Bits)` of the
absent header, the inverse of `pack`. -/
def rrColorUnpacked565.unpack (w : Nat) : rrColorUnpacked565 :=
  ⟨w % 32 + 256 * (w / 32 % 64) + 65536 * (w / 2048 % 32)⟩

/-- An `rrDXT1UnpackedEndPoints`: the array `c[2]`. -/
structure rrDXT1UnpackedEndPoints where
  c0 : rrColorUnpacked565
  c1 : rrColorUnpacked565
deriving DecidableEq, Repr, Inhabited

/-- An `rrDXT1Block`: two packed 16-bit endpoints (`c0.w`, `c1.w`) and the 32-bit
index word. -/
structure rrDXT1Block where
  c0 : Nat
  c1 : Nat
  indices : Nat
deriving DecidableEq, Repr, Inhabited

/-- The `endpoints` view of the block (`rrDXT1Block_EndPoints_AsU32`): `c0` in the
low half, `c1` in the high half. -/
def rrDXT1Block.endpoints (blk : rrDXT1Block) : Nat := blk.c0 % 65536 + 65536 * (blk.c1 % 65536)

inductive rrDXT1PaletteMode where
  | NoAlpha
  | Alpha
  | FourColor
deriving DecidableEq, Repr, Inhabited

/-- The tile `rrColorBlock4x4`: the array `colors[16]`.  Loops `for i < 16` run over
the entries of the list. -/
structure rrColorBlock4x4 where
  colors : List rrColor32BGRA
deriving DecidableEq, Repr, Inhabited

structure rrVec3i where
  x : Int
  y : Int
  z : Int
deriving DecidableEq, Repr, Inhabited

/-- The four means `means[4]` of the 4-means stage. -/
structure Means4 where
  m0 : rrColor32BGRA
  m1 : rrColor32BGRA
  m2 : rrColor32BGRA
  m3 : rrColor32BGRA
deriving DecidableEq, Repr, Inhabited

/-- The struct `rrCompressDXT1_Startup_Data`; the `dispatch` field only selects
between interchangeable scalar and vector kernels and is left out. -/
structure rrCompressDXT1_Startup_Data where
  avg : rrVec3i
  diagonal : rrVec3i
  sum : rrVec3i
  loC : rrColor32BGRA
  hiC : rrColor32BGRA
  has_any_alpha : Bool
deriving DecidableEq, Repr, Inhabited

abbrev Palette := List rrColor32BGRA

/-- What `rrdxtccompress.cpp` calls and does not define. -/
structure Deps where
  /-- The constant `DXT1_FindErrorsContext::COUNT_SHIFT`; `COUNT_LIMIT` is `1 << COUNT_SHIFT`. -/
  COUNT_SHIFT : Nat
  RR_DXTC_INIT_ERROR : Nat
  /-- The option bit `rrDXTCOptions_BC1_OneBitAlpha`. -/
  rrDXTCOptions_BC1_OneBitAlpha : Nat
  /-- The function `rrColorUnpacked565::quantize`. -/
  quantize : rrColor32BGRA → rrColorUnpacked565
  /-- The word `Quantize(c).w`, the packed quantisation used by the heavy search. -/
  Quantize : rrColor32BGRA → Nat
  /-- The table `bc1_optimal_4c[which][value]` as the pair `(lo, hi)`. -/
  bc1_optimal_4c : Nat → Nat → Nat × Nat
  /-- The table `bc1_optimal_3c[which][value]` as the pair `(lo, hi)`. -/
  bc1_optimal_3c : Nat → Nat → Nat × Nat
  rrColor32BGRA_IsOneBitTransparent : rrColor32BGRA → Bool
  /-- The `Average` of two colours. -/
  Average : rrColor32BGRA → rrColor32BGRA → rrColor32BGRA
  /-- The call `DXT1_ComputePalette(c0,c1,palette,mode)` on packed endpoints. -/
  DXT1_ComputePalette : Nat → Nat → rrDXT1PaletteMode → Palette
  /-- One entry of `DXT1_ComputePalette_Batched`: the palette of an unpacked pair. -/
  ComputePalette_Unpacked : rrDXT1UnpackedEndPoints → rrDXT1PaletteMode → Palette
  /-- The call `DXT1_FindIndices(dispatch,colors,palette,&err)` as `(indices, err)`. -/
  DXT1_FindIndices : rrColorBlock4x4 → Palette → Nat × Nat
  /-- The error `DXT1_FindErrorsContext` assigns to one palette (one entry of
  `eval_palettes`). -/
  eval_palette : rrColorBlock4x4 → Palette → Nat
  /-- The seeding `Scalar_Calc_4Means` / `SSE4_Calc_4Means` as the level functions call it;
  `Scalar_Calc_4Means` below embeds it with every float operation taken exactly. -/
  Calc_4Means : rrCompressDXT1_Startup_Data → rrColorBlock4x4 → Nat → Means4
  DXT1_SolveRGB4Means : Means4 → rrColorBlock4x4 → Means4
  /-- The float tail of `BC1EndpointLLSSolver::solve_endpoints` for a non-zero
  determinant: from `fourc`, `AA`, `AB`, `BB`, `AX`, `BX` to `(qA.w, qB.w)`. -/
  solve_quantized : Bool → Int → Int → Int → rrVec3i → rrVec3i → Nat × Nat
  /-- The seed `rrRand64Simple_SeedFromU64Array` on the words of the tile. -/
  rrRand64Simple_SeedFromU64Array : List Nat → Nat
  /-- The call `rrRand64Simple(&state)` as `(new state, value)`. -/
  rrRand64Simple : Nat → Nat × Nat
  rrDXT1Block_BC3_Canonicalize : rrDXT1Block → rrDXT1Block
  /-- The function `DXT1_ComputeSSD_OneBitTransparent`: the error of a decoded block. -/
  DXT1_ComputeSSD_OneBitTransparent : rrColorBlock4x4 → rrDXT1Block → rrDXT1PaletteMode → Nat
  DXT1_ComputeSSD_RGBA : rrColorBlock4x4 → rrDXT1Block → rrDXT1PaletteMode → Nat
  /-- The call `DXT1_OneBitTransparent_Mask_FromIndices(is3c, indices)`. -/
  DXT1_OneBitTransparent_Mask_FromIndices : Bool → Nat → Nat

/-! ## Small helpers of the absent headers -/

/-- Modelled from the spec: `ColorToVec3i` of the absent `rrcolorvecc.h`; the use in
`Scalar_Calc_4Means` fixes the order `x = b, y = g, z = r`. -/
def ColorToVec3i (c : rrColor32BGRA) : rrVec3i := ⟨c.b, c.g, c.r⟩

def clampU8 (v : Int) : Nat := if v < 0 then 0 else if 255 < v then 255 else v.toNat

/-- Modelled from the spec: `Vec3iToColorClamp` of the absent `rrcolorvecc.h`: each
component clamped to a byte, opaque alpha. -/
def Vec3iToColorClamp (v : rrVec3i) : rrColor32BGRA := ⟨clampU8 v.x, clampU8 v.y, clampU8 v.z, 255⟩

/-- Modelled from the spec: `Vec3iToColor` of the absent `rrcolorvecc.h`: each
component stored in its byte, opaque alpha. -/
def Vec3iToColor (v : rrVec3i) : rrColor32BGRA :=
  ⟨v.x.toNat % 256, v.y.toNat % 256, v.z.toNat % 256, 255⟩

def rrVec3i.sub (p q : rrVec3i) : rrVec3i := ⟨p.x - q.x, p.y - q.y, p.z - q.z⟩
def rrVec3i.add (p q : rrVec3i) : rrVec3i := ⟨p.x + q.x, p.y + q.y, p.z + q.z⟩
def LengthSqr (v : rrVec3i) : Int := v.x * v.x + v.y * v.y + v.z * v.z

/-- Modelled from the spec: `DXT1_Is4Color` on a block: FourColor mode is always
four-colour, otherwise endpoint0 > endpoint1 selects four-colour mode. -/
def DXT1_Is4Color (c0 c1 : Nat) (mode : rrDXT1PaletteMode) : Bool :=
  decide (mode = rrDXT1PaletteMode.FourColor) || decide (c1 < c0)

/-- Modelled from the spec: `DXT1_Is4Color` on unpacked endpoints, which compare by
their word. -/
def DXT1_Is4Color_Unpacked (ep : rrDXT1UnpackedEndPoints) (mode : rrDXT1PaletteMode) : Bool :=
  decide (mode = rrDXT1PaletteMode.FourColor) || decide (ep.c1.dw < ep.c0.dw)

/-! ## AddEndPoints helpers -/

/-- The pair `ep` that `AddEndPoints_SingleColor_Compact_4C` builds for colour `c`. -/
def SingleColor_Compact_4C (K : Deps) (c : rrColor32BGRA) : rrDXT1UnpackedEndPoints :=
  let opt_r := K.bc1_optimal_4c 0 c.r
  let opt_g := K.bc1_optimal_4c 1 c.g
  let opt_b := K.bc1_optimal_4c 0 c.b
  let e0 := rrColorUnpacked565.ofRGB opt_r.1 opt_g.1 opt_b.1
  let e1 := rrColorUnpacked565.ofRGB opt_r.2 opt_g.2 opt_b.2
  -- Put in 4-color order if possible
  if e0.dw < e1.dw then ⟨e1, e0⟩ else ⟨e0, e1⟩

def AddEndPoints_SingleColor_Compact_4C (K : Deps) (pEndPoints : List rrDXT1UnpackedEndPoints)
    (c : rrColor32BGRA) : List rrDXT1UnpackedEndPoints :=
  pEndPoints ++ [SingleColor_Compact_4C K c]

/-- The pair `ep` that `AddEndPoints_SingleColor_Compact_3C` builds for colour `c`. -/
def SingleColor_Compact_3C (K : Deps) (c : rrColor32BGRA) : rrDXT1UnpackedEndPoints :=
  let opt_r := K.bc1_optimal_3c 0 c.r
  let opt_g := K.bc1_optimal_3c 1 c.g
  let opt_b := K.bc1_optimal_3c 0 c.b
  let e0 := rrColorUnpacked565.ofRGB opt_r.1 opt_g.1 opt_b.1
  let e1 := rrColorUnpacked565.ofRGB opt_r.2 opt_g.2 opt_b.2
  -- Put in 3-color order
  if e1.dw < e0.dw then ⟨e1, e0⟩ else ⟨e0, e1⟩

def AddEndPoints_SingleColor_Compact_3C (K : Deps) (pEndPoints : List rrDXT1UnpackedEndPoints)
    (c : rrColor32BGRA) : List rrDXT1UnpackedEndPoints :=
  pEndPoints ++ [SingleColor_Compact_3C K c]

def AddEndPoints_Default (K : Deps) (pEndPoints : List rrDXT1UnpackedEndPoints)
    (mode : rrDXT1PaletteMode) (end1 end2 : rrColor32BGRA) : List rrDXT1UnpackedEndPoints :=
  let e0 := K.quantize end1
  let e1 := K.quantize end2
  if e0 = e1 then pEndPoints
  else if mode ≠ rrDXT1PaletteMode.FourColor then pEndPoints ++ [⟨e0, e1⟩] ++ [⟨e1, e0⟩]
  else pEndPoints ++ [⟨e0, e1⟩]

def AddEndPoints_Force3C (K : Deps) (pEndPoints : List rrDXT1UnpackedEndPoints)
    (end1 end2 : rrColor32BGRA) : List rrDXT1UnpackedEndPoints :=
  let e0 := K.quantize end1
  let e1 := K.quantize end2
  -- force 3 color order
  if e1.dw < e0.dw then pEndPoints ++ [⟨e1, e0⟩] else pEndPoints ++ [⟨e0, e1⟩]

def AddEndPoints_BothWays (K : Deps) (pEndPoints : List rrDXT1UnpackedEndPoints)
    (end1 end2 : rrColor32BGRA) : List rrDXT1UnpackedEndPoints :=
  let e0 := K.quantize end1
  let e1 := K.quantize end2
  if e0 = e1 then pEndPoints
  else pEndPoints ++ [⟨e0, e1⟩] ++ [⟨e1, e0⟩]

def AddEndPoints_TwoColorBest (K : Deps) (pEndPoints : List rrDXT1UnpackedEndPoints)
    (c1 c2 : rrColor32BGRA) : List rrDXT1UnpackedEndPoints :=
  let v1 := ColorToVec3i c1
  let v2 := ColorToVec3i c2
  let delta := v2.sub v1
  let ptr := AddEndPoints_BothWays K pEndPoints c1 c2
  -- C integer division truncates toward zero
  let delta2 : rrVec3i := ⟨Int.tdiv delta.x 2, Int.tdiv delta.y 2, Int.tdiv delta.z 2⟩
  if LengthSqr delta2 < 6 then ptr
  else
    let ptr := AddEndPoints_BothWays K ptr (Vec3iToColorClamp (v1.sub delta))
      (Vec3iToColorClamp (v2.add delta))
    let cend1 := Vec3iToColorClamp (v1.sub delta2)
    let cend2 := Vec3iToColorClamp (v2.add delta2)
    let ptr := AddEndPoints_BothWays K ptr cend1 c2
    AddEndPoints_BothWays K ptr c1 cend2

/-! ## FilterEndpoints and the batch evaluator -/

def FilterEndpoints_Allow4c : Nat := 1
def FilterEndpoints_Allow3c : Nat := 2
def FilterEndpoints_AllowBoth : Nat := 3

def FilterEndpoints (endpoints : List rrDXT1UnpackedEndPoints) (allow_which : Nat) :
    List rrDXT1UnpackedEndPoints :=
  let mask := allow_which &&& FilterEndpoints_AllowBoth
  if mask = 0 then []
  else if mask = FilterEndpoints_AllowBoth then endpoints
  else
    let want_4color := decide (mask = FilterEndpoints_Allow4c)
    endpoints.filter
      (fun cur => DXT1_Is4Color_Unpacked cur rrDXT1PaletteMode.Alpha == want_4color)

def COUNT_LIMIT (K : Deps) : Nat := 2 ^ K.COUNT_SHIFT

def DXT1_ComputePalette_Batched (K : Deps) (endpoints : List rrDXT1UnpackedEndPoints)
    (mode : rrDXT1PaletteMode) : List Palette :=
  endpoints.map (fun ep => K.ComputePalette_Unpacked ep mode)

/-- The 32-bit key `(err << shift) | i` of candidate `i`. -/
def packKey (shift err i : Nat) : Nat := ((err <<< shift) % 4294967296) ||| i

/-- The keys of the errors `errs`, numbered from `i`. -/
def packKeys (shift : Nat) : Nat → List Nat → List Nat
  | _, [] => []
  | i, e :: es => packKey shift e i :: packKeys shift (i + 1) es

/-- The minimum of the keys, starting from the largest 32-bit word. -/
def minKey (keys : List Nat) : Nat := keys.foldl min 4294967295

/-- The call `ctx.eval_palettes`: one error per palette. -/
def eval_palettes (K : Deps) (colors : rrColorBlock4x4) (palettes : List Palette) : List Nat :=
  palettes.map (K.eval_palette colors)

/-- Modelled from the spec: `DXT1_FindErrorsContext::find_best_palette`, defined in
the absent `rrdxtccompress.inl`: the minimum over the candidates of the key
`(err_i << COUNT_SHIFT) | i`, so that ties go to the lowest index; an empty batch
gives the largest 32-bit word. -/
def find_best_palette (K : Deps) (colors : rrColorBlock4x4) (palettes : List Palette) : Nat :=
  minKey (packKeys K.COUNT_SHIFT 0 (eval_palettes K colors palettes))

/-- The function `TryBatchedEndpoints`.  Reading `endpoints[best_i]` or the palette past `count`
would read an uninitialised entry; the embedding returns the default entry. -/
def TryBatchedEndpoints (K : Deps) (pBlock : rrDXT1Block) (pError : Nat)
    (colors : rrColorBlock4x4) (mode : rrDXT1PaletteMode)
    (endpoints : List rrDXT1UnpackedEndPoints) : rrDXT1Block × Nat :=
  let palette_scratch := DXT1_ComputePalette_Batched K endpoints mode
  let best_err_and_i := find_best_palette K colors palette_scratch
  let best_err := best_err_and_i >>> K.COUNT_SHIFT
  if best_err < pError then
    let best_i := best_err_and_i &&& (COUNT_LIMIT K - 1)
    let ep := endpoints.getD best_i default
    let fi := K.DXT1_FindIndices colors (palette_scratch.getD best_i [])
    (⟨ep.c0.pack, ep.c1.pack, fi.1⟩, fi.2)
  else (pBlock, pError)

/-! ## Startup -/

/-- The local `BLACKNESS_DISTANCE` of `rrDXT1_IsTransparentOrBlack`. -/
def BLACKNESS_DISTANCE : Nat := 12

def rrDXT1_IsTransparentOrBlack (K : Deps) (mode : rrDXT1PaletteMode) (color : rrColor32BGRA) :
    Bool :=
  match mode with
  | rrDXT1PaletteMode.FourColor => false
  | rrDXT1PaletteMode.Alpha => K.rrColor32BGRA_IsOneBitTransparent color
  | rrDXT1PaletteMode.NoAlpha =>
    decide (color.b < BLACKNESS_DISTANCE) && decide (color.g < BLACKNESS_DISTANCE)
      && decide (color.r < BLACKNESS_DISTANCE)

/-- The locals of the pixel scan of `rrCompressDXT1_Startup_Impl`. -/
structure StartupScan where
  avg : rrVec3i
  loC : rrColor32BGRA
  hiC : rrColor32BGRA
  num_colors : Nat
  loC_colors : rrColor32BGRA
  hiC_colors : rrColor32BGRA
  num_transparent : Nat
deriving DecidableEq, Repr

/-- The locals before the scan: `loC.dw = 0xFFFFFFFF; loC.u.a = 0; hiC.dw = 0`. -/
def StartupScan.init : StartupScan :=
  { avg := ⟨0, 0, 0⟩, loC := ⟨255, 255, 255, 0⟩, hiC := ⟨0, 0, 0, 0⟩, num_colors := 0,
    loC_colors := ⟨255, 255, 255, 0⟩, hiC_colors := ⟨0, 0, 0, 0⟩, num_transparent := 0 }

/-- One iteration of the scan `for(int i=0;i<16;i++)`. -/
def StartupScan.step (K : Deps) (mode : rrDXT1PaletteMode) (s : StartupScan)
    (c : rrColor32BGRA) : StartupScan :=
  let num_transparent := if c.dw = 0 then s.num_transparent + 1 else s.num_transparent
  let avg := s.avg.add (ColorToVec3i c)
  let hiC : rrColor32BGRA := ⟨max s.hiC.b c.b, max s.hiC.g c.g, max s.hiC.r c.r, s.hiC.a⟩
  let loC : rrColor32BGRA := ⟨min s.loC.b c.b, min s.loC.g c.g, min s.loC.r c.r, s.loC.a⟩
  if !rrDXT1_IsTransparentOrBlack K mode c then
    { avg := avg, loC := loC, hiC := hiC, num_colors := s.num_colors + 1,
      loC_colors := ⟨min s.loC_colors.b c.b, min s.loC_colors.g c.g, min s.loC_colors.r c.r,
        s.loC_colors.a⟩,
      hiC_colors := ⟨max s.hiC_colors.b c.b, max s.hiC_colors.g c.g, max s.hiC_colors.r c.r,
        s.hiC_colors.a⟩,
      num_transparent := num_transparent }
  else
    { avg := avg, loC := loC, hiC := hiC, num_colors := s.num_colors,
      loC_colors := s.loC_colors, hiC_colors := s.hiC_colors,
      num_transparent := num_transparent }

def StartupScan.run (K : Deps) (mode : rrDXT1PaletteMode) (colors : rrColorBlock4x4) :
    StartupScan :=
  colors.colors.foldl (StartupScan.step K mode) StartupScan.init

/-- The function `rrCompressDXT1_Startup_Impl`: the returned flag, `*pData` and the
candidates from `endpoints` up to `endptr`. -/
def rrCompressDXT1_Startup_Impl (K : Deps) (pData : rrCompressDXT1_Startup_Data)
    (colors : rrColorBlock4x4) (mode : rrDXT1PaletteMode)
    (endptr : List rrDXT1UnpackedEndPoints) :
    Bool × rrCompressDXT1_Startup_Data × List rrDXT1UnpackedEndPoints :=
  let s := StartupScan.run K mode colors
  if s.hiC.dw = 0 then
    (false, pData, endptr ++ [⟨⟨0⟩, ⟨0⟩⟩])
  else
    let has_any_alpha := decide (0 < s.num_transparent)
    let pData := { pData with has_any_alpha := has_any_alpha }
    let sum := s.avg
    -- (avg + 8) >> 4 on non-negative sums
    let avg : rrVec3i := ⟨(s.avg.x + 8) / 16, (s.avg.y + 8) / 16, (s.avg.z + 8) / 16⟩
    let avgC := Vec3iToColor avg
    let endptr := if !has_any_alpha then AddEndPoints_SingleColor_Compact_4C K endptr avgC
      else endptr
    let endptr :=
      if s.num_colors < 16 then
        let loC_colors := if s.num_colors = 0 then s.loC else s.loC_colors
        let hiC_colors := if s.num_colors = 0 then s.hiC else s.hiC_colors
        let midC_colors := K.Average loC_colors hiC_colors
        let endptr := AddEndPoints_SingleColor_Compact_3C K endptr midC_colors
        if loC_colors.dw = hiC_colors.dw then endptr
        else AddEndPoints_Force3C K endptr loC_colors hiC_colors
      else endptr
    if s.loC.dw = s.hiC.dw then (false, pData, endptr)
    else
      let diagonal := (ColorToVec3i s.hiC).sub (ColorToVec3i s.loC)
      if LengthSqr diagonal ≤ 12 then
        (false, pData, AddEndPoints_Default K endptr mode s.loC s.hiC)
      else
        (true, { pData with avg := avg, diagonal := diagonal, sum := sum, loC := s.loC,
                            hiC := s.hiC }, endptr)

/-- The result of a stage that returns a flag and updates `*pData`, `*pBlock`,
`*pError`. -/
structure StartupResult where
  ret : Bool
  data : rrCompressDXT1_Startup_Data
  block : rrDXT1Block
  error : Nat
deriving DecidableEq, Repr

def rrCompressDXT1_Startup (K : Deps) (pData : rrCompressDXT1_Startup_Data)
    (pBlock : rrDXT1Block) (pError : Nat) (colors : rrColorBlock4x4)
    (mode : rrDXT1PaletteMode) (_options : Nat) : StartupResult :=
  let r := rrCompressDXT1_Startup_Impl K pData colors mode []
  let t := TryBatchedEndpoints K pBlock pError colors mode r.2.2
  ⟨r.1, r.2.1, t.1, t.2⟩

/-! ## 4-Means -/

def DXT1_4MEANS_PCA : Nat := 1
def DXT1_4MEANS_REDUCED_CANDIDATES : Nat := 2

/-- The candidates `rrCompressDXT1_4Means` generates from the four means, before
the filter. -/
def FourMeans_candidates (K : Deps) (means : Means4) (flags : Nat) :
    List rrDXT1UnpackedEndPoints :=
  if flags &&& DXT1_4MEANS_REDUCED_CANDIDATES ≠ 0 then
    let e := AddEndPoints_BothWays K [] means.m0 means.m1
    let e := AddEndPoints_BothWays K e means.m0 means.m2
    let e := AddEndPoints_BothWays K e means.m0 means.m3
    let e := AddEndPoints_BothWays K e means.m1 means.m2
    let e := AddEndPoints_BothWays K e means.m1 means.m3
    AddEndPoints_BothWays K e means.m2 means.m3
  else
    let e := AddEndPoints_TwoColorBest K [] means.m0 means.m3
    let e := AddEndPoints_TwoColorBest K e means.m1 means.m2
    let e := AddEndPoints_TwoColorBest K e means.m0 means.m2
    let e := AddEndPoints_TwoColorBest K e means.m1 means.m3
    let e := AddEndPoints_TwoColorBest K e means.m0 means.m1
    let e := AddEndPoints_TwoColorBest K e means.m2 means.m3
    AddEndPoints_TwoColorBest K e (K.Average means.m0 means.m1) (K.Average means.m2 means.m3)

/-- The means after `DXT1_SolveRGB4Means`, alpha forced to 255. -/
def FourMeans_means (K : Deps) (data : rrCompressDXT1_Startup_Data) (colors : rrColorBlock4x4)
    (flags : Nat) : Means4 :=
  let means := K.DXT1_SolveRGB4Means (K.Calc_4Means data colors flags) colors
  ⟨{ means.m0 with a := 255 }, { means.m1 with a := 255 }, { means.m2 with a := 255 },
   { means.m3 with a := 255 }⟩

/-- The candidates handed to `TryBatchedEndpoints` by `rrCompressDXT1_4Means`. -/
def FourMeans_scored (K : Deps) (data : rrCompressDXT1_Startup_Data) (colors : rrColorBlock4x4)
    (flags : Nat) : List rrDXT1UnpackedEndPoints :=
  let endptr := FourMeans_candidates K (FourMeans_means K data colors flags) flags
  let target_modes :=
    if data.has_any_alpha then FilterEndpoints_Allow3c
    else if flags &&& DXT1_4MEANS_REDUCED_CANDIDATES ≠ 0 then FilterEndpoints_Allow4c
    else FilterEndpoints_AllowBoth
  FilterEndpoints endptr target_modes

def rrCompressDXT1_4Means (K : Deps) (data : rrCompressDXT1_Startup_Data)
    (pBlock : rrDXT1Block) (pError : Nat) (colors : rrColorBlock4x4)
    (mode : rrDXT1PaletteMode) (flags : Nat) : Bool × rrDXT1Block × Nat :=
  let t := TryBatchedEndpoints K pBlock pError colors mode (FourMeans_scored K data colors flags)
  (true, t.1, t.2)

/-! ## Least-squares endpoint refinement -/

/-- The macro `WEIGHTS(a,b)`. -/
def WEIGHTS (a b : Nat) : Nat := (a * a) ||| ((a * b) <<< 8) ||| ((b * b) <<< 16)

/-- The table `c_weights[fourc ? 1 : 0].products`. -/
def c_weights_products (fourc : Bool) : List Nat :=
  if fourc then [WEIGHTS 3 0, WEIGHTS 0 3, WEIGHTS 2 1, WEIGHTS 1 2]
  else [WEIGHTS 2 0, WEIGHTS 0 2, WEIGHTS 1 1, WEIGHTS 0 0]

/-- The table `c_weights[fourc ? 1 : 0].ab`, as pairs. -/
def c_weights_ab (fourc : Bool) : List (Int × Int) :=
  if fourc then [(3, 0), (0, 3), (2, 1), (1, 2)]
  else [(2, 0), (0, 2), (1, 1), (0, 0)]

/-- The members of `BC1EndpointLLSSolver`.  `AX` and `BX` are float sums of products
of integers below 2^24, which are exact; they are kept as integer vectors. -/
structure BC1EndpointLLSSolver where
  AA : Int
  AB : Int
  BB : Int
  AX : rrVec3i
  BX : rrVec3i
  fourc : Bool
deriving DecidableEq, Repr

def BC1EndpointLLSSolver.init (fourc : Bool) : BC1EndpointLLSSolver :=
  ⟨0, 0, 0, ⟨0, 0, 0⟩, ⟨0, 0, 0⟩, fourc⟩

/-- The locals of the pixel loop of `accumulate`. -/
structure AccumulateLoop where
  tindices : Nat
  products : Nat
  vAX : rrVec3i
  vBX : rrVec3i
deriving DecidableEq, Repr

def rrVec3i.scale (k : Int) (v : rrVec3i) : rrVec3i := ⟨k * v.x, k * v.y, k * v.z⟩

def AccumulateLoop.step (fourc : Bool) (s : AccumulateLoop) (c : rrColor32BGRA) :
    AccumulateLoop :=
  let index := s.tindices &&& 3
  let w := (c_weights_ab fourc).getD index (0, 0)
  let X := ColorToVec3i c
  { tindices := s.tindices >>> 2,
    products := (s.products + (c_weights_products fourc).getD index 0) % 4294967296,
    vAX := s.vAX.add (rrVec3i.scale w.1 X),
    vBX := s.vBX.add (rrVec3i.scale w.2 X) }

def BC1EndpointLLSSolver.accumulate (S : BC1EndpointLLSSolver) (colors : rrColorBlock4x4)
    (indices : Nat) : BC1EndpointLLSSolver :=
  let l := colors.colors.foldl (AccumulateLoop.step S.fourc) ⟨indices, 0, S.AX, S.BX⟩
  { AA := S.AA + ((l.products >>> 0) &&& 255 : Nat),
    AB := S.AB + ((l.products >>> 8) &&& 255 : Nat),
    BB := S.BB + ((l.products >>> 16) &&& 255 : Nat),
    AX := l.vAX, BX := l.vBX, fourc := S.fourc }

/-- The method `solve_endpoints`: `none` for `return false`. -/
def BC1EndpointLLSSolver.solve_endpoints (K : Deps) (S : BC1EndpointLLSSolver) :
    Option (Nat × Nat) :=
  let det := S.AA * S.BB - S.AB * S.AB
  if det = 0 then none
  else some (K.solve_quantized S.fourc S.AA S.AB S.BB S.AX S.BX)

/-- The function `DXT1_OptimizeEndPointsFromIndices_Raw`: the word written to
`*pEndPoints`, or `none` for `return false` (nothing written). -/
def DXT1_OptimizeEndPointsFromIndices_Raw (K : Deps) (indices : Nat) (fourc : Bool)
    (colors : rrColorBlock4x4) : Option Nat :=
  let solver := (BC1EndpointLLSSolver.init fourc).accumulate colors indices
  match solver.solve_endpoints K with
  | none => none
  | some q =>
    let qA := if decide (q.2 < q.1) != fourc then q.2 else q.1
    let qB := if decide (q.2 < q.1) != fourc then q.1 else q.2
    some (qA % 65536 + 65536 * (qB % 65536))

def DXT1_OptimizeEndPointsFromIndices_Inherit_Reindex (K : Deps) (pBlock : rrDXT1Block)
    (pError : Nat) (colors : rrColorBlock4x4) (mode : rrDXT1PaletteMode) :
    Bool × rrDXT1Block × Nat :=
  let fourc := DXT1_Is4Color pBlock.c0 pBlock.c1 mode
  match DXT1_OptimizeEndPointsFromIndices_Raw K pBlock.indices fourc colors with
  | none => (false, pBlock, pError)
  | some endpoints =>
    if endpoints = pBlock.endpoints then (false, pBlock, pError)
    else
      let c0 := endpoints % 65536
      let c1 := endpoints / 65536
      let palette := K.DXT1_ComputePalette c0 c1 mode
      let fi := K.DXT1_FindIndices colors palette
      if fi.2 < pError then (true, ⟨c0, c1, fi.1⟩, fi.2)
      else (false, pBlock, pError)

def DXT1_OptimizeEndPointsFromIndices_Inherit_NoReindex (K : Deps) (pBlock : rrDXT1Block)
    (pError : Nat) (colors : rrColorBlock4x4) (mode : rrDXT1PaletteMode) :
    Bool × rrDXT1Block × Nat :=
  let fourc := DXT1_Is4Color pBlock.c0 pBlock.c1 mode
  let oldep := pBlock.endpoints
  match DXT1_OptimizeEndPointsFromIndices_Raw K pBlock.indices fourc colors with
  | none => (false, pBlock, pError)
  | some endpoints =>
    if endpoints = oldep then (false, pBlock, pError)
    else
      let new_is_3c := !DXT1_Is4Color (endpoints % 65536) (endpoints / 65536) mode
      if mode = rrDXT1PaletteMode.Alpha ∧ fourc = true ∧
          K.DXT1_OneBitTransparent_Mask_FromIndices new_is_3c pBlock.indices ≠ 0 then
        (false, pBlock, pError)
      else
        let block : rrDXT1Block := ⟨endpoints % 65536, endpoints / 65536, pBlock.indices⟩
        let err := K.DXT1_ComputeSSD_RGBA colors block mode
        if err < pError then (true, block, err) else (false, pBlock, pError)

/-- The loop `for(;;)` of `DXT1_OptimizeEndPointsFromIndicesIterative`, with a bound
on the number of iterations. -/
def Iterative_loop (K : Deps) (colors : rrColorBlock4x4) (mode : rrDXT1PaletteMode) :
    Nat → rrDXT1Block → Nat → rrDXT1Block × Nat
  | 0, pBlock, pError => (pBlock, pError)
  | fuel + 1, pBlock, pError =>
    let oldIndices := pBlock.indices
    let r := DXT1_OptimizeEndPointsFromIndices_Inherit_Reindex K pBlock pError colors mode
    if r.1 = false then (r.2.1, r.2.2)
    else if oldIndices = r.2.1.indices then (r.2.1, r.2.2)
    else Iterative_loop K colors mode fuel r.2.1 r.2.2

/-- The function `DXT1_OptimizeEndPointsFromIndicesIterative`.  Every iteration that
stays in the loop lowers the error, so `pError + 1` iterations are never used up. -/
def DXT1_OptimizeEndPointsFromIndicesIterative (K : Deps) (pBlock : rrDXT1Block)
    (pError : Nat) (colors : rrColorBlock4x4) (mode : rrDXT1PaletteMode) : rrDXT1Block × Nat :=
  Iterative_loop K colors mode (pError + 1) pBlock pError

/-! ## Exhaustive unique-pair search -/

/-- The algorithm `unique`: drops every entry equal to its predecessor. -/
def unique : List Nat → List Nat
  | [] => []
  | [x] => [x]
  | x :: y :: rest => if x = y then unique (y :: rest) else x :: unique (y :: rest)

/-- The index pairs `i < j` of the double loop, as the pairs of entries. -/
def allPairs : List Nat → List (Nat × Nat)
  | [] => []
  | x :: rest => rest.map (fun y => (x, y)) ++ allPairs rest

/-- One trial of `Compress_TryAllPairs_Heavy`: index search, iterative refinement,
and the trial block and error it ends with. -/
def Heavy_trial (K : Deps) (colors : rrColorBlock4x4) (mode : rrDXT1PaletteMode)
    (c0 c1 : Nat) : rrDXT1Block × Nat :=
  let palette := K.DXT1_ComputePalette c0 c1 mode
  let fi := K.DXT1_FindIndices colors palette
  DXT1_OptimizeEndPointsFromIndicesIterative K ⟨c0, c1, fi.1⟩ fi.2 colors mode

/-- The body of the inner loop of `Compress_TryAllPairs_Heavy` on `(ret, *pBlock,
*pError)`.  The second trial starts from the swapped endpoints of the first trial
block as the refinement left it. -/
def Heavy_pair (K : Deps) (colors : rrColorBlock4x4) (mode : rrDXT1PaletteMode)
    (st : Bool × rrDXT1Block × Nat) (p : Nat × Nat) : Bool × rrDXT1Block × Nat :=
  let trial := Heavy_trial K colors mode p.1 p.2
  let st := if trial.2 < st.2.2 then (true, trial.1, trial.2) else st
  if mode ≠ rrDXT1PaletteMode.FourColor then
    let trial2 := Heavy_trial K colors mode trial.1.c1 trial.1.c0
    if trial2.2 < st.2.2 then (true, trial2.1, trial2.2) else st
  else st

/-- The sorted list of the distinct quantised colours of the tile; `Color565` is a
16-bit word. -/
def Heavy_uniques (K : Deps) (colors : rrColorBlock4x4) : List Nat :=
  unique ((colors.colors.map (fun c => K.Quantize c % 65536)).insertionSort (fun a b => a ≤ b))

def Compress_TryAllPairs_Heavy (K : Deps) (pBlock : rrDXT1Block) (pError : Nat)
    (colors : rrColorBlock4x4) (mode : rrDXT1PaletteMode) : Bool × rrDXT1Block × Nat :=
  let uniques := Heavy_uniques K colors
  if uniques.length = 1 then (false, pBlock, pError)
  else (allPairs uniques).foldl (Heavy_pair K colors mode) (false, pBlock, pError)

/-! ## Greedy local search -/

def NUM_WIGGLES : Nat := 6

def c_wiggledw_delta : List Int := [65536, -65536, 256, -256, 1, -1, 0, 0]

/-- The function `Wiggle`: 32-bit addition of the delta, and the original colour
when a bit outside `0xFF1F3F1F` is set. -/
def Wiggle (color : rrColorUnpacked565) (how : Nat) : rrColorUnpacked565 :=
  let dw := (color.dw + ((c_wiggledw_delta.getD how 0) % 4294967296).toNat) % 4294967296
  if dw &&& 0x00E0C0E0 ≠ 0 then color else ⟨dw⟩

/-- The trials of one round with `do_joint_optimization`: the double loop over
`w1, w2 <= NUM_WIGGLES`. -/
def Greedy_trials_joint (has_any_alpha : Bool) (start0 start1 : rrColorUnpacked565) :
    List rrDXT1UnpackedEndPoints :=
  (List.range (NUM_WIGGLES + 1)).foldl
    (fun acc w1 =>
      let c0 := Wiggle start0 w1
      (List.range (NUM_WIGGLES + 1)).foldl
        (fun acc w2 =>
          let c1 := Wiggle start1 w2
          if c0 = start0 ∧ c1 = start1 then acc
          else if has_any_alpha = true ∧ c1.dw < c0.dw then acc
          else acc ++ [⟨c0, c1⟩])
        acc)
    []

/-- The trials of one round without `do_joint_optimization`: the two loops over
`w < NUM_WIGGLES`. -/
def Greedy_trials_independent (has_any_alpha : Bool) (start0 start1 : rrColorUnpacked565) :
    List rrDXT1UnpackedEndPoints :=
  let first := (List.range NUM_WIGGLES).foldl
    (fun acc w1 =>
      let c0 := Wiggle start0 w1
      if c0 = start0 then acc
      else if has_any_alpha = true ∧ start1.dw < c0.dw then acc
      else acc ++ [⟨c0, start1⟩])
    []
  (List.range NUM_WIGGLES).foldl
    (fun acc w2 =>
      let c1 := Wiggle start1 w2
      if c1 = start1 then acc
      else if has_any_alpha = true ∧ c1.dw < start0.dw then acc
      else acc ++ [⟨start0, c1⟩])
    first

def Greedy_trials (has_any_alpha do_joint_optimization : Bool)
    (start0 start1 : rrColorUnpacked565) : List rrDXT1UnpackedEndPoints :=
  if do_joint_optimization then Greedy_trials_joint has_any_alpha start0 start1
  else Greedy_trials_independent has_any_alpha start0 start1

/-- The variables the loop of `DXT1_GreedyOptimizeBlock_Inner` carries. -/
structure GreedyLoop where
  block : rrDXT1Block
  error : Nat
  best0 : rrColorUnpacked565
  best1 : rrColorUnpacked565
deriving DecidableEq, Repr

/-- The loop `for(;;)` of `DXT1_GreedyOptimizeBlock_Inner`, with a bound on the
number of iterations. -/
def Greedy_loop (K : Deps) (data : rrCompressDXT1_Startup_Data) (colors : rrColorBlock4x4)
    (mode : rrDXT1PaletteMode) (do_joint_optimization : Bool) : Nat → GreedyLoop → GreedyLoop
  | 0, s => s
  | fuel + 1, s =>
    let endpoints := Greedy_trials data.has_any_alpha do_joint_optimization s.best0 s.best1
    let palettes := DXT1_ComputePalette_Batched K endpoints mode
    let best_err_and_i := find_best_palette K colors palettes
    let best_err := best_err_and_i >>> K.COUNT_SHIFT
    if best_err < s.error then
      let best_i := best_err_and_i &&& (COUNT_LIMIT K - 1)
      let ep := endpoints.getD best_i default
      let s1 : GreedyLoop :=
        ⟨⟨ep.c0.pack, ep.c1.pack, s.block.indices⟩, best_err, ep.c0, ep.c1⟩
      if best_err = 0 then s1
      else Greedy_loop K data colors mode do_joint_optimization fuel s1
    else s

/-- The function `DXT1_GreedyOptimizeBlock_Inner`: the endpoints and the error, not
the indices.  Every iteration that stays in the loop lowers the error. -/
def DXT1_GreedyOptimizeBlock_Inner (K : Deps) (data : rrCompressDXT1_Startup_Data)
    (pBlock : rrDXT1Block) (pError : Nat) (colors : rrColorBlock4x4)
    (mode : rrDXT1PaletteMode) (do_joint_optimization : Bool) : rrDXT1Block × Nat :=
  let s := Greedy_loop K data colors mode do_joint_optimization (pError + 1)
    ⟨pBlock, pError, rrColorUnpacked565.unpack pBlock.c0, rrColorUnpacked565.unpack pBlock.c1⟩
  (s.block, s.error)

def DXT1_GreedyOptimizeBlock (K : Deps) (data : rrCompressDXT1_Startup_Data)
    (pBlock : rrDXT1Block) (pError : Nat) (colors : rrColorBlock4x4)
    (mode : rrDXT1PaletteMode) (do_joint_optimization : Bool) : rrDXT1Block × Nat :=
  if pError = 0 then (pBlock, pError)
  else
    let origError := pError
    let r := DXT1_GreedyOptimizeBlock_Inner K data pBlock pError colors mode do_joint_optimization
    if r.2 ≠ origError then
      let palette := K.DXT1_ComputePalette r.1.c0 r.1.c1 mode
      let fi := K.DXT1_FindIndices colors palette
      (⟨r.1.c0, r.1.c1, fi.1⟩, r.2)
    else r

/-! ## Simulated annealing (the scalar loop) -/

/-- The cast `(int)` of a 32-bit word. -/
def toS32 (n : Nat) : Int :=
  if n % 4294967296 < 2147483648 then (n % 4294967296 : Nat) else (n % 4294967296 : Nat) - 4294967296

/-- The eight 64-bit words `(const U64 *)colors.colors` of the tile. -/
def tileWords : List rrColor32BGRA → List Nat
  | c0 :: c1 :: rest => (c0.dw + 4294967296 * c1.dw) :: tileWords rest
  | _ => []

/-- The eight bytes `RR_PUT64_LE` stores. -/
def bytesLE (r : Nat) : List Nat := (List.range 8).map (fun k => (r >>> (8 * k)) % 256)

/-- The loop that fills `rng_bytes`: `n` calls of `rrRand64Simple`. -/
def rng_fill (K : Deps) : Nat → Nat → List Nat
  | 0, _ => []
  | n + 1, rand_state =>
    let r := K.rrRand64Simple rand_state
    bytesLE r.2 ++ rng_fill K n r.1

def NITER : Nat := 256

/-- The array `rng_bytes` of `DXT1_AnnealBlock`. -/
def Anneal_rng_bytes (K : Deps) (colors : rrColorBlock4x4) : List Nat :=
  rng_fill K (NITER / 8) (K.rrRand64Simple_SeedFromU64Array (tileWords colors.colors))

/-- The variables the annealing loop carries; `done` records the `goto done`. -/
structure AnnealLoop where
  cur : List rrDXT1UnpackedEndPoints
  curErr : List Nat
  error : Nat
  best : rrDXT1UnpackedEndPoints
  done : Bool
deriving DecidableEq, Repr

/-- The trial of one lane: both endpoints wiggled by the control byte `r`, swapped
into three-colour order when the block has alpha. -/
def Anneal_trial (has_any_alpha : Bool) (cur : rrDXT1UnpackedEndPoints) (r : Nat) :
    rrDXT1UnpackedEndPoints :=
  let c0 := Wiggle cur.c0 (r &&& 7)
  let c1 := Wiggle cur.c1 ((r >>> 3) &&& 7)
  if has_any_alpha = true ∧ c1.dw < c0.dw then ⟨c1, c0⟩ else ⟨c0, c1⟩

/-- The body of the acceptance loop for lane `i` with trial `ep` of error `err`. -/
def Anneal_accept (thresh : Int) (ep : rrDXT1UnpackedEndPoints) (err : Nat) (i : Nat)
    (s : AnnealLoop) : AnnealLoop :=
  if s.done then s
  else if thresh ≤ toS32 err - toS32 (s.curErr.getD i 0) then s
  else if err < s.error then
    if err = 0 then { s with error := err, best := ep, done := true }
    else { cur := s.cur.set i ep, curErr := s.curErr.set i err, error := err, best := ep,
           done := false }
  else { s with cur := s.cur.set i ep, curErr := s.curErr.set i err }

def thresholdBase : Int := 253
def thresholdStep : Int := 4

/-- One iteration `time` of the annealing loop. -/
def Anneal_round (K : Deps) (data : rrCompressDXT1_Startup_Data) (colors : rrColorBlock4x4)
    (mode : rrDXT1PaletteMode) (rng_bytes : List Nat) (s : AnnealLoop) (time : Nat) :
    AnnealLoop :=
  if s.done then s
  else
    let ep := (List.range 4).map (fun i =>
      Anneal_trial data.has_any_alpha (s.cur.getD i default) (rng_bytes.getD (time * 4 + i) 0))
    let err := eval_palettes K colors (DXT1_ComputePalette_Batched K ep mode)
    let thresh : Int := thresholdBase - time * thresholdStep
    (List.range 4).foldl
      (fun s i => Anneal_accept thresh (ep.getD i default) (err.getD i 0) i s) s

/-- The annealing loop `for(int time=initial_time;time<64;time++)` with
`initial_time = 0`. -/
def Anneal_loop (K : Deps) (data : rrCompressDXT1_Startup_Data) (colors : rrColorBlock4x4)
    (mode : rrDXT1PaletteMode) (rng_bytes : List Nat) (s : AnnealLoop) : AnnealLoop :=
  (List.range 64).foldl (Anneal_round K data colors mode rng_bytes) s

def DXT1_AnnealBlock (K : Deps) (data : rrCompressDXT1_Startup_Data) (pBlock : rrDXT1Block)
    (pError : Nat) (colors : rrColorBlock4x4) (mode : rrDXT1PaletteMode)
    (_expensive_mode : Bool) : rrDXT1Block × Nat :=
  let cur0 := rrColorUnpacked565.unpack pBlock.c0
  let cur1 := rrColorUnpacked565.unpack pBlock.c1
  let initialError := pError
  let rng_bytes := Anneal_rng_bytes K colors
  let s := Anneal_loop K data colors mode rng_bytes
    ⟨List.replicate 4 ⟨cur0, cur1⟩, List.replicate 4 pError, pError, ⟨cur0, cur1⟩, false⟩
  if s.error ≠ initialError then
    let c0 := s.best.c0.pack
    let c1 := s.best.c1.pack
    let palette := K.DXT1_ComputePalette c0 c1 mode
    let fi := K.DXT1_FindIndices colors palette
    (⟨c0, c1, fi.1⟩, s.error)
  else (pBlock, pError)

/-! ## Level dispatch -/

/-- Modelled from the spec: the values of the enum `rrDXTCLevel` of the absent
header; the source comments give `0 = VeryFast`, `1 = Fast`, `2 = Slow`,
`3 = VerySlow + Reference`, and Reference is the level above VerySlow. -/
def rrDXTCLevel_VeryFast : Nat := 0
def rrDXTCLevel_Fast : Nat := 1
def rrDXTCLevel_Slow : Nat := 2
def rrDXTCLevel_VerySlow : Nat := 3
def rrDXTCLevel_Reference : Nat := 4

/-- The function `rrCompressDXT1_0`; `data0` is the content of the uninitialised
local `data`. -/
def rrCompressDXT1_0 (K : Deps) (data0 : rrCompressDXT1_Startup_Data) (pBlock : rrDXT1Block)
    (colors : rrColorBlock4x4) (options : Nat) (mode : rrDXT1PaletteMode) : rrDXT1Block × Nat :=
  let s := rrCompressDXT1_Startup K data0 pBlock K.RR_DXTC_INIT_ERROR colors mode options
  if s.ret = false then (s.block, s.error)
  else
    let m := rrCompressDXT1_4Means K s.data s.block s.error colors mode
      DXT1_4MEANS_REDUCED_CANDIDATES
    if m.1 = false then (m.2.1, m.2.2)
    else
      let r := DXT1_OptimizeEndPointsFromIndices_Inherit_Reindex K m.2.1 m.2.2 colors mode
      (r.2.1, r.2.2)

def rrCompressDXT1_1 (K : Deps) (data0 : rrCompressDXT1_Startup_Data) (pBlock : rrDXT1Block)
    (colors : rrColorBlock4x4) (options : Nat) (mode : rrDXT1PaletteMode) : rrDXT1Block × Nat :=
  let s := rrCompressDXT1_Startup K data0 pBlock K.RR_DXTC_INIT_ERROR colors mode options
  if s.ret = false then (s.block, s.error)
  else
    let m := rrCompressDXT1_4Means K s.data s.block s.error colors mode 0
    if m.1 = false then (m.2.1, m.2.2)
    else DXT1_OptimizeEndPointsFromIndicesIterative K m.2.1 m.2.2 colors mode

def rrCompressDXT1_2 (K : Deps) (data0 : rrCompressDXT1_Startup_Data) (pBlock : rrDXT1Block)
    (colors : rrColorBlock4x4) (options : Nat) (mode : rrDXT1PaletteMode) : rrDXT1Block × Nat :=
  let s := rrCompressDXT1_Startup K data0 pBlock K.RR_DXTC_INIT_ERROR colors mode options
  if s.ret = false then (s.block, s.error)
  else
    let m := rrCompressDXT1_4Means K s.data s.block s.error colors mode 0
    if m.1 = false then (m.2.1, m.2.2)
    else
      let it := DXT1_OptimizeEndPointsFromIndicesIterative K m.2.1 m.2.2 colors mode
      DXT1_GreedyOptimizeBlock K s.data it.1 it.2 colors mode false

def rrCompressDXT1_3 (K : Deps) (data0 : rrCompressDXT1_Startup_Data) (pBlock : rrDXT1Block)
    (colors : rrColorBlock4x4) (options : Nat) (mode : rrDXT1PaletteMode) (level : Nat) :
    rrDXT1Block × Nat :=
  let s := rrCompressDXT1_Startup K data0 pBlock K.RR_DXTC_INIT_ERROR colors mode options
  if s.ret = false then DXT1_GreedyOptimizeBlock K s.data s.block s.error colors mode true
  else
    let m := rrCompressDXT1_4Means K s.data s.block s.error colors mode DXT1_4MEANS_PCA
    if m.1 = false then DXT1_GreedyOptimizeBlock K s.data m.2.1 m.2.2 colors mode true
    else
      let it := DXT1_OptimizeEndPointsFromIndicesIterative K m.2.1 m.2.2 colors mode
      let h :=
        if rrDXTCLevel_Reference ≤ level then
          let hv := Compress_TryAllPairs_Heavy K it.1 it.2 colors mode
          (hv.2.1, hv.2.2)
        else it
      if h.2 = 0 then h
      else
        let a := DXT1_AnnealBlock K s.data h.1 h.2 colors mode
          (decide (rrDXTCLevel_Reference ≤ level))
        DXT1_GreedyOptimizeBlock K s.data a.1 a.2 colors mode true

/-- The palette mode `rrCompressDXT1Block` selects. -/
def selectMode (K : Deps) (options : Nat) (isBC23ColorBlock : Bool) : rrDXT1PaletteMode :=
  let mode := if options &&& K.rrDXTCOptions_BC1_OneBitAlpha ≠ 0 then rrDXT1PaletteMode.Alpha
    else rrDXT1PaletteMode.NoAlpha
  if isBC23ColorBlock then rrDXT1PaletteMode.FourColor else mode

/-- The level function `rrCompressDXT1Block` calls, with `err = RR_DXTC_INIT_ERROR`
(each level function overwrites it on entry). -/
def levelDispatch (K : Deps) (data0 : rrCompressDXT1_Startup_Data) (pBlock : rrDXT1Block)
    (colors : rrColorBlock4x4) (level options : Nat) (mode : rrDXT1PaletteMode) :
    rrDXT1Block × Nat :=
  if rrDXTCLevel_VerySlow ≤ level then rrCompressDXT1_3 K data0 pBlock colors options mode level
  else if level = rrDXTCLevel_Slow then rrCompressDXT1_2 K data0 pBlock colors options mode
  else if level = rrDXTCLevel_Fast then rrCompressDXT1_1 K data0 pBlock colors options mode
  else rrCompressDXT1_0 K data0 pBlock colors options mode

/-- The function `rrCompressDXT1Block`: the block written to `*pBlock`, and the
value of the local `err` on return. -/
def rrCompressDXT1Block (K : Deps) (data0 : rrCompressDXT1_Startup_Data) (pBlock : rrDXT1Block)
    (colors : rrColorBlock4x4) (level options : Nat) (isBC23ColorBlock : Bool) :
    rrDXT1Block × Nat :=
  let mode := selectMode K options isBC23ColorBlock
  let r := levelDispatch K data0 pBlock colors level options mode
  if mode = rrDXT1PaletteMode.FourColor then (K.rrDXT1Block_BC3_Canonicalize r.1, r.2)
  else r

/-- A vector of three rationals: the exact value of an `rrVec3f`. -/
structure rrVec3q where
  x : ℚ
  y : ℚ
  z : ℚ
deriving DecidableEq


/-! ## The PCA seeding of `Scalar_Calc_4Means` in exact arithmetic -/

def PCA_POWER_ITERS : Nat := 8

/-- The dot product of two vectors. -/
def rrVec3q.dot (u v : rrVec3q) : ℚ := u.x * v.x + u.y * v.y + u.z * v.z

/-- The function `rrNormalize` with every float operation taken exactly; `sqrtf` is
the library square root. -/
def rrNormalize (sqrtf : ℚ → ℚ) (v : rrVec3q) : rrVec3q :=
  let len_sq := (v.x * v.x + v.z * v.z) + v.y * v.y
  if len_sq > 0 then
    let len := sqrtf len_sq
    ⟨v.x / len, v.y / len, v.z / len⟩
  else ⟨0, 0, 0⟩

/-- The value `avgF = Vec3i_to_Vec3f(data.sum) * (1.f / 16.f)`. -/
def PCA_avgF (sum : rrVec3i) : rrVec3q :=
  ⟨(sum.x : ℚ) * (1 / 16), (sum.y : ℚ) * (1 / 16), (sum.z : ℚ) * (1 / 16)⟩

/-- The deviation `d = (d0, d1, d2)` of a pixel from `avgF`. -/
def PCA_dev (avgF : rrVec3q) (c : rrColor32BGRA) : rrVec3q :=
  ⟨(c.b : ℚ) - avgF.x, (c.g : ℚ) - avgF.y, (c.r : ℚ) - avgF.z⟩

/-- The locals of the pixel loop of the PCA branch: `cov[6]` (bb, gg, rr, bg, gr,
br), `pca` and `longest_len2`. -/
structure PCAScan where
  cov0 : ℚ
  cov1 : ℚ
  cov2 : ℚ
  cov3 : ℚ
  cov4 : ℚ
  cov5 : ℚ
  pca : rrVec3q
  longest_len2 : ℚ
deriving DecidableEq

/-- The locals before the loop: `cov = {}`, `pca = (1,1,1)`, `longest_len2 = 0`. -/
def PCAScan.init : PCAScan := ⟨0, 0, 0, 0, 0, 0, ⟨1, 1, 1⟩, 0⟩

/-- One iteration of the pixel loop of the PCA branch. -/
def PCAScan.step (avgF : rrVec3q) (s : PCAScan) (c : rrColor32BGRA) : PCAScan :=
  let d := PCA_dev avgF c
  let d0 := d.x
  let d1 := d.y
  let d2 := d.z
  let len2 := (d0 * d0 + d2 * d2) + d1 * d1
  { cov0 := s.cov0 + d0 * d0,
    cov1 := s.cov1 + d1 * d1,
    cov2 := s.cov2 + d2 * d2,
    cov3 := s.cov3 + d0 * d1,
    cov4 := s.cov4 + d1 * d2,
    cov5 := s.cov5 + d2 * d0,
    pca := if len2 > s.longest_len2 then d else s.pca,
    longest_len2 := if len2 > s.longest_len2 then len2 else s.longest_len2 }

/-- The pixel loop of the PCA branch. -/
def PCAScan.run (avgF : rrVec3q) (colors : rrColorBlock4x4) : PCAScan :=
  colors.colors.foldl (PCAScan.step avgF) PCAScan.init

/-- The macro `COV_PCA_MULT(cov,pca)`: the new value of `pca`. -/
def COV_PCA_MULT (s : PCAScan) (pca : rrVec3q) : rrVec3q :=
  ⟨s.cov0 * pca.x + s.cov3 * pca.y + s.cov5 * pca.z,
   s.cov1 * pca.y + s.cov4 * pca.z + s.cov3 * pca.x,
   s.cov2 * pca.z + s.cov5 * pca.x + s.cov4 * pca.y⟩

/-- One iteration of the power loop: two multiplications and the normalisation. -/
def PCA_power_iter (sqrtf : ℚ → ℚ) (s : PCAScan) (pca : rrVec3q) : rrVec3q :=
  rrNormalize sqrtf (COV_PCA_MULT s (COV_PCA_MULT s pca))

/-- The value of `pca` after `n` iterations of the power loop. -/
def PCA_power_loop (sqrtf : ℚ → ℚ) (s : PCAScan) (n : Nat) (pca : rrVec3q) : rrVec3q :=
  (List.range n).foldl (fun p _ => PCA_power_iter sqrtf s p) pca

/-- The axis `pca` of `Scalar_Calc_4Means` in exact arithmetic. -/
def Scalar_Calc_4Means_pca (sqrtf : ℚ → ℚ) (data : rrCompressDXT1_Startup_Data)
    (colors : rrColorBlock4x4) (flags : Nat) : rrVec3q :=
  let avgF := PCA_avgF data.sum
  if flags &&& DXT1_4MEANS_PCA ≠ 0 then
    let s := PCAScan.run avgF colors
    PCA_power_loop sqrtf s (PCA_POWER_ITERS / 2) s.pca
  else rrNormalize sqrtf ⟨data.diagonal.x, data.diagonal.y, data.diagonal.z⟩

/-- The constant `FLT_MAX`. -/
def FLT_MAX : ℚ := 340282346638528859811704183484516925440

/-- The C library function `lrintf` in the default rounding mode, on an exact value:
the nearest integer, a tie to the even one. -/
def lrintf (f : ℚ) : Int :=
  let fl := Rat.floor f
  if f - fl < 1 / 2 then fl
  else if 1 / 2 < f - fl then fl + 1
  else if fl % 2 = 0 then fl else fl + 1

/-- The function `rrRoundAndClampU8`. -/
def rrRoundAndClampU8 (f : ℚ) : Nat := clampU8 (lrintf f)

/-- The function `Scalar_Calc_4Means` with every float operation taken exactly;
`sqrtf` is the library square root.  The vector version `SSE4_Calc_4Means` is
written to give the same floats. -/
def Scalar_Calc_4Means (sqrtf : ℚ → ℚ) (data : rrCompressDXT1_Startup_Data)
    (colors : rrColorBlock4x4) (flags : Nat) : Means4 :=
  let avgF := PCA_avgF data.sum
  let pca := Scalar_Calc_4Means_pca sqrtf data colors flags
  -- dot the colors in the PCA linear fit direction & seed 4-means
  let dots := colors.colors.map (fun c =>
    let dot0 := ((c.b : ℚ) - avgF.x) * pca.x
    let dot1 := ((c.g : ℚ) - avgF.y) * pca.y
    let dot2 := ((c.r : ℚ) - avgF.z) * pca.z
    (dot0 + dot2) + dot1)
  let minDot := dots.foldl min FLT_MAX
  let maxDot := dots.foldl max (-FLT_MAX)
  -- make 4 points staggered along the pca line
  let m0 : rrVec3q := ⟨avgF.x + (3 / 4 * minDot) * pca.x, avgF.y + (3 / 4 * minDot) * pca.y,
    avgF.z + (3 / 4 * minDot) * pca.z⟩
  let m3 : rrVec3q := ⟨avgF.x + (3 / 4 * maxDot) * pca.x, avgF.y + (3 / 4 * maxDot) * pca.y,
    avgF.z + (3 / 4 * maxDot) * pca.z⟩
  let scaled_delta : rrVec3q := ⟨(m3.x - m0.x) * (1 / 3), (m3.y - m0.y) * (1 / 3),
    (m3.z - m0.z) * (1 / 3)⟩
  let m1 : rrVec3q := ⟨m0.x + scaled_delta.x, m0.y + scaled_delta.y, m0.z + scaled_delta.z⟩
  let m2 : rrVec3q := ⟨m3.x - scaled_delta.x, m3.y - scaled_delta.y, m3.z - scaled_delta.z⟩
  ⟨⟨rrRoundAndClampU8 m0.x, rrRoundAndClampU8 m0.y, rrRoundAndClampU8 m0.z, 255⟩,
   ⟨rrRoundAndClampU8 m1.x, rrRoundAndClampU8 m1.y, rrRoundAndClampU8 m1.z, 255⟩,
   ⟨rrRoundAndClampU8 m2.x, rrRoundAndClampU8 m2.y, rrRoundAndClampU8 m2.z, 255⟩,
   ⟨rrRoundAndClampU8 m3.x, rrRoundAndClampU8 m3.y, rrRoundAndClampU8 m3.z, 255⟩⟩

/-! ## Reference collaborators

A concrete `Deps`, written from the collaborator contracts of the spec (§6) and
the BC1 wire format.  It supplies the inputs at which the theorems below are
instantiated. -/

namespace Ref

/-- Modelled from the spec: quantisation of a byte to `bits`-wide fields (the absent
`rrColorUnpacked565::quantize`), rounding to nearest. -/
def quantizeTo (maxq v : Nat) : Nat := (min v 255 * maxq + 127) / 255

/-- Modelled from the spec: `rrColorUnpacked565::quantize`, 5:6:5. -/
def quantize (c : rrColor32BGRA) : rrColorUnpacked565 :=
  rrColorUnpacked565.ofRGB (quantizeTo 31 c.r) (quantizeTo 63 c.g) (quantizeTo 31 c.b)

/-- Modelled from the spec: dequantisation of a packed 5:6:5 word by bit replication,
opaque alpha. -/
def dequantize (w : Nat) : rrColor32BGRA :=
  let b := w % 32
  let g := w / 32 % 64
  let r := w / 2048 % 32
  ⟨b * 8 + b / 4, g * 4 + g / 16, r * 8 + r / 4, 255⟩

/-- Modelled from the spec: the interpolated palette entry `(wa*a + wb*b) / n`,
rounded, per colour channel. -/
def mix (wa wb n : Nat) (a b : rrColor32BGRA) : rrColor32BGRA :=
  ⟨(wa * a.b + wb * b.b + n / 2) / n, (wa * a.g + wb * b.g + n / 2) / n,
   (wa * a.r + wb * b.r + n / 2) / n, 255⟩

/-- Modelled from the spec: palette construction (§6): weights {0,1/3,2/3,1} in
four-colour mode and {0,1/2,1} in three-colour mode, the fourth three-colour slot
transparent black in Alpha mode; slots in the BC1 index order c0, c1, then the
interpolants. -/
def DXT1_ComputePalette (c0 c1 : Nat) (mode : rrDXT1PaletteMode) : Palette :=
  let e0 := dequantize c0
  let e1 := dequantize c1
  if DXT1_Is4Color c0 c1 mode then [e0, e1, mix 2 1 3 e0 e1, mix 1 2 3 e0 e1]
  else [e0, e1, mix 1 1 2 e0 e1,
        if mode = rrDXT1PaletteMode.Alpha then ⟨0, 0, 0, 0⟩ else ⟨0, 0, 0, 255⟩]

def sqDiff (a b : Nat) : Nat := (a - b) * (a - b) + (b - a) * (b - a)

/-- Modelled from the spec: the squared difference of two colours, summed over the
four channels, so that a transparency mismatch costs 255^2. -/
def DeltaSqr (p e : rrColor32BGRA) : Nat :=
  sqDiff p.b e.b + sqDiff p.g e.g + sqDiff p.r e.r + sqDiff p.a e.a

/-- The nearest of the four palette entries to `p`, ties to the lowest index, as
`(index, squared distance)`. -/
def nearest (pal : Palette) (p : rrColor32BGRA) : Nat × Nat :=
  let d := fun i => DeltaSqr p (pal.getD i default)
  let b1 := if d 1 < d 0 then (1, d 1) else (0, d 0)
  let b2 := if d 2 < b1.2 then (2, d 2) else b1
  if d 3 < b2.2 then (3, d 3) else b2

/-- Modelled from the spec: nearest-index assignment (§6): the index word, two bits
per pixel in raster order, and the summed squared error. -/
def FindIndices_pixels (pal : Palette) : List rrColor32BGRA → Nat × Nat
  | [] => (0, 0)
  | p :: ps =>
    let n := nearest pal p
    let rest := FindIndices_pixels pal ps
    (n.1 + 4 * rest.1, n.2 + rest.2)

def DXT1_FindIndices (colors : rrColorBlock4x4) (pal : Palette) : Nat × Nat :=
  FindIndices_pixels pal colors.colors

/-- The error of the pixels decoded through the index word `w`. -/
def ssdIndexed (pal : Palette) : List rrColor32BGRA → Nat → Nat
  | [], _ => 0
  | p :: ps, w => DeltaSqr p (pal.getD (w % 4) default) + ssdIndexed pal ps (w / 4)

/-- Modelled from the spec: the error of a decoded block: the sum of squared
differences of the 16 pixels against the palette entries its indices select. -/
def DXT1_ComputeSSD (colors : rrColorBlock4x4) (blk : rrDXT1Block) (mode : rrDXT1PaletteMode) :
    Nat :=
  ssdIndexed (DXT1_ComputePalette blk.c0 blk.c1 mode) colors.colors blk.indices

/-- A stand-in single-colour table: both endpoints at the nearest quantised value. -/
def bc1_optimal (which v : Nat) : Nat × Nat :=
  if which = 1 then (quantizeTo 63 v, quantizeTo 63 v) else (quantizeTo 31 v, quantizeTo 31 v)

/-- Newton iteration for the integer square root, from a start above it. -/
def isqrtIter (n : Nat) : Nat → Nat → Nat
  | 0, x => x
  | k + 1, x =>
    if x = 0 then 0
    else
      let y := (x + n / x) / 2
      if y < x then isqrtIter n k y else x

/-- The least power of two above the square root, by doubling. -/
def isqrtStart (n : Nat) : Nat → Nat → Nat
  | 0, x => x
  | k + 1, x => if n < x * x then x else isqrtStart n k (2 * x)

/-- The integer square root, rounded down. -/
def isqrt (n : Nat) : Nat := isqrtIter n (n + 1) (isqrtStart n n 1)

/-- A stand-in for the library `sqrtf` on exact values: the square root rounded down
to a multiple of `10^-12 / den`; exact on the square of a rational. -/
def sqrtf (q : ℚ) : ℚ :=
  (isqrt (q.num.toNat * q.den * 1000000000000000000000000) : ℚ)
    / ((q.den : ℚ) * 1000000000000)

/-- The least-squares endpoint `n * (p*U - q*V) / det` of one channel, rounded to the
nearest of the `maxq + 1` quantised values. -/
def solveChannel (maxq : Int) (n p q det u v : Int) : Nat :=
  let num := n * (p * u - q * v)
  (min maxq (max 0 ((2 * maxq * num + 255 * det) / (2 * 255 * det)))).toNat

/-- The float tail of `solve_endpoints` with every float operation taken exactly:
`vA = n * (BB*AX - AB*BX) / det` and `vB = n * (AA*BX - AB*AX) / det`.  Modelled from
the spec: the absent `Vec3fToQuantized565_RN` rounds each channel to the nearest value
of its 5/6/5 representation; the result is packed. -/
def solve_quantized (fourc : Bool) (AA AB BB : Int) (AX BX : rrVec3i) : Nat × Nat :=
  let n : Int := if fourc then 3 else 2
  let det := AA * BB - AB * AB
  let qa := solveChannel 31 n BB AB det AX.z BX.z * 2048
    + solveChannel 63 n BB AB det AX.y BX.y * 32 + solveChannel 31 n BB AB det AX.x BX.x
  let qb := solveChannel 31 n AA AB det BX.z AX.z * 2048
    + solveChannel 63 n AA AB det BX.y AX.y * 32 + solveChannel 31 n AA AB det BX.x AX.x
  (qa, qb)

/-- A stand-in generator: a 64-bit linear congruential step. -/
def rrRand64Simple (state : Nat) : Nat × Nat :=
  let s := (state * 6364136223846793005 + 1442695040888963407) % 18446744073709551616
  (s, s)

def rrRand64Simple_SeedFromU64Array (words : List Nat) : Nat :=
  words.foldl (fun s w => (s * 6364136223846793005 + w) % 18446744073709551616) 0

/-- Modelled from the spec: the canonical representative of a four-colour block:
the larger endpoint first, the indices remapped to the swapped palette. -/
def rrDXT1Block_BC3_Canonicalize (blk : rrDXT1Block) : rrDXT1Block :=
  if blk.c0 < blk.c1 then ⟨blk.c1, blk.c0, blk.indices ^^^ 0x55555555⟩ else blk

/-- The transparency mask of a three-colour block: one bit per pixel of index 3. -/
def Mask_FromIndices (is3c : Bool) (indices : Nat) : Nat :=
  if is3c then (indices &&& (indices >>> 1)) &&& 0x55555555 else 0

/-- The reference collaborators. -/
def deps : Deps where
  COUNT_SHIFT := 7
  RR_DXTC_INIT_ERROR := 1073741824
  rrDXTCOptions_BC1_OneBitAlpha := 1
  quantize := quantize
  Quantize := fun c => (quantize c).pack
  bc1_optimal_4c := bc1_optimal
  bc1_optimal_3c := bc1_optimal
  rrColor32BGRA_IsOneBitTransparent := fun c => decide (c.a < 128)
  Average := fun a b => ⟨(a.b + b.b + 1) / 2, (a.g + b.g + 1) / 2, (a.r + b.r + 1) / 2,
    (a.a + b.a + 1) / 2⟩
  DXT1_ComputePalette := DXT1_ComputePalette
  ComputePalette_Unpacked := fun ep mode => DXT1_ComputePalette ep.c0.pack ep.c1.pack mode
  DXT1_FindIndices := DXT1_FindIndices
  eval_palette := fun colors pal => (DXT1_FindIndices colors pal).2
  Calc_4Means := Scalar_Calc_4Means sqrtf
  -- a stand-in for the absent refinement: the seeds as they are
  DXT1_SolveRGB4Means := fun means _ => means
  solve_quantized := solve_quantized
  rrRand64Simple_SeedFromU64Array := rrRand64Simple_SeedFromU64Array
  rrRand64Simple := rrRand64Simple
  rrDXT1Block_BC3_Canonicalize := rrDXT1Block_BC3_Canonicalize
  DXT1_ComputeSSD_OneBitTransparent := DXT1_ComputeSSD
  DXT1_ComputeSSD_RGBA := DXT1_ComputeSSD
  DXT1_OneBitTransparent_Mask_FromIndices := Mask_FromIndices

end Ref

/-! ## The vector annealing loop: choice of the best lane -/

/-- The choice of the best lane in the vector annealing loop: `reduce_min` over the
four signed words `(err << 2) | lane`, then `best_overall & 3` and
`best_overall >> 2`, as `(i, best_err)`. -/
def Anneal_best_lane (err : List Nat) : Nat × Int :=
  let v_best_err := (List.range 4).map (fun i => toS32 (packKey 2 (err.getD i 0) i))
  let best_overall := v_best_err.foldl min (v_best_err.headD 0)
  ((best_overall % 4).toNat, best_overall / 4)

/-! ## Contracts of the collaborators and specification-side definitions -/

/-- The contract of the two scoring collaborators on one tile and mode: the index
search reports the error the batch evaluator reports, and that error leaves room
for the candidate index in the 32-bit key. -/
structure EvalContract (K : Deps) (colors : rrColorBlock4x4) (mode : rrDXT1PaletteMode) :
    Prop where
  find_eval : ∀ ep, (K.DXT1_FindIndices colors (K.ComputePalette_Unpacked ep mode)).2
    = K.eval_palette colors (K.ComputePalette_Unpacked ep mode)
  eval_fit : ∀ ep, K.eval_palette colors (K.ComputePalette_Unpacked ep mode)
    < 2 ^ (32 - K.COUNT_SHIFT)

/-- The error of candidate `t` of a batch. -/
def candErr (K : Deps) (colors : rrColorBlock4x4) (mode : rrDXT1PaletteMode)
    (eps : List rrDXT1UnpackedEndPoints) (t : Nat) : Nat :=
  K.eval_palette colors (K.ComputePalette_Unpacked (eps.getD t default) mode)

/-- The block `TryBatchedEndpoints` commits for candidate `ep`. -/
def commitBlock (K : Deps) (colors : rrColorBlock4x4) (mode : rrDXT1PaletteMode)
    (ep : rrDXT1UnpackedEndPoints) : rrDXT1Block :=
  ⟨ep.c0.pack, ep.c1.pack, (K.DXT1_FindIndices colors (K.ComputePalette_Unpacked ep mode)).1⟩

/-- A stage result `(block, error)` that does not regress from `(pBlock, pError)`:
the error is not higher, and the block differs only when the error is lower. -/
def StageMonotone (pBlock : rrDXT1Block) (pError : Nat) (r : rrDXT1Block × Nat) : Prop :=
  r.2 ≤ pError ∧ (r.1 ≠ pBlock → r.2 < pError)

/-- The pixels of a tile are bytes. -/
def TileBytes (colors : rrColorBlock4x4) : Prop :=
  ∀ c ∈ colors.colors, c.b ≤ 255 ∧ c.g ≤ 255 ∧ c.r ≤ 255 ∧ c.a ≤ 255

instance (colors : rrColorBlock4x4) : Decidable (TileBytes colors) := by
  unfold TileBytes; infer_instance

/-- A sample tile: sixteen opaque pixels on a colour ramp. -/
def Ref.rampTile : rrColorBlock4x4 :=
  ⟨(List.range 16).map (fun i => ⟨i * 16, i * 10 + 3, 255 - i * 13, 255⟩)⟩

/-- Three candidates for the ramp tile; the second and third tie for the least error. -/
def Ref.sampleBatch : List rrDXT1UnpackedEndPoints :=
  [⟨⟨0x1F3F1F⟩, ⟨0⟩⟩, ⟨⟨0x1F0000⟩, ⟨0x00001F⟩⟩, ⟨⟨0x1F0000⟩, ⟨0x00001F⟩⟩]

/-- The words of the tile computed from the `dw` of its pixels. -/
def tileWords_of_dw : List Nat → List Nat
  | d0 :: d1 :: rest => (d0 + 4294967296 * d1) :: tileWords_of_dw rest
  | _ => []

/-- The tile of sixteen copies of one pixel. -/
def flatTile (c : rrColor32BGRA) : rrColorBlock4x4 := ⟨List.replicate 16 c⟩

/-- The scan locals after `k` copies of a pixel that is neither all-zero nor
excluded. -/
def StartupScan.flat (c : rrColor32BGRA) (k : Nat) : StartupScan :=
  { avg := ⟨k * c.b, k * c.g, k * c.r⟩, loC := ⟨c.b, c.g, c.r, 0⟩, hiC := ⟨c.b, c.g, c.r, 0⟩,
    num_colors := k, loC_colors := ⟨c.b, c.g, c.r, 0⟩, hiC_colors := ⟨c.b, c.g, c.r, 0⟩,
    num_transparent := 0 }

/-- The contract between the scoring collaborators and the decoder on one tile and
mode: the batched palette of an unpacked pair is the palette of its packed
endpoints, the error `DXT1_FindIndices` reports for the palette of a pair is the
decoded error of the block built from the pair and the indices found, and every
error is below `RR_DXTC_INIT_ERROR`. -/
structure DecodeContract (K : Deps) (colors : rrColorBlock4x4) (mode : rrDXT1PaletteMode) :
    Prop where
  palette_unpacked : ∀ ep, K.ComputePalette_Unpacked ep mode
    = K.DXT1_ComputePalette ep.c0.pack ep.c1.pack mode
  find_ssd : ∀ c0 c1, (K.DXT1_FindIndices colors (K.DXT1_ComputePalette c0 c1 mode)).2
    = K.DXT1_ComputeSSD_OneBitTransparent colors
        ⟨c0, c1, (K.DXT1_FindIndices colors (K.DXT1_ComputePalette c0 c1 mode)).1⟩ mode
  eval_lt_init : ∀ ep, K.eval_palette colors (K.ComputePalette_Unpacked ep mode)
    < K.RR_DXTC_INIT_ERROR

/-- Modelled from the spec: the canonical-tile precondition
(`rrColorBlock4x4_IsBC1Canonical`, absent from src) as far as the compressor relies
on it: sixteen pixels, and an all-zero pixel occurs only in Alpha mode, where it is
a transparent pixel. -/
def IsBC1Canonical (K : Deps) (colors : rrColorBlock4x4) (mode : rrDXT1PaletteMode) : Prop :=
  colors.colors.length = 16 ∧
  ∀ c ∈ colors.colors, c.dw = 0 →
    mode = rrDXT1PaletteMode.Alpha ∧ K.rrColor32BGRA_IsOneBitTransparent c = true

/-- The block and error of the committed pair `(c0, c1)`: the indices and the error
that `DXT1_FindIndices` reports for the palette of the pair. -/
def committed (K : Deps) (colors : rrColorBlock4x4) (mode : rrDXT1PaletteMode)
    (c0 c1 : Nat) : rrDXT1Block × Nat :=
  (⟨c0, c1, (K.DXT1_FindIndices colors (K.DXT1_ComputePalette c0 c1 mode)).1⟩,
   (K.DXT1_FindIndices colors (K.DXT1_ComputePalette c0 c1 mode)).2)

/-- A pair of block and error that some stage committed for 16-bit endpoints. -/
def Committed (K : Deps) (colors : rrColorBlock4x4) (mode : rrDXT1PaletteMode)
    (r : rrDXT1Block × Nat) : Prop :=
  ∃ c0 c1, c0 < 65536 ∧ c1 < 65536 ∧ r = committed K colors mode c0 c1

/-- The outcome of a stage entered with `(pBlock, pError)`: nothing changed, or a
committed pair of strictly lower error. -/
def Outcome (K : Deps) (colors : rrColorBlock4x4) (mode : rrDXT1PaletteMode)
    (pBlock : rrDXT1Block) (pError : Nat) (r : rrDXT1Block × Nat) : Prop :=
  r = (pBlock, pError) ∨ (r.2 < pError ∧ Committed K colors mode r)

/-- The invariant of the annealing loop relative to the error on entry: the best
error is not above it, and once below it is the evaluator's error of `best`. -/
def AnnealInv (K : Deps) (colors : rrColorBlock4x4) (mode : rrDXT1PaletteMode) (e0 : Nat)
    (s : AnnealLoop) : Prop :=
  s.error ≤ e0 ∧
  (s.error ≠ e0 → s.error = K.eval_palette colors (K.ComputePalette_Unpacked s.best mode))

instance (K : Deps) (colors : rrColorBlock4x4) (mode : rrDXT1PaletteMode) :
    Decidable (IsBC1Canonical K colors mode) := by
  unfold IsBC1Canonical; infer_instance

/-- A canonical opaque tile of three distinct colours. -/
def Ref.threeColourTile : rrColorBlock4x4 :=
  ⟨[⟨96, 36, 156, 255⟩, ⟨96, 36, 156, 255⟩, ⟨96, 32, 143, 255⟩, ⟨96, 32, 143, 255⟩,
    ⟨107, 52, 144, 255⟩, ⟨96, 36, 156, 255⟩, ⟨96, 32, 143, 255⟩, ⟨96, 32, 143, 255⟩,
    ⟨96, 32, 143, 255⟩, ⟨96, 36, 156, 255⟩, ⟨107, 52, 144, 255⟩, ⟨96, 32, 143, 255⟩,
    ⟨96, 36, 156, 255⟩, ⟨107, 52, 144, 255⟩, ⟨107, 52, 144, 255⟩, ⟨96, 32, 143, 255⟩]⟩

/-- A canonical opaque tile on one line of colour space: blue `158 + 2 p`, green
`184 + p` and red 118, for sixteen offsets `p` from -24 to 24 of sum zero. -/
def Ref.gradientTile : rrColorBlock4x4 :=
  ⟨[⟨110, 160, 118, 255⟩, ⟨126, 168, 118, 255⟩, ⟨126, 168, 118, 255⟩, ⟨126, 168, 118, 255⟩,
    ⟨136, 173, 118, 255⟩, ⟨144, 177, 118, 255⟩, ⟨150, 180, 118, 255⟩, ⟨154, 182, 118, 255⟩,
    ⟨160, 185, 118, 255⟩, ⟨162, 186, 118, 255⟩, ⟨178, 194, 118, 255⟩, ⟨180, 195, 118, 255⟩,
    ⟨184, 197, 118, 255⟩, ⟨184, 197, 118, 255⟩, ⟨202, 206, 118, 255⟩, ⟨206, 208, 118, 255⟩]⟩

/-- The squared distance of two colours over blue, green and red. -/
def Ref.distRGB (p m : rrColor32BGRA) : Nat :=
  Ref.sqDiff p.b m.b + Ref.sqDiff p.g m.g + Ref.sqDiff p.r m.r

/-- Modelled from the spec: the four means are a fixed point of the refinement of
4-means (each pixel goes to its nearest mean, alpha ignored, and each mean becomes the
centroid of its pixels) whatever the tie rule and the rounding: every pixel has
exactly one nearest mean, and every mean is the exact average of its pixels, of which
there is at least one. -/
def Ref.IsExactMeans (colors : rrColorBlock4x4) (m : Means4) : Bool :=
  let ms := [m.m0, m.m1, m.m2, m.m3]
  let isNearest := fun (p k : rrColor32BGRA) =>
    ms.all (fun j => decide (Ref.distRGB p k ≤ Ref.distRGB p j))
  colors.colors.all (fun p => (ms.filter (isNearest p)).length == 1)
    && ms.all (fun k =>
      let c := colors.colors.filter (fun p => isNearest p k)
      !c.isEmpty && (c.map (fun p => p.b)).sum == k.b * c.length
        && (c.map (fun p => p.g)).sum == k.g * c.length
        && (c.map (fun p => p.r)).sum == k.r * c.length)

/-- Modelled from the spec: the three-colour single-colour table holds quantised
values, five bits for red and blue (table 0) and six bits for green (table 1). -/
def TableContract (K : Deps) : Prop :=
  ∀ v, (K.bc1_optimal_3c 0 v).1 < 32 ∧ (K.bc1_optimal_3c 0 v).2 < 32 ∧
    (K.bc1_optimal_3c 1 v).1 < 64 ∧ (K.bc1_optimal_3c 1 v).2 < 64

/-- A canonical Alpha-mode tile: thirteen transparent pixels and three opaque ones. -/
def Ref.alphaTile : rrColorBlock4x4 :=
  ⟨[⟨0, 0, 0, 0⟩, ⟨0, 0, 0, 0⟩, ⟨0, 0, 0, 0⟩, ⟨0, 0, 0, 0⟩,
    ⟨0, 0, 0, 0⟩, ⟨200, 40, 30, 255⟩, ⟨180, 60, 20, 255⟩, ⟨0, 0, 0, 0⟩,
    ⟨0, 0, 0, 0⟩, ⟨190, 50, 25, 255⟩, ⟨0, 0, 0, 0⟩, ⟨0, 0, 0, 0⟩,
    ⟨0, 0, 0, 0⟩, ⟨0, 0, 0, 0⟩, ⟨0, 0, 0, 0⟩, ⟨0, 0, 0, 0⟩]⟩

/-- An unpacked 5:6:5 colour with fields in range: five bits of blue and red, six of
green, nothing in the fourth byte. -/
def rrColorUnpacked565.IsLegal (c : rrColorUnpacked565) : Prop :=
  c.dw % 256 < 32 ∧ c.dw / 256 % 256 < 64 ∧ c.dw / 65536 < 32

instance (c : rrColorUnpacked565) : Decidable c.IsLegal := by
  unfold rrColorUnpacked565.IsLegal; infer_instance

/-- Three sample candidates: two in four-colour order around one in three-colour
order. -/
def Ref.sampleEndpoints : List rrDXT1UnpackedEndPoints :=
  [⟨⟨0x1F0000⟩, ⟨0x00001F⟩⟩, ⟨⟨0x000102⟩, ⟨0x030405⟩⟩, ⟨⟨0x000200⟩, ⟨0x000100⟩⟩]

/-- The two-bit palette index of pixel `i` in the index word. -/
def pixelIndex (indices i : Nat) : Nat := (indices >>> (2 * i)) &&& 3

/-- The terms the solver accumulates: for every pixel, in order, the weight pair of
its index and its colour vector. -/
def LLS_terms (fourc : Bool) : List rrColor32BGRA → Nat → List (Int × Int × rrVec3i)
  | [], _ => []
  | c :: cs, w =>
    (((c_weights_ab fourc).getD (w &&& 3) (0, 0)).1, ((c_weights_ab fourc).getD (w &&& 3) (0, 0)).2,
      ColorToVec3i c) :: LLS_terms fourc cs (w >>> 2)

/-- The member `normalization_factor`: 3 in four-colour mode, 2 in three-colour
mode. -/
def normalization_factor (fourc : Bool) : ℚ := if fourc then 3 else 2

/-- The arithmetic of `solve_endpoints` up to the rounding `Vec3fToQuantized565_RN`,
with every float operation taken exactly: the un-quantised endpoints `(vA, vB)`, or
`none` for `return false`. -/
def BC1EndpointLLSSolver.solve_exact (S : BC1EndpointLLSSolver) : Option (rrVec3q × rrVec3q) :=
  let det := S.AA * S.BB - S.AB * S.AB
  if det = 0 then none
  else
    let invDet : ℚ := normalization_factor S.fourc / (det : ℚ)
    let vA : rrVec3q :=
      ⟨(S.BB * invDet) * S.AX.x + (-S.AB * invDet) * S.BX.x,
       (S.BB * invDet) * S.AX.y + (-S.AB * invDet) * S.BX.y,
       (S.BB * invDet) * S.AX.z + (-S.AB * invDet) * S.BX.z⟩
    let vB : rrVec3q :=
      ⟨(-S.AB * invDet) * S.AX.x + (S.AA * invDet) * S.BX.x,
       (-S.AB * invDet) * S.AX.y + (S.AA * invDet) * S.BX.y,
       (-S.AB * invDet) * S.AX.z + (S.AA * invDet) * S.BX.z⟩
    some (vA, vB)

/-- The reconstruction error of the endpoints `(A, B)`: the sum over the pixels of
the squared distance between the pixel and `(a_i*A + b_i*B)/n`, with `(a_i, b_i)`
the weight pair of the pixel's index and `n` the normalisation factor. -/
def LLS_cost (fourc : Bool) (colors : rrColorBlock4x4) (indices : Nat) (A B : rrVec3q) : ℚ :=
  ((LLS_terms fourc colors.colors indices).map (fun t =>
    ((t.1 * A.x + t.2.1 * B.x) / normalization_factor fourc - t.2.2.x) ^ 2
    + ((t.1 * A.y + t.2.1 * B.y) / normalization_factor fourc - t.2.2.y) ^ 2
    + ((t.1 * A.z + t.2.1 * B.z) / normalization_factor fourc - t.2.2.z) ^ 2)).sum

/-- Specification side: the saturating perturbation of an unpacked colour.  The
selectors 0 and 1 move red up and down by one, 2 and 3 green, 4 and 5 blue, the
others nothing; a step stops at the ends of the field range (0..31 for red and
blue, 0..63 for green).  The fourth byte is kept. -/
def Wiggle_saturating (color : rrColorUnpacked565) (how : Nat) : rrColorUnpacked565 :=
  let r := if how = 0 then min (color.r + 1) 31 else if how = 1 then color.r - 1 else color.r
  let g := if how = 2 then min (color.g + 1) 63 else if how = 3 then color.g - 1 else color.g
  let b := if how = 4 then min (color.b + 1) 31 else if how = 5 then color.b - 1 else color.b
  ⟨b + 256 * g + 65536 * r + 16777216 * color.a⟩

/-- Specification side: the loop body of the exhaustive pair search as the
specification describes it, with the second trial started from the pair in the
opposite order `(u_j, u_i)`. -/
def Heavy_pair_bothOrderings (K : Deps) (colors : rrColorBlock4x4) (mode : rrDXT1PaletteMode)
    (st : Bool × rrDXT1Block × Nat) (p : Nat × Nat) : Bool × rrDXT1Block × Nat :=
  let trial := Heavy_trial K colors mode p.1 p.2
  let st := if trial.2 < st.2.2 then (true, trial.1, trial.2) else st
  if mode ≠ rrDXT1PaletteMode.FourColor then
    let trial2 := Heavy_trial K colors mode p.2 p.1
    if trial2.2 < st.2.2 then (true, trial2.1, trial2.2) else st
  else st

/-- Specification side: the exhaustive pair search with both orderings of every
pair as starting points. -/
def Compress_TryAllPairs_Heavy_bothOrderings (K : Deps) (pBlock : rrDXT1Block) (pError : Nat)
    (colors : rrColorBlock4x4) (mode : rrDXT1PaletteMode) : Bool × rrDXT1Block × Nat :=
  let uniques := Heavy_uniques K colors
  if uniques.length = 1 then (false, pBlock, pError)
  else (allPairs uniques).foldl (Heavy_pair_bothOrderings K colors mode) (false, pBlock, pError)

/-- An opaque tile of three colours. -/
def Ref.heavyTile : rrColorBlock4x4 :=
  ⟨[⟨60, 116, 142, 255⟩, ⟨48, 219, 192, 255⟩, ⟨48, 219, 192, 255⟩, ⟨60, 116, 142, 255⟩,
    ⟨48, 219, 192, 255⟩, ⟨48, 219, 192, 255⟩, ⟨182, 167, 167, 255⟩, ⟨60, 116, 142, 255⟩,
    ⟨60, 116, 142, 255⟩, ⟨48, 219, 192, 255⟩, ⟨182, 167, 167, 255⟩, ⟨182, 167, 167, 255⟩,
    ⟨60, 116, 142, 255⟩, ⟨48, 219, 192, 255⟩, ⟨48, 219, 192, 255⟩, ⟨182, 167, 167, 255⟩]⟩

/-- The capacity `NUM_PAIRS` of the candidate buffer of `rrCompressDXT1_4Means`. -/
def NUM_PAIRS : Nat := 10 * 7

/-- The capacity `MAX_TRIALS` of the trial buffer of
`DXT1_GreedyOptimizeBlock_Inner`. -/
def MAX_TRIALS : Nat := 7 * 7

/-- Specification side: the largest value of a channel over the pixels (0 for no
pixels). -/
def tileMax (f : rrColor32BGRA → Nat) (cs : List rrColor32BGRA) : Nat :=
  cs.foldl (fun m c => max m (f c)) 0

/-- Specification side: the smallest value of a byte channel over the pixels (255
for no pixels). -/
def tileMin (f : rrColor32BGRA → Nat) (cs : List rrColor32BGRA) : Nat :=
  cs.foldl (fun m c => min m (f c)) 255

/-- Specification side: the low corner of the bounding box of the pixels, alpha
byte 0. -/
def bboxLo (cs : List rrColor32BGRA) : rrColor32BGRA :=
  ⟨tileMin (fun c => c.b) cs, tileMin (fun c => c.g) cs, tileMin (fun c => c.r) cs, 0⟩

/-- Specification side: the high corner of the bounding box of the pixels, alpha
byte 0. -/
def bboxHi (cs : List rrColor32BGRA) : rrColor32BGRA :=
  ⟨tileMax (fun c => c.b) cs, tileMax (fun c => c.g) cs, tileMax (fun c => c.r) cs, 0⟩

/-- Specification side: the per-channel sum of the pixels. -/
def tileSum (cs : List rrColor32BGRA) : rrVec3i :=
  ⟨((cs.map (fun c => c.b)).sum : Nat), ((cs.map (fun c => c.g)).sum : Nat),
   ((cs.map (fun c => c.r)).sum : Nat)⟩

/-- Specification side: the rounded average `(sum + 8) >> 4` of 16 pixels. -/
def tileAvg (cs : List rrColor32BGRA) : rrVec3i :=
  ⟨((tileSum cs).x + 8) / 16, ((tileSum cs).y + 8) / 16, ((tileSum cs).z + 8) / 16⟩

/-- Specification side: the pixels the startup statistics exclude.  A pixel is
excluded in Alpha mode when it is transparent, in NoAlpha mode when all three colour
channels are below 12, and never in FourColor mode. -/
def Startup_excluded_spec (K : Deps) (mode : rrDXT1PaletteMode) (c : rrColor32BGRA) : Bool :=
  (decide (mode = rrDXT1PaletteMode.Alpha) && K.rrColor32BGRA_IsOneBitTransparent c)
    || (decide (mode = rrDXT1PaletteMode.NoAlpha)
          && decide (c.b < 12 ∧ c.g < 12 ∧ c.r < 12))

/-- Specification side: the candidate list of startup as the specification
describes it.  The box of the three-colour candidates is the bounding box of the
pixels that are not excluded (`Startup_excluded_spec`), or of all pixels when every
pixel is excluded. -/
def Startup_candidates_spec (K : Deps) (colors : rrColorBlock4x4) (mode : rrDXT1PaletteMode) :
    List rrDXT1UnpackedEndPoints :=
  let cs := colors.colors
  if (bboxHi cs).b = 0 ∧ (bboxHi cs).g = 0 ∧ (bboxHi cs).r = 0 then [⟨⟨0⟩, ⟨0⟩⟩]
  else
    let kept := cs.filter (fun c => !Startup_excluded_spec K mode c)
    let box := if kept = [] then cs else kept
    (if ∃ c ∈ cs, c.dw = 0 then []
      else [SingleColor_Compact_4C K (Vec3iToColor (tileAvg cs))])
    ++ (if ∃ c ∈ cs, Startup_excluded_spec K mode c = true
        then [SingleColor_Compact_3C K (K.Average (bboxLo box) (bboxHi box))] else [])
    ++ (if (∃ c ∈ cs, Startup_excluded_spec K mode c = true) ∧ bboxLo box ≠ bboxHi box
        then AddEndPoints_Force3C K [] (bboxLo box) (bboxHi box) else [])
    ++ (if bboxLo cs ≠ bboxHi cs ∧
          LengthSqr ((ColorToVec3i (bboxHi cs)).sub (ColorToVec3i (bboxLo cs))) ≤ 12
        then AddEndPoints_Default K [] mode (bboxLo cs) (bboxHi cs) else [])

/-! ## Simulated annealing (the vector loop, `DO_BUILD_SSE4`) -/

/-- One byte of `Wiggle4x<t_shift>`: the byte `v` of channel `k` (0 blue, 1 green,
2 red, 3 alpha) of one lane, with the control byte of the lane. -/
def Wiggle4x_byte (t_shift k v control : Nat) : Nat :=
  let c_sign_bit := (1 <<< t_shift) % 256
  let v_control_sign_mask := if control &&& c_sign_bit = c_sign_bit then 255 else 0
  let c_channel_compare :=
    [(4 <<< t_shift) % 256, (2 <<< t_shift) % 256, (0 <<< t_shift) % 256, 255].getD k 0
  let v_wiggle_amount_neg0 :=
    if control &&& ((6 <<< t_shift) % 256) = c_channel_compare then 255 else 0
  let v_wiggle_amount_neg :=
    ((v_wiggle_amount_neg0 ^^^ v_control_sign_mask) + 256 - v_control_sign_mask) % 256
  let v_wiggled := (v + 256 - v_wiggle_amount_neg) % 256
  -- vmax on signed bytes against zero
  let v_wiggled := if 128 ≤ v_wiggled then 0 else v_wiggled
  min v_wiggled ([31, 63, 31, 0].getD k 0)

/-- One 32-bit lane of `Wiggle4x<t_shift>`. -/
def Wiggle4x (t_shift : Nat) (colors : rrColorUnpacked565) (control : Nat) :
    rrColorUnpacked565 :=
  ⟨Wiggle4x_byte t_shift 0 colors.b control + 256 * Wiggle4x_byte t_shift 1 colors.g control
    + 65536 * Wiggle4x_byte t_shift 2 colors.r control
    + 16777216 * Wiggle4x_byte t_shift 3 colors.a control⟩

/-- The trial of one lane of the vector loop: `Wiggle4x<0>` and `Wiggle4x<3>` on the
control byte of the lane, then `vmin` / `vmax` on signed words when the block has
alpha. -/
def Anneal_trial_vector (has_any_alpha : Bool) (cur : rrDXT1UnpackedEndPoints) (r : Nat) :
    rrDXT1UnpackedEndPoints :=
  let v_ep0 := Wiggle4x 0 cur.c0 r
  let v_ep1 := Wiggle4x 3 cur.c1 r
  if has_any_alpha then
    ⟨if toS32 v_ep1.dw < toS32 v_ep0.dw then v_ep1 else v_ep0,
     if toS32 v_ep0.dw < toS32 v_ep1.dw then v_ep1 else v_ep0⟩
  else ⟨v_ep0, v_ep1⟩

/-- The body of one round of the vector loop after the trials are scored: the check
for an improvement over the global best, then the threshold acceptance of the four
lanes. -/
def Anneal_accept_vector (thresh : Int) (ep : List rrDXT1UnpackedEndPoints) (err : List Nat)
    (s : AnnealLoop) : AnnealLoop :=
  let improved := (List.range 4).any (fun i => decide (toS32 (err.getD i 0) < toS32 s.error))
  let best_lane := Anneal_best_lane err
  let error := if improved then (best_lane.2 % 4294967296).toNat else s.error
  let best := if improved then ep.getD best_lane.1 default else s.best
  if improved = true ∧ best_lane.2 = 0 then { s with error := error, best := best, done := true }
  else
    let v_should_accept := fun i =>
      decide (toS32 ((err.getD i 0 + (4294967296 - s.curErr.getD i 0 % 4294967296))
        % 4294967296) < thresh)
    { cur := (List.range 4).map (fun i =>
        if v_should_accept i then ep.getD i default else s.cur.getD i default),
      curErr := (List.range 4).map (fun i =>
        if v_should_accept i then err.getD i 0 else s.curErr.getD i 0),
      error := error, best := best, done := false }

/-- One iteration `time` of the vector loop. -/
def Anneal_round_vector (K : Deps) (data : rrCompressDXT1_Startup_Data)
    (colors : rrColorBlock4x4) (mode : rrDXT1PaletteMode) (rng_bytes : List Nat)
    (s : AnnealLoop) (time : Nat) : AnnealLoop :=
  if s.done then s
  else
    let ep := (List.range 4).map (fun i =>
      Anneal_trial_vector data.has_any_alpha (s.cur.getD i default)
        (rng_bytes.getD (time * 4 + i) 0))
    let err := eval_palettes K colors (DXT1_ComputePalette_Batched K ep mode)
    let thresh : Int := thresholdBase - time * thresholdStep
    Anneal_accept_vector thresh ep err s

/-- The vector loop `for (int time = initial_time; time < 64; ++time)` with
`initial_time = 0`. -/
def Anneal_loop_vector (K : Deps) (data : rrCompressDXT1_Startup_Data)
    (colors : rrColorBlock4x4) (mode : rrDXT1PaletteMode) (rng_bytes : List Nat)
    (s : AnnealLoop) : AnnealLoop :=
  (List.range 64).foldl (Anneal_round_vector K data colors mode rng_bytes) s

/-- The invariant of the lanes of the annealing loop: four lanes, the best-ever error
not above the working error of any lane, errors below `2^29`, legal working
endpoints. -/
def AnnealLanes (s : AnnealLoop) : Prop :=
  s.cur.length = 4 ∧ s.curErr.length = 4 ∧ s.error < 536870912 ∧
  (∀ i, i < 4 → s.error ≤ s.curErr.getD i 0 ∧ s.curErr.getD i 0 < 536870912) ∧
  (∀ i, i < 4 → (s.cur.getD i default).c0.IsLegal ∧ (s.cur.getD i default).c1.IsLegal)

/-- The loop `for(;;)` of `DXT1_OptimizeEndPointsFromIndicesIterative` run for at
most `fuel` iterations: the block and the error at the `break`, with the number of
iterations run; `none` when the loop has not left after `fuel` iterations. -/
def Iterative_run (K : Deps) (colors : rrColorBlock4x4) (mode : rrDXT1PaletteMode) :
    Nat → rrDXT1Block → Nat → Option (rrDXT1Block × Nat × Nat)
  | 0, _, _ => none
  | fuel + 1, pBlock, pError =>
    let oldIndices := pBlock.indices
    let r := DXT1_OptimizeEndPointsFromIndices_Inherit_Reindex K pBlock pError colors mode
    if r.1 = false then some (r.2.1, r.2.2, 1)
    else if oldIndices = r.2.1.indices then some (r.2.1, r.2.2, 1)
    else (Iterative_run K colors mode fuel r.2.1 r.2.2).map
      (fun t => (t.1, t.2.1, t.2.2 + 1))

/-- The loop `for(;;)` of `DXT1_GreedyOptimizeBlock_Inner` run for at most `fuel`
iterations: the loop variables at the `return` or `break`, with the number of
iterations run; `none` when the loop has not left after `fuel` iterations. -/
def Greedy_run (K : Deps) (data : rrCompressDXT1_Startup_Data) (colors : rrColorBlock4x4)
    (mode : rrDXT1PaletteMode) (do_joint_optimization : Bool) :
    Nat → GreedyLoop → Option (GreedyLoop × Nat)
  | 0, _ => none
  | fuel + 1, s =>
    let endpoints := Greedy_trials data.has_any_alpha do_joint_optimization s.best0 s.best1
    let palettes := DXT1_ComputePalette_Batched K endpoints mode
    let best_err_and_i := find_best_palette K colors palettes
    let best_err := best_err_and_i >>> K.COUNT_SHIFT
    if best_err < s.error then
      let best_i := best_err_and_i &&& (COUNT_LIMIT K - 1)
      let ep := endpoints.getD best_i default
      let s1 : GreedyLoop :=
        ⟨⟨ep.c0.pack, ep.c1.pack, s.block.indices⟩, best_err, ep.c0, ep.c1⟩
      if best_err = 0 then some (s1, 1)
      else (Greedy_run K data colors mode do_joint_optimization fuel s1).map
        (fun t => (t.1, t.2 + 1))
    else some (s, 1)

/-! ## The packed key of the batch evaluator -/

theorem packKey_eq (shift e i : Nat) (he : e < 2 ^ (32 - shift)) (hi : i < 2 ^ shift) :
    packKey shift e i = e * 2 ^ shift + i := by
  unfold packKey
  have h1 : e <<< shift = e * 2 ^ shift := Nat.shiftLeft_eq e shift
  have h2 : e * 2 ^ shift < 4294967296 := by
    by_cases hs : shift ≤ 32
    · have : (2:Nat) ^ (32 - shift) * 2 ^ shift = 4294967296 := by
        rw [← Nat.pow_add, Nat.sub_add_cancel hs]
      calc e * 2 ^ shift < 2 ^ (32 - shift) * 2 ^ shift :=
            Nat.mul_lt_mul_of_pos_right he (Nat.two_pow_pos shift)
        _ = 4294967296 := this
    · have h0 : 32 - shift = 0 := by omega
      rw [h0] at he
      have : e = 0 := by omega
      subst this; simp
  rw [h1, Nat.mod_eq_of_lt h2, Nat.mul_comm e, Nat.mul_add_lt_is_or hi]

theorem key_div (shift e i : Nat) (hi : i < 2 ^ shift) :
    (e * 2 ^ shift + i) >>> shift = e := by
  rw [Nat.shiftRight_eq_div_pow]
  have hp : 0 < 2 ^ shift := Nat.two_pow_pos shift
  rw [Nat.mul_comm, Nat.mul_add_div hp, Nat.div_eq_of_lt hi]; simp

theorem key_mod (shift e i : Nat) (hi : i < 2 ^ shift) :
    (e * 2 ^ shift + i) &&& (2 ^ shift - 1) = i := by
  rw [Nat.and_pow_two_sub_one_eq_mod]
  rw [Nat.mul_comm, Nat.mul_add_mod, Nat.mod_eq_of_lt hi]

theorem foldl_min_spec (l : List Nat) (a : Nat) :
    l.foldl min a ≤ a ∧ (∀ x ∈ l, l.foldl min a ≤ x) ∧ (l.foldl min a = a ∨ l.foldl min a ∈ l) := by
  induction l generalizing a with
  | nil => simp
  | cons x xs ih =>
    simp only [List.foldl_cons, List.mem_cons]
    obtain ⟨h1, h2, h3⟩ := ih (min a x)
    refine ⟨le_trans h1 (min_le_left _ _), ?_, ?_⟩
    · intro y hy
      rcases hy with rfl | hy
      · exact le_trans h1 (min_le_right _ _)
      · exact h2 y hy
    · rcases h3 with h3 | h3
      · rcases min_choice a x with h | h
        · left; rw [h3, h]
        · right; left; rw [h3, h]
      · right; right; exact h3

theorem mem_packKeys (shift : Nat) (errs : List Nat) (i0 k : Nat) :
    k ∈ packKeys shift i0 errs ↔
      ∃ t, t < errs.length ∧ k = packKey shift (errs.getD t 0) (i0 + t) := by
  induction errs generalizing i0 with
  | nil => simp [packKeys]
  | cons e es ih =>
    simp only [packKeys, List.mem_cons, ih, List.length_cons]
    constructor
    · rintro (h | ⟨t, ht, h⟩)
      · exact ⟨0, by omega, by simpa using h⟩
      · refine ⟨t + 1, by omega, ?_⟩
        rw [h]; simp only [List.getD_cons_succ]; congr 1; omega
    · rintro ⟨t, ht, h⟩
      cases t with
      | zero => left; simpa using h
      | succ t =>
        right
        refine ⟨t, by omega, ?_⟩
        rw [h]; simp only [List.getD_cons_succ]; congr 1; omega

theorem getD_mem_of_lt (errs : List Nat) (t : Nat) (ht : t < errs.length) :
    errs.getD t 0 ∈ errs := by
  rw [List.getD_eq_getElem _ _ ht]; exact List.getElem_mem ht

/-- The minimum key of a non-empty batch is the key of the first candidate of
least error. -/
theorem minKey_spec (shift : Nat) (errs : List Nat) (hne : errs ≠ [])
    (hcount : errs.length < 2 ^ shift) (hfit : ∀ e ∈ errs, e < 2 ^ (32 - shift)) :
    ∃ j, j < errs.length ∧
      minKey (packKeys shift 0 errs) = errs.getD j 0 * 2 ^ shift + j ∧
      ∀ t, t < errs.length →
        errs.getD j 0 ≤ errs.getD t 0 ∧ (errs.getD t 0 = errs.getD j 0 → j ≤ t) := by
  have hkey : ∀ t, t < errs.length →
      packKey shift (errs.getD t 0) (0 + t) = errs.getD t 0 * 2 ^ shift + t := by
    intro t ht
    rw [Nat.zero_add]
    exact packKey_eq shift _ t (hfit _ (getD_mem_of_lt errs t ht)) (by omega)
  have hlen : 0 < errs.length := List.length_pos.mpr hne
  obtain ⟨h1, h2, h3⟩ := foldl_min_spec (packKeys shift 0 errs) 4294967295
  have hmem : minKey (packKeys shift 0 errs) ∈ packKeys shift 0 errs := by
    rcases h3 with h3 | h3
    · have h0 : packKey shift (errs.getD 0 0) (0 + 0) ∈ packKeys shift 0 errs :=
        (mem_packKeys shift errs 0 _).mpr ⟨0, hlen, rfl⟩
      have hle := h2 _ h0
      have hlt : packKey shift (errs.getD 0 0) (0 + 0) < 4294967296 := by
        unfold packKey
        have hm : (errs.getD 0 0 <<< shift) % 4294967296 < 2 ^ 32 := Nat.mod_lt _ (by norm_num)
        simpa using Nat.or_lt_two_pow hm (by norm_num : 0 < 2 ^ 32)
      have : packKey shift (errs.getD 0 0) (0 + 0) = 4294967295 := by
        unfold minKey at *; omega
      unfold minKey; rw [h3, ← this]; exact h0
    · exact h3
  obtain ⟨j, hj, hk⟩ := (mem_packKeys shift errs 0 _).mp hmem
  refine ⟨j, hj, by rw [hk, hkey j hj], ?_⟩
  intro t ht
  have hle := h2 _ ((mem_packKeys shift errs 0 _).mpr ⟨t, ht, rfl⟩)
  unfold minKey at hk
  rw [hk, hkey j hj, hkey t ht] at hle
  have hp : 0 < 2 ^ shift := Nat.two_pow_pos shift
  have hjs : j < 2 ^ shift := by omega
  have hts : t < 2 ^ shift := by omega
  constructor
  · by_contra hcon
    push_neg at hcon
    have : (errs.getD t 0 + 1) * 2 ^ shift ≤ errs.getD j 0 * 2 ^ shift :=
      Nat.mul_le_mul_right _ hcon
    nlinarith
  · intro heq
    rw [heq] at hle
    omega

theorem eval_palettes_getD (K : Deps) (colors : rrColorBlock4x4) (mode : rrDXT1PaletteMode)
    (eps : List rrDXT1UnpackedEndPoints) (t : Nat) (ht : t < eps.length) :
    (eval_palettes K colors (DXT1_ComputePalette_Batched K eps mode)).getD t 0
      = candErr K colors mode eps t := by
  unfold eval_palettes DXT1_ComputePalette_Batched candErr
  rw [List.getD_eq_getElem _ _ (by simpa using ht), List.getD_eq_getElem _ _ ht]
  simp

theorem palettes_getD (K : Deps) (mode : rrDXT1PaletteMode)
    (eps : List rrDXT1UnpackedEndPoints) (t : Nat) (ht : t < eps.length) :
    (DXT1_ComputePalette_Batched K eps mode).getD t []
      = K.ComputePalette_Unpacked (eps.getD t default) mode := by
  unfold DXT1_ComputePalette_Batched
  rw [List.getD_eq_getElem _ _ (by simpa using ht), List.getD_eq_getElem _ _ ht]
  simp

/-- The key `find_best_palette` returns for a non-empty batch. -/
theorem find_best_palette_spec (K : Deps) (colors : rrColorBlock4x4) (mode : rrDXT1PaletteMode)
    (eps : List rrDXT1UnpackedEndPoints) (hne : eps ≠ []) (hcount : eps.length < COUNT_LIMIT K)
    (hK : EvalContract K colors mode) :
    ∃ j, j < eps.length ∧
      find_best_palette K colors (DXT1_ComputePalette_Batched K eps mode) >>> K.COUNT_SHIFT
        = candErr K colors mode eps j ∧
      find_best_palette K colors (DXT1_ComputePalette_Batched K eps mode) &&& (COUNT_LIMIT K - 1)
        = j ∧
      ∀ t, t < eps.length → candErr K colors mode eps j ≤ candErr K colors mode eps t ∧
        (candErr K colors mode eps t = candErr K colors mode eps j → j ≤ t) := by
  have hlen : (eval_palettes K colors (DXT1_ComputePalette_Batched K eps mode)).length
      = eps.length := by
    simp [eval_palettes, DXT1_ComputePalette_Batched]
  have hne2 : eval_palettes K colors (DXT1_ComputePalette_Batched K eps mode) ≠ [] := by
    intro h; rw [h] at hlen; exact hne (List.length_eq_zero.mp hlen.symm)
  have hfit : ∀ e ∈ eval_palettes K colors (DXT1_ComputePalette_Batched K eps mode),
      e < 2 ^ (32 - K.COUNT_SHIFT) := by
    intro e he
    simp only [eval_palettes, DXT1_ComputePalette_Batched, List.mem_map] at he
    obtain ⟨p, ⟨ep, _, rfl⟩, rfl⟩ := he
    exact hK.eval_fit ep
  obtain ⟨j, hj, hk, hmin⟩ := minKey_spec K.COUNT_SHIFT _ hne2 (by rw [hlen]; exact hcount) hfit
  rw [hlen] at hj
  have hjs : j < 2 ^ K.COUNT_SHIFT := lt_trans hj hcount
  refine ⟨j, hj, ?_, ?_, ?_⟩
  · unfold find_best_palette; rw [hk, key_div _ _ _ hjs, eval_palettes_getD K colors mode eps j hj]
  · unfold find_best_palette COUNT_LIMIT; rw [hk, key_mod _ _ _ hjs]
  · intro t ht
    have := hmin t (by rw [hlen]; exact ht)
    rw [eval_palettes_getD K colors mode eps j hj, eval_palettes_getD K colors mode eps t ht] at this
    exact this

/-- What `TryBatchedEndpoints` returns for a non-empty batch. -/
theorem TryBatchedEndpoints_spec (K : Deps) (pBlock : rrDXT1Block) (pError : Nat)
    (colors : rrColorBlock4x4) (mode : rrDXT1PaletteMode)
    (eps : List rrDXT1UnpackedEndPoints) (hne : eps ≠ []) (hcount : eps.length < COUNT_LIMIT K)
    (hK : EvalContract K colors mode) :
    ∃ j, j < eps.length ∧
      (∀ t, t < eps.length → candErr K colors mode eps j ≤ candErr K colors mode eps t ∧
        (candErr K colors mode eps t = candErr K colors mode eps j → j ≤ t)) ∧
      TryBatchedEndpoints K pBlock pError colors mode eps =
        if candErr K colors mode eps j < pError then
          (commitBlock K colors mode (eps.getD j default), candErr K colors mode eps j)
        else (pBlock, pError) := by
  obtain ⟨j, hj, h1, h2, h3⟩ := find_best_palette_spec K colors mode eps hne hcount hK
  refine ⟨j, hj, h3, ?_⟩
  unfold TryBatchedEndpoints
  simp only [h1, h2]
  split
  · rw [palettes_getD K mode eps j hj, hK.find_eval]
    rfl
  · rfl

/-- An empty batch changes nothing when the incoming error is in the key range. -/
theorem TryBatchedEndpoints_nil (K : Deps) (pBlock : rrDXT1Block) (pError : Nat)
    (colors : rrColorBlock4x4) (mode : rrDXT1PaletteMode)
    (hE : pError ≤ 4294967295 >>> K.COUNT_SHIFT) :
    TryBatchedEndpoints K pBlock pError colors mode [] = (pBlock, pError) := by
  unfold TryBatchedEndpoints
  have : find_best_palette K colors (DXT1_ComputePalette_Batched K [] mode) = 4294967295 := by
    simp [find_best_palette, DXT1_ComputePalette_Batched, eval_palettes, packKeys, minKey]
  simp only [this]
  rw [if_neg (by omega)]

/-! ## No stage regresses -/

theorem StageMonotone.refl (pBlock : rrDXT1Block) (pError : Nat) :
    StageMonotone pBlock pError (pBlock, pError) := ⟨le_refl _, fun h => absurd rfl h⟩

theorem StageMonotone.of_lt (pBlock : rrDXT1Block) (pError : Nat) (r : rrDXT1Block × Nat)
    (h : r.2 < pError) : StageMonotone pBlock pError r := ⟨le_of_lt h, fun _ => h⟩

theorem StageMonotone.trans {b0 b1 : rrDXT1Block} {e0 e1 : Nat} {r : rrDXT1Block × Nat}
    (h01 : StageMonotone b0 e0 (b1, e1)) (h12 : StageMonotone b1 e1 r) :
    StageMonotone b0 e0 r := by
  obtain ⟨h1, h2⟩ := h01
  obtain ⟨h3, h4⟩ := h12
  refine ⟨le_trans h3 h1, fun hne => ?_⟩
  by_cases hb : r.1 = b1
  · have : b1 ≠ b0 := by rw [← hb]; exact hne
    exact lt_of_le_of_lt h3 (h2 this)
  · exact lt_of_lt_of_le (h4 hb) h1

theorem TryBatchedEndpoints_monotone (K : Deps) (pBlock : rrDXT1Block) (pError : Nat)
    (colors : rrColorBlock4x4) (mode : rrDXT1PaletteMode)
    (eps : List rrDXT1UnpackedEndPoints) (hcount : eps.length < COUNT_LIMIT K)
    (hK : EvalContract K colors mode) (hE : pError ≤ 4294967295 >>> K.COUNT_SHIFT) :
    StageMonotone pBlock pError (TryBatchedEndpoints K pBlock pError colors mode eps) := by
  by_cases hne : eps = []
  · subst hne
    rw [TryBatchedEndpoints_nil K pBlock pError colors mode hE]
    exact StageMonotone.refl _ _
  · obtain ⟨j, _, _, h⟩ := TryBatchedEndpoints_spec K pBlock pError colors mode eps hne hcount hK
    rw [h]
    split
    · exact StageMonotone.of_lt _ _ _ (by assumption)
    · exact StageMonotone.refl _ _

theorem Inherit_Reindex_cases (K : Deps) (pBlock : rrDXT1Block) (pError : Nat)
    (colors : rrColorBlock4x4) (mode : rrDXT1PaletteMode) :
    (DXT1_OptimizeEndPointsFromIndices_Inherit_Reindex K pBlock pError colors mode
        = (false, pBlock, pError)) ∨
    ∃ c0 c1,
      DXT1_OptimizeEndPointsFromIndices_Inherit_Reindex K pBlock pError colors mode
        = (true, ⟨c0, c1, (K.DXT1_FindIndices colors (K.DXT1_ComputePalette c0 c1 mode)).1⟩,
            (K.DXT1_FindIndices colors (K.DXT1_ComputePalette c0 c1 mode)).2) ∧
      (K.DXT1_FindIndices colors (K.DXT1_ComputePalette c0 c1 mode)).2 < pError ∧
      DXT1_OptimizeEndPointsFromIndices_Raw K pBlock.indices
        (DXT1_Is4Color pBlock.c0 pBlock.c1 mode) colors = some (c0 + 65536 * c1) ∧
      c0 < 65536 ∧ c1 < 65536 ∧ c0 + 65536 * c1 ≠ pBlock.endpoints := by
  unfold DXT1_OptimizeEndPointsFromIndices_Inherit_Reindex
  cases hraw : DXT1_OptimizeEndPointsFromIndices_Raw K pBlock.indices
      (DXT1_Is4Color pBlock.c0 pBlock.c1 mode) colors with
  | none => left; simp only [hraw]
  | some endpoints =>
    simp only [hraw]
    by_cases h1 : endpoints = pBlock.endpoints
    · left; rw [if_pos h1]
    · rw [if_neg h1]
      by_cases h2 : (K.DXT1_FindIndices colors
          (K.DXT1_ComputePalette (endpoints % 65536) (endpoints / 65536) mode)).2 < pError
      · right
        rw [if_pos h2]
        have hlt : endpoints < 4294967296 := by
          unfold DXT1_OptimizeEndPointsFromIndices_Raw at hraw
          dsimp only at hraw
          split at hraw
          · cases hraw
          · simp only [Option.some.injEq] at hraw
            omega
        refine ⟨endpoints % 65536, endpoints / 65536, rfl, h2, ?_, ?_, ?_, ?_⟩
        · congr 1; omega
        · omega
        · omega
        · intro h; apply h1; rw [← h]; omega
      · left; rw [if_neg h2]

theorem Inherit_Reindex_monotone (K : Deps) (pBlock : rrDXT1Block) (pError : Nat)
    (colors : rrColorBlock4x4) (mode : rrDXT1PaletteMode) :
    StageMonotone pBlock pError
      (DXT1_OptimizeEndPointsFromIndices_Inherit_Reindex K pBlock pError colors mode).2 := by
  rcases Inherit_Reindex_cases K pBlock pError colors mode with h | ⟨c0, c1, h, hlt, _⟩
  · rw [h]; exact StageMonotone.refl _ _
  · rw [h]; exact StageMonotone.of_lt _ _ _ hlt

theorem Iterative_loop_monotone (K : Deps) (colors : rrColorBlock4x4) (mode : rrDXT1PaletteMode)
    (fuel : Nat) (pBlock : rrDXT1Block) (pError : Nat) :
    StageMonotone pBlock pError (Iterative_loop K colors mode fuel pBlock pError) := by
  induction fuel generalizing pBlock pError with
  | zero => exact StageMonotone.refl _ _
  | succ n ih =>
    unfold Iterative_loop
    have hm := Inherit_Reindex_monotone K pBlock pError colors mode
    simp only
    split
    · exact hm
    · split
      · exact hm
      · exact StageMonotone.trans hm (ih _ _)

theorem Iterative_monotone (K : Deps) (pBlock : rrDXT1Block) (pError : Nat)
    (colors : rrColorBlock4x4) (mode : rrDXT1PaletteMode) :
    StageMonotone pBlock pError
      (DXT1_OptimizeEndPointsFromIndicesIterative K pBlock pError colors mode) :=
  Iterative_loop_monotone K colors mode _ pBlock pError

theorem Heavy_pair_monotone (K : Deps) (colors : rrColorBlock4x4) (mode : rrDXT1PaletteMode)
    (st : Bool × rrDXT1Block × Nat) (p : Nat × Nat) :
    StageMonotone st.2.1 st.2.2 (Heavy_pair K colors mode st p).2 := by
  unfold Heavy_pair StageMonotone
  dsimp only
  split_ifs <;> simp_all <;> omega

theorem Heavy_fold_monotone (K : Deps) (colors : rrColorBlock4x4) (mode : rrDXT1PaletteMode)
    (ps : List (Nat × Nat)) (st : Bool × rrDXT1Block × Nat) :
    StageMonotone st.2.1 st.2.2 (ps.foldl (Heavy_pair K colors mode) st).2 := by
  induction ps generalizing st with
  | nil => exact StageMonotone.refl _ _
  | cons p ps ih =>
    simp only [List.foldl_cons]
    exact StageMonotone.trans (Heavy_pair_monotone K colors mode st p) (ih _)

theorem Heavy_monotone (K : Deps) (pBlock : rrDXT1Block) (pError : Nat)
    (colors : rrColorBlock4x4) (mode : rrDXT1PaletteMode) :
    StageMonotone pBlock pError (Compress_TryAllPairs_Heavy K pBlock pError colors mode).2 := by
  unfold Compress_TryAllPairs_Heavy
  simp only
  split
  · exact StageMonotone.refl _ _
  · exact Heavy_fold_monotone K colors mode _ (false, pBlock, pError)

theorem Greedy_loop_monotone (K : Deps) (data : rrCompressDXT1_Startup_Data)
    (colors : rrColorBlock4x4) (mode : rrDXT1PaletteMode) (joint : Bool) (fuel : Nat)
    (s : GreedyLoop) :
    (Greedy_loop K data colors mode joint fuel s).error ≤ s.error ∧
    ((Greedy_loop K data colors mode joint fuel s).block ≠ s.block →
      (Greedy_loop K data colors mode joint fuel s).error < s.error) ∧
    (Greedy_loop K data colors mode joint fuel s).block.indices = s.block.indices := by
  induction fuel generalizing s with
  | zero => simp [Greedy_loop]
  | succ n ih =>
    unfold Greedy_loop
    dsimp only
    split
    · rename_i hlt
      split
      · rename_i h0
        refine ⟨?_, ?_, rfl⟩
        · simp only; omega
        · intro _; simp only; omega
      · obtain ⟨h1, h2, h3⟩ := ih
          ⟨⟨((Greedy_trials data.has_any_alpha joint s.best0 s.best1).getD
              (find_best_palette K colors (DXT1_ComputePalette_Batched K
                (Greedy_trials data.has_any_alpha joint s.best0 s.best1) mode)
                &&& (COUNT_LIMIT K - 1)) default).c0.pack,
            ((Greedy_trials data.has_any_alpha joint s.best0 s.best1).getD
              (find_best_palette K colors (DXT1_ComputePalette_Batched K
                (Greedy_trials data.has_any_alpha joint s.best0 s.best1) mode)
                &&& (COUNT_LIMIT K - 1)) default).c1.pack, s.block.indices⟩,
            find_best_palette K colors (DXT1_ComputePalette_Batched K
                (Greedy_trials data.has_any_alpha joint s.best0 s.best1) mode)
              >>> K.COUNT_SHIFT, _, _⟩
        simp only at h1 h2 h3
        refine ⟨by omega, fun _ => by omega, h3⟩
    · exact ⟨le_refl _, fun h => absurd rfl h, rfl⟩

theorem Greedy_monotone (K : Deps) (data : rrCompressDXT1_Startup_Data) (pBlock : rrDXT1Block)
    (pError : Nat) (colors : rrColorBlock4x4) (mode : rrDXT1PaletteMode) (joint : Bool) :
    StageMonotone pBlock pError (DXT1_GreedyOptimizeBlock K data pBlock pError colors mode joint) := by
  unfold DXT1_GreedyOptimizeBlock DXT1_GreedyOptimizeBlock_Inner
  obtain ⟨h1, h2, _⟩ := Greedy_loop_monotone K data colors mode joint (pError + 1)
    ⟨pBlock, pError, rrColorUnpacked565.unpack pBlock.c0, rrColorUnpacked565.unpack pBlock.c1⟩
  simp only at h1 h2
  dsimp only
  split
  · exact ⟨le_refl _, fun h => absurd rfl h⟩
  · split
    · rename_i hne
      exact ⟨h1, fun _ => lt_of_le_of_ne h1 hne⟩
    · rename_i heq
      push_neg at heq
      refine ⟨h1, fun hb => ?_⟩
      exact h2 hb

theorem Anneal_accept_error_le (thresh : Int) (ep : rrDXT1UnpackedEndPoints) (err i : Nat)
    (s : AnnealLoop) : (Anneal_accept thresh ep err i s).error ≤ s.error := by
  unfold Anneal_accept
  split_ifs <;> simp <;> omega

theorem foldl_error_le {α : Type} (f : AnnealLoop → α → AnnealLoop)
    (hf : ∀ s x, (f s x).error ≤ s.error) (l : List α) (s : AnnealLoop) :
    (l.foldl f s).error ≤ s.error := by
  induction l generalizing s with
  | nil => exact le_refl _
  | cons x xs ih => exact le_trans (ih _) (hf s x)

theorem Anneal_round_error_le (K : Deps) (data : rrCompressDXT1_Startup_Data)
    (colors : rrColorBlock4x4) (mode : rrDXT1PaletteMode) (rng_bytes : List Nat)
    (s : AnnealLoop) (time : Nat) :
    (Anneal_round K data colors mode rng_bytes s time).error ≤ s.error := by
  unfold Anneal_round
  split
  · exact le_refl _
  · exact foldl_error_le _ (fun s i => Anneal_accept_error_le _ _ _ _ s) _ _

theorem Anneal_loop_error_le (K : Deps) (data : rrCompressDXT1_Startup_Data)
    (colors : rrColorBlock4x4) (mode : rrDXT1PaletteMode) (rng_bytes : List Nat)
    (s : AnnealLoop) :
    (Anneal_loop K data colors mode rng_bytes s).error ≤ s.error :=
  foldl_error_le _ (fun s t => Anneal_round_error_le K data colors mode rng_bytes s t) _ _

theorem Anneal_monotone (K : Deps) (data : rrCompressDXT1_Startup_Data) (pBlock : rrDXT1Block)
    (pError : Nat) (colors : rrColorBlock4x4) (mode : rrDXT1PaletteMode) (expensive_mode : Bool) :
    StageMonotone pBlock pError
      (DXT1_AnnealBlock K data pBlock pError colors mode expensive_mode) := by
  unfold DXT1_AnnealBlock
  dsimp only
  have h := Anneal_loop_error_le K data colors mode (Anneal_rng_bytes K colors)
    ⟨List.replicate 4 ⟨rrColorUnpacked565.unpack pBlock.c0, rrColorUnpacked565.unpack pBlock.c1⟩,
      List.replicate 4 pError, pError,
      ⟨rrColorUnpacked565.unpack pBlock.c0, rrColorUnpacked565.unpack pBlock.c1⟩, false⟩
  revert h
  generalize Anneal_loop K data colors mode (Anneal_rng_bytes K colors) _ = s
  intro h
  change s.error ≤ pError at h
  unfold StageMonotone
  split
  · rename_i hne
    exact ⟨h, fun _ => lt_of_le_of_ne h hne⟩
  · exact ⟨le_refl _, fun h => absurd rfl h⟩

/-! ## Candidate counts -/

theorem BothWays_length (K : Deps) (l : List rrDXT1UnpackedEndPoints) (a b : rrColor32BGRA) :
    (AddEndPoints_BothWays K l a b).length ≤ l.length + 2 := by
  unfold AddEndPoints_BothWays
  dsimp only
  split <;> simp

theorem TwoColorBest_length (K : Deps) (l : List rrDXT1UnpackedEndPoints) (a b : rrColor32BGRA) :
    (AddEndPoints_TwoColorBest K l a b).length ≤ l.length + 8 := by
  unfold AddEndPoints_TwoColorBest
  dsimp only
  split
  · have := BothWays_length K l a b; omega
  · have h1 := BothWays_length K l a b
    have h2 := BothWays_length K (AddEndPoints_BothWays K l a b)
      (Vec3iToColorClamp ((ColorToVec3i a).sub ((ColorToVec3i b).sub (ColorToVec3i a))))
      (Vec3iToColorClamp ((ColorToVec3i b).add ((ColorToVec3i b).sub (ColorToVec3i a))))
    have h3 := BothWays_length K _ (Vec3iToColorClamp ((ColorToVec3i a).sub
        ⟨Int.tdiv ((ColorToVec3i b).sub (ColorToVec3i a)).x 2,
         Int.tdiv ((ColorToVec3i b).sub (ColorToVec3i a)).y 2,
         Int.tdiv ((ColorToVec3i b).sub (ColorToVec3i a)).z 2⟩)) b
      |>.trans (Nat.add_le_add_right h2 2)
    refine (BothWays_length K _ _ _).trans ?_
    omega

theorem FilterEndpoints_length (l : List rrDXT1UnpackedEndPoints) (w : Nat) :
    (FilterEndpoints l w).length ≤ l.length := by
  unfold FilterEndpoints
  dsimp only
  split
  · simp
  · split
    · exact le_refl _
    · exact List.length_filter_le _ _

theorem FourMeans_candidates_length (K : Deps) (means : Means4) (flags : Nat) :
    (FourMeans_candidates K means flags).length ≤ 56 := by
  unfold FourMeans_candidates
  split
  · have h1 := BothWays_length K [] means.m0 means.m1
    have h2 := BothWays_length K (AddEndPoints_BothWays K [] means.m0 means.m1) means.m0 means.m2
    have h3 := BothWays_length K _ means.m0 means.m3 |>.trans (Nat.add_le_add_right h2 2)
    have h4 := BothWays_length K _ means.m1 means.m2 |>.trans (Nat.add_le_add_right h3 2)
    have h5 := BothWays_length K _ means.m1 means.m3 |>.trans (Nat.add_le_add_right h4 2)
    have h6 := BothWays_length K _ means.m2 means.m3 |>.trans (Nat.add_le_add_right h5 2)
    simp only [List.length_nil] at h1
    dsimp only
    omega
  · have h1 := TwoColorBest_length K [] means.m0 means.m3
    have h2 := TwoColorBest_length K (AddEndPoints_TwoColorBest K [] means.m0 means.m3)
      means.m1 means.m2
    have h3 := TwoColorBest_length K _ means.m0 means.m2 |>.trans (Nat.add_le_add_right h2 8)
    have h4 := TwoColorBest_length K _ means.m1 means.m3 |>.trans (Nat.add_le_add_right h3 8)
    have h5 := TwoColorBest_length K _ means.m0 means.m1 |>.trans (Nat.add_le_add_right h4 8)
    have h6 := TwoColorBest_length K _ means.m2 means.m3 |>.trans (Nat.add_le_add_right h5 8)
    have h7 := TwoColorBest_length K _ (K.Average means.m0 means.m1)
      (K.Average means.m2 means.m3) |>.trans (Nat.add_le_add_right h6 8)
    simp only [List.length_nil] at h1
    dsimp only
    omega

theorem FourMeans_scored_length (K : Deps) (data : rrCompressDXT1_Startup_Data)
    (colors : rrColorBlock4x4) (flags : Nat) :
    (FourMeans_scored K data colors flags).length ≤ 56 := by
  unfold FourMeans_scored
  exact (FilterEndpoints_length _ _).trans (FourMeans_candidates_length K _ flags)

/-! ## The reference collaborators meet the contracts -/

namespace Ref

theorem sqDiff_le (a b : Nat) (ha : a ≤ 255) (hb : b ≤ 255) : sqDiff a b ≤ 65025 := by
  unfold sqDiff
  rcases Nat.le_total a b with h | h
  · have h0 : a - b = 0 := by omega
    have h1 : b - a ≤ 255 := by omega
    rw [h0]; nlinarith
  · have h0 : b - a = 0 := by omega
    have h1 : a - b ≤ 255 := by omega
    rw [h0]; nlinarith

theorem dequantize_bytes (w : Nat) :
    (dequantize w).b ≤ 255 ∧ (dequantize w).g ≤ 255 ∧ (dequantize w).r ≤ 255
      ∧ (dequantize w).a ≤ 255 := by
  unfold dequantize
  refine ⟨?_, ?_, ?_, ?_⟩ <;> dsimp only <;> omega

theorem palette_head (c0 c1 : Nat) (mode : rrDXT1PaletteMode) :
    (DXT1_ComputePalette c0 c1 mode).getD 0 default = dequantize c0 := by
  unfold DXT1_ComputePalette
  dsimp only
  split <;> rfl

theorem nearest_le_head (pal : Palette) (p : rrColor32BGRA) :
    (nearest pal p).2 ≤ DeltaSqr p (pal.getD 0 default) := by
  unfold nearest
  dsimp only
  split_ifs <;> dsimp only <;> omega

theorem nearest_spec (pal : Palette) (p : rrColor32BGRA) :
    (nearest pal p).1 < 4 ∧ (nearest pal p).2 = DeltaSqr p (pal.getD (nearest pal p).1 default) := by
  unfold nearest
  dsimp only
  split_ifs <;> exact ⟨by norm_num, rfl⟩

theorem FindIndices_pixels_le (pal : Palette) (ps : List rrColor32BGRA)
    (hpal : (pal.getD 0 default).b ≤ 255 ∧ (pal.getD 0 default).g ≤ 255 ∧
      (pal.getD 0 default).r ≤ 255 ∧ (pal.getD 0 default).a ≤ 255)
    (hps : ∀ c ∈ ps, c.b ≤ 255 ∧ c.g ≤ 255 ∧ c.r ≤ 255 ∧ c.a ≤ 255) :
    (FindIndices_pixels pal ps).2 ≤ ps.length * 260100 := by
  induction ps with
  | nil => simp [FindIndices_pixels]
  | cons p ps ih =>
    simp only [FindIndices_pixels, List.length_cons]
    have h1 := nearest_le_head pal p
    obtain ⟨hb, hg, hr, ha⟩ := hps p (List.mem_cons_self _ _)
    have h2 : DeltaSqr p (pal.getD 0 default) ≤ 260100 := by
      unfold DeltaSqr
      have := sqDiff_le p.b _ hb hpal.1
      have := sqDiff_le p.g _ hg hpal.2.1
      have := sqDiff_le p.r _ hr hpal.2.2.1
      have := sqDiff_le p.a _ ha hpal.2.2.2
      omega
    have h3 := ih (fun c hc => hps c (List.mem_cons_of_mem _ hc))
    linarith

/-- The index word of the reference search decodes to the error it reports. -/
theorem ssdIndexed_FindIndices (pal : Palette) (ps : List rrColor32BGRA) :
    ssdIndexed pal ps (FindIndices_pixels pal ps).1 = (FindIndices_pixels pal ps).2 := by
  induction ps with
  | nil => rfl
  | cons p ps ih =>
    simp only [FindIndices_pixels, ssdIndexed]
    obtain ⟨h1, h2⟩ := nearest_spec pal p
    have hm : ((nearest pal p).1 + 4 * (FindIndices_pixels pal ps).1) % 4 = (nearest pal p).1 := by
      omega
    have hd : ((nearest pal p).1 + 4 * (FindIndices_pixels pal ps).1) / 4
        = (FindIndices_pixels pal ps).1 := by omega
    rw [hm, hd, ih, ← h2]

/-- The reference collaborators meet the evaluator contract on every tile of at
most 16 byte pixels. -/
theorem evalContract (colors : rrColorBlock4x4) (mode : rrDXT1PaletteMode)
    (hlen : colors.colors.length ≤ 16) (hb : TileBytes colors) :
    EvalContract deps colors mode where
  find_eval := fun _ => rfl
  eval_fit := by
    intro ep
    show (FindIndices_pixels (DXT1_ComputePalette ep.c0.pack ep.c1.pack mode) colors.colors).2
      < 2 ^ (32 - 7)
    have h := FindIndices_pixels_le (DXT1_ComputePalette ep.c0.pack ep.c1.pack mode) colors.colors
      (by rw [palette_head]; exact dequantize_bytes _) hb
    have : colors.colors.length * 260100 ≤ 16 * 260100 := Nat.mul_le_mul_right _ hlen
    norm_num
    omega

end Ref

/-! ## The random bytes of annealing -/

theorem tileWords_eq (cs : List rrColor32BGRA) :
    tileWords cs = tileWords_of_dw (cs.map rrColor32BGRA.dw) := by
  induction cs using tileWords.induct with
  | case1 c0 c1 rest ih => simp [tileWords, tileWords_of_dw, ih]
  | case2 cs h =>
    match cs, h with
    | [], _ => rfl
    | [c], _ => rfl
    | c0 :: c1 :: rest, h => exact absurd rfl (h c0 c1 rest)

theorem bytesLE_length (r : Nat) : (bytesLE r).length = 8 := by simp [bytesLE]

theorem bytesLE_lt (r b : Nat) (hb : b ∈ bytesLE r) : b < 256 := by
  simp only [bytesLE, List.mem_map] at hb
  obtain ⟨k, _, rfl⟩ := hb
  exact Nat.mod_lt _ (by norm_num)

theorem rng_fill_length (K : Deps) (n st : Nat) : (rng_fill K n st).length = 8 * n := by
  induction n generalizing st with
  | zero => rfl
  | succ n ih => simp [rng_fill, bytesLE_length, ih]; omega

theorem rng_fill_lt (K : Deps) (n st b : Nat) (hb : b ∈ rng_fill K n st) : b < 256 := by
  induction n generalizing st with
  | zero => simp [rng_fill] at hb
  | succ n ih =>
    simp only [rng_fill, List.mem_append] at hb
    rcases hb with hb | hb
    · exact bytesLE_lt _ _ hb
    · exact ih _ hb

theorem Anneal_round_data (K : Deps) (data data2 : rrCompressDXT1_Startup_Data)
    (h : data.has_any_alpha = data2.has_any_alpha) (colors : rrColorBlock4x4)
    (mode : rrDXT1PaletteMode) (rng_bytes : List Nat) :
    Anneal_round K data colors mode rng_bytes = Anneal_round K data2 colors mode rng_bytes := by
  funext s time
  unfold Anneal_round
  rw [h]

/-! ## Startup on flat tiles -/

theorem scan_hiC_zero (K : Deps) (mode : rrDXT1PaletteMode) (cs : List rrColor32BGRA)
    (h : ∀ c ∈ cs, c.b = 0 ∧ c.g = 0 ∧ c.r = 0) (s : StartupScan)
    (hs : s.hiC = ⟨0, 0, 0, 0⟩) :
    (cs.foldl (StartupScan.step K mode) s).hiC = ⟨0, 0, 0, 0⟩ := by
  induction cs generalizing s with
  | nil => exact hs
  | cons c cs ih =>
    simp only [List.foldl_cons]
    apply ih (fun c hc => h c (List.mem_cons_of_mem _ hc))
    obtain ⟨hb, hg, hr⟩ := h c (List.mem_cons_self _ _)
    unfold StartupScan.step
    dsimp only
    split <;> simp [hs, hb, hg, hr]

theorem scan_step_init_flat (K : Deps) (mode : rrDXT1PaletteMode) (c : rrColor32BGRA)
    (hb : c.b ≤ 255) (hg : c.g ≤ 255) (hr : c.r ≤ 255) (hdw : c.dw ≠ 0)
    (hx : rrDXT1_IsTransparentOrBlack K mode c = false) :
    StartupScan.step K mode StartupScan.init c = StartupScan.flat c 1 := by
  unfold StartupScan.step StartupScan.init StartupScan.flat
  simp [hx, hdw, rrVec3i.add, ColorToVec3i, hb, hg, hr]

theorem scan_step_flat (K : Deps) (mode : rrDXT1PaletteMode) (c : rrColor32BGRA) (k : Nat)
    (hdw : c.dw ≠ 0) (hx : rrDXT1_IsTransparentOrBlack K mode c = false) :
    StartupScan.step K mode (StartupScan.flat c k) c = StartupScan.flat c (k + 1) := by
  unfold StartupScan.step StartupScan.flat
  simp [hx, hdw, rrVec3i.add, ColorToVec3i]
  refine ⟨?_, ?_, ?_⟩ <;> ring

theorem scan_flat_replicate (K : Deps) (mode : rrDXT1PaletteMode) (c : rrColor32BGRA)
    (hdw : c.dw ≠ 0) (hx : rrDXT1_IsTransparentOrBlack K mode c = false) (n k : Nat) :
    (List.replicate n c).foldl (StartupScan.step K mode) (StartupScan.flat c k)
      = StartupScan.flat c (k + n) := by
  induction n generalizing k with
  | zero => rfl
  | succ n ih =>
    simp only [List.replicate_succ, List.foldl_cons]
    rw [scan_step_flat K mode c k hdw hx, ih]
    congr 1; omega

theorem scan_flatTile (K : Deps) (mode : rrDXT1PaletteMode) (c : rrColor32BGRA)
    (hb : c.b ≤ 255) (hg : c.g ≤ 255) (hr : c.r ≤ 255) (hdw : c.dw ≠ 0)
    (hx : rrDXT1_IsTransparentOrBlack K mode c = false) :
    StartupScan.run K mode (flatTile c) = StartupScan.flat c 16 := by
  unfold StartupScan.run flatTile
  show (List.replicate (15 + 1) c).foldl _ _ = _
  rw [List.replicate_succ, List.foldl_cons, scan_step_init_flat K mode c hb hg hr hdw hx,
    scan_flat_replicate K mode c hdw hx]

theorem Startup_Impl_flatTile (K : Deps) (pData : rrCompressDXT1_Startup_Data)
    (mode : rrDXT1PaletteMode) (c : rrColor32BGRA)
    (hb : c.b ≤ 255) (hg : c.g ≤ 255) (hr : c.r ≤ 255) (ha : c.a = 255)
    (hblack : ¬(c.b = 0 ∧ c.g = 0 ∧ c.r = 0))
    (hx : rrDXT1_IsTransparentOrBlack K mode c = false) :
    rrCompressDXT1_Startup_Impl K pData (flatTile c) mode []
      = (false, { pData with has_any_alpha := false },
          AddEndPoints_SingleColor_Compact_4C K [] c) := by
  have hdw : c.dw ≠ 0 := by unfold rrColor32BGRA.dw; omega
  unfold rrCompressDXT1_Startup_Impl
  rw [scan_flatTile K mode c hb hg hr hdw hx]
  have hhi : (StartupScan.flat c 16).hiC.dw ≠ 0 := by
    simp only [StartupScan.flat, rrColor32BGRA.dw]; omega
  have havg : Vec3iToColor ⟨(16 * (c.b : Int) + 8) / 16, (16 * (c.g : Int) + 8) / 16,
      (16 * (c.r : Int) + 8) / 16⟩ = c := by
    unfold Vec3iToColor
    have e1 : ((16 * (c.b : Int) + 8) / 16).toNat % 256 = c.b := by omega
    have e2 : ((16 * (c.g : Int) + 8) / 16).toNat % 256 = c.g := by omega
    have e3 : ((16 * (c.r : Int) + 8) / 16).toNat % 256 = c.r := by omega
    simp only [e1, e2, e3]
    cases c; simp_all
  simp only [hhi, if_false]
  simp only [StartupScan.flat] at havg ⊢
  simp [havg]

/-- A batch of one candidate. -/
theorem TryBatchedEndpoints_singleton (K : Deps) (pBlock : rrDXT1Block) (pError : Nat)
    (colors : rrColorBlock4x4) (mode : rrDXT1PaletteMode) (ep : rrDXT1UnpackedEndPoints)
    (hfind : (K.DXT1_FindIndices colors (K.ComputePalette_Unpacked ep mode)).2
      = K.eval_palette colors (K.ComputePalette_Unpacked ep mode))
    (hfit : K.eval_palette colors (K.ComputePalette_Unpacked ep mode) < 2 ^ (32 - K.COUNT_SHIFT)) :
    TryBatchedEndpoints K pBlock pError colors mode [ep] =
      if K.eval_palette colors (K.ComputePalette_Unpacked ep mode) < pError then
        (commitBlock K colors mode ep, K.eval_palette colors (K.ComputePalette_Unpacked ep mode))
      else (pBlock, pError) := by
  have hp : 0 < 2 ^ K.COUNT_SHIFT := Nat.two_pow_pos _
  have hkey : find_best_palette K colors (DXT1_ComputePalette_Batched K [ep] mode)
      = K.eval_palette colors (K.ComputePalette_Unpacked ep mode) * 2 ^ K.COUNT_SHIFT + 0 := by
    simp only [find_best_palette, DXT1_ComputePalette_Batched, eval_palettes, List.map, packKeys,
      minKey, List.foldl]
    rw [packKey_eq _ _ _ hfit hp]
    apply min_eq_right
    have : K.eval_palette colors (K.ComputePalette_Unpacked ep mode) * 2 ^ K.COUNT_SHIFT
        < 4294967296 := by
      have h := packKey_eq _ _ 0 hfit hp
      have hm : (K.eval_palette colors (K.ComputePalette_Unpacked ep mode) <<< K.COUNT_SHIFT)
          % 4294967296 < 2 ^ 32 := Nat.mod_lt _ (by norm_num)
      have := Nat.or_lt_two_pow hm (by norm_num : 0 < 2 ^ 32)
      unfold packKey at h
      omega
    omega
  unfold TryBatchedEndpoints
  simp only [hkey, key_div _ _ _ hp, COUNT_LIMIT, key_mod _ _ _ hp]
  split
  · simp only [DXT1_ComputePalette_Batched, List.map, List.getD_cons_zero, hfind]
    rfl
  · rfl

theorem levels_of_startup_stop (K : Deps) (data0 : rrCompressDXT1_Startup_Data)
    (pBlock : rrDXT1Block) (colors : rrColorBlock4x4) (options : Nat)
    (mode : rrDXT1PaletteMode)
    (h : (rrCompressDXT1_Startup K data0 pBlock K.RR_DXTC_INIT_ERROR colors mode options).ret
      = false) :
    rrCompressDXT1_0 K data0 pBlock colors options mode
      = ((rrCompressDXT1_Startup K data0 pBlock K.RR_DXTC_INIT_ERROR colors mode options).block,
         (rrCompressDXT1_Startup K data0 pBlock K.RR_DXTC_INIT_ERROR colors mode options).error) ∧
    rrCompressDXT1_1 K data0 pBlock colors options mode
      = ((rrCompressDXT1_Startup K data0 pBlock K.RR_DXTC_INIT_ERROR colors mode options).block,
         (rrCompressDXT1_Startup K data0 pBlock K.RR_DXTC_INIT_ERROR colors mode options).error) ∧
    rrCompressDXT1_2 K data0 pBlock colors options mode
      = ((rrCompressDXT1_Startup K data0 pBlock K.RR_DXTC_INIT_ERROR colors mode options).block,
         (rrCompressDXT1_Startup K data0 pBlock K.RR_DXTC_INIT_ERROR colors mode options).error) ∧
    ∀ level, rrCompressDXT1_3 K data0 pBlock colors options mode level
      = DXT1_GreedyOptimizeBlock K
          (rrCompressDXT1_Startup K data0 pBlock K.RR_DXTC_INIT_ERROR colors mode options).data
          (rrCompressDXT1_Startup K data0 pBlock K.RR_DXTC_INIT_ERROR colors mode options).block
          (rrCompressDXT1_Startup K data0 pBlock K.RR_DXTC_INIT_ERROR colors mode options).error
          colors mode true := by
  refine ⟨?_, ?_, ?_, ?_⟩
  · unfold rrCompressDXT1_0; dsimp only; rw [if_pos h]
  · unfold rrCompressDXT1_1; dsimp only; rw [if_pos h]
  · unfold rrCompressDXT1_2; dsimp only; rw [if_pos h]
  · intro level; unfold rrCompressDXT1_3; dsimp only; rw [if_pos h]

theorem Greedy_zero (K : Deps) (data : rrCompressDXT1_Startup_Data) (pBlock : rrDXT1Block)
    (colors : rrColorBlock4x4) (mode : rrDXT1PaletteMode) (joint : Bool) :
    DXT1_GreedyOptimizeBlock K data pBlock 0 colors mode joint = (pBlock, 0) := by
  unfold DXT1_GreedyOptimizeBlock
  rw [if_pos rfl]

/-! ## Every commit is the committed pair of its endpoints -/

theorem pack_lt (c : rrColorUnpacked565) : c.pack < 65536 := by
  unfold rrColorUnpacked565.pack; omega

theorem unpack_fields (w : Nat) :
    (rrColorUnpacked565.unpack w).b = w % 32 ∧ (rrColorUnpacked565.unpack w).g = w / 32 % 64 ∧
    (rrColorUnpacked565.unpack w).r = w / 2048 % 32 := by
  unfold rrColorUnpacked565.unpack rrColorUnpacked565.r rrColorUnpacked565.g
    rrColorUnpacked565.b
  dsimp only
  have ha : w % 32 < 32 := Nat.mod_lt _ (by norm_num)
  have hb : w / 32 % 64 < 64 := Nat.mod_lt _ (by norm_num)
  have hc : w / 2048 % 32 < 32 := Nat.mod_lt _ (by norm_num)
  generalize w % 32 = a at *
  generalize w / 32 % 64 = b at *
  generalize w / 2048 % 32 = c at *
  refine ⟨by omega, by omega, by omega⟩

theorem pack_unpack (w : Nat) (h : w < 65536) : (rrColorUnpacked565.unpack w).pack = w := by
  obtain ⟨hb, hg, hr⟩ := unpack_fields w
  unfold rrColorUnpacked565.pack
  rw [hb, hg, hr]
  omega

theorem le_maxKey (s e : Nat) (h : e < 2 ^ (32 - s)) : e ≤ 4294967295 >>> s := by
  rw [Nat.shiftRight_eq_div_pow, Nat.le_div_iff_mul_le (Nat.two_pow_pos s)]
  by_cases hs : s ≤ 32
  · have h1 : (2 : Nat) ^ (32 - s) * 2 ^ s = 4294967296 := by
      rw [← Nat.pow_add, Nat.sub_add_cancel hs]
    have h2 : (e + 1) * 2 ^ s ≤ 2 ^ (32 - s) * 2 ^ s := Nat.mul_le_mul_right _ h
    have hp : 0 < 2 ^ s := Nat.two_pow_pos s
    nlinarith
  · have h0 : 32 - s = 0 := by omega
    rw [h0] at h
    have : e = 0 := by omega
    subst this; simp

theorem Outcome.unchanged (K : Deps) (colors : rrColorBlock4x4) (mode : rrDXT1PaletteMode)
    (pBlock : rrDXT1Block) (pError : Nat) : Outcome K colors mode pBlock pError (pBlock, pError) :=
  Or.inl rfl

theorem Outcome.chain {K : Deps} {colors : rrColorBlock4x4} {mode : rrDXT1PaletteMode}
    {b0 b1 : rrDXT1Block} {e0 e1 : Nat} {r : rrDXT1Block × Nat}
    (h01 : Outcome K colors mode b0 e0 (b1, e1)) (h12 : Outcome K colors mode b1 e1 r) :
    Outcome K colors mode b0 e0 r := by
  rcases h12 with h | ⟨hlt, hc⟩
  · rw [h]; exact h01
  · right
    refine ⟨?_, hc⟩
    rcases h01 with h | ⟨hlt0, _⟩
    · simp only [Prod.mk.injEq] at h; omega
    · simp only at hlt0; omega

/-- Under the contracts the error of a committed pair fits the packed key, is below
the initial error and is the decoded error of its block. -/
theorem Committed.facts {K : Deps} {colors : rrColorBlock4x4} {mode : rrDXT1PaletteMode}
    (hK : EvalContract K colors mode) (hD : DecodeContract K colors mode)
    {r : rrDXT1Block × Nat} (h : Committed K colors mode r) :
    r.2 < 2 ^ (32 - K.COUNT_SHIFT) ∧ r.2 < K.RR_DXTC_INIT_ERROR ∧
    r.2 = K.DXT1_ComputeSSD_OneBitTransparent colors r.1 mode ∧ r.1.c0 < 65536 ∧
    r.1.c1 < 65536 := by
  obtain ⟨c0, c1, h0, h1, rfl⟩ := h
  have hp := hD.palette_unpacked ⟨rrColorUnpacked565.unpack c0, rrColorUnpacked565.unpack c1⟩
  simp only [pack_unpack c0 h0, pack_unpack c1 h1] at hp
  have hf := hK.find_eval ⟨rrColorUnpacked565.unpack c0, rrColorUnpacked565.unpack c1⟩
  have hfit := hK.eval_fit ⟨rrColorUnpacked565.unpack c0, rrColorUnpacked565.unpack c1⟩
  have hin := hD.eval_lt_init ⟨rrColorUnpacked565.unpack c0, rrColorUnpacked565.unpack c1⟩
  rw [← hf, hp] at hfit hin
  exact ⟨hfit, hin, hD.find_ssd c0 c1, h0, h1⟩

/-- The block `TryBatchedEndpoints` commits is a committed pair. -/
theorem commitBlock_committed {K : Deps} {colors : rrColorBlock4x4} {mode : rrDXT1PaletteMode}
    (hK : EvalContract K colors mode) (hD : DecodeContract K colors mode)
    (ep : rrDXT1UnpackedEndPoints) :
    (commitBlock K colors mode ep, K.eval_palette colors (K.ComputePalette_Unpacked ep mode))
      = committed K colors mode ep.c0.pack ep.c1.pack := by
  unfold commitBlock committed
  rw [← hK.find_eval ep, hD.palette_unpacked ep]

theorem TryBatchedEndpoints_outcome (K : Deps) (pBlock : rrDXT1Block) (pError : Nat)
    (colors : rrColorBlock4x4) (mode : rrDXT1PaletteMode)
    (eps : List rrDXT1UnpackedEndPoints) (hcount : eps.length < COUNT_LIMIT K)
    (hK : EvalContract K colors mode) (hD : DecodeContract K colors mode)
    (hE : eps = [] → pError ≤ 4294967295 >>> K.COUNT_SHIFT) :
    Outcome K colors mode pBlock pError (TryBatchedEndpoints K pBlock pError colors mode eps) := by
  by_cases hne : eps = []
  · subst hne
    rw [TryBatchedEndpoints_nil K pBlock pError colors mode (hE rfl)]
    exact Outcome.unchanged _ _ _ _ _
  · obtain ⟨j, _, _, h⟩ := TryBatchedEndpoints_spec K pBlock pError colors mode eps hne hcount hK
    rw [h]
    split
    · right
      rename_i hlt
      exact ⟨hlt, (eps.getD j default).c0.pack, (eps.getD j default).c1.pack, pack_lt _,
        pack_lt _, commitBlock_committed hK hD _⟩
    · exact Outcome.unchanged _ _ _ _ _

theorem Inherit_Reindex_outcome (K : Deps) (pBlock : rrDXT1Block) (pError : Nat)
    (colors : rrColorBlock4x4) (mode : rrDXT1PaletteMode) :
    Outcome K colors mode pBlock pError
      (DXT1_OptimizeEndPointsFromIndices_Inherit_Reindex K pBlock pError colors mode).2 := by
  rcases Inherit_Reindex_cases K pBlock pError colors mode with h | ⟨c0, c1, h, hlt, _, h0, h1, _⟩
  · rw [h]; exact Outcome.unchanged _ _ _ _ _
  · rw [h]; exact Or.inr ⟨hlt, c0, c1, h0, h1, rfl⟩

theorem Iterative_loop_outcome (K : Deps) (colors : rrColorBlock4x4) (mode : rrDXT1PaletteMode)
    (fuel : Nat) (pBlock : rrDXT1Block) (pError : Nat) :
    Outcome K colors mode pBlock pError (Iterative_loop K colors mode fuel pBlock pError) := by
  induction fuel generalizing pBlock pError with
  | zero => exact Outcome.unchanged _ _ _ _ _
  | succ n ih =>
    unfold Iterative_loop
    have hm := Inherit_Reindex_outcome K pBlock pError colors mode
    simp only
    split
    · exact hm
    · split
      · exact hm
      · exact Outcome.chain hm (ih _ _)

theorem Iterative_outcome (K : Deps) (pBlock : rrDXT1Block) (pError : Nat)
    (colors : rrColorBlock4x4) (mode : rrDXT1PaletteMode) :
    Outcome K colors mode pBlock pError
      (DXT1_OptimizeEndPointsFromIndicesIterative K pBlock pError colors mode) :=
  Iterative_loop_outcome K colors mode _ pBlock pError

theorem Outcome.committed_of {K : Deps} {colors : rrColorBlock4x4} {mode : rrDXT1PaletteMode}
    {b : rrDXT1Block} {e : Nat} {r : rrDXT1Block × Nat}
    (h : Outcome K colors mode b e r) (hc : Committed K colors mode (b, e)) :
    Committed K colors mode r := by
  rcases h with h | ⟨_, h⟩
  · rw [h]; exact hc
  · exact h

theorem Heavy_trial_committed (K : Deps) (colors : rrColorBlock4x4) (mode : rrDXT1PaletteMode)
    (c0 c1 : Nat) (h0 : c0 < 65536) (h1 : c1 < 65536) :
    Committed K colors mode (Heavy_trial K colors mode c0 c1) := by
  unfold Heavy_trial
  exact (Iterative_outcome K _ _ colors mode).committed_of ⟨c0, c1, h0, h1, rfl⟩

theorem Committed.endpoints_lt {K : Deps} {colors : rrColorBlock4x4} {mode : rrDXT1PaletteMode}
    {r : rrDXT1Block × Nat} (h : Committed K colors mode r) :
    r.1.c0 < 65536 ∧ r.1.c1 < 65536 := by
  obtain ⟨c0, c1, h0, h1, rfl⟩ := h
  exact ⟨h0, h1⟩

theorem Heavy_pair_outcome (K : Deps) (colors : rrColorBlock4x4) (mode : rrDXT1PaletteMode)
    (st : Bool × rrDXT1Block × Nat) (p : Nat × Nat) (h0 : p.1 < 65536) (h1 : p.2 < 65536) :
    Outcome K colors mode st.2.1 st.2.2 (Heavy_pair K colors mode st p).2 := by
  have ht := Heavy_trial_committed K colors mode p.1 p.2 h0 h1
  have ht2 := Heavy_trial_committed K colors mode _ _ ht.endpoints_lt.2 ht.endpoints_lt.1
  unfold Heavy_pair
  dsimp only
  by_cases hm : mode ≠ rrDXT1PaletteMode.FourColor
  · rw [if_pos hm]
    by_cases h1 : (Heavy_trial K colors mode p.1 p.2).2 < st.2.2
    · rw [if_pos h1]
      dsimp only
      by_cases h2 : (Heavy_trial K colors mode (Heavy_trial K colors mode p.1 p.2).1.c1
          (Heavy_trial K colors mode p.1 p.2).1.c0).2 < (Heavy_trial K colors mode p.1 p.2).2
      · rw [if_pos h2]; right; exact ⟨lt_trans h2 h1, ht2⟩
      · rw [if_neg h2]; right; exact ⟨h1, ht⟩
    · rw [if_neg h1]
      by_cases h2 : (Heavy_trial K colors mode (Heavy_trial K colors mode p.1 p.2).1.c1
          (Heavy_trial K colors mode p.1 p.2).1.c0).2 < st.2.2
      · rw [if_pos h2]; right; exact ⟨h2, ht2⟩
      · rw [if_neg h2]; left; rfl
  · rw [if_neg hm]
    by_cases h1 : (Heavy_trial K colors mode p.1 p.2).2 < st.2.2
    · rw [if_pos h1]; right; exact ⟨h1, ht⟩
    · rw [if_neg h1]; left; rfl

theorem mem_allPairs (l : List Nat) (p : Nat × Nat) (hp : p ∈ allPairs l) :
    p.1 ∈ l ∧ p.2 ∈ l := by
  induction l with
  | nil => simp [allPairs] at hp
  | cons x rest ih =>
    simp only [allPairs, List.mem_append, List.mem_map] at hp
    rcases hp with ⟨y, hy, rfl⟩ | hp
    · exact ⟨List.mem_cons_self _ _, List.mem_cons_of_mem _ hy⟩
    · exact ⟨List.mem_cons_of_mem _ (ih hp).1, List.mem_cons_of_mem _ (ih hp).2⟩

theorem mem_unique (l : List Nat) (x : Nat) (hx : x ∈ unique l) : x ∈ l := by
  induction l with
  | nil => simp [unique] at hx
  | cons a rest ih =>
    cases rest with
    | nil => simpa [unique] using hx
    | cons b rest =>
      by_cases hab : a = b
      · rw [unique, if_pos hab] at hx
        exact List.mem_cons_of_mem _ (ih hx)
      · rw [unique, if_neg hab] at hx
        rcases List.mem_cons.mp hx with rfl | h
        · exact List.mem_cons_self _ _
        · exact List.mem_cons_of_mem _ (ih h)

theorem Heavy_uniques_lt (K : Deps) (colors : rrColorBlock4x4) (x : Nat)
    (hx : x ∈ Heavy_uniques K colors) : x < 65536 := by
  have h1 := mem_unique _ _ hx
  have h2 := (List.perm_insertionSort _ _).mem_iff.mp h1
  simp only [List.mem_map] at h2
  obtain ⟨c, _, rfl⟩ := h2
  exact Nat.mod_lt _ (by norm_num)

theorem Heavy_fold_outcome (K : Deps) (colors : rrColorBlock4x4) (mode : rrDXT1PaletteMode)
    (ps : List (Nat × Nat)) (hps : ∀ p ∈ ps, p.1 < 65536 ∧ p.2 < 65536)
    (st : Bool × rrDXT1Block × Nat) :
    Outcome K colors mode st.2.1 st.2.2 (ps.foldl (Heavy_pair K colors mode) st).2 := by
  induction ps generalizing st with
  | nil => exact Outcome.unchanged _ _ _ _ _
  | cons p ps ih =>
    simp only [List.foldl_cons]
    have hp := hps p (List.mem_cons_self _ _)
    exact Outcome.chain (Heavy_pair_outcome K colors mode st p hp.1 hp.2)
      (ih (fun q hq => hps q (List.mem_cons_of_mem _ hq)) _)

theorem Heavy_outcome (K : Deps) (pBlock : rrDXT1Block) (pError : Nat)
    (colors : rrColorBlock4x4) (mode : rrDXT1PaletteMode) :
    Outcome K colors mode pBlock pError
      (Compress_TryAllPairs_Heavy K pBlock pError colors mode).2 := by
  unfold Compress_TryAllPairs_Heavy
  simp only
  split
  · exact Outcome.unchanged _ _ _ _ _
  · apply Heavy_fold_outcome K colors mode _ _ (false, pBlock, pError)
    intro p hp
    have := mem_allPairs _ p hp
    exact ⟨Heavy_uniques_lt K colors _ this.1, Heavy_uniques_lt K colors _ this.2⟩

theorem foldl_length_le {α β : Type} (k : Nat) (f : List α → β → List α)
    (hf : ∀ acc x, (f acc x).length ≤ acc.length + k) (l : List β) (init : List α) :
    (l.foldl f init).length ≤ init.length + k * l.length := by
  induction l generalizing init with
  | nil => simp
  | cons x xs ih =>
    simp only [List.foldl_cons, List.length_cons]
    have h1 := ih (f init x)
    have h2 := hf init x
    have : k * (xs.length + 1) = k * xs.length + k := by ring
    omega

theorem Greedy_trials_length (has_any_alpha joint : Bool) (start0 start1 : rrColorUnpacked565) :
    (Greedy_trials has_any_alpha joint start0 start1).length ≤ 49 := by
  unfold Greedy_trials
  split
  · unfold Greedy_trials_joint
    have := foldl_length_le (α := rrDXT1UnpackedEndPoints) 7 _ (fun acc w1 => by
      have h := foldl_length_le (α := rrDXT1UnpackedEndPoints) 1
        (fun acc w2 =>
          if Wiggle start0 w1 = start0 ∧ Wiggle start1 w2 = start1 then acc
          else if has_any_alpha = true ∧ (Wiggle start1 w2).dw < (Wiggle start0 w1).dw then acc
          else acc ++ [⟨Wiggle start0 w1, Wiggle start1 w2⟩])
        (fun acc x => by dsimp only; split_ifs <;> simp)
        (List.range (NUM_WIGGLES + 1)) acc
      simpa [NUM_WIGGLES] using h) (List.range (NUM_WIGGLES + 1)) []
    simpa [NUM_WIGGLES] using this
  · unfold Greedy_trials_independent
    dsimp only
    have h1 := foldl_length_le (α := rrDXT1UnpackedEndPoints) 1
      (fun acc w1 =>
        if Wiggle start0 w1 = start0 then acc
        else if has_any_alpha = true ∧ start1.dw < (Wiggle start0 w1).dw then acc
        else acc ++ [⟨Wiggle start0 w1, start1⟩])
      (fun acc x => by dsimp only; split_ifs <;> simp) (List.range NUM_WIGGLES) []
    have h2 := foldl_length_le (α := rrDXT1UnpackedEndPoints) 1
      (fun acc w2 =>
        if Wiggle start1 w2 = start1 then acc
        else if has_any_alpha = true ∧ (Wiggle start1 w2).dw < start0.dw then acc
        else acc ++ [⟨start0, Wiggle start1 w2⟩])
      (fun acc x => by dsimp only; split_ifs <;> simp) (List.range NUM_WIGGLES)
      ((List.range NUM_WIGGLES).foldl
        (fun acc w1 =>
          if Wiggle start0 w1 = start0 then acc
          else if has_any_alpha = true ∧ start1.dw < (Wiggle start0 w1).dw then acc
          else acc ++ [⟨Wiggle start0 w1, start1⟩]) [])
    simp only [NUM_WIGGLES, List.length_range, List.length_nil] at h1 h2 ⊢
    omega

/-- One run of the greedy loop: nothing changed, or a lower error that is the
evaluator's error of the new endpoints, which the block holds packed. -/
theorem Greedy_loop_spec (K : Deps) (data : rrCompressDXT1_Startup_Data)
    (colors : rrColorBlock4x4) (mode : rrDXT1PaletteMode) (joint : Bool)
    (hK : EvalContract K colors mode) (hL : 56 < COUNT_LIMIT K) (fuel : Nat) (s : GreedyLoop)
    (hE : s.error ≤ 4294967295 >>> K.COUNT_SHIFT) :
    Greedy_loop K data colors mode joint fuel s = s ∨
    ((Greedy_loop K data colors mode joint fuel s).error < s.error ∧
     (Greedy_loop K data colors mode joint fuel s).block
       = ⟨(Greedy_loop K data colors mode joint fuel s).best0.pack,
          (Greedy_loop K data colors mode joint fuel s).best1.pack, s.block.indices⟩ ∧
     (Greedy_loop K data colors mode joint fuel s).error
       = K.eval_palette colors (K.ComputePalette_Unpacked
          ⟨(Greedy_loop K data colors mode joint fuel s).best0,
           (Greedy_loop K data colors mode joint fuel s).best1⟩ mode)) := by
  induction fuel generalizing s with
  | zero => left; rfl
  | succ n ih =>
    unfold Greedy_loop
    dsimp only
    by_cases hne : Greedy_trials data.has_any_alpha joint s.best0 s.best1 = []
    · left
      have : find_best_palette K colors (DXT1_ComputePalette_Batched K
          (Greedy_trials data.has_any_alpha joint s.best0 s.best1) mode) = 4294967295 := by
        rw [hne]
        simp [find_best_palette, DXT1_ComputePalette_Batched, eval_palettes, packKeys, minKey]
      rw [this, if_neg (by omega)]
    · have hcount : (Greedy_trials data.has_any_alpha joint s.best0 s.best1).length
          < COUNT_LIMIT K :=
        lt_of_le_of_lt (Greedy_trials_length _ _ _ _) (by omega)
      obtain ⟨j, hj, h1, h2, _⟩ := find_best_palette_spec K colors mode _ hne hcount hK
      rw [h1, h2]
      by_cases hlt : candErr K colors mode
          (Greedy_trials data.has_any_alpha joint s.best0 s.best1) j < s.error
      · rw [if_pos hlt]
        right
        by_cases h0 : candErr K colors mode
            (Greedy_trials data.has_any_alpha joint s.best0 s.best1) j = 0
        · rw [if_pos h0]
          exact ⟨hlt, rfl, rfl⟩
        · rw [if_neg h0]
          rcases ih ⟨⟨((Greedy_trials data.has_any_alpha joint s.best0 s.best1).getD j
              default).c0.pack, ((Greedy_trials data.has_any_alpha joint s.best0 s.best1).getD j
              default).c1.pack, s.block.indices⟩,
              candErr K colors mode (Greedy_trials data.has_any_alpha joint s.best0 s.best1) j,
              ((Greedy_trials data.has_any_alpha joint s.best0 s.best1).getD j default).c0,
              ((Greedy_trials data.has_any_alpha joint s.best0 s.best1).getD j default).c1⟩
            (by dsimp only; omega) with h | ⟨ha, hb, hc⟩
          · rw [h]; exact ⟨hlt, rfl, rfl⟩
          · exact ⟨lt_trans ha hlt, hb, hc⟩
      · rw [if_neg hlt]; left; trivial

theorem Greedy_outcome (K : Deps) (data : rrCompressDXT1_Startup_Data) (pBlock : rrDXT1Block)
    (pError : Nat) (colors : rrColorBlock4x4) (mode : rrDXT1PaletteMode) (joint : Bool)
    (hK : EvalContract K colors mode) (hD : DecodeContract K colors mode)
    (hL : 56 < COUNT_LIMIT K) (hE : pError ≤ 4294967295 >>> K.COUNT_SHIFT) :
    Outcome K colors mode pBlock pError
      (DXT1_GreedyOptimizeBlock K data pBlock pError colors mode joint) := by
  unfold DXT1_GreedyOptimizeBlock DXT1_GreedyOptimizeBlock_Inner
  dsimp only
  split
  · exact Outcome.unchanged _ _ _ _ _
  · rcases Greedy_loop_spec K data colors mode joint hK hL (pError + 1)
      ⟨pBlock, pError, rrColorUnpacked565.unpack pBlock.c0, rrColorUnpacked565.unpack pBlock.c1⟩
      hE with h | ⟨ha, hb, hc⟩
    · rw [h]
      dsimp only
      rw [if_neg (by simp)]
      exact Outcome.unchanged _ _ _ _ _
    · revert ha hb hc
      generalize Greedy_loop K data colors mode joint (pError + 1) _ = s
      intro ha hb hc
      dsimp only at ha hb hc
      rw [if_pos (by omega)]
      right
      refine ⟨ha, s.best0.pack, s.best1.pack, pack_lt _, pack_lt _, ?_⟩
      rw [hb]
      dsimp only
      rw [hc, ← commitBlock_committed hK hD ⟨s.best0, s.best1⟩]
      unfold commitBlock
      rw [hD.palette_unpacked]

theorem foldl_invariant {σ β : Type} (P : σ → Prop) (f : σ → β → σ) (l : List β)
    (hf : ∀ s x, x ∈ l → P s → P (f s x)) (init : σ) (h0 : P init) : P (l.foldl f init) := by
  induction l generalizing init with
  | nil => exact h0
  | cons x xs ih =>
    simp only [List.foldl_cons]
    exact ih (fun s y hy hs => hf s y (List.mem_cons_of_mem _ hy) hs) _
      (hf init x (List.mem_cons_self _ _) h0)

theorem Anneal_accept_inv (K : Deps) (colors : rrColorBlock4x4) (mode : rrDXT1PaletteMode)
    (e0 : Nat) (thresh : Int) (ep : rrDXT1UnpackedEndPoints) (i : Nat) (s : AnnealLoop)
    (h : AnnealInv K colors mode e0 s) :
    AnnealInv K colors mode e0
      (Anneal_accept thresh ep (K.eval_palette colors (K.ComputePalette_Unpacked ep mode)) i s) := by
  obtain ⟨h1, h2⟩ := h
  unfold Anneal_accept AnnealInv
  split_ifs
  · exact ⟨h1, h2⟩
  · exact ⟨h1, h2⟩
  · exact ⟨by dsimp only; omega, fun _ => rfl⟩
  · exact ⟨by dsimp only; omega, fun _ => rfl⟩
  · exact ⟨h1, h2⟩

theorem Anneal_round_inv (K : Deps) (data : rrCompressDXT1_Startup_Data)
    (colors : rrColorBlock4x4) (mode : rrDXT1PaletteMode) (rng_bytes : List Nat) (e0 : Nat)
    (s : AnnealLoop) (time : Nat) (h : AnnealInv K colors mode e0 s) :
    AnnealInv K colors mode e0 (Anneal_round K data colors mode rng_bytes s time) := by
  unfold Anneal_round
  split
  · exact h
  · dsimp only
    apply foldl_invariant (AnnealInv K colors mode e0)
    · intro s2 i hi hs2
      have hi4 : i < 4 := List.mem_range.mp hi
      have hlen : ((List.range 4).map (fun i =>
          Anneal_trial data.has_any_alpha (s.cur.getD i default)
            (rng_bytes.getD (time * 4 + i) 0))).length = 4 := by simp
      rw [eval_palettes_getD K colors mode _ i (by rw [hlen]; exact hi4)]
      exact Anneal_accept_inv K colors mode e0 _ _ i s2 hs2
    · exact h

theorem Anneal_outcome (K : Deps) (data : rrCompressDXT1_Startup_Data) (pBlock : rrDXT1Block)
    (pError : Nat) (colors : rrColorBlock4x4) (mode : rrDXT1PaletteMode) (expensive_mode : Bool)
    (hK : EvalContract K colors mode) (hD : DecodeContract K colors mode) :
    Outcome K colors mode pBlock pError
      (DXT1_AnnealBlock K data pBlock pError colors mode expensive_mode) := by
  unfold DXT1_AnnealBlock
  dsimp only
  have h : AnnealInv K colors mode pError (Anneal_loop K data colors mode
      (Anneal_rng_bytes K colors)
      ⟨List.replicate 4 ⟨rrColorUnpacked565.unpack pBlock.c0,
        rrColorUnpacked565.unpack pBlock.c1⟩, List.replicate 4 pError, pError,
        ⟨rrColorUnpacked565.unpack pBlock.c0, rrColorUnpacked565.unpack pBlock.c1⟩, false⟩) := by
    unfold Anneal_loop
    apply foldl_invariant (AnnealInv K colors mode pError)
    · intro s t _ hs
      exact Anneal_round_inv K data colors mode _ pError s t hs
    · exact ⟨le_refl _, fun h => absurd rfl h⟩
  revert h
  generalize Anneal_loop K data colors mode (Anneal_rng_bytes K colors) _ = s
  intro h
  obtain ⟨h1, h2⟩ := h
  unfold Outcome
  split
  · rename_i hne
    right
    refine ⟨lt_of_le_of_ne h1 hne, s.best.c0.pack, s.best.c1.pack, pack_lt _, pack_lt _, ?_⟩
    show (_, s.error) = _
    rw [h2 hne, ← commitBlock_committed hK hD s.best]
    unfold commitBlock
    rw [hD.palette_unpacked]
  · left; rfl

theorem FourMeans_outcome (K : Deps) (data : rrCompressDXT1_Startup_Data) (pBlock : rrDXT1Block)
    (pError : Nat) (colors : rrColorBlock4x4) (mode : rrDXT1PaletteMode) (flags : Nat)
    (hK : EvalContract K colors mode) (hD : DecodeContract K colors mode)
    (hL : 56 < COUNT_LIMIT K) (hE : pError ≤ 4294967295 >>> K.COUNT_SHIFT) :
    Outcome K colors mode pBlock pError
      (rrCompressDXT1_4Means K data pBlock pError colors mode flags).2 ∧
    (rrCompressDXT1_4Means K data pBlock pError colors mode flags).1 = true := by
  unfold rrCompressDXT1_4Means
  exact ⟨TryBatchedEndpoints_outcome K pBlock pError colors mode _
    (lt_of_le_of_lt (FourMeans_scored_length K data colors flags) hL) hK hD (fun _ => hE), rfl⟩

/-! ## Startup on canonical tiles -/

theorem scan_num_transparent (K : Deps) (mode : rrDXT1PaletteMode) (cs : List rrColor32BGRA)
    (s : StartupScan) :
    (cs.foldl (StartupScan.step K mode) s).num_transparent
      = s.num_transparent + cs.countP (fun c => decide (c.dw = 0)) := by
  induction cs generalizing s with
  | nil => simp
  | cons c cs ih =>
    simp only [List.foldl_cons, ih, List.countP_cons]
    unfold StartupScan.step
    dsimp only
    by_cases h : c.dw = 0 <;> split <;> simp [h] <;> omega

theorem scan_num_colors (K : Deps) (mode : rrDXT1PaletteMode) (cs : List rrColor32BGRA)
    (s : StartupScan) :
    (cs.foldl (StartupScan.step K mode) s).num_colors
      = s.num_colors + cs.countP (fun c => !rrDXT1_IsTransparentOrBlack K mode c) := by
  induction cs generalizing s with
  | nil => simp
  | cons c cs ih =>
    simp only [List.foldl_cons, ih, List.countP_cons]
    unfold StartupScan.step
    dsimp only
    split <;> simp_all <;> omega

/-- On a canonical tile a transparent pixel leaves fewer than 16 counted colours. -/
theorem scan_canonical (K : Deps) (mode : rrDXT1PaletteMode) (colors : rrColorBlock4x4)
    (hcan : IsBC1Canonical K colors mode)
    (ht : 0 < (StartupScan.run K mode colors).num_transparent) :
    (StartupScan.run K mode colors).num_colors < 16 := by
  unfold StartupScan.run at ht ⊢
  rw [scan_num_transparent] at ht
  rw [scan_num_colors]
  simp only [StartupScan.init, Nat.zero_add] at ht ⊢
  obtain ⟨c, hc, hdw⟩ := List.countP_pos_iff.mp ht
  simp only [decide_eq_true_eq] at hdw
  obtain ⟨hm, htr⟩ := hcan.2 c hc hdw
  have hx : rrDXT1_IsTransparentOrBlack K mode c = true := by
    rw [hm]; exact htr
  have hlt : colors.colors.countP (fun c => !rrDXT1_IsTransparentOrBlack K mode c)
      < colors.colors.length := by
    rw [List.countP_eq_length_filter]
    apply List.length_filter_lt_length_iff_exists.mpr
    exact ⟨c, hc, by simp [hx]⟩
  rw [hcan.1] at hlt
  exact hlt

theorem Default_length (K : Deps) (l : List rrDXT1UnpackedEndPoints) (mode : rrDXT1PaletteMode)
    (a b : rrColor32BGRA) :
    l.length ≤ (AddEndPoints_Default K l mode a b).length ∧
    (AddEndPoints_Default K l mode a b).length ≤ l.length + 2 := by
  unfold AddEndPoints_Default
  dsimp only
  split_ifs <;> simp

theorem Force3C_length (K : Deps) (l : List rrDXT1UnpackedEndPoints) (a b : rrColor32BGRA) :
    (AddEndPoints_Force3C K l a b).length = l.length + 1 := by
  unfold AddEndPoints_Force3C
  dsimp only
  split_ifs <;> simp

theorem Default_bounds (K : Deps) (l : List rrDXT1UnpackedEndPoints) (mode : rrDXT1PaletteMode)
    (a b : rrColor32BGRA) (h1 : 1 ≤ l.length) (h3 : l.length ≤ 3) :
    1 ≤ (AddEndPoints_Default K l mode a b).length ∧
    (AddEndPoints_Default K l mode a b).length ≤ 5 := by
  have := Default_length K l mode a b
  omega

/-- On a canonical tile startup emits at least one and at most five candidates. -/
theorem Startup_Impl_count (K : Deps) (pData : rrCompressDXT1_Startup_Data)
    (colors : rrColorBlock4x4) (mode : rrDXT1PaletteMode)
    (hcan : IsBC1Canonical K colors mode) :
    1 ≤ (rrCompressDXT1_Startup_Impl K pData colors mode []).2.2.length ∧
    (rrCompressDXT1_Startup_Impl K pData colors mode []).2.2.length ≤ 5 := by
  have hsc := scan_canonical K mode colors hcan
  unfold rrCompressDXT1_Startup_Impl
  dsimp only
  generalize StartupScan.run K mode colors = s at hsc ⊢
  by_cases h0 : s.hiC.dw = 0
  · rw [if_pos h0]; simp
  · rw [if_neg h0]
    by_cases ht : 0 < s.num_transparent
    · have hnc := hsc ht
      simp only [ht, decide_True, Bool.not_true, if_pos hnc, Bool.false_eq_true, if_false]
      unfold AddEndPoints_SingleColor_Compact_3C
      split_ifs <;> dsimp only <;>
        first
          | (apply Default_bounds <;> simp [Force3C_length])
          | simp [Force3C_length]
    · simp only [ht, decide_False, Bool.not_false, if_true]
      unfold AddEndPoints_SingleColor_Compact_4C AddEndPoints_SingleColor_Compact_3C
      split_ifs <;> dsimp only <;>
        first
          | (apply Default_bounds <;> simp [Force3C_length])
          | simp [Force3C_length]

theorem Committed.error_le_maxKey {K : Deps} {colors : rrColorBlock4x4} {mode : rrDXT1PaletteMode}
    (hK : EvalContract K colors mode) (hD : DecodeContract K colors mode)
    {r : rrDXT1Block × Nat} (h : Committed K colors mode r) :
    r.2 ≤ 4294967295 >>> K.COUNT_SHIFT :=
  RR.le_maxKey _ _ (h.facts hK hD).1

/-- On a canonical tile startup always commits one of its candidates. -/
theorem Startup_committed (K : Deps) (data0 : rrCompressDXT1_Startup_Data)
    (pBlock : rrDXT1Block) (colors : rrColorBlock4x4) (mode : rrDXT1PaletteMode) (options : Nat)
    (hK : EvalContract K colors mode) (hD : DecodeContract K colors mode)
    (hL : 56 < COUNT_LIMIT K) (hcan : IsBC1Canonical K colors mode) :
    Committed K colors mode
      ((rrCompressDXT1_Startup K data0 pBlock K.RR_DXTC_INIT_ERROR colors mode options).block,
       (rrCompressDXT1_Startup K data0 pBlock K.RR_DXTC_INIT_ERROR colors mode options).error) := by
  unfold rrCompressDXT1_Startup
  dsimp only
  obtain ⟨h1, h5⟩ := Startup_Impl_count K data0 colors mode hcan
  have hne : (rrCompressDXT1_Startup_Impl K data0 colors mode []).2.2 ≠ [] := by
    intro h; rw [h] at h1; simp at h1
  obtain ⟨j, _, _, h⟩ := TryBatchedEndpoints_spec K pBlock K.RR_DXTC_INIT_ERROR colors mode
    _ hne (by omega) hK
  have hlt : candErr K colors mode (rrCompressDXT1_Startup_Impl K data0 colors mode []).2.2 j
      < K.RR_DXTC_INIT_ERROR := hD.eval_lt_init _
  rw [h, if_pos hlt]
  exact ⟨_, _, pack_lt _, pack_lt _, commitBlock_committed hK hD _⟩

/-- On a canonical tile every level function returns a committed pair. -/
theorem levels_committed (K : Deps) (data0 : rrCompressDXT1_Startup_Data)
    (pBlock : rrDXT1Block) (colors : rrColorBlock4x4) (mode : rrDXT1PaletteMode)
    (options level : Nat)
    (hK : EvalContract K colors mode) (hD : DecodeContract K colors mode)
    (hL : 56 < COUNT_LIMIT K) (hcan : IsBC1Canonical K colors mode) :
    Committed K colors mode (rrCompressDXT1_0 K data0 pBlock colors options mode) ∧
    Committed K colors mode (rrCompressDXT1_1 K data0 pBlock colors options mode) ∧
    Committed K colors mode (rrCompressDXT1_2 K data0 pBlock colors options mode) ∧
    Committed K colors mode (rrCompressDXT1_3 K data0 pBlock colors options mode level) := by
  have hs := Startup_committed K data0 pBlock colors mode options hK hD hL hcan
  have hm : ∀ (data : rrCompressDXT1_Startup_Data) (r : rrDXT1Block × Nat) (flags : Nat),
      Committed K colors mode r →
      Committed K colors mode (rrCompressDXT1_4Means K data r.1 r.2 colors mode flags).2 :=
    fun data r flags hr =>
      (FourMeans_outcome K data r.1 r.2 colors mode flags hK hD hL
        (hr.error_le_maxKey hK hD)).1.committed_of hr
  have hit : ∀ (r : rrDXT1Block × Nat), Committed K colors mode r →
      Committed K colors mode
        (DXT1_OptimizeEndPointsFromIndicesIterative K r.1 r.2 colors mode) :=
    fun r hr => (Iterative_outcome K _ _ colors mode).committed_of hr
  have hg : ∀ (data : rrCompressDXT1_Startup_Data) (r : rrDXT1Block × Nat) (joint : Bool),
      Committed K colors mode r →
      Committed K colors mode (DXT1_GreedyOptimizeBlock K data r.1 r.2 colors mode joint) :=
    fun data r joint hr =>
      (Greedy_outcome K data r.1 r.2 colors mode joint hK hD hL
        (hr.error_le_maxKey hK hD)).committed_of hr
  have hh : ∀ (r : rrDXT1Block × Nat), Committed K colors mode r →
      Committed K colors mode (Compress_TryAllPairs_Heavy K r.1 r.2 colors mode).2 :=
    fun r hr => (Heavy_outcome K _ _ colors mode).committed_of hr
  have ha : ∀ (data : rrCompressDXT1_Startup_Data) (r : rrDXT1Block × Nat) (e : Bool),
      Committed K colors mode r →
      Committed K colors mode (DXT1_AnnealBlock K data r.1 r.2 colors mode e) :=
    fun data r e hr => (Anneal_outcome K data r.1 r.2 colors mode e hK hD).committed_of hr
  have hr : ∀ (r : rrDXT1Block × Nat), Committed K colors mode r →
      Committed K colors mode
        (DXT1_OptimizeEndPointsFromIndices_Inherit_Reindex K r.1 r.2 colors mode).2 :=
    fun r hr => (Inherit_Reindex_outcome K _ _ colors mode).committed_of hr
  refine ⟨?_, ?_, ?_, ?_⟩
  · unfold rrCompressDXT1_0
    dsimp only
    generalize rrCompressDXT1_Startup K data0 pBlock K.RR_DXTC_INIT_ERROR colors mode options
      = s at hs ⊢
    split
    · exact hs
    · have h1 := hm s.data (s.block, s.error) DXT1_4MEANS_REDUCED_CANDIDATES hs
      split
      · exact h1
      · exact hr _ h1
  · unfold rrCompressDXT1_1
    dsimp only
    generalize rrCompressDXT1_Startup K data0 pBlock K.RR_DXTC_INIT_ERROR colors mode options
      = s at hs ⊢
    split
    · exact hs
    · have h1 := hm s.data (s.block, s.error) 0 hs
      split
      · exact h1
      · exact hit _ h1
  · unfold rrCompressDXT1_2
    dsimp only
    generalize rrCompressDXT1_Startup K data0 pBlock K.RR_DXTC_INIT_ERROR colors mode options
      = s at hs ⊢
    split
    · exact hs
    · have h1 := hm s.data (s.block, s.error) 0 hs
      split
      · exact h1
      · exact hg s.data _ false (hit _ h1)
  · unfold rrCompressDXT1_3
    dsimp only
    generalize rrCompressDXT1_Startup K data0 pBlock K.RR_DXTC_INIT_ERROR colors mode options
      = s at hs ⊢
    split
    · exact hg s.data (s.block, s.error) true hs
    · have h1 := hm s.data (s.block, s.error) DXT1_4MEANS_PCA hs
      revert h1
      generalize rrCompressDXT1_4Means K s.data (s.block, s.error).1 (s.block, s.error).2 colors
        mode DXT1_4MEANS_PCA = m
      intro h1
      split
      · exact hg s.data _ true h1
      · have h2 := hit _ h1
        revert h2
        generalize DXT1_OptimizeEndPointsFromIndicesIterative K m.2.1 m.2.2 colors mode = it
        intro h2
        have h3 : Committed K colors mode
            (if rrDXTCLevel_Reference ≤ level then
              ((Compress_TryAllPairs_Heavy K it.1 it.2 colors mode).2.1,
               (Compress_TryAllPairs_Heavy K it.1 it.2 colors mode).2.2)
             else it) := by
          split
          · exact hh _ h2
          · exact h2
        revert h3
        generalize (if rrDXTCLevel_Reference ≤ level then
              ((Compress_TryAllPairs_Heavy K it.1 it.2 colors mode).2.1,
               (Compress_TryAllPairs_Heavy K it.1 it.2 colors mode).2.2)
             else it) = h
        intro h3
        split
        · exact h3
        · exact hg s.data _ true (ha s.data _ _ h3)

/-- The reference collaborators meet the decoder contract on every tile of at most
16 byte pixels. -/
theorem Ref.decodeContract (colors : rrColorBlock4x4) (mode : rrDXT1PaletteMode)
    (hlen : colors.colors.length ≤ 16) (hb : TileBytes colors) :
    DecodeContract Ref.deps colors mode where
  palette_unpacked := fun _ => rfl
  find_ssd := fun c0 c1 =>
    (Ref.ssdIndexed_FindIndices (Ref.DXT1_ComputePalette c0 c1 mode) colors.colors).symm
  eval_lt_init := by
    intro ep
    have h := (Ref.evalContract colors mode hlen hb).eval_fit ep
    have : (2 : Nat) ^ (32 - Ref.deps.COUNT_SHIFT) ≤ Ref.deps.RR_DXTC_INIT_ERROR := by decide
    omega

/-- Level 2 is level 1 followed by the greedy optimiser, which never raises the error. -/
theorem rrCompressDXT1_2_le_1 (K : Deps) (data0 : rrCompressDXT1_Startup_Data)
    (pBlock : rrDXT1Block) (colors : rrColorBlock4x4) (options : Nat)
    (mode : rrDXT1PaletteMode) :
    (rrCompressDXT1_2 K data0 pBlock colors options mode).2
      ≤ (rrCompressDXT1_1 K data0 pBlock colors options mode).2 := by
  unfold rrCompressDXT1_2 rrCompressDXT1_1
  dsimp only
  split
  · exact le_refl _
  · split
    · exact le_refl _
    · exact (Greedy_monotone K _ _ _ colors mode false).1

/-- The top-level error at level Slow is at most the one at level Fast. -/
theorem Block_slow_le_fast (K : Deps) (data0 : rrCompressDXT1_Startup_Data)
    (pBlock : rrDXT1Block) (colors : rrColorBlock4x4) (options : Nat)
    (isBC23ColorBlock : Bool) :
    (rrCompressDXT1Block K data0 pBlock colors rrDXTCLevel_Slow options isBC23ColorBlock).2
      ≤ (rrCompressDXT1Block K data0 pBlock colors rrDXTCLevel_Fast options
          isBC23ColorBlock).2 := by
  have h := rrCompressDXT1_2_le_1 K data0 pBlock colors options
    (selectMode K options isBC23ColorBlock)
  unfold rrCompressDXT1Block levelDispatch
  simp only [rrDXTCLevel_Slow, rrDXTCLevel_Fast, rrDXTCLevel_VerySlow]
  split <;> simpa using h

/-! ## Every level relative to startup -/

/-- On a canonical tile every level function returns startup's block and error, or a
committed pair of strictly lower error. -/
theorem levels_outcome (K : Deps) (data0 : rrCompressDXT1_Startup_Data)
    (pBlock : rrDXT1Block) (colors : rrColorBlock4x4) (mode : rrDXT1PaletteMode)
    (options level : Nat)
    (hK : EvalContract K colors mode) (hD : DecodeContract K colors mode)
    (hL : 56 < COUNT_LIMIT K) (hcan : IsBC1Canonical K colors mode) :
    Outcome K colors mode
      (rrCompressDXT1_Startup K data0 pBlock K.RR_DXTC_INIT_ERROR colors mode options).block
      (rrCompressDXT1_Startup K data0 pBlock K.RR_DXTC_INIT_ERROR colors mode options).error
      (rrCompressDXT1_0 K data0 pBlock colors options mode) ∧
    Outcome K colors mode
      (rrCompressDXT1_Startup K data0 pBlock K.RR_DXTC_INIT_ERROR colors mode options).block
      (rrCompressDXT1_Startup K data0 pBlock K.RR_DXTC_INIT_ERROR colors mode options).error
      (rrCompressDXT1_1 K data0 pBlock colors options mode) ∧
    Outcome K colors mode
      (rrCompressDXT1_Startup K data0 pBlock K.RR_DXTC_INIT_ERROR colors mode options).block
      (rrCompressDXT1_Startup K data0 pBlock K.RR_DXTC_INIT_ERROR colors mode options).error
      (rrCompressDXT1_2 K data0 pBlock colors options mode) ∧
    Outcome K colors mode
      (rrCompressDXT1_Startup K data0 pBlock K.RR_DXTC_INIT_ERROR colors mode options).block
      (rrCompressDXT1_Startup K data0 pBlock K.RR_DXTC_INIT_ERROR colors mode options).error
      (rrCompressDXT1_3 K data0 pBlock colors options mode level) := by
  have hs := Startup_committed K data0 pBlock colors mode options hK hD hL hcan
  have hm : ∀ (b : rrDXT1Block) (e : Nat), Committed K colors mode (b, e) →
      ∀ (data : rrCompressDXT1_Startup_Data) (r : rrDXT1Block × Nat) (flags : Nat),
      Outcome K colors mode b e r →
      Outcome K colors mode b e (rrCompressDXT1_4Means K data r.1 r.2 colors mode flags).2 :=
    fun b e hbe data r flags hr =>
      @Outcome.chain K colors mode b r.1 e r.2 _ hr
        (FourMeans_outcome K data r.1 r.2 colors mode flags hK hD hL
          ((hr.committed_of hbe).error_le_maxKey hK hD)).1
  have hit : ∀ (b : rrDXT1Block) (e : Nat) (r : rrDXT1Block × Nat),
      Outcome K colors mode b e r →
      Outcome K colors mode b e
        (DXT1_OptimizeEndPointsFromIndicesIterative K r.1 r.2 colors mode) :=
    fun b e r hr => @Outcome.chain K colors mode b r.1 e r.2 _ hr
      (Iterative_outcome K _ _ colors mode)
  have hg : ∀ (b : rrDXT1Block) (e : Nat), Committed K colors mode (b, e) →
      ∀ (data : rrCompressDXT1_Startup_Data) (r : rrDXT1Block × Nat) (joint : Bool),
      Outcome K colors mode b e r →
      Outcome K colors mode b e (DXT1_GreedyOptimizeBlock K data r.1 r.2 colors mode joint) :=
    fun b e hbe data r joint hr => @Outcome.chain K colors mode b r.1 e r.2 _ hr
      (Greedy_outcome K data r.1 r.2 colors mode joint hK hD hL
        ((hr.committed_of hbe).error_le_maxKey hK hD))
  have hh : ∀ (b : rrDXT1Block) (e : Nat) (r : rrDXT1Block × Nat),
      Outcome K colors mode b e r →
      Outcome K colors mode b e (Compress_TryAllPairs_Heavy K r.1 r.2 colors mode).2 :=
    fun b e r hr => @Outcome.chain K colors mode b r.1 e r.2 _ hr
      (Heavy_outcome K _ _ colors mode)
  have ha : ∀ (b : rrDXT1Block) (e : Nat) (data : rrCompressDXT1_Startup_Data)
      (r : rrDXT1Block × Nat) (x : Bool),
      Outcome K colors mode b e r →
      Outcome K colors mode b e (DXT1_AnnealBlock K data r.1 r.2 colors mode x) :=
    fun b e data r x hr => @Outcome.chain K colors mode b r.1 e r.2 _ hr
      (Anneal_outcome K data r.1 r.2 colors mode x hK hD)
  have hr : ∀ (b : rrDXT1Block) (e : Nat) (r : rrDXT1Block × Nat),
      Outcome K colors mode b e r →
      Outcome K colors mode b e
        (DXT1_OptimizeEndPointsFromIndices_Inherit_Reindex K r.1 r.2 colors mode).2 :=
    fun b e r hr => @Outcome.chain K colors mode b r.1 e r.2 _ hr
      (Inherit_Reindex_outcome K _ _ colors mode)
  refine ⟨?_, ?_, ?_, ?_⟩
  · unfold rrCompressDXT1_0
    dsimp only
    generalize rrCompressDXT1_Startup K data0 pBlock K.RR_DXTC_INIT_ERROR colors mode options
      = s at hs ⊢
    have h0 : Outcome K colors mode s.block s.error (s.block, s.error) := Outcome.unchanged _ _ _ _ _
    split
    · exact h0
    · have h1 := hm _ _ hs s.data (s.block, s.error) DXT1_4MEANS_REDUCED_CANDIDATES h0
      split
      · exact h1
      · exact hr _ _ _ h1
  · unfold rrCompressDXT1_1
    dsimp only
    generalize rrCompressDXT1_Startup K data0 pBlock K.RR_DXTC_INIT_ERROR colors mode options
      = s at hs ⊢
    have h0 : Outcome K colors mode s.block s.error (s.block, s.error) := Outcome.unchanged _ _ _ _ _
    split
    · exact h0
    · have h1 := hm _ _ hs s.data (s.block, s.error) 0 h0
      split
      · exact h1
      · exact hit _ _ _ h1
  · unfold rrCompressDXT1_2
    dsimp only
    generalize rrCompressDXT1_Startup K data0 pBlock K.RR_DXTC_INIT_ERROR colors mode options
      = s at hs ⊢
    have h0 : Outcome K colors mode s.block s.error (s.block, s.error) := Outcome.unchanged _ _ _ _ _
    split
    · exact h0
    · have h1 := hm _ _ hs s.data (s.block, s.error) 0 h0
      split
      · exact h1
      · exact hg _ _ hs s.data _ false (hit _ _ _ h1)
  · unfold rrCompressDXT1_3
    dsimp only
    generalize rrCompressDXT1_Startup K data0 pBlock K.RR_DXTC_INIT_ERROR colors mode options
      = s at hs ⊢
    have h0 : Outcome K colors mode s.block s.error (s.block, s.error) := Outcome.unchanged _ _ _ _ _
    split
    · exact hg _ _ hs s.data (s.block, s.error) true h0
    · have h1 := hm _ _ hs s.data (s.block, s.error) DXT1_4MEANS_PCA h0
      revert h1
      generalize rrCompressDXT1_4Means K s.data (s.block, s.error).1 (s.block, s.error).2 colors
        mode DXT1_4MEANS_PCA = m
      intro h1
      split
      · exact hg _ _ hs s.data _ true h1
      · have h2 := hit _ _ _ h1
        revert h2
        generalize DXT1_OptimizeEndPointsFromIndicesIterative K m.2.1 m.2.2 colors mode = it
        intro h2
        have h3 : Outcome K colors mode s.block s.error
            (if rrDXTCLevel_Reference ≤ level then
              ((Compress_TryAllPairs_Heavy K it.1 it.2 colors mode).2.1,
               (Compress_TryAllPairs_Heavy K it.1 it.2 colors mode).2.2)
             else it) := by
          split
          · exact hh _ _ _ h2
          · exact h2
        revert h3
        generalize (if rrDXTCLevel_Reference ≤ level then
              ((Compress_TryAllPairs_Heavy K it.1 it.2 colors mode).2.1,
               (Compress_TryAllPairs_Heavy K it.1 it.2 colors mode).2.2)
             else it) = h
        intro h3
        split
        · exact h3
        · exact hg _ _ hs s.data _ true (ha _ _ s.data _ _ h3)

/-! ## The first startup candidate on a tile with a transparent pixel -/

/-- The fields and the word of an unpacked colour built from byte-sized fields. -/
theorem ofRGB_pack (r g b : Nat) (hr : r < 32) (hg : g < 64) (hb : b < 32) :
    (rrColorUnpacked565.ofRGB r g b).dw = b + 256 * g + 65536 * r ∧
    (rrColorUnpacked565.ofRGB r g b).pack = r * 2048 + g * 32 + b := by
  unfold rrColorUnpacked565.pack rrColorUnpacked565.r rrColorUnpacked565.g
    rrColorUnpacked565.b rrColorUnpacked565.ofRGB
  dsimp only
  refine ⟨by omega, by omega⟩

/-- With legal table entries the pair of `AddEndPoints_SingleColor_Compact_3C` packs
to three-colour order. -/
theorem SingleColor_Compact_3C_order (K : Deps) (hT : TableContract K) (c : rrColor32BGRA) :
    (SingleColor_Compact_3C K c).c0.pack ≤ (SingleColor_Compact_3C K c).c1.pack := by
  unfold SingleColor_Compact_3C
  dsimp only
  obtain ⟨r1, r2, _, _⟩ := hT c.r
  obtain ⟨_, _, g1, g2⟩ := hT c.g
  obtain ⟨b1, b2, _, _⟩ := hT c.b
  have e0 := ofRGB_pack _ _ _ r1 g1 b1
  have e1 := ofRGB_pack _ _ _ r2 g2 b2
  split
  · rename_i h
    dsimp only
    rw [e0.1, e1.1] at h
    rw [e0.2, e1.2]
    omega
  · rename_i h
    dsimp only
    rw [e0.1, e1.1] at h
    rw [e0.2, e1.2]
    omega

theorem Default_head (K : Deps) (l : List rrDXT1UnpackedEndPoints) (mode : rrDXT1PaletteMode)
    (a b : rrColor32BGRA) (hl : l ≠ []) :
    (AddEndPoints_Default K l mode a b).getD 0 default = l.getD 0 default := by
  unfold AddEndPoints_Default
  dsimp only
  cases l with
  | nil => exact absurd rfl hl
  | cons x l => split_ifs <;> rfl

theorem Force3C_ne_nil (K : Deps) (l : List rrDXT1UnpackedEndPoints) (a b : rrColor32BGRA) :
    AddEndPoints_Force3C K l a b ≠ [] := by
  unfold AddEndPoints_Force3C
  dsimp only
  split_ifs <;> simp

theorem Force3C_head (K : Deps) (l : List rrDXT1UnpackedEndPoints)
    (a b : rrColor32BGRA) (x : rrDXT1UnpackedEndPoints) :
    (AddEndPoints_Force3C K (x :: l) a b).getD 0 default = x := by
  unfold AddEndPoints_Force3C
  dsimp only
  split_ifs <;> rfl

/-- In Alpha mode, on a canonical tile with an all-zero pixel, the first candidate of
startup packs to three-colour order. -/
theorem Startup_Impl_head (K : Deps) (pData : rrCompressDXT1_Startup_Data)
    (colors : rrColorBlock4x4) (hT : TableContract K)
    (hcan : IsBC1Canonical K colors rrDXT1PaletteMode.Alpha)
    (hz : ∃ c ∈ colors.colors, c.dw = 0) :
    ((rrCompressDXT1_Startup_Impl K pData colors rrDXT1PaletteMode.Alpha []).2.2.getD 0
        default).c0.pack
      ≤ ((rrCompressDXT1_Startup_Impl K pData colors rrDXT1PaletteMode.Alpha []).2.2.getD 0
        default).c1.pack := by
  have hsc := scan_canonical K rrDXT1PaletteMode.Alpha colors hcan
  have ht : 0 < (StartupScan.run K rrDXT1PaletteMode.Alpha colors).num_transparent := by
    unfold StartupScan.run
    rw [scan_num_transparent]
    obtain ⟨c, hc, hdw⟩ := hz
    have : 0 < colors.colors.countP (fun c => decide (c.dw = 0)) :=
      List.countP_pos_iff.mpr ⟨c, hc, by simpa using hdw⟩
    omega
  have hnc := hsc ht
  unfold rrCompressDXT1_Startup_Impl
  dsimp only
  generalize StartupScan.run K rrDXT1PaletteMode.Alpha colors = s at ht hnc ⊢
  by_cases h0 : s.hiC.dw = 0
  · rw [if_pos h0]
    exact le_refl _
  · rw [if_neg h0]
    simp only [ht, decide_True, Bool.not_true, if_pos hnc, Bool.false_eq_true, if_false]
    unfold AddEndPoints_SingleColor_Compact_3C
    simp only [List.nil_append]
    have key := SingleColor_Compact_3C_order K hT
    split_ifs <;> dsimp only
    all_goals
      first
        | (rw [List.getD_cons_zero]; exact key _)
        | (rw [Force3C_head]; exact key _)
        | (rw [Default_head K _ _ _ _ (List.cons_ne_nil _ _), List.getD_cons_zero]; exact key _)
        | (rw [Default_head K _ _ _ _ (Force3C_ne_nil K _ _ _), Force3C_head]; exact key _)

/-- The error startup commits is at most the error of its first candidate. -/
theorem Startup_error_le_head (K : Deps) (data0 : rrCompressDXT1_Startup_Data)
    (pBlock : rrDXT1Block) (colors : rrColorBlock4x4) (mode : rrDXT1PaletteMode) (options : Nat)
    (hK : EvalContract K colors mode) (hD : DecodeContract K colors mode)
    (hL : 56 < COUNT_LIMIT K) (hcan : IsBC1Canonical K colors mode) :
    (rrCompressDXT1_Startup K data0 pBlock K.RR_DXTC_INIT_ERROR colors mode options).error
      ≤ candErr K colors mode (rrCompressDXT1_Startup_Impl K data0 colors mode []).2.2 0 := by
  unfold rrCompressDXT1_Startup
  dsimp only
  obtain ⟨h1, h5⟩ := Startup_Impl_count K data0 colors mode hcan
  have hne : (rrCompressDXT1_Startup_Impl K data0 colors mode []).2.2 ≠ [] := by
    intro h; rw [h] at h1; simp at h1
  obtain ⟨j, _, hmin, h⟩ := TryBatchedEndpoints_spec K pBlock K.RR_DXTC_INIT_ERROR colors mode
    _ hne (by omega) hK
  have hlt : candErr K colors mode (rrCompressDXT1_Startup_Impl K data0 colors mode []).2.2 j
      < K.RR_DXTC_INIT_ERROR := hD.eval_lt_init _
  rw [h, if_pos hlt]
  exact (hmin 0 (by omega)).1

/-! ## The reference single-colour table -/

theorem Ref.tableContract : TableContract Ref.deps := by
  intro v
  show Ref.quantizeTo 31 v < 32 ∧ Ref.quantizeTo 31 v < 32 ∧ Ref.quantizeTo 63 v < 64 ∧
    Ref.quantizeTo 63 v < 64
  unfold Ref.quantizeTo
  refine ⟨?_, ?_, ?_, ?_⟩ <;> omega

/-! ## Candidate generators -/

/-- The packed value and the word of a legal colour in terms of its three fields. -/
theorem IsLegal_fields (a : rrColorUnpacked565) (ha : a.IsLegal) :
    ∃ x y z, x < 32 ∧ y < 64 ∧ z < 32 ∧ a.dw = x + 256 * y + 65536 * z ∧
      a.pack = z * 2048 + y * 32 + x := by
  obtain ⟨a1, a2, a3⟩ := ha
  refine ⟨a.dw % 256, a.dw / 256 % 256, a.dw / 65536, a1, a2, a3, by omega, ?_⟩
  unfold rrColorUnpacked565.pack rrColorUnpacked565.r rrColorUnpacked565.g
    rrColorUnpacked565.b
  generalize a.dw % 256 = x at *
  generalize a.dw / 256 % 256 = y at *
  generalize a.dw / 65536 = z at *
  omega

/-- On legal colours the order of the words is the order of the packed values. -/
theorem IsLegal_pack_lt (a b : rrColorUnpacked565) (ha : a.IsLegal) (hb : b.IsLegal) :
    (a.pack < b.pack ↔ a.dw < b.dw) ∧ (a.pack = b.pack ↔ a.dw = b.dw) := by
  obtain ⟨x, y, z, hx, hy, hz, hd, hp⟩ := IsLegal_fields a ha
  obtain ⟨x2, y2, z2, hx2, hy2, hz2, hd2, hp2⟩ := IsLegal_fields b hb
  rw [hd, hp, hd2, hp2]
  constructor <;> constructor <;> intro h <;> omega

theorem unpack_IsLegal (w : Nat) : (rrColorUnpacked565.unpack w).IsLegal := by
  unfold rrColorUnpacked565.IsLegal rrColorUnpacked565.unpack
  dsimp only
  refine ⟨?_, ?_, ?_⟩ <;> omega

theorem and_three_cases (w : Nat) : w &&& 3 = 0 ∨ w &&& 3 = 1 ∨ w &&& 3 = 2 ∨ w &&& 3 = 3 := by
  have h : w &&& 3 ≤ 3 := Nat.and_le_right
  omega

theorem FilterEndpoints_four (l : List rrDXT1UnpackedEndPoints) (w : Nat) (h : w &&& 3 = 1) :
    FilterEndpoints l w = l.filter (fun ep => decide (ep.c1.dw < ep.c0.dw)) := by
  unfold FilterEndpoints
  simp only [FilterEndpoints_AllowBoth, FilterEndpoints_Allow4c, h]
  simp [DXT1_Is4Color_Unpacked]

theorem FilterEndpoints_three (l : List rrDXT1UnpackedEndPoints) (w : Nat) (h : w &&& 3 = 2) :
    FilterEndpoints l w = l.filter (fun ep => decide (ep.c0.dw ≤ ep.c1.dw)) := by
  unfold FilterEndpoints
  simp only [FilterEndpoints_AllowBoth, FilterEndpoints_Allow4c, h]
  simp only [DXT1_Is4Color_Unpacked]
  apply List.filter_congr
  intro ep _
  by_cases hlt : ep.c1.dw < ep.c0.dw
  · have : ¬ ep.c0.dw ≤ ep.c1.dw := by omega
    simp [hlt, this]
  · have : ep.c0.dw ≤ ep.c1.dw := by omega
    simp [hlt, this]

theorem BothWays_append (K : Deps) (l : List rrDXT1UnpackedEndPoints) (a b : rrColor32BGRA) :
    AddEndPoints_BothWays K l a b = l ++ AddEndPoints_BothWays K [] a b := by
  unfold AddEndPoints_BothWays
  dsimp only
  split <;> simp

theorem BothWays_length_cases (K : Deps) (a b : rrColor32BGRA) :
    (AddEndPoints_BothWays K [] a b).length = 0 ∨ (AddEndPoints_BothWays K [] a b).length = 2 := by
  unfold AddEndPoints_BothWays
  dsimp only
  split <;> simp

/-! ## The moves of the greedy search -/

theorem and_ne_zero_of_bit (n m i : Nat) (hn : n / 2 ^ i % 2 = 1) (hm : m / 2 ^ i % 2 = 1) :
    n &&& m ≠ 0 := by
  intro h
  have h1 : (n &&& m).testBit i = false := by rw [h]; simp
  rw [Nat.testBit_and, Nat.testBit_to_div_mod, Nat.testBit_to_div_mod] at h1
  simp [hn, hm] at h1

/-- A wiggled legal colour is legal: a step out of range sets a bit outside the
field masks and returns the original colour. -/
theorem Wiggle_IsLegal (color : rrColorUnpacked565) (how : Nat) (h : color.IsLegal) :
    (Wiggle color how).IsLegal := by
  obtain ⟨h1, h2, h3⟩ := h
  unfold Wiggle
  dsimp only
  split
  · exact ⟨h1, h2, h3⟩
  · rename_i hm
    have hm0 := not_not.mp hm
    have hd : color.dw = color.dw % 256 + 256 * (color.dw / 256 % 256)
        + 65536 * (color.dw / 65536) := by omega
    generalize color.dw % 256 = x at *
    generalize color.dw / 256 % 256 = y at *
    generalize color.dw / 65536 = z at *
    have hcases : how = 0 ∨ how = 1 ∨ how = 2 ∨ how = 3 ∨ how = 4 ∨ how = 5 ∨ 6 ≤ how := by omega
    unfold rrColorUnpacked565.IsLegal
    dsimp only
    rcases hcases with e | e | e | e | e | e | e
    · subst e
      have hv : ((c_wiggledw_delta.getD 0 0) % 4294967296).toNat = 65536 := by decide
      rw [hv] at hm0 ⊢
      by_cases hz : z < 31
      · omega
      · exact absurd hm0 (and_ne_zero_of_bit _ _ 21
          (by show _ / 2097152 % 2 = 1; omega) (by decide))
    · subst e
      have hv : ((c_wiggledw_delta.getD 1 0) % 4294967296).toNat = 4294901760 := by decide
      rw [hv] at hm0 ⊢
      by_cases hz : 1 ≤ z
      · omega
      · exact absurd hm0 (and_ne_zero_of_bit _ _ 21
          (by show _ / 2097152 % 2 = 1; omega) (by decide))
    · subst e
      have hv : ((c_wiggledw_delta.getD 2 0) % 4294967296).toNat = 256 := by decide
      rw [hv] at hm0 ⊢
      by_cases hz : y < 63
      · omega
      · exact absurd hm0 (and_ne_zero_of_bit _ _ 14
          (by show _ / 16384 % 2 = 1; omega) (by decide))
    · subst e
      have hv : ((c_wiggledw_delta.getD 3 0) % 4294967296).toNat = 4294967040 := by decide
      rw [hv] at hm0 ⊢
      by_cases hz : 1 ≤ y
      · omega
      · exact absurd hm0 (and_ne_zero_of_bit _ _ 14
          (by show _ / 16384 % 2 = 1; omega) (by decide))
    · subst e
      have hv : ((c_wiggledw_delta.getD 4 0) % 4294967296).toNat = 1 := by decide
      rw [hv] at hm0 ⊢
      by_cases hz : x < 31
      · omega
      · exact absurd hm0 (and_ne_zero_of_bit _ _ 5
          (by show _ / 32 % 2 = 1; omega) (by decide))
    · subst e
      have hv : ((c_wiggledw_delta.getD 5 0) % 4294967296).toNat = 4294967295 := by decide
      rw [hv] at hm0 ⊢
      by_cases hz : 1 ≤ x
      · omega
      · exact absurd hm0 (and_ne_zero_of_bit _ _ 5
          (by show _ / 32 % 2 = 1; omega) (by decide))
    · have hv : ((c_wiggledw_delta.getD how 0) % 4294967296).toNat = 0 := by
        have h0 : c_wiggledw_delta.getD how 0 = 0 := by
          rcases Nat.lt_or_ge how 8 with h8 | h8
          · have : how = 6 ∨ how = 7 := by omega
            rcases this with r | r <;> subst r <;> rfl
          · exact List.getD_eq_default _ _ (by simpa [c_wiggledw_delta] using h8)
        rw [h0]; rfl
      rw [hv]
      omega

theorem mem_foldl_step {α β : Type} (g : List β → α → List β) (Q : α → β → Prop)
    (hg : ∀ acc w x, x ∈ g acc w ↔ x ∈ acc ∨ Q w x) (l : List α) (init : List β) (x : β) :
    x ∈ l.foldl g init ↔ x ∈ init ∨ ∃ w ∈ l, Q w x := by
  induction l generalizing init with
  | nil => simp
  | cons a l ih =>
    rw [List.foldl_cons, ih, hg]
    constructor
    · rintro ((h | h) | ⟨w, hw, h⟩)
      · exact Or.inl h
      · exact Or.inr ⟨a, List.mem_cons_self _ _, h⟩
      · exact Or.inr ⟨w, List.mem_cons_of_mem _ hw, h⟩
    · rintro (h | ⟨w, hw, h⟩)
      · exact Or.inl (Or.inl h)
      · rcases List.mem_cons.mp hw with e | e
        · subst e; exact Or.inl (Or.inr h)
        · exact Or.inr ⟨w, e, h⟩

/-- The trials of a joint round: every pair of wiggles that moves an endpoint and is
not rejected for alpha. -/
theorem mem_Greedy_trials_joint (a : Bool) (s0 s1 : rrColorUnpacked565)
    (x : rrDXT1UnpackedEndPoints) :
    x ∈ Greedy_trials_joint a s0 s1 ↔
      ∃ w1, w1 ≤ NUM_WIGGLES ∧ ∃ w2, w2 ≤ NUM_WIGGLES ∧
        ¬ (Wiggle s0 w1 = s0 ∧ Wiggle s1 w2 = s1) ∧
        ¬ (a = true ∧ (Wiggle s1 w2).dw < (Wiggle s0 w1).dw) ∧
        x = ⟨Wiggle s0 w1, Wiggle s1 w2⟩ := by
  unfold Greedy_trials_joint
  rw [mem_foldl_step _ (fun w1 x => ∃ w2 ∈ List.range (NUM_WIGGLES + 1),
      ¬ (Wiggle s0 w1 = s0 ∧ Wiggle s1 w2 = s1) ∧
      ¬ (a = true ∧ (Wiggle s1 w2).dw < (Wiggle s0 w1).dw) ∧
      x = ⟨Wiggle s0 w1, Wiggle s1 w2⟩)]
  · simp only [List.not_mem_nil, false_or, List.mem_range, Nat.lt_succ_iff]
  · intro acc w1 y
    dsimp only
    rw [mem_foldl_step _ (fun w2 x =>
      ¬ (Wiggle s0 w1 = s0 ∧ Wiggle s1 w2 = s1) ∧
      ¬ (a = true ∧ (Wiggle s1 w2).dw < (Wiggle s0 w1).dw) ∧
      x = ⟨Wiggle s0 w1, Wiggle s1 w2⟩)]
    intro acc2 w2 z
    split_ifs with h1 h2
    · simp [h1]
    · simp [h1, h2]
    · simp [h1, h2]

/-- The trials of an independent round: every wiggle of one endpoint that moves it
and is not rejected for alpha. -/
theorem mem_Greedy_trials_independent (a : Bool) (s0 s1 : rrColorUnpacked565)
    (x : rrDXT1UnpackedEndPoints) :
    x ∈ Greedy_trials_independent a s0 s1 ↔
      (∃ w, w < NUM_WIGGLES ∧ Wiggle s0 w ≠ s0 ∧
        ¬ (a = true ∧ s1.dw < (Wiggle s0 w).dw) ∧ x = ⟨Wiggle s0 w, s1⟩) ∨
      (∃ w, w < NUM_WIGGLES ∧ Wiggle s1 w ≠ s1 ∧
        ¬ (a = true ∧ (Wiggle s1 w).dw < s0.dw) ∧ x = ⟨s0, Wiggle s1 w⟩) := by
  unfold Greedy_trials_independent
  dsimp only
  rw [mem_foldl_step _ (fun w x => Wiggle s1 w ≠ s1 ∧
        ¬ (a = true ∧ (Wiggle s1 w).dw < s0.dw) ∧ x = ⟨s0, Wiggle s1 w⟩),
    mem_foldl_step _ (fun w x => Wiggle s0 w ≠ s0 ∧
        ¬ (a = true ∧ s1.dw < (Wiggle s0 w).dw) ∧ x = ⟨Wiggle s0 w, s1⟩)]
  · simp only [List.not_mem_nil, false_or, List.mem_range]
  · intro acc w z
    split_ifs with h1 h2
    · simp [h1]
    · simp [h1, h2]
    · simp [h1, h2]
  · intro acc w z
    split_ifs with h1 h2
    · simp [h1]
    · simp [h1, h2]
    · simp [h1, h2]

/-- Every trial of a round from legal endpoints has legal endpoints. -/
theorem Greedy_trials_IsLegal (a joint : Bool) (s0 s1 : rrColorUnpacked565)
    (h0 : s0.IsLegal) (h1 : s1.IsLegal) (x : rrDXT1UnpackedEndPoints)
    (hx : x ∈ Greedy_trials a joint s0 s1) : x.c0.IsLegal ∧ x.c1.IsLegal := by
  unfold Greedy_trials at hx
  split at hx
  · obtain ⟨w1, _, w2, _, _, _, rfl⟩ := (mem_Greedy_trials_joint a s0 s1 x).mp hx
    exact ⟨Wiggle_IsLegal _ _ h0, Wiggle_IsLegal _ _ h1⟩
  · rcases (mem_Greedy_trials_independent a s0 s1 x).mp hx with ⟨w, _, _, _, rfl⟩ |
      ⟨w, _, _, _, rfl⟩
    · exact ⟨Wiggle_IsLegal _ _ h0, h1⟩
    · exact ⟨h0, Wiggle_IsLegal _ _ h1⟩

theorem unpack_pack (c : rrColorUnpacked565) (h : c.IsLegal) :
    rrColorUnpacked565.unpack c.pack = c := by
  obtain ⟨x, y, z, hx, hy, hz, hd, hp⟩ := IsLegal_fields c h
  unfold rrColorUnpacked565.unpack
  rw [hp]
  cases c with
  | mk dw =>
    simp only at hd
    subst hd
    congr 1
    omega

/-- The greedy loop run with more iterations than the error on entry ends at a local
optimum: the error is 0, or no trial of a round from the final endpoints scores
below the final error.  The final endpoints are legal and the block holds them
packed. -/
theorem Greedy_loop_final (K : Deps) (data : rrCompressDXT1_Startup_Data)
    (colors : rrColorBlock4x4) (mode : rrDXT1PaletteMode) (joint : Bool)
    (hK : EvalContract K colors mode) (hL : 56 < COUNT_LIMIT K) (fuel : Nat) (s : GreedyLoop)
    (hE : s.error ≤ 4294967295 >>> K.COUNT_SHIFT) (hf : s.error < fuel)
    (hl0 : s.best0.IsLegal) (hl1 : s.best1.IsLegal)
    (hb : s.block.c0 = s.best0.pack ∧ s.block.c1 = s.best1.pack) :
    (Greedy_loop K data colors mode joint fuel s).best0.IsLegal ∧
    (Greedy_loop K data colors mode joint fuel s).best1.IsLegal ∧
    (Greedy_loop K data colors mode joint fuel s).block.c0
      = (Greedy_loop K data colors mode joint fuel s).best0.pack ∧
    (Greedy_loop K data colors mode joint fuel s).block.c1
      = (Greedy_loop K data colors mode joint fuel s).best1.pack ∧
    ((Greedy_loop K data colors mode joint fuel s).error = 0 ∨
      ∀ ep ∈ Greedy_trials data.has_any_alpha joint
          (Greedy_loop K data colors mode joint fuel s).best0
          (Greedy_loop K data colors mode joint fuel s).best1,
        (Greedy_loop K data colors mode joint fuel s).error
          ≤ K.eval_palette colors (K.ComputePalette_Unpacked ep mode)) := by
  induction fuel generalizing s with
  | zero => omega
  | succ n ih =>
    unfold Greedy_loop
    dsimp only
    by_cases hne : Greedy_trials data.has_any_alpha joint s.best0 s.best1 = []
    · have : find_best_palette K colors (DXT1_ComputePalette_Batched K
          (Greedy_trials data.has_any_alpha joint s.best0 s.best1) mode) = 4294967295 := by
        rw [hne]
        simp [find_best_palette, DXT1_ComputePalette_Batched, eval_palettes, packKeys, minKey]
      rw [this, if_neg (by omega)]
      refine ⟨hl0, hl1, hb.1, hb.2, Or.inr ?_⟩
      rw [hne]
      intro ep hep
      simp at hep
    · have hcount : (Greedy_trials data.has_any_alpha joint s.best0 s.best1).length
          < COUNT_LIMIT K :=
        lt_of_le_of_lt (Greedy_trials_length _ _ _ _) (by omega)
      obtain ⟨j, hj, h1, h2, hmin⟩ := find_best_palette_spec K colors mode _ hne hcount hK
      rw [h1, h2]
      have hmem : (Greedy_trials data.has_any_alpha joint s.best0 s.best1).getD j default
          ∈ Greedy_trials data.has_any_alpha joint s.best0 s.best1 := by
        rw [List.getD_eq_getElem _ _ hj]; exact List.getElem_mem hj
      have hleg := Greedy_trials_IsLegal data.has_any_alpha joint s.best0 s.best1 hl0 hl1 _ hmem
      by_cases hlt : candErr K colors mode
          (Greedy_trials data.has_any_alpha joint s.best0 s.best1) j < s.error
      · rw [if_pos hlt]
        by_cases h0 : candErr K colors mode
            (Greedy_trials data.has_any_alpha joint s.best0 s.best1) j = 0
        · rw [if_pos h0]
          exact ⟨hleg.1, hleg.2, rfl, rfl, Or.inl h0⟩
        · rw [if_neg h0]
          exact ih _ (by dsimp only; omega) (by dsimp only; omega) hleg.1 hleg.2 ⟨rfl, rfl⟩
      · rw [if_neg hlt]
        refine ⟨hl0, hl1, hb.1, hb.2, Or.inr ?_⟩
        intro ep hep
        obtain ⟨t, ht, rfl⟩ := List.mem_iff_get.mp hep
        have hm := (hmin t.1 t.2).1
        have he : candErr K colors mode
            (Greedy_trials data.has_any_alpha joint s.best0 s.best1) t.1
            = K.eval_palette colors (K.ComputePalette_Unpacked
                ((Greedy_trials data.has_any_alpha joint s.best0 s.best1).get t) mode) := by
          unfold candErr
          rw [List.getD_eq_getElem _ _ t.2]
          rfl
        omega

theorem Wiggle_null (c : rrColorUnpacked565) (h : c.dw < 4294967296) : Wiggle c 6 = c := by
  unfold Wiggle
  have hv : ((c_wiggledw_delta.getD 6 0) % 4294967296).toNat = 0 := by decide
  rw [hv]
  dsimp only
  split
  · rfl
  · cases c with
    | mk dw =>
      simp only at h ⊢
      congr 1
      omega

theorem foldl_range_seven {β : Type} (G : β → Nat → β) (init : β) :
    (List.range 7).foldl G init = G ((List.range 6).foldl G init) 6 := by
  rw [show List.range 7 = List.range 6 ++ [6] from by decide, List.foldl_append]
  rfl

/-- A joint round has at most 48 trials and an independent round at most 12. -/
theorem Greedy_trials_count (a : Bool) (e0 e1 : rrColorUnpacked565) :
    (e0.dw < 4294967296 → e1.dw < 4294967296 → (Greedy_trials a true e0 e1).length ≤ 48) ∧
    (Greedy_trials a false e0 e1).length ≤ 12 := by
  constructor
  · intro h0 h1
    unfold Greedy_trials
    rw [if_pos rfl]
    unfold Greedy_trials_joint
    have hin : ∀ (w1 : Nat) (l : List Nat) (acc : List rrDXT1UnpackedEndPoints),
        (l.foldl (fun acc w2 =>
          if Wiggle e0 w1 = e0 ∧ Wiggle e1 w2 = e1 then acc
          else if a = true ∧ (Wiggle e1 w2).dw < (Wiggle e0 w1).dw then acc
          else acc ++ [⟨Wiggle e0 w1, Wiggle e1 w2⟩]) acc).length ≤ acc.length + 1 * l.length :=
      fun w1 l acc => foldl_length_le (α := rrDXT1UnpackedEndPoints) 1 _
        (fun acc x => by split_ifs <;> simp) l acc
    have hout := foldl_length_le (α := rrDXT1UnpackedEndPoints) 7
      (fun acc w1 =>
        (List.range 7).foldl (fun acc w2 =>
          if Wiggle e0 w1 = e0 ∧ Wiggle e1 w2 = e1 then acc
          else if a = true ∧ (Wiggle e1 w2).dw < (Wiggle e0 w1).dw then acc
          else acc ++ [⟨Wiggle e0 w1, Wiggle e1 w2⟩]) acc)
      (fun acc w1 => by
        have := hin w1 (List.range 7) acc
        simpa using this) (List.range 6) []
    rw [show NUM_WIGGLES + 1 = 7 from rfl, foldl_range_seven]
    rw [foldl_range_seven]
    rw [if_pos ⟨Wiggle_null e0 h0, Wiggle_null e1 h1⟩]
    refine le_trans (hin 6 _ _) ?_
    simp only [List.length_range, List.length_nil] at hout ⊢
    omega
  · unfold Greedy_trials
    rw [if_neg (by decide)]
    unfold Greedy_trials_independent
    dsimp only
    have h1 := foldl_length_le (α := rrDXT1UnpackedEndPoints) 1
      (fun acc w1 =>
        if Wiggle e0 w1 = e0 then acc
        else if a = true ∧ e1.dw < (Wiggle e0 w1).dw then acc
        else acc ++ [⟨Wiggle e0 w1, e1⟩])
      (fun acc x => by dsimp only; split_ifs <;> simp) (List.range NUM_WIGGLES) []
    have h2 := foldl_length_le (α := rrDXT1UnpackedEndPoints) 1
      (fun acc w2 =>
        if Wiggle e1 w2 = e1 then acc
        else if a = true ∧ (Wiggle e1 w2).dw < e0.dw then acc
        else acc ++ [⟨e0, Wiggle e1 w2⟩])
      (fun acc x => by dsimp only; split_ifs <;> simp) (List.range NUM_WIGGLES)
      ((List.range NUM_WIGGLES).foldl
        (fun acc w1 =>
          if Wiggle e0 w1 = e0 then acc
          else if a = true ∧ e1.dw < (Wiggle e0 w1).dw then acc
          else acc ++ [⟨Wiggle e0 w1, e1⟩]) [])
    simp only [List.length_range, List.length_nil, NUM_WIGGLES] at h1 h2 ⊢
    omega

/-! ## The least-squares system -/

theorem weights_entry (fourc : Bool) (idx : Nat) :
    ∃ a b : Nat, a ≤ 3 ∧ b ≤ 3 ∧ a * b ≤ 2 ∧
      (c_weights_ab fourc).getD idx (0, 0) = ((a : Int), (b : Int)) ∧
      (c_weights_products fourc).getD idx 0 = a * a + 256 * (a * b) + 65536 * (b * b) := by
  rcases Nat.lt_or_ge idx 4 with h | h
  · have hc : idx = 0 ∨ idx = 1 ∨ idx = 2 ∨ idx = 3 := by omega
    cases fourc <;> rcases hc with e | e | e | e <;> subst e
    · exact ⟨2, 0, by decide, by decide, by decide, rfl, rfl⟩
    · exact ⟨0, 2, by decide, by decide, by decide, rfl, rfl⟩
    · exact ⟨1, 1, by decide, by decide, by decide, rfl, rfl⟩
    · exact ⟨0, 0, by decide, by decide, by decide, rfl, rfl⟩
    · exact ⟨3, 0, by decide, by decide, by decide, rfl, rfl⟩
    · exact ⟨0, 3, by decide, by decide, by decide, rfl, rfl⟩
    · exact ⟨2, 1, by decide, by decide, by decide, rfl, rfl⟩
    · exact ⟨1, 2, by decide, by decide, by decide, rfl, rfl⟩
  · refine ⟨0, 0, by decide, by decide, by decide, ?_, ?_⟩
    · apply List.getD_eq_default
      cases fourc <;> simpa [c_weights_ab] using h
    · apply List.getD_eq_default
      cases fourc <;> simpa [c_weights_products] using h

/-- The pixel loop of `accumulate` in terms of the accumulated terms: the packed
products hold the three sums of weight products as long as each stays below 256. -/
theorem accumulate_fold (fourc : Bool) (cs : List rrColor32BGRA) (s : AccumulateLoop)
    (hs : s.products < 4294967296) :
    ∃ A2 AB B2 : Nat, A2 ≤ 9 * cs.length ∧ AB ≤ 2 * cs.length ∧ B2 ≤ 9 * cs.length ∧
      (cs.foldl (AccumulateLoop.step fourc) s).products
        = (s.products + (A2 + 256 * AB + 65536 * B2)) % 4294967296 ∧
      (A2 : Int) = ((LLS_terms fourc cs s.tindices).map (fun t => t.1 * t.1)).sum ∧
      (AB : Int) = ((LLS_terms fourc cs s.tindices).map (fun t => t.1 * t.2.1)).sum ∧
      (B2 : Int) = ((LLS_terms fourc cs s.tindices).map (fun t => t.2.1 * t.2.1)).sum ∧
      (cs.foldl (AccumulateLoop.step fourc) s).vAX.x
        = s.vAX.x + ((LLS_terms fourc cs s.tindices).map (fun t => t.1 * t.2.2.x)).sum ∧
      (cs.foldl (AccumulateLoop.step fourc) s).vAX.y
        = s.vAX.y + ((LLS_terms fourc cs s.tindices).map (fun t => t.1 * t.2.2.y)).sum ∧
      (cs.foldl (AccumulateLoop.step fourc) s).vAX.z
        = s.vAX.z + ((LLS_terms fourc cs s.tindices).map (fun t => t.1 * t.2.2.z)).sum ∧
      (cs.foldl (AccumulateLoop.step fourc) s).vBX.x
        = s.vBX.x + ((LLS_terms fourc cs s.tindices).map (fun t => t.2.1 * t.2.2.x)).sum ∧
      (cs.foldl (AccumulateLoop.step fourc) s).vBX.y
        = s.vBX.y + ((LLS_terms fourc cs s.tindices).map (fun t => t.2.1 * t.2.2.y)).sum ∧
      (cs.foldl (AccumulateLoop.step fourc) s).vBX.z
        = s.vBX.z + ((LLS_terms fourc cs s.tindices).map (fun t => t.2.1 * t.2.2.z)).sum := by
  induction cs generalizing s with
  | nil =>
    refine ⟨0, 0, 0, ?_⟩
    simp only [List.foldl_nil, LLS_terms, List.map_nil, List.sum_nil, List.length_nil]
    refine ⟨by omega, by omega, by omega, by omega, rfl, rfl, rfl, ?_, ?_, ?_, ?_, ?_, ?_⟩ <;>
      omega
  | cons c cs ih =>
    obtain ⟨a, b, ha, hb, hab, hw, hp⟩ := weights_entry fourc (s.tindices &&& 3)
    have t1 : (AccumulateLoop.step fourc s c).tindices = s.tindices >>> 2 := rfl
    have p1 : (AccumulateLoop.step fourc s c).products
        = (s.products + (c_weights_products fourc).getD (s.tindices &&& 3) 0) % 4294967296 := rfl
    have vx : (AccumulateLoop.step fourc s c).vAX.x = s.vAX.x
        + ((c_weights_ab fourc).getD (s.tindices &&& 3) (0, 0)).1 * (ColorToVec3i c).x := rfl
    have vy : (AccumulateLoop.step fourc s c).vAX.y = s.vAX.y
        + ((c_weights_ab fourc).getD (s.tindices &&& 3) (0, 0)).1 * (ColorToVec3i c).y := rfl
    have vz : (AccumulateLoop.step fourc s c).vAX.z = s.vAX.z
        + ((c_weights_ab fourc).getD (s.tindices &&& 3) (0, 0)).1 * (ColorToVec3i c).z := rfl
    have wx : (AccumulateLoop.step fourc s c).vBX.x = s.vBX.x
        + ((c_weights_ab fourc).getD (s.tindices &&& 3) (0, 0)).2 * (ColorToVec3i c).x := rfl
    have wy : (AccumulateLoop.step fourc s c).vBX.y = s.vBX.y
        + ((c_weights_ab fourc).getD (s.tindices &&& 3) (0, 0)).2 * (ColorToVec3i c).y := rfl
    have wz : (AccumulateLoop.step fourc s c).vBX.z = s.vBX.z
        + ((c_weights_ab fourc).getD (s.tindices &&& 3) (0, 0)).2 * (ColorToVec3i c).z := rfl
    have hlt : (AccumulateLoop.step fourc s c).products < 4294967296 :=
      p1 ▸ Nat.mod_lt _ (by norm_num)
    obtain ⟨A2, AB, B2, h1, h2, h3, hprod, e1, e2, e3, x1, x2, x3, y1, y2, y3⟩ :=
      ih (AccumulateLoop.step fourc s c) hlt
    rw [t1] at e1 e2 e3 x1 x2 x3 y1 y2 y3
    have haa : a * a ≤ 9 := Nat.mul_le_mul ha ha
    have hbb : b * b ≤ 9 := Nat.mul_le_mul hb hb
    refine ⟨a * a + A2, a * b + AB, b * b + B2, ?_, ?_, ?_, ?_, ?_, ?_, ?_, ?_, ?_, ?_, ?_, ?_, ?_⟩
    · simp only [List.length_cons]; omega
    · simp only [List.length_cons]; omega
    · simp only [List.length_cons]; omega
    · rw [List.foldl_cons, hprod, p1, hp]
      generalize a * a = p at *
      generalize a * b = q at *
      generalize b * b = r at *
      omega
    · simp only [LLS_terms, List.map_cons, List.sum_cons, hw]
      push_cast
      rw [e1]
    · simp only [LLS_terms, List.map_cons, List.sum_cons, hw]
      push_cast
      rw [e2]
    · simp only [LLS_terms, List.map_cons, List.sum_cons, hw]
      push_cast
      rw [e3]
    · rw [List.foldl_cons, x1, vx]
      simp only [LLS_terms, List.map_cons, List.sum_cons]
      ring
    · rw [List.foldl_cons, x2, vy]
      simp only [LLS_terms, List.map_cons, List.sum_cons]
      ring
    · rw [List.foldl_cons, x3, vz]
      simp only [LLS_terms, List.map_cons, List.sum_cons]
      ring
    · rw [List.foldl_cons, y1, wx]
      simp only [LLS_terms, List.map_cons, List.sum_cons]
      ring
    · rw [List.foldl_cons, y2, wy]
      simp only [LLS_terms, List.map_cons, List.sum_cons]
      ring
    · rw [List.foldl_cons, y3, wz]
      simp only [LLS_terms, List.map_cons, List.sum_cons]
      ring

theorem and_255 (x : Nat) : x &&& 255 = x % 256 := Nat.and_pow_two_sub_one_eq_mod x 8

/-- The members of the solver after `accumulate` on a fresh solver, for a tile of at
most 28 pixels: the sums of the weight products and of the weighted colours. -/
theorem accumulate_sums (fourc : Bool) (colors : rrColorBlock4x4) (indices : Nat)
    (hlen : colors.colors.length ≤ 28) :
    ((BC1EndpointLLSSolver.init fourc).accumulate colors indices).AA
      = ((LLS_terms fourc colors.colors indices).map (fun t => t.1 * t.1)).sum ∧
    ((BC1EndpointLLSSolver.init fourc).accumulate colors indices).AB
      = ((LLS_terms fourc colors.colors indices).map (fun t => t.1 * t.2.1)).sum ∧
    ((BC1EndpointLLSSolver.init fourc).accumulate colors indices).BB
      = ((LLS_terms fourc colors.colors indices).map (fun t => t.2.1 * t.2.1)).sum ∧
    ((BC1EndpointLLSSolver.init fourc).accumulate colors indices).AX.x
      = ((LLS_terms fourc colors.colors indices).map (fun t => t.1 * t.2.2.x)).sum ∧
    ((BC1EndpointLLSSolver.init fourc).accumulate colors indices).AX.y
      = ((LLS_terms fourc colors.colors indices).map (fun t => t.1 * t.2.2.y)).sum ∧
    ((BC1EndpointLLSSolver.init fourc).accumulate colors indices).AX.z
      = ((LLS_terms fourc colors.colors indices).map (fun t => t.1 * t.2.2.z)).sum ∧
    ((BC1EndpointLLSSolver.init fourc).accumulate colors indices).BX.x
      = ((LLS_terms fourc colors.colors indices).map (fun t => t.2.1 * t.2.2.x)).sum ∧
    ((BC1EndpointLLSSolver.init fourc).accumulate colors indices).BX.y
      = ((LLS_terms fourc colors.colors indices).map (fun t => t.2.1 * t.2.2.y)).sum ∧
    ((BC1EndpointLLSSolver.init fourc).accumulate colors indices).BX.z
      = ((LLS_terms fourc colors.colors indices).map (fun t => t.2.1 * t.2.2.z)).sum ∧
    ((BC1EndpointLLSSolver.init fourc).accumulate colors indices).fourc = fourc := by
  obtain ⟨A2, AB, B2, h1, h2, h3, hprod, e1, e2, e3, x1, x2, x3, y1, y2, y3⟩ :=
    accumulate_fold fourc colors.colors ⟨indices, 0, ⟨0, 0, 0⟩, ⟨0, 0, 0⟩⟩ (by norm_num)
  simp only [Nat.zero_add, Int.zero_add, zero_add] at hprod x1 x2 x3 y1 y2 y3
  unfold BC1EndpointLLSSolver.accumulate BC1EndpointLLSSolver.init
  dsimp only
  refine ⟨?_, ?_, ?_, x1, x2, x3, y1, y2, y3, rfl⟩
  · rw [hprod, ← e1, Nat.shiftRight_zero, and_255]
    simp only [Int.zero_add, zero_add]
    congr 1
    omega
  · rw [hprod, ← e2, Nat.shiftRight_eq_div_pow, and_255]
    simp only [Int.zero_add, zero_add]
    congr 1
    omega
  · rw [hprod, ← e3, Nat.shiftRight_eq_div_pow, and_255]
    simp only [Int.zero_add, zero_add]
    congr 1
    omega

theorem sum_sq_eq_zero (l : List Int) (hl : ∀ v ∈ l, 0 ≤ v) :
    0 ≤ l.sum ∧ (l.sum = 0 ↔ ∀ v ∈ l, v = 0) := by
  induction l with
  | nil => simp
  | cons v l ih =>
    have hv := hl v (List.mem_cons_self _ _)
    obtain ⟨h0, h1⟩ := ih (fun w hw => hl w (List.mem_cons_of_mem _ hw))
    rw [List.sum_cons]
    refine ⟨by omega, ?_⟩
    constructor
    · intro h w hw
      rcases List.mem_cons.mp hw with e | e
      · rw [e]; omega
      · exact h1.mp (by omega) w e
    · intro h
      have e1 := h v (List.mem_cons_self _ _)
      have e2 := h1.mpr (fun w hw => h w (List.mem_cons_of_mem _ hw))
      omega

/-- Lagrange: the determinant of the extended system grows by the squared cross
products of the new weight pair with the old ones. -/
theorem lls_cross_sum (a b : Int) (T : List (Int × Int × rrVec3i)) :
    a * a * (T.map (fun t => t.2.1 * t.2.1)).sum + b * b * (T.map (fun t => t.1 * t.1)).sum
        - 2 * (a * b) * (T.map (fun t => t.1 * t.2.1)).sum
      = (T.map (fun t => (a * t.2.1 - b * t.1) * (a * t.2.1 - b * t.1))).sum := by
  induction T with
  | nil => simp
  | cons t T ih =>
    simp only [List.map_cons, List.sum_cons]
    rw [← ih]
    ring

/-- The determinant of the normal equations is never negative, and is zero exactly
when all weight pairs are pairwise parallel. -/
theorem lls_det (T : List (Int × Int × rrVec3i)) :
    0 ≤ (T.map (fun t => t.1 * t.1)).sum * (T.map (fun t => t.2.1 * t.2.1)).sum
        - (T.map (fun t => t.1 * t.2.1)).sum * (T.map (fun t => t.1 * t.2.1)).sum ∧
    ((T.map (fun t => t.1 * t.1)).sum * (T.map (fun t => t.2.1 * t.2.1)).sum
        - (T.map (fun t => t.1 * t.2.1)).sum * (T.map (fun t => t.1 * t.2.1)).sum = 0 ↔
      ∀ s ∈ T, ∀ t ∈ T, s.1 * t.2.1 = s.2.1 * t.1) := by
  induction T with
  | nil => simp
  | cons u T ih =>
    obtain ⟨h0, h1⟩ := ih
    have hc := lls_cross_sum u.1 u.2.1 T
    obtain ⟨g0, g1⟩ := sum_sq_eq_zero
      (T.map (fun t => (u.1 * t.2.1 - u.2.1 * t.1) * (u.1 * t.2.1 - u.2.1 * t.1)))
      (by
        intro v hv
        obtain ⟨t, _, rfl⟩ := List.mem_map.mp hv
        exact mul_self_nonneg _)
    have hstep : (List.map (fun t => t.1 * t.1) (u :: T)).sum
          * (List.map (fun t => t.2.1 * t.2.1) (u :: T)).sum
        - (List.map (fun t => t.1 * t.2.1) (u :: T)).sum
          * (List.map (fun t => t.1 * t.2.1) (u :: T)).sum
        = ((T.map (fun t => t.1 * t.1)).sum * (T.map (fun t => t.2.1 * t.2.1)).sum
            - (T.map (fun t => t.1 * t.2.1)).sum * (T.map (fun t => t.1 * t.2.1)).sum)
          + (T.map (fun t => (u.1 * t.2.1 - u.2.1 * t.1) * (u.1 * t.2.1 - u.2.1 * t.1))).sum := by
      rw [← hc]
      simp only [List.map_cons, List.sum_cons]
      ring
    rw [hstep]
    refine ⟨by omega, ?_⟩
    constructor
    · intro h
      have hd : (T.map (fun t => t.1 * t.1)).sum * (T.map (fun t => t.2.1 * t.2.1)).sum
          - (T.map (fun t => t.1 * t.2.1)).sum * (T.map (fun t => t.1 * t.2.1)).sum = 0 := by
        omega
      have hs : (T.map (fun t => (u.1 * t.2.1 - u.2.1 * t.1)
          * (u.1 * t.2.1 - u.2.1 * t.1))).sum = 0 := by omega
      have hu : ∀ t ∈ T, u.1 * t.2.1 = u.2.1 * t.1 := by
        intro t ht
        have := g1.mp hs _ (List.mem_map.mpr ⟨t, ht, rfl⟩)
        have := mul_self_eq_zero.mp this
        omega
      intro s hs2 t ht
      rcases List.mem_cons.mp hs2 with e | e <;> rcases List.mem_cons.mp ht with f | f
      · rw [e, f]; ring
      · rw [e]; exact hu t f
      · rw [f]; have := hu s e; linarith
      · exact h1.mp hd s e t f
    · intro h
      have hd := h1.mpr (fun s hs t ht =>
        h s (List.mem_cons_of_mem _ hs) t (List.mem_cons_of_mem _ ht))
      have hs := g1.mpr (by
        intro v hv
        obtain ⟨t, ht, rfl⟩ := List.mem_map.mp hv
        have := h u (List.mem_cons_self _ _) t (List.mem_cons_of_mem _ ht)
        rw [this]; ring)
      omega

theorem pixelIndex_lt (w i : Nat) : pixelIndex w i < 4 := by
  unfold pixelIndex
  have : (w >>> (2 * i)) &&& 3 ≤ 3 := Nat.and_le_right
  omega

theorem pixelIndex_succ (w i : Nat) : pixelIndex (w >>> 2) i = pixelIndex w (i + 1) := by
  unfold pixelIndex
  rw [← Nat.shiftRight_add]
  congr 2
  ring

/-- The weight pairs of the accumulated terms are those of the sixteen pixel
indices. -/
theorem LLS_terms_weights (fourc : Bool) (cs : List rrColor32BGRA) (w : Nat) :
    (∀ t ∈ LLS_terms fourc cs w, ∃ i, i < cs.length ∧
      (t.1, t.2.1) = (c_weights_ab fourc).getD (pixelIndex w i) (0, 0)) ∧
    (∀ i, i < cs.length → ∃ t ∈ LLS_terms fourc cs w,
      (t.1, t.2.1) = (c_weights_ab fourc).getD (pixelIndex w i) (0, 0)) := by
  induction cs generalizing w with
  | nil => simp [LLS_terms]
  | cons c cs ih =>
    obtain ⟨h1, h2⟩ := ih (w >>> 2)
    have h0 : pixelIndex w 0 = w &&& 3 := by
      unfold pixelIndex; simp
    constructor
    · intro t ht
      simp only [LLS_terms, List.mem_cons] at ht
      rcases ht with e | e
      · refine ⟨0, by simp, ?_⟩
        rw [e, h0]
      · obtain ⟨i, hi, he⟩ := h1 t e
        refine ⟨i + 1, by simp; omega, ?_⟩
        rw [he, pixelIndex_succ]
    · intro i hi
      cases i with
      | zero =>
        refine ⟨_, List.mem_cons_self _ _, ?_⟩
        rw [h0]
      | succ i =>
        obtain ⟨t, ht, he⟩ := h2 i (by simp at hi; omega)
        refine ⟨t, ?_, ?_⟩
        · simp only [LLS_terms, List.mem_cons]; right; exact ht
        · rw [he, pixelIndex_succ]

/-- Two weight pairs of the table are parallel exactly when one of them is (0,0) or
the indices are equal. -/
theorem weights_parallel (fourc : Bool) (p q : Nat) (hp : p < 4) (hq : q < 4) :
    (((c_weights_ab fourc).getD p (0, 0)).1 * ((c_weights_ab fourc).getD q (0, 0)).2
        = ((c_weights_ab fourc).getD p (0, 0)).2 * ((c_weights_ab fourc).getD q (0, 0)).1 ↔
      ((c_weights_ab fourc).getD p (0, 0) = (0, 0) ∨ (c_weights_ab fourc).getD q (0, 0) = (0, 0)
        ∨ p = q)) ∧
    ((c_weights_ab fourc).getD p (0, 0) = (0, 0) ↔ (fourc = false ∧ p = 3)) := by
  have hpc : p = 0 ∨ p = 1 ∨ p = 2 ∨ p = 3 := by omega
  have hqc : q = 0 ∨ q = 1 ∨ q = 2 ∨ q = 3 := by omega
  cases fourc <;> rcases hpc with e | e | e | e <;> rcases hqc with f | f | f | f <;>
    subst e <;> subst f <;> decide

/-! ## The exact solution of the least-squares system -/

/-- The cost of one channel after a shift of the endpoints, expanded around
`(A, B)`. -/
theorem lls_cost_shift (T : List (Int × Int × rrVec3i)) (f : rrVec3i → Int)
    (n A B dA dB : ℚ) :
    (T.map (fun t => (((t.1 : ℚ) * (A + dA) + (t.2.1 : ℚ) * (B + dB)) / n
        - (f t.2.2 : ℚ)) ^ 2)).sum
      = (T.map (fun t => (((t.1 : ℚ) * A + (t.2.1 : ℚ) * B) / n - (f t.2.2 : ℚ)) ^ 2)).sum
        + (((T.map (fun t => t.1 * t.1)).sum : ℤ) * dA ^ 2
            + 2 * ((T.map (fun t => t.1 * t.2.1)).sum : ℤ) * dA * dB
            + ((T.map (fun t => t.2.1 * t.2.1)).sum : ℤ) * dB ^ 2) / n ^ 2
        + 2 / n * (dA * ((((T.map (fun t => t.1 * t.1)).sum : ℤ) * A
                + ((T.map (fun t => t.1 * t.2.1)).sum : ℤ) * B) / n
              - ((T.map (fun t => t.1 * f t.2.2)).sum : ℤ))
            + dB * ((((T.map (fun t => t.1 * t.2.1)).sum : ℤ) * A
                + ((T.map (fun t => t.2.1 * t.2.1)).sum : ℤ) * B) / n
              - ((T.map (fun t => t.2.1 * f t.2.2)).sum : ℤ))) := by
  induction T with
  | nil => simp
  | cons t T ih =>
    simp only [List.map_cons, List.sum_cons]
    rw [ih]
    push_cast
    ring

/-- A positive definite quadratic form vanishes only at the origin. -/
theorem lls_quad_pos (SAA SAB SBB dA dB : ℚ) (hA : 0 ≤ SAA)
    (hdet : 0 < SAA * SBB - SAB * SAB) :
    0 ≤ SAA * dA ^ 2 + 2 * SAB * dA * dB + SBB * dB ^ 2 ∧
    (SAA * dA ^ 2 + 2 * SAB * dA * dB + SBB * dB ^ 2 = 0 → dA = 0 ∧ dB = 0) := by
  have hpos : 0 < SAA := by
    rcases lt_or_eq_of_le hA with h | h
    · exact h
    · rw [← h] at hdet
      nlinarith [mul_self_nonneg SAB]
  have key : SAA * (SAA * dA ^ 2 + 2 * SAB * dA * dB + SBB * dB ^ 2)
      = (SAA * dA + SAB * dB) ^ 2 + (SAA * SBB - SAB * SAB) * dB ^ 2 := by ring
  have h1 : 0 ≤ (SAA * dA + SAB * dB) ^ 2 := sq_nonneg _
  have h2 : 0 ≤ (SAA * SBB - SAB * SAB) * dB ^ 2 := mul_nonneg (le_of_lt hdet) (sq_nonneg _)
  constructor
  · by_contra hneg
    push_neg at hneg
    have := mul_neg_of_pos_of_neg hpos hneg
    linarith
  · intro h0
    rw [h0, mul_zero] at key
    have e2 : (SAA * SBB - SAB * SAB) * dB ^ 2 = 0 := by linarith
    have e1 : (SAA * dA + SAB * dB) ^ 2 = 0 := by linarith
    have hb : dB = 0 := by
      rcases mul_eq_zero.mp e2 with h | h
      · linarith
      · exact pow_eq_zero_iff (by norm_num) |>.mp h
    have ha : SAA * dA + SAB * dB = 0 := pow_eq_zero_iff (by norm_num) |>.mp e1
    rw [hb, mul_zero, add_zero] at ha
    rcases mul_eq_zero.mp ha with h | h
    · linarith
    · exact ⟨h, hb⟩

/-- One channel: endpoints that satisfy the normal equations have the least cost,
and only they attain it. -/
theorem lls_channel (T : List (Int × Int × rrVec3i)) (f : rrVec3i → Int)
    (n A B A2 B2 : ℚ) (hn : n ≠ 0)
    (hdet : 0 < (T.map (fun t => t.1 * t.1)).sum * (T.map (fun t => t.2.1 * t.2.1)).sum
      - (T.map (fun t => t.1 * t.2.1)).sum * (T.map (fun t => t.1 * t.2.1)).sum)
    (h1 : ((T.map (fun t => t.1 * t.1)).sum : ℤ) * A
        + ((T.map (fun t => t.1 * t.2.1)).sum : ℤ) * B
      = n * ((T.map (fun t => t.1 * f t.2.2)).sum : ℤ))
    (h2 : ((T.map (fun t => t.1 * t.2.1)).sum : ℤ) * A
        + ((T.map (fun t => t.2.1 * t.2.1)).sum : ℤ) * B
      = n * ((T.map (fun t => t.2.1 * f t.2.2)).sum : ℤ)) :
    (T.map (fun t => (((t.1 : ℚ) * A + (t.2.1 : ℚ) * B) / n - (f t.2.2 : ℚ)) ^ 2)).sum
      ≤ (T.map (fun t => (((t.1 : ℚ) * A2 + (t.2.1 : ℚ) * B2) / n - (f t.2.2 : ℚ)) ^ 2)).sum ∧
    ((T.map (fun t => (((t.1 : ℚ) * A2 + (t.2.1 : ℚ) * B2) / n - (f t.2.2 : ℚ)) ^ 2)).sum
      = (T.map (fun t => (((t.1 : ℚ) * A + (t.2.1 : ℚ) * B) / n - (f t.2.2 : ℚ)) ^ 2)).sum →
      A2 = A ∧ B2 = B) := by
  have hs := lls_cost_shift T f n A B (A2 - A) (B2 - B)
  rw [show A + (A2 - A) = A2 by ring, show B + (B2 - B) = B2 by ring] at hs
  have c1 : (((T.map (fun t => t.1 * t.1)).sum : ℤ) * A
      + ((T.map (fun t => t.1 * t.2.1)).sum : ℤ) * B) / n
      - ((T.map (fun t => t.1 * f t.2.2)).sum : ℤ) = 0 := by
    rw [h1]; field_simp
  have c2 : (((T.map (fun t => t.1 * t.2.1)).sum : ℤ) * A
      + ((T.map (fun t => t.2.1 * t.2.1)).sum : ℤ) * B) / n
      - ((T.map (fun t => t.2.1 * f t.2.2)).sum : ℤ) = 0 := by
    rw [h2]; field_simp
  rw [c1, c2] at hs
  have hA : (0 : ℚ) ≤ ((T.map (fun t => t.1 * t.1)).sum : ℤ) := by
    have : (0 : ℤ) ≤ (T.map (fun t => t.1 * t.1)).sum := by
      apply List.sum_nonneg
      intro v hv
      obtain ⟨t, _, rfl⟩ := List.mem_map.mp hv
      exact mul_self_nonneg _
    exact_mod_cast this
  have hd : (0 : ℚ) < ((T.map (fun t => t.1 * t.1)).sum : ℤ)
      * ((T.map (fun t => t.2.1 * t.2.1)).sum : ℤ)
      - ((T.map (fun t => t.1 * t.2.1)).sum : ℤ) * ((T.map (fun t => t.1 * t.2.1)).sum : ℤ) := by
    exact_mod_cast hdet
  obtain ⟨q0, q1⟩ := lls_quad_pos _ _ _ (A2 - A) (B2 - B) hA hd
  have hn2 : (0 : ℚ) < n ^ 2 := by positivity
  have hq : 0 ≤ (((T.map (fun t => t.1 * t.1)).sum : ℤ) * (A2 - A) ^ 2
      + 2 * ((T.map (fun t => t.1 * t.2.1)).sum : ℤ) * (A2 - A) * (B2 - B)
      + ((T.map (fun t => t.2.1 * t.2.1)).sum : ℤ) * (B2 - B) ^ 2) / n ^ 2 :=
    div_nonneg q0 (le_of_lt hn2)
  constructor
  · rw [hs]; linarith
  · intro he
    rw [hs] at he
    have hz : (((T.map (fun t => t.1 * t.1)).sum : ℤ) * (A2 - A) ^ 2
        + 2 * ((T.map (fun t => t.1 * t.2.1)).sum : ℤ) * (A2 - A) * (B2 - B)
        + ((T.map (fun t => t.2.1 * t.2.1)).sum : ℤ) * (B2 - B) ^ 2) / n ^ 2 = 0 := by
      linarith
    have hz2 := (div_eq_zero_iff.mp hz).resolve_right (ne_of_gt hn2)
    obtain ⟨ea, eb⟩ := q1 hz2
    exact ⟨by linarith, by linarith⟩

/-- The cost is the sum of the costs of the three channels. -/
theorem LLS_cost_channels (fourc : Bool) (colors : rrColorBlock4x4) (indices : Nat)
    (A B : rrVec3q) :
    LLS_cost fourc colors indices A B
      = ((LLS_terms fourc colors.colors indices).map (fun t =>
          (((t.1 : ℚ) * A.x + (t.2.1 : ℚ) * B.x) / normalization_factor fourc
            - ((fun v : rrVec3i => v.x) t.2.2 : ℚ)) ^ 2)).sum
        + ((LLS_terms fourc colors.colors indices).map (fun t =>
          (((t.1 : ℚ) * A.y + (t.2.1 : ℚ) * B.y) / normalization_factor fourc
            - ((fun v : rrVec3i => v.y) t.2.2 : ℚ)) ^ 2)).sum
        + ((LLS_terms fourc colors.colors indices).map (fun t =>
          (((t.1 : ℚ) * A.z + (t.2.1 : ℚ) * B.z) / normalization_factor fourc
            - ((fun v : rrVec3i => v.z) t.2.2 : ℚ)) ^ 2)).sum := by
  unfold LLS_cost
  induction LLS_terms fourc colors.colors indices with
  | nil => simp
  | cons t T ih =>
    simp only [List.map_cons, List.sum_cons]
    rw [ih]
    ring

/-- The bits of the mask `0x00E0C0E0`. -/
theorem wiggle_mask_bits (i : Nat) (h : (14729440 : Nat).testBit i = true) :
    i = 5 ∨ i = 6 ∨ i = 7 ∨ i = 14 ∨ i = 15 ∨ i = 21 ∨ i = 22 ∨ i = 23 := by
  by_cases hi : i < 24
  · interval_cases i <;> first | omega | (exact absurd h (by decide))
  · have : (14729440 : Nat).testBit i = false :=
      Nat.testBit_eq_false_of_lt (lt_of_lt_of_le (by norm_num) (Nat.pow_le_pow_right (by norm_num) (not_lt.mp hi)))
    rw [this] at h; cases h

/-- A word whose three colour bytes are in the 5:6:5 field ranges has no bit of the
mask `0x00E0C0E0`. -/
theorem legal_and_mask (x y z a : Nat) (hx : x < 32) (hy : y < 64) (hz : z < 32) :
    (x + 256 * y + 65536 * z + 16777216 * a) &&& 14729440 = 0 := by
  apply Nat.eq_of_testBit_eq
  intro i
  rw [Nat.testBit_and, Nat.zero_testBit]
  cases hb : (14729440 : Nat).testBit i
  · simp
  · rw [Bool.and_true, Nat.testBit_to_div_mod]
    rcases wiggle_mask_bits i hb with e | e | e | e | e | e | e | e <;> subst e <;>
      simp only [decide_eq_false_iff_not] <;> norm_num <;> omega

/-- The cast `(int)` of a word below `2^31` is the word. -/
theorem toS32_of_lt (n : Nat) (h : n < 2147483648) : toS32 n = (n : Int) := by
  unfold toS32
  rw [Nat.mod_eq_of_lt (by omega), if_pos h]

theorem unique_mem_iff (l : List Nat) (x : Nat) : x ∈ unique l ↔ x ∈ l := by
  induction l with
  | nil => simp [unique]
  | cons a rest ih =>
    cases rest with
    | nil => simp [unique]
    | cons b rest =>
      by_cases hab : a = b
      · rw [unique, if_pos hab, ih]
        subst hab
        simp
      · rw [unique, if_neg hab, List.mem_cons, ih]
        simp

/-- On a sorted list `unique` leaves a strictly increasing list. -/
theorem unique_sorted (l : List Nat) (h : l.Sorted (fun a b => a ≤ b)) :
    (unique l).Sorted (fun a b => a < b) := by
  induction l with
  | nil => simp [unique]
  | cons a rest ih =>
    cases rest with
    | nil => simp [unique]
    | cons b rest =>
      have hrest := (List.sorted_cons.mp h).2
      have ha := (List.sorted_cons.mp h).1
      by_cases hab : a = b
      · rw [unique, if_pos hab]
        exact ih hrest
      · rw [unique, if_neg hab]
        refine List.sorted_cons.mpr ⟨?_, ih hrest⟩
        intro y hy
        have hy2 := (unique_mem_iff _ y).mp hy
        have hb := ha b (List.mem_cons_self _ _)
        rcases List.mem_cons.mp hy2 with rfl | hy3
        · omega
        · have := (List.sorted_cons.mp hrest).1 y hy3
          omega

/-- The pairs of the double loop over a strictly increasing list: every pair of
entries `a < b`. -/
theorem allPairs_mem_iff (l : List Nat) (h : l.Sorted (fun a b => a < b)) (a b : Nat) :
    (a, b) ∈ allPairs l ↔ a ∈ l ∧ b ∈ l ∧ a < b := by
  induction l with
  | nil => simp [allPairs]
  | cons x rest ih =>
    have hx := (List.sorted_cons.mp h).1
    have hrest := (List.sorted_cons.mp h).2
    simp only [allPairs, List.mem_append, List.mem_map, Prod.mk.injEq, ih hrest, List.mem_cons]
    constructor
    · rintro (⟨y, hy, rfl, rfl⟩ | ⟨h1, h2, h3⟩)
      · exact ⟨Or.inl rfl, Or.inr hy, hx _ hy⟩
      · exact ⟨Or.inr h1, Or.inr h2, h3⟩
    · rintro ⟨h1 | h1, h2 | h2, h3⟩
      · omega
      · exact Or.inl ⟨b, h2, h1.symm, rfl⟩
      · have := hx a h1
        omega
      · exact Or.inr ⟨h1, h2, h3⟩

theorem Heavy_uniques_mem (K : Deps) (colors : rrColorBlock4x4) (a : Nat) :
    a ∈ Heavy_uniques K colors ↔ ∃ c ∈ colors.colors, K.Quantize c % 65536 = a := by
  unfold Heavy_uniques
  rw [unique_mem_iff, (List.perm_insertionSort _ _).mem_iff, List.mem_map]

theorem Heavy_uniques_sorted (K : Deps) (colors : rrColorBlock4x4) :
    (Heavy_uniques K colors).Sorted (fun a b => a < b) :=
  unique_sorted _ (List.sorted_insertionSort _ _)

/-- The flag of the pair loop: clear with the state untouched, or set with a lower
error. -/
theorem Heavy_fold_flag (K : Deps) (colors : rrColorBlock4x4) (mode : rrDXT1PaletteMode)
    (pBlock : rrDXT1Block) (pError : Nat) (ps : List (Nat × Nat))
    (st : Bool × rrDXT1Block × Nat)
    (h : (st.1 = false ∧ st.2 = (pBlock, pError)) ∨ (st.1 = true ∧ st.2.2 < pError)) :
    ((ps.foldl (Heavy_pair K colors mode) st).1 = false ∧
        (ps.foldl (Heavy_pair K colors mode) st).2 = (pBlock, pError)) ∨
      ((ps.foldl (Heavy_pair K colors mode) st).1 = true ∧
        (ps.foldl (Heavy_pair K colors mode) st).2.2 < pError) := by
  induction ps generalizing st with
  | nil => exact h
  | cons p ps ih =>
    rw [List.foldl_cons]
    apply ih
    obtain ⟨f, b, e⟩ := st
    unfold Heavy_pair
    dsimp only at h ⊢
    rcases h with ⟨h1, h2⟩ | ⟨h1, h2⟩
    · simp only [Prod.mk.injEq] at h2
      obtain ⟨rfl, rfl⟩ := h2
      subst h1
      split_ifs <;> simp_all <;> omega
    · subst h1
      split_ifs <;> simp_all <;> omega

theorem ne_zero_of_testBit (n i : Nat) (h : n.testBit i = true) : n ≠ 0 := by
  intro h0
  rw [h0] at h
  simp at h

/-- The reference mask is non-zero when some pixel has index 3. -/
theorem Ref.mask_of_index3 (indices : Nat) (h : ∃ i, i < 16 ∧ pixelIndex indices i = 3) :
    Ref.Mask_FromIndices true indices ≠ 0 := by
  obtain ⟨i, hi, h3⟩ := h
  unfold pixelIndex at h3
  have b0 : ((indices >>> (2 * i)) &&& 3).testBit 0 = true := by rw [h3]; decide
  have b1 : ((indices >>> (2 * i)) &&& 3).testBit 1 = true := by rw [h3]; decide
  rw [Nat.testBit_and, Nat.testBit_shiftRight] at b0 b1
  simp only [Bool.and_eq_true] at b0 b1
  have hm : (1431655765 : Nat).testBit (2 * i) = true := by
    interval_cases i <;> decide
  unfold Ref.Mask_FromIndices
  rw [if_pos rfl]
  apply ne_zero_of_testBit _ (2 * i)
  rw [Nat.testBit_and, Nat.testBit_and, Nat.testBit_shiftRight]
  simp only [Bool.and_eq_true]
  refine ⟨⟨?_, ?_⟩, hm⟩
  · simpa using b0.1
  · have := b1.1
    rwa [Nat.add_comm] at this

/-- Startup never emits more than five candidates. -/
theorem Startup_Impl_le_five (K : Deps) (pData : rrCompressDXT1_Startup_Data)
    (colors : rrColorBlock4x4) (mode : rrDXT1PaletteMode) :
    (rrCompressDXT1_Startup_Impl K pData colors mode []).2.2.length ≤ 5 := by
  unfold rrCompressDXT1_Startup_Impl
  dsimp only
  generalize StartupScan.run K mode colors = s
  unfold AddEndPoints_SingleColor_Compact_4C AddEndPoints_SingleColor_Compact_3C
  split_ifs <;> dsimp only <;>
    first
      | (refine le_trans (Default_length K _ _ _ _).2 ?_; simp [Force3C_length])
      | simp [Force3C_length]

theorem FourMeans_reduced_length (K : Deps) (means : Means4) (flags : Nat)
    (h : flags &&& DXT1_4MEANS_REDUCED_CANDIDATES ≠ 0) :
    (FourMeans_candidates K means flags).length ≤ 12 := by
  unfold FourMeans_candidates
  rw [if_pos h]
  have h1 := BothWays_length K [] means.m0 means.m1
  have h2 := BothWays_length K (AddEndPoints_BothWays K [] means.m0 means.m1) means.m0 means.m2
  have h3 := BothWays_length K _ means.m0 means.m3 |>.trans (Nat.add_le_add_right h2 2)
  have h4 := BothWays_length K _ means.m1 means.m2 |>.trans (Nat.add_le_add_right h3 2)
  have h5 := BothWays_length K _ means.m1 means.m3 |>.trans (Nat.add_le_add_right h4 2)
  have h6 := BothWays_length K _ means.m2 means.m3 |>.trans (Nat.add_le_add_right h5 2)
  simp only [List.length_nil] at h1
  dsimp only
  omega

theorem Anneal_rng_bytes_length (K : Deps) (colors : rrColorBlock4x4) :
    (Anneal_rng_bytes K colors).length = 256 := by
  unfold Anneal_rng_bytes
  rw [rng_fill_length]
  rfl

theorem scan_fold_hiC (K : Deps) (mode : rrDXT1PaletteMode) (cs : List rrColor32BGRA)
    (s : StartupScan) :
    (cs.foldl (StartupScan.step K mode) s).hiC
      = ⟨cs.foldl (fun m c => max m c.b) s.hiC.b, cs.foldl (fun m c => max m c.g) s.hiC.g,
         cs.foldl (fun m c => max m c.r) s.hiC.r, s.hiC.a⟩ := by
  induction cs generalizing s with
  | nil => rfl
  | cons c cs ih =>
    simp only [List.foldl_cons, ih]
    unfold StartupScan.step
    dsimp only
    split <;> rfl

theorem scan_fold_loC (K : Deps) (mode : rrDXT1PaletteMode) (cs : List rrColor32BGRA)
    (s : StartupScan) :
    (cs.foldl (StartupScan.step K mode) s).loC
      = ⟨cs.foldl (fun m c => min m c.b) s.loC.b, cs.foldl (fun m c => min m c.g) s.loC.g,
         cs.foldl (fun m c => min m c.r) s.loC.r, s.loC.a⟩ := by
  induction cs generalizing s with
  | nil => rfl
  | cons c cs ih =>
    simp only [List.foldl_cons, ih]
    unfold StartupScan.step
    dsimp only
    split <;> rfl

theorem scan_fold_avg (K : Deps) (mode : rrDXT1PaletteMode) (cs : List rrColor32BGRA)
    (s : StartupScan) :
    (cs.foldl (StartupScan.step K mode) s).avg
      = ⟨s.avg.x + ((cs.map (fun c => c.b)).sum : Nat),
         s.avg.y + ((cs.map (fun c => c.g)).sum : Nat),
         s.avg.z + ((cs.map (fun c => c.r)).sum : Nat)⟩ := by
  induction cs generalizing s with
  | nil => simp
  | cons c cs ih =>
    simp only [List.foldl_cons, ih, List.map_cons, List.sum_cons]
    unfold StartupScan.step
    dsimp only
    split <;> simp [rrVec3i.add, ColorToVec3i] <;> refine ⟨?_, ?_, ?_⟩ <;> ring

theorem scan_fold_hiC_colors (K : Deps) (mode : rrDXT1PaletteMode) (cs : List rrColor32BGRA)
    (s : StartupScan) :
    (cs.foldl (StartupScan.step K mode) s).hiC_colors
      = ⟨(cs.filter (fun c => !rrDXT1_IsTransparentOrBlack K mode c)).foldl
            (fun m c => max m c.b) s.hiC_colors.b,
         (cs.filter (fun c => !rrDXT1_IsTransparentOrBlack K mode c)).foldl
            (fun m c => max m c.g) s.hiC_colors.g,
         (cs.filter (fun c => !rrDXT1_IsTransparentOrBlack K mode c)).foldl
            (fun m c => max m c.r) s.hiC_colors.r, s.hiC_colors.a⟩ := by
  induction cs generalizing s with
  | nil => rfl
  | cons c cs ih =>
    simp only [List.foldl_cons, ih]
    unfold StartupScan.step
    dsimp only
    by_cases h : rrDXT1_IsTransparentOrBlack K mode c = true
    · simp [h]
    · simp only [Bool.not_eq_true] at h
      simp [h]

theorem scan_fold_loC_colors (K : Deps) (mode : rrDXT1PaletteMode) (cs : List rrColor32BGRA)
    (s : StartupScan) :
    (cs.foldl (StartupScan.step K mode) s).loC_colors
      = ⟨(cs.filter (fun c => !rrDXT1_IsTransparentOrBlack K mode c)).foldl
            (fun m c => min m c.b) s.loC_colors.b,
         (cs.filter (fun c => !rrDXT1_IsTransparentOrBlack K mode c)).foldl
            (fun m c => min m c.g) s.loC_colors.g,
         (cs.filter (fun c => !rrDXT1_IsTransparentOrBlack K mode c)).foldl
            (fun m c => min m c.r) s.loC_colors.r, s.loC_colors.a⟩ := by
  induction cs generalizing s with
  | nil => rfl
  | cons c cs ih =>
    simp only [List.foldl_cons, ih]
    unfold StartupScan.step
    dsimp only
    by_cases h : rrDXT1_IsTransparentOrBlack K mode c = true
    · simp [h]
    · simp only [Bool.not_eq_true] at h
      simp [h]

/-- The scan computes the bounding boxes, the sum and the two counts. -/
theorem scan_run_eq (K : Deps) (mode : rrDXT1PaletteMode) (colors : rrColorBlock4x4) :
    (StartupScan.run K mode colors).hiC = bboxHi colors.colors ∧
    (StartupScan.run K mode colors).loC = bboxLo colors.colors ∧
    (StartupScan.run K mode colors).avg = tileSum colors.colors ∧
    (StartupScan.run K mode colors).hiC_colors
      = bboxHi (colors.colors.filter (fun c => !rrDXT1_IsTransparentOrBlack K mode c)) ∧
    (StartupScan.run K mode colors).loC_colors
      = bboxLo (colors.colors.filter (fun c => !rrDXT1_IsTransparentOrBlack K mode c)) ∧
    (StartupScan.run K mode colors).num_colors
      = colors.colors.countP (fun c => !rrDXT1_IsTransparentOrBlack K mode c) ∧
    (StartupScan.run K mode colors).num_transparent
      = colors.colors.countP (fun c => decide (c.dw = 0)) := by
  unfold StartupScan.run
  rw [scan_fold_hiC, scan_fold_loC, scan_fold_avg, scan_fold_hiC_colors, scan_fold_loC_colors,
    scan_num_colors, scan_num_transparent]
  simp [StartupScan.init, bboxHi, bboxLo, tileSum, tileMax, tileMin]

theorem foldl_max_ge (f : rrColor32BGRA → Nat) (cs : List rrColor32BGRA) (m : Nat) :
    m ≤ cs.foldl (fun m c => max m (f c)) m ∧
    ∀ c ∈ cs, f c ≤ cs.foldl (fun m c => max m (f c)) m := by
  induction cs generalizing m with
  | nil => simp
  | cons x xs ih =>
    simp only [List.foldl_cons, List.mem_cons, forall_eq_or_imp]
    have h := ih (max m (f x))
    refine ⟨le_trans (le_max_left _ _) h.1, le_trans (le_max_right _ _) h.1, h.2⟩

theorem foldl_max_le (f : rrColor32BGRA → Nat) (cs : List rrColor32BGRA) (m B : Nat)
    (hm : m ≤ B) (h : ∀ c ∈ cs, f c ≤ B) : cs.foldl (fun m c => max m (f c)) m ≤ B := by
  induction cs generalizing m with
  | nil => exact hm
  | cons x xs ih =>
    simp only [List.foldl_cons]
    exact ih _ (max_le hm (h x (List.mem_cons_self _ _)))
      (fun c hc => h c (List.mem_cons_of_mem _ hc))

theorem foldl_max_attained (f : rrColor32BGRA → Nat) (cs : List rrColor32BGRA) (m : Nat) :
    cs.foldl (fun m c => max m (f c)) m = m ∨
    ∃ c ∈ cs, f c = cs.foldl (fun m c => max m (f c)) m := by
  induction cs generalizing m with
  | nil => exact Or.inl rfl
  | cons x xs ih =>
    simp only [List.foldl_cons, List.mem_cons, exists_eq_or_imp]
    rcases ih (max m (f x)) with h | ⟨c, hc, h⟩
    · rw [h]
      rcases le_total m (f x) with h1 | h1
      · exact Or.inr (Or.inl (by rw [max_eq_right h1]))
      · exact Or.inl (max_eq_left h1)
    · exact Or.inr (Or.inr ⟨c, hc, h⟩)

theorem foldl_min_le (f : rrColor32BGRA → Nat) (cs : List rrColor32BGRA) (m : Nat) :
    cs.foldl (fun m c => min m (f c)) m ≤ m ∧
    ∀ c ∈ cs, cs.foldl (fun m c => min m (f c)) m ≤ f c := by
  induction cs generalizing m with
  | nil => simp
  | cons x xs ih =>
    simp only [List.foldl_cons, List.mem_cons, forall_eq_or_imp]
    have h := ih (min m (f x))
    refine ⟨le_trans h.1 (min_le_left _ _), le_trans h.1 (min_le_right _ _), h.2⟩

theorem foldl_min_attained (f : rrColor32BGRA → Nat) (cs : List rrColor32BGRA) (m : Nat) :
    cs.foldl (fun m c => min m (f c)) m = m ∨
    ∃ c ∈ cs, f c = cs.foldl (fun m c => min m (f c)) m := by
  induction cs generalizing m with
  | nil => exact Or.inl rfl
  | cons x xs ih =>
    simp only [List.foldl_cons, List.mem_cons, exists_eq_or_imp]
    rcases ih (min m (f x)) with h | ⟨c, hc, h⟩
    · rw [h]
      rcases le_total m (f x) with h1 | h1
      · exact Or.inl (min_eq_left h1)
      · exact Or.inr (Or.inl (by rw [min_eq_right h1]))
    · exact Or.inr (Or.inr ⟨c, hc, h⟩)

/-- The value `tileMax` is an upper bound of the channel and, on a non-empty list, the
channel of some pixel. -/
theorem tileMax_spec (f : rrColor32BGRA → Nat) (cs : List rrColor32BGRA) :
    (∀ c ∈ cs, f c ≤ tileMax f cs) ∧ (cs ≠ [] → ∃ c ∈ cs, f c = tileMax f cs) := by
  refine ⟨(foldl_max_ge f cs 0).2, fun hne => ?_⟩
  rcases foldl_max_attained f cs 0 with h | h
  · obtain ⟨c, hc⟩ := List.exists_mem_of_ne_nil cs hne
    refine ⟨c, hc, ?_⟩
    have := (foldl_max_ge f cs 0).2 c hc
    unfold tileMax
    omega
  · exact h

/-- The value `tileMin` is a lower bound of a byte channel and, on a non-empty list,
the channel of some pixel. -/
theorem tileMin_spec (f : rrColor32BGRA → Nat) (cs : List rrColor32BGRA)
    (hb : ∀ c ∈ cs, f c ≤ 255) :
    (∀ c ∈ cs, tileMin f cs ≤ f c) ∧ (cs ≠ [] → ∃ c ∈ cs, f c = tileMin f cs) := by
  refine ⟨(foldl_min_le f cs 255).2, fun hne => ?_⟩
  rcases foldl_min_attained f cs 255 with h | h
  · obtain ⟨c, hc⟩ := List.exists_mem_of_ne_nil cs hne
    refine ⟨c, hc, ?_⟩
    have h1 := (foldl_min_le f cs 255).2 c hc
    have h2 := hb c hc
    unfold tileMin
    omega
  · exact h

theorem tileMin_le_tileMax (f : rrColor32BGRA → Nat) (cs : List rrColor32BGRA)
    (hne : cs ≠ []) : tileMin f cs ≤ tileMax f cs := by
  obtain ⟨c, hc⟩ := List.exists_mem_of_ne_nil cs hne
  exact le_trans ((foldl_min_le f cs 255).2 c hc) ((foldl_max_ge f cs 0).2 c hc)

theorem tileMax_le (f : rrColor32BGRA → Nat) (cs : List rrColor32BGRA)
    (hb : ∀ c ∈ cs, f c ≤ 255) : tileMax f cs ≤ 255 :=
  foldl_max_le f cs 0 255 (by norm_num) hb

theorem tileMin_le (f : rrColor32BGRA → Nat) (cs : List rrColor32BGRA) : tileMin f cs ≤ 255 :=
  (foldl_min_le f cs 255).1

theorem sum_le_of_bytes (f : rrColor32BGRA → Nat) (cs : List rrColor32BGRA)
    (hb : ∀ c ∈ cs, f c ≤ 255) : (cs.map f).sum ≤ 255 * cs.length := by
  induction cs with
  | nil => simp
  | cons x xs ih =>
    simp only [List.map_cons, List.sum_cons, List.length_cons]
    have h1 := hb x (List.mem_cons_self _ _)
    have h2 := ih (fun c hc => hb c (List.mem_cons_of_mem _ hc))
    omega

/-- The squared length of the diagonal of two corners with `lo <= hi` per channel is
0 when the high corner is 0 or the corners have the same word. -/
theorem diag_zero_of_corner (lb lg lr hb hg hr : Nat) (h1 : lb ≤ hb) (h2 : lg ≤ hg)
    (h3 : lr ≤ hr) (h4 : hb ≤ 255) (h5 : hg ≤ 255) (h6 : hr ≤ 255)
    (h : (⟨hb, hg, hr, 0⟩ : rrColor32BGRA).dw = 0 ∨
      (⟨lb, lg, lr, 0⟩ : rrColor32BGRA).dw = (⟨hb, hg, hr, 0⟩ : rrColor32BGRA).dw) :
    LengthSqr ((ColorToVec3i ⟨hb, hg, hr, 0⟩).sub (ColorToVec3i ⟨lb, lg, lr, 0⟩)) = 0 := by
  unfold rrColor32BGRA.dw at h
  dsimp only at h
  have e : lb = hb ∧ lg = hg ∧ lr = hr := by
    rcases h with h | h <;> refine ⟨?_, ?_, ?_⟩ <;> omega
  obtain ⟨rfl, rfl, rfl⟩ := e
  simp [LengthSqr, rrVec3i.sub, ColorToVec3i]

theorem Force3C_append (K : Deps) (l : List rrDXT1UnpackedEndPoints) (a b : rrColor32BGRA) :
    AddEndPoints_Force3C K l a b = l ++ AddEndPoints_Force3C K [] a b := by
  unfold AddEndPoints_Force3C
  dsimp only
  split <;> simp

theorem Default_append (K : Deps) (l : List rrDXT1UnpackedEndPoints) (mode : rrDXT1PaletteMode)
    (a b : rrColor32BGRA) :
    AddEndPoints_Default K l mode a b = l ++ AddEndPoints_Default K [] mode a b := by
  unfold AddEndPoints_Default
  dsimp only
  split_ifs <;> simp

/-- Two bounding-box corners of byte pixels have the same word only when equal. -/
theorem bbox_dw_inj (cs ds : List rrColor32BGRA)
    (hd : ∀ c ∈ ds, c.b ≤ 255 ∧ c.g ≤ 255 ∧ c.r ≤ 255 ∧ c.a ≤ 255) :
    (bboxLo cs).dw = (bboxHi ds).dw ↔ bboxLo cs = bboxHi ds := by
  have h1 := tileMin_le (fun c => c.b) cs
  have h2 := tileMin_le (fun c => c.g) cs
  have h3 := tileMin_le (fun c => c.r) cs
  have h4 := tileMax_le (fun c => c.b) ds (fun c hc => (hd c hc).1)
  have h5 := tileMax_le (fun c => c.g) ds (fun c hc => (hd c hc).2.1)
  have h6 := tileMax_le (fun c => c.r) ds (fun c hc => (hd c hc).2.2.1)
  unfold bboxLo bboxHi rrColor32BGRA.dw
  simp only [rrColor32BGRA.mk.injEq, and_true]
  constructor
  · intro h
    refine ⟨?_, ?_, ?_⟩ <;> omega
  · rintro ⟨e1, e2, e3⟩
    rw [e1, e2, e3]

theorem bboxHi_dw_zero (cs : List rrColor32BGRA) :
    (bboxHi cs).dw = 0 ↔ (bboxHi cs).b = 0 ∧ (bboxHi cs).g = 0 ∧ (bboxHi cs).r = 0 := by
  unfold rrColor32BGRA.dw bboxHi
  dsimp only
  omega

theorem countP_lt_length_iff (cs : List rrColor32BGRA) (p : rrColor32BGRA → Bool) :
    cs.countP (fun c => !p c) < cs.length ↔ ∃ c ∈ cs, p c = true := by
  rw [List.countP_eq_length_filter, List.length_filter_lt_length_iff_exists]
  simp

theorem countP_zero_iff_filter (cs : List rrColor32BGRA) (p : rrColor32BGRA → Bool) :
    cs.countP p = 0 ↔ cs.filter p = [] := by
  rw [List.countP_eq_length_filter, List.length_eq_zero]

set_option maxHeartbeats 4000000 in
/-- The function `Wiggle` on a word with its colour bytes in the field ranges: the
selected field moves by one or stays at the end of its range, the rest is kept. -/
theorem Wiggle_spec (color : rrColorUnpacked565) (how : Nat)
    (hb : color.b < 32) (hg : color.g < 64) (hr : color.r < 32)
    (hdw : color.dw < 4294967296) (hhow : how ≤ 7) :
    Wiggle color how = Wiggle_saturating color how ∧
    (Wiggle color how).r
      = (if how = 0 then min (color.r + 1) 31 else if how = 1 then color.r - 1 else color.r) ∧
    (Wiggle color how).g
      = (if how = 2 then min (color.g + 1) 63 else if how = 3 then color.g - 1 else color.g) ∧
    (Wiggle color how).b
      = (if how = 4 then min (color.b + 1) 31 else if how = 5 then color.b - 1 else color.b) ∧
    (Wiggle color how).a = color.a ∧
    ((Wiggle color how).b < 32 ∧ (Wiggle color how).g < 64 ∧ (Wiggle color how).r < 32 ∧
      (Wiggle color how).dw < 4294967296) := by
  unfold rrColorUnpacked565.b at hb
  unfold rrColorUnpacked565.g at hg
  unfold rrColorUnpacked565.r at hr
  have hd : color.dw = color.dw % 256 + 256 * (color.dw / 256 % 256)
      + 65536 * (color.dw / 65536 % 256) + 16777216 * (color.dw / 16777216 % 256) := by omega
  have ha : color.dw / 16777216 % 256 < 256 := Nat.mod_lt _ (by norm_num)
  unfold Wiggle Wiggle_saturating rrColorUnpacked565.b rrColorUnpacked565.g rrColorUnpacked565.r
    rrColorUnpacked565.a
  obtain ⟨dw⟩ := color
  dsimp only at hb hg hr hdw hd ha ⊢
  generalize dw % 256 = x at *
  generalize dw / 256 % 256 = y at *
  generalize dw / 65536 % 256 = z at *
  generalize dw / 16777216 % 256 = a at *
  subst hd
  have hcases : how = 0 ∨ how = 1 ∨ how = 2 ∨ how = 3 ∨ how = 4 ∨ how = 5 ∨ how = 6 ∨ how = 7 := by
    omega
  rcases hcases with e | e | e | e | e | e | e | e
  · subst e
    have hv : ((c_wiggledw_delta.getD 0 0) % 4294967296).toNat = 65536 := by decide
    rw [hv]
    by_cases hc : z < 31
    · have hw : (x + 256 * y + 65536 * z + 16777216 * a + 65536) % 4294967296
          = x + 256 * y + 65536 * (z + 1) + 16777216 * a := by omega
      rw [hw, if_neg (not_not.mpr (legal_and_mask _ _ _ a (by omega) (by omega) (by omega)))]
      refine ⟨?_, ?_, ?_, ?_, ?_, ?_⟩ <;> simp <;> omega
    · rw [if_pos (and_ne_zero_of_bit _ _ 21 (by show _ / 2097152 % 2 = 1; omega) (by decide))]
      refine ⟨?_, ?_, ?_, ?_, ?_, ?_⟩ <;> simp <;> omega
  · subst e
    have hv : ((c_wiggledw_delta.getD 1 0) % 4294967296).toNat = 4294901760 := by decide
    rw [hv]
    by_cases hc : 1 ≤ z
    · have hw : (x + 256 * y + 65536 * z + 16777216 * a + 4294901760) % 4294967296
          = x + 256 * y + 65536 * (z - 1) + 16777216 * a := by omega
      rw [hw, if_neg (not_not.mpr (legal_and_mask _ _ _ a (by omega) (by omega) (by omega)))]
      refine ⟨?_, ?_, ?_, ?_, ?_, ?_⟩ <;> simp <;> omega
    · rw [if_pos (and_ne_zero_of_bit _ _ 21 (by show _ / 2097152 % 2 = 1; omega) (by decide))]
      refine ⟨?_, ?_, ?_, ?_, ?_, ?_⟩ <;> simp <;> omega
  · subst e
    have hv : ((c_wiggledw_delta.getD 2 0) % 4294967296).toNat = 256 := by decide
    rw [hv]
    by_cases hc : y < 63
    · have hw : (x + 256 * y + 65536 * z + 16777216 * a + 256) % 4294967296
          = x + 256 * (y + 1) + 65536 * z + 16777216 * a := by omega
      rw [hw, if_neg (not_not.mpr (legal_and_mask _ _ _ a (by omega) (by omega) (by omega)))]
      refine ⟨?_, ?_, ?_, ?_, ?_, ?_⟩ <;> simp <;> omega
    · rw [if_pos (and_ne_zero_of_bit _ _ 14 (by show _ / 16384 % 2 = 1; omega) (by decide))]
      refine ⟨?_, ?_, ?_, ?_, ?_, ?_⟩ <;> simp <;> omega
  · subst e
    have hv : ((c_wiggledw_delta.getD 3 0) % 4294967296).toNat = 4294967040 := by decide
    rw [hv]
    by_cases hc : 1 ≤ y
    · have hw : (x + 256 * y + 65536 * z + 16777216 * a + 4294967040) % 4294967296
          = x + 256 * (y - 1) + 65536 * z + 16777216 * a := by omega
      rw [hw, if_neg (not_not.mpr (legal_and_mask _ _ _ a (by omega) (by omega) (by omega)))]
      refine ⟨?_, ?_, ?_, ?_, ?_, ?_⟩ <;> simp <;> omega
    · rw [if_pos (and_ne_zero_of_bit _ _ 14 (by show _ / 16384 % 2 = 1; omega) (by decide))]
      refine ⟨?_, ?_, ?_, ?_, ?_, ?_⟩ <;> simp <;> omega
  · subst e
    have hv : ((c_wiggledw_delta.getD 4 0) % 4294967296).toNat = 1 := by decide
    rw [hv]
    by_cases hc : x < 31
    · have hw : (x + 256 * y + 65536 * z + 16777216 * a + 1) % 4294967296
          = (x + 1) + 256 * y + 65536 * z + 16777216 * a := by omega
      rw [hw, if_neg (not_not.mpr (legal_and_mask _ _ _ a (by omega) (by omega) (by omega)))]
      refine ⟨?_, ?_, ?_, ?_, ?_, ?_⟩ <;> simp <;> omega
    · rw [if_pos (and_ne_zero_of_bit _ _ 5 (by show _ / 32 % 2 = 1; omega) (by decide))]
      refine ⟨?_, ?_, ?_, ?_, ?_, ?_⟩ <;> simp <;> omega
  · subst e
    have hv : ((c_wiggledw_delta.getD 5 0) % 4294967296).toNat = 4294967295 := by decide
    rw [hv]
    by_cases hc : 1 ≤ x
    · have hw : (x + 256 * y + 65536 * z + 16777216 * a + 4294967295) % 4294967296
          = (x - 1) + 256 * y + 65536 * z + 16777216 * a := by omega
      rw [hw, if_neg (not_not.mpr (legal_and_mask _ _ _ a (by omega) (by omega) (by omega)))]
      refine ⟨?_, ?_, ?_, ?_, ?_, ?_⟩ <;> simp <;> omega
    · rw [if_pos (and_ne_zero_of_bit _ _ 5 (by show _ / 32 % 2 = 1; omega) (by decide))]
      refine ⟨?_, ?_, ?_, ?_, ?_, ?_⟩ <;> simp <;> omega
  · subst e
    have hv : ((c_wiggledw_delta.getD 6 0) % 4294967296).toNat = 0 := by decide
    rw [hv]
    have hw : (x + 256 * y + 65536 * z + 16777216 * a + 0) % 4294967296
        = x + 256 * y + 65536 * z + 16777216 * a := by omega
    rw [hw, if_neg (not_not.mpr (legal_and_mask _ _ _ a (by omega) (by omega) (by omega)))]
    refine ⟨?_, ?_, ?_, ?_, ?_, ?_⟩ <;> simp <;> omega
  · subst e
    have hv : ((c_wiggledw_delta.getD 7 0) % 4294967296).toNat = 0 := by decide
    rw [hv]
    have hw : (x + 256 * y + 65536 * z + 16777216 * a + 0) % 4294967296
        = x + 256 * y + 65536 * z + 16777216 * a := by omega
    rw [hw, if_neg (not_not.mpr (legal_and_mask _ _ _ a (by omega) (by omega) (by omega)))]
    refine ⟨?_, ?_, ?_, ?_, ?_, ?_⟩ <;> simp <;> omega

set_option maxRecDepth 100000 in
theorem control_bits0 : ∀ c, c < 256 →
    ((c &&& 1 = 1 ↔ (c &&& 7) % 2 = 1) ∧ c &&& 6 = (c &&& 7) / 2 * 2 ∧ c &&& 7 < 8) := by
  decide

set_option maxRecDepth 100000 in
theorem control_bits3 : ∀ c, c < 256 →
    ((c &&& 8 = 8 ↔ ((c >>> 3) &&& 7) % 2 = 1) ∧ c &&& 48 = ((c >>> 3) &&& 7) / 2 * 16 ∧
      (c >>> 3) &&& 7 < 8) := by
  decide

/-- A byte of `Wiggle4x<0>` in terms of the selector `control & 7`. -/
theorem Wiggle4x_byte0 (k v c : Nat) (hc : c < 256) (hk : k < 4)
    (hv : v ≤ [31, 63, 31, 0].getD k 0) :
    Wiggle4x_byte 0 k v c
      = (if c &&& 7 = [4, 2, 0, 8].getD k 0 then min (v + 1) ([31, 63, 31, 0].getD k 0)
         else if c &&& 7 = [5, 3, 1, 8].getD k 0 then v - 1 else v) := by
  obtain ⟨h1, h2, h3⟩ := control_bits0 c hc
  unfold Wiggle4x_byte
  simp only [Nat.shiftLeft_zero, Nat.reduceMod]
  simp only [h2]
  clear h2
  generalize c &&& 7 = how at h1 h3 ⊢
  by_cases hs : c &&& 1 = 1
  · have ho := h1.mp hs
    simp only [if_pos hs]
    interval_cases k <;> interval_cases how <;> simp at ho hv ⊢ <;> (try split_ifs) <;> omega
  · have ho : ¬ how % 2 = 1 := fun h => hs (h1.mpr h)
    simp only [if_neg hs]
    interval_cases k <;> interval_cases how <;> simp at ho hv ⊢ <;> (try split_ifs) <;> omega

/-- A byte of `Wiggle4x<3>` in terms of the selector `(control >> 3) & 7`. -/
theorem Wiggle4x_byte3 (k v c : Nat) (hc : c < 256) (hk : k < 4)
    (hv : v ≤ [31, 63, 31, 0].getD k 0) :
    Wiggle4x_byte 3 k v c
      = (if (c >>> 3) &&& 7 = [4, 2, 0, 8].getD k 0
          then min (v + 1) ([31, 63, 31, 0].getD k 0)
         else if (c >>> 3) &&& 7 = [5, 3, 1, 8].getD k 0 then v - 1 else v) := by
  obtain ⟨h1, h2, h3⟩ := control_bits3 c hc
  unfold Wiggle4x_byte
  simp only [Nat.reduceShiftLeft, Nat.reduceMod]
  simp only [h2]
  clear h2
  generalize (c >>> 3) &&& 7 = how at h1 h3 ⊢
  by_cases hs : c &&& 8 = 8
  · have ho := h1.mp hs
    simp only [if_pos hs]
    interval_cases k <;> interval_cases how <;> simp at ho hv ⊢ <;> (try split_ifs) <;> omega
  · have ho : ¬ how % 2 = 1 := fun h => hs (h1.mpr h)
    simp only [if_neg hs]
    interval_cases k <;> interval_cases how <;> simp at ho hv ⊢ <;> (try split_ifs) <;> omega

theorem IsLegal_bytes (color : rrColorUnpacked565) (h : color.IsLegal) :
    color.b ≤ 31 ∧ color.g ≤ 63 ∧ color.r ≤ 31 ∧ color.a = 0 ∧ color.dw < 2097152 := by
  obtain ⟨h1, h2, h3⟩ := h
  unfold rrColorUnpacked565.b rrColorUnpacked565.g rrColorUnpacked565.r rrColorUnpacked565.a
  refine ⟨?_, ?_, ?_, ?_, ?_⟩ <;> omega

/-- On a legal colour `Wiggle4x<0>` is `Wiggle` with the selector `control & 7`. -/
theorem Wiggle4x0_eq (color : rrColorUnpacked565) (c : Nat) (hl : color.IsLegal)
    (hc : c < 256) : Wiggle4x 0 color c = Wiggle color (c &&& 7) := by
  obtain ⟨hb, hg, hr, ha, hdw⟩ := IsLegal_bytes color hl
  have h7 := (control_bits0 c hc).2.2
  rw [(Wiggle_spec color (c &&& 7) (by omega) (by omega) (by omega) (by omega) (by omega)).1]
  unfold Wiggle4x Wiggle_saturating
  rw [Wiggle4x_byte0 0 _ c hc (by norm_num) (by simpa using hb),
    Wiggle4x_byte0 1 _ c hc (by norm_num) (by simpa using hg),
    Wiggle4x_byte0 2 _ c hc (by norm_num) (by simpa using hr),
    Wiggle4x_byte0 3 _ c hc (by norm_num) (by simp [ha])]
  generalize c &&& 7 = how at h7 ⊢
  rw [ha]
  interval_cases how <;> simp

/-- On a legal colour `Wiggle4x<3>` is `Wiggle` with the selector
`(control >> 3) & 7`. -/
theorem Wiggle4x3_eq (color : rrColorUnpacked565) (c : Nat) (hl : color.IsLegal)
    (hc : c < 256) : Wiggle4x 3 color c = Wiggle color ((c >>> 3) &&& 7) := by
  obtain ⟨hb, hg, hr, ha, hdw⟩ := IsLegal_bytes color hl
  have h7 := (control_bits3 c hc).2.2
  rw [(Wiggle_spec color ((c >>> 3) &&& 7) (by omega) (by omega) (by omega) (by omega)
    (by omega)).1]
  unfold Wiggle4x Wiggle_saturating
  rw [Wiggle4x_byte3 0 _ c hc (by norm_num) (by simpa using hb),
    Wiggle4x_byte3 1 _ c hc (by norm_num) (by simpa using hg),
    Wiggle4x_byte3 2 _ c hc (by norm_num) (by simpa using hr),
    Wiggle4x_byte3 3 _ c hc (by norm_num) (by simp [ha])]
  generalize (c >>> 3) &&& 7 = how at h7 ⊢
  rw [ha]
  interval_cases how <;> simp

/-- On legal working endpoints the trial of a lane of the vector loop is the trial of
the scalar loop, and it is legal. -/
theorem Anneal_trial_vector_eq (a : Bool) (cur : rrDXT1UnpackedEndPoints) (r : Nat)
    (h0 : cur.c0.IsLegal) (h1 : cur.c1.IsLegal) (hr : r < 256) :
    Anneal_trial_vector a cur r = Anneal_trial a cur r ∧
    (Anneal_trial a cur r).c0.IsLegal ∧ (Anneal_trial a cur r).c1.IsLegal := by
  unfold Anneal_trial_vector Anneal_trial
  rw [Wiggle4x0_eq _ _ h0 hr, Wiggle4x3_eq _ _ h1 hr]
  have l0 := Wiggle_IsLegal cur.c0 (r &&& 7) h0
  have l1 := Wiggle_IsLegal cur.c1 ((r >>> 3) &&& 7) h1
  have d0 := (IsLegal_bytes _ l0).2.2.2.2
  have d1 := (IsLegal_bytes _ l1).2.2.2.2
  generalize Wiggle cur.c0 (r &&& 7) = c0 at l0 d0 ⊢
  generalize Wiggle cur.c1 ((r >>> 3) &&& 7) = c1 at l1 d1 ⊢
  dsimp only
  rw [toS32_of_lt _ (by omega), toS32_of_lt _ (by omega)]
  cases a
  · simp [l0, l1]
  · simp only [if_true, true_and, Nat.cast_lt]
    by_cases h : c1.dw < c0.dw
    · have h2 : ¬ c0.dw < c1.dw := by omega
      simp [h, h2, l0, l1]
    · by_cases h2 : c0.dw < c1.dw
      · simp [h, h2, l0, l1]
      · have e : c0 = c1 := by
          obtain ⟨x⟩ := c0
          obtain ⟨y⟩ := c1
          dsimp only at h h2
          rw [rrColorUnpacked565.mk.injEq]
          omega
        subst e
        simp [l0]

/-- The 32-bit wrapping difference of two errors below `2^29`, read as a signed
word, is their difference. -/
theorem toS32_wrap_sub (e u : Nat) (he : e < 536870912) (hu : u < 536870912) :
    toS32 ((e + (4294967296 - u % 4294967296)) % 4294967296) = (e : Int) - (u : Int) := by
  unfold toS32
  split_ifs <;> omega

/-- The best lane of four errors below `2^29`: the first lane of least error. -/
theorem Anneal_best_lane_spec (lanes : List Nat) (hlanes : lanes.length = 4)
    (hlfit : ∀ e ∈ lanes, e < 2 ^ 29) :
    (Anneal_best_lane lanes).1 < 4 ∧
    (lanes.getD (Anneal_best_lane lanes).1 0 : Int) = (Anneal_best_lane lanes).2 ∧
    (∀ e ∈ lanes, (Anneal_best_lane lanes).2 ≤ (e : Int)) ∧
    (∀ t, t < (Anneal_best_lane lanes).1 →
      (Anneal_best_lane lanes).2 < (lanes.getD t 0 : Int)) := by
  match lanes, hlanes with
  | [e0, e1, e2, e3], _ =>
    have h0 : e0 < 2 ^ 29 := hlfit e0 (by simp)
    have h1 : e1 < 2 ^ 29 := hlfit e1 (by simp)
    have h2 : e2 < 2 ^ 29 := hlfit e2 (by simp)
    have h3 : e3 < 2 ^ 29 := hlfit e3 (by simp)
    have k0 : packKey 2 e0 0 = e0 * 4 + 0 :=
      packKey_eq 2 e0 0 (by norm_num at h0 ⊢; omega) (by norm_num)
    have k1 : packKey 2 e1 1 = e1 * 4 + 1 :=
      packKey_eq 2 e1 1 (by norm_num at h1 ⊢; omega) (by norm_num)
    have k2 : packKey 2 e2 2 = e2 * 4 + 2 :=
      packKey_eq 2 e2 2 (by norm_num at h2 ⊢; omega) (by norm_num)
    have k3 : packKey 2 e3 3 = e3 * 4 + 3 :=
      packKey_eq 2 e3 3 (by norm_num at h3 ⊢; omega) (by norm_num)
    norm_num at h0 h1 h2 h3
    simp only [Anneal_best_lane, List.range, List.range.loop, List.map, List.getD_cons_zero,
      List.getD_cons_succ, List.foldl, List.headD, k0, k1, k2, k3]
    rw [toS32_of_lt _ (by omega), toS32_of_lt _ (by omega), toS32_of_lt _ (by omega),
      toS32_of_lt _ (by omega)]
    push_cast
    have m0 : ((e0 : Int) * 4 + 0) % 4 = 0 := by omega
    have m1 : ((e1 : Int) * 4 + 1) % 4 = 1 := by omega
    have m2 : ((e2 : Int) * 4 + 2) % 4 = 2 := by omega
    have m3 : ((e3 : Int) * 4 + 3) % 4 = 3 := by omega
    have d0 : ((e0 : Int) * 4 + 0) / 4 = e0 := by omega
    have d1 : ((e1 : Int) * 4 + 1) / 4 = e1 := by omega
    have d2 : ((e2 : Int) * 4 + 2) / 4 = e2 := by omega
    have d3 : ((e3 : Int) * 4 + 3) / 4 = e3 := by omega
    have t0 : (0 : Int).toNat = 0 := rfl
    have t1 : (1 : Int).toNat = 1 := rfl
    have t2 : (2 : Int).toNat = 2 := rfl
    have t3 : (3 : Int).toNat = 3 := rfl
    simp only [List.mem_cons, List.mem_singleton, forall_eq_or_imp, forall_eq, List.not_mem_nil]
    simp only [min_def]
    split_ifs <;>
      simp only [m0, m1, m2, m3, d0, d1, d2, d3, t0, t1, t2, t3, List.getD_cons_zero,
        List.getD_cons_succ] <;>
      refine ⟨by omega, trivial,
        ⟨by omega, by omega, by omega, by omega, fun _ h => h.elim⟩, ?_⟩ <;>
      intro t ht <;> interval_cases t <;>
      simp only [List.getD_cons_zero, List.getD_cons_succ] <;> omega

theorem getD_set_eq {α : Type} (l : List α) (n i : Nat) (x d : α) :
    (l.set n x).getD i d = if n = i ∧ n < l.length then x else l.getD i d := by
  rw [List.getD_eq_getElem?_getD, List.getD_eq_getElem?_getD, List.getElem?_set]
  by_cases h : n = i
  · subst h
    by_cases h2 : n < l.length
    · simp [h2]
    · have h3 : l[n]? = none := List.getElem?_eq_none (by omega)
      simp [h2, h3]
  · simp [h]

/-- The body of the scalar acceptance loop under the lane invariant: a trial below
the best-ever error always passes the acceptance test. -/
theorem Anneal_accept_cases (thresh : Int) (ep : rrDXT1UnpackedEndPoints) (err i : Nat)
    (s : AnnealLoop) (hd : s.done = false) (herr : err < 536870912)
    (hcur : s.curErr.getD i 0 < 536870912) (hinv : s.error ≤ s.curErr.getD i 0)
    (ht : 1 ≤ thresh) :
    Anneal_accept thresh ep err i s =
      if err < s.error then
        (if err = 0 then { s with error := err, best := ep, done := true }
         else { cur := s.cur.set i ep, curErr := s.curErr.set i err, error := err, best := ep,
                done := false })
      else if (err : Int) - (s.curErr.getD i 0 : Int) < thresh then
        { s with cur := s.cur.set i ep, curErr := s.curErr.set i err }
      else s := by
  unfold Anneal_accept
  rw [if_neg (by simp [hd]), toS32_of_lt _ (by omega), toS32_of_lt _ (by omega)]
  by_cases h1 : err < s.error
  · have h0 : ¬ thresh ≤ (err : Int) - (s.curErr.getD i 0 : Int) := by omega
    simp only [h0, h1, if_true, if_false]
  · by_cases h2 : (err : Int) - (s.curErr.getD i 0 : Int) < thresh
    · have h0 : ¬ thresh ≤ (err : Int) - (s.curErr.getD i 0 : Int) := by omega
      simp only [h0, h1, h2, if_true, if_false]
    · have h0 : thresh ≤ (err : Int) - (s.curErr.getD i 0 : Int) := by omega
      simp only [h0, h1, h2, if_true, if_false]

/-- The scalar acceptance loop over the first `n` lanes, entered under the lane
invariant: the best-ever error is the minimum of the entry value and the trial
errors, the best-ever endpoints are those of the first lane of least error when
that is below the entry value, the loop has stopped exactly when the error has
dropped to 0, and when it has not stopped every lane passed holds its trial exactly
when the trial passed the threshold test. -/
theorem Anneal_lanes_scalar (thresh : Int) (ep : List rrDXT1UnpackedEndPoints)
    (err : List Nat) (s : AnnealLoop) (hd : s.done = false) (hc : s.cur.length = 4)
    (hce : s.curErr.length = 4)
    (hinv : ∀ i, i < 4 → s.error ≤ s.curErr.getD i 0 ∧ s.curErr.getD i 0 < 536870912)
    (herr : ∀ i, i < 4 → err.getD i 0 < 536870912) (ht : 1 ≤ thresh) (n : Nat) (hn : n ≤ 4) :
    ∀ a, a = (List.range n).foldl
        (fun s i => Anneal_accept thresh (ep.getD i default) (err.getD i 0) i s) s →
      a.error ≤ s.error ∧
      (∀ j, j < n → a.error ≤ err.getD j 0) ∧
      (a.error = s.error → a.best = s.best) ∧
      (a.error < s.error → ∃ j, j < n ∧ err.getD j 0 = a.error ∧
        (∀ t, t < j → a.error < err.getD t 0) ∧ a.best = ep.getD j default) ∧
      (a.done = true ↔ a.error = 0 ∧ 0 < s.error) ∧
      (a.done = false → a.cur.length = 4 ∧ a.curErr.length = 4 ∧ ∀ i, i < 4 →
        a.cur.getD i default
          = (if i < n ∧ (err.getD i 0 : Int) - (s.curErr.getD i 0 : Int) < thresh
              then ep.getD i default else s.cur.getD i default) ∧
        a.curErr.getD i 0
          = (if i < n ∧ (err.getD i 0 : Int) - (s.curErr.getD i 0 : Int) < thresh
              then err.getD i 0 else s.curErr.getD i 0)) := by
  induction n with
  | zero =>
    intro a ha
    simp only [List.range_zero, List.foldl_nil] at ha
    subst ha
    refine ⟨le_refl _, fun j hj => by omega, fun _ => rfl, fun h => absurd h (lt_irrefl _),
      ?_, fun _ => ⟨hc, hce, fun i hi => ?_⟩⟩
    · rw [hd]
      constructor
      · intro h; cases h
      · intro h; omega
    · simp
  | succ n ih =>
    intro a2 ha2
    rw [List.range_succ, List.foldl_append] at ha2
    simp only [List.foldl_cons, List.foldl_nil] at ha2
    obtain ⟨p1, p2, p3, p4, p5, p6⟩ := ih (by omega) _ rfl
    generalize (List.range n).foldl
      (fun s i => Anneal_accept thresh (ep.getD i default) (err.getD i 0) i s) s = a
      at ha2 p1 p2 p3 p4 p5 p6
    subst ha2
    have hn4 : n < 4 := by omega
    by_cases hda : a.done = true
    · have e : Anneal_accept thresh (ep.getD n default) (err.getD n 0) n a = a := by
        unfold Anneal_accept
        rw [if_pos hda]
      rw [e]
      have h0 := p5.mp hda
      refine ⟨p1, ?_, p3, ?_, p5, ?_⟩
      · intro j hj
        by_cases hj2 : j < n
        · exact p2 j hj2
        · omega
      · intro h
        obtain ⟨j, hj, r⟩ := p4 h
        exact ⟨j, by omega, r⟩
      · intro h
        rw [hda] at h
        cases h
    · have hdf : a.done = false := by simpa using hda
      obtain ⟨q1, q2, q3⟩ := p6 hdf
      have hcn : a.curErr.getD n 0 = s.curErr.getD n 0 := by
        rw [(q3 n hn4).2, if_neg (by omega)]
      have hcn2 : a.cur.getD n default = s.cur.getD n default := by
        rw [(q3 n hn4).1, if_neg (by omega)]
      have hi1 := (hinv n hn4).1
      have hi2 := (hinv n hn4).2
      have he := herr n hn4
      have hnd : ¬ (a.error = 0 ∧ 0 < s.error) := fun h => hda (p5.mpr h)
      rw [Anneal_accept_cases thresh _ _ n a hdf he (by rw [hcn]; exact hi2)
        (by rw [hcn]; omega) ht, hcn]
      by_cases h1 : err.getD n 0 < a.error
      · rw [if_pos h1]
        have hpass : (err.getD n 0 : Int) - (s.curErr.getD n 0 : Int) < thresh := by omega
        by_cases h2 : err.getD n 0 = 0
        · rw [if_pos h2]
          dsimp only
          refine ⟨by omega, ?_, ?_, ?_, ?_, ?_⟩
          · intro j hj; omega
          · intro h; omega
          · intro _
            refine ⟨n, by omega, rfl, ?_, rfl⟩
            intro t htn
            have := p2 t htn
            omega
          · simp only [true_iff]
            exact ⟨h2, by omega⟩
          · intro h; cases h
        · rw [if_neg h2]
          dsimp only
          refine ⟨by omega, ?_, ?_, ?_, ?_, ?_⟩
          · intro j hj
            by_cases hj2 : j < n
            · have := p2 j hj2; omega
            · have : j = n := by omega
              subst this; exact le_refl _
          · intro h; omega
          · intro _
            refine ⟨n, by omega, rfl, ?_, rfl⟩
            intro t htn
            have := p2 t htn
            omega
          · constructor
            · intro h; cases h
            · intro h; omega
          · intro _
            refine ⟨by rw [List.length_set]; exact q1, by rw [List.length_set]; exact q2,
              fun i hi => ?_⟩
            rw [getD_set_eq, getD_set_eq, (q3 i hi).1, (q3 i hi).2, q1, q2]
            by_cases hin : n = i
            · subst hin
              simp only [hn4, hpass, and_self, and_true, true_and, if_true, lt_add_one]
            · have e1 : (i < n + 1) = (i < n) := by
                apply propext; constructor <;> intro h <;> omega
              simp only [hin, false_and, if_false, e1, and_self]
      · rw [if_neg h1]
        by_cases h2 : (err.getD n 0 : Int) - (s.curErr.getD n 0 : Int) < thresh
        · rw [if_pos h2]
          dsimp only
          refine ⟨p1, ?_, p3, ?_, p5, ?_⟩
          · intro j hj
            by_cases hj2 : j < n
            · exact p2 j hj2
            · have : j = n := by omega
              subst this; omega
          · intro h
            obtain ⟨j, hj, r⟩ := p4 h
            exact ⟨j, by omega, r⟩
          · intro _
            refine ⟨by rw [List.length_set]; exact q1, by rw [List.length_set]; exact q2,
              fun i hi => ?_⟩
            rw [getD_set_eq, getD_set_eq, (q3 i hi).1, (q3 i hi).2, q1, q2]
            by_cases hin : n = i
            · subst hin
              simp only [hn4, h2, and_self, and_true, true_and, if_true, lt_add_one]
            · have e1 : (i < n + 1) = (i < n) := by
                apply propext; constructor <;> intro h <;> omega
              simp only [hin, false_and, if_false, e1, and_self]
        · rw [if_neg h2]
          refine ⟨p1, ?_, p3, ?_, p5, ?_⟩
          · intro j hj
            by_cases hj2 : j < n
            · exact p2 j hj2
            · have : j = n := by omega
              subst this; omega
          · intro h
            obtain ⟨j, hj, r⟩ := p4 h
            exact ⟨j, by omega, r⟩
          · intro _
            refine ⟨q1, q2, fun i hi => ?_⟩
            rw [(q3 i hi).1, (q3 i hi).2]
            by_cases hin : n = i
            · subst hin
              simp only [h2, and_false, lt_self_iff_false, false_and, if_false, and_self]
            · have e1 : (i < n + 1) = (i < n) := by
                apply propext; constructor <;> intro h <;> omega
              simp only [e1, and_self]

theorem list_eq_map_range4 {α : Type} (l : List α) (f : Nat → α) (d : α)
    (hl : l.length = 4) (h : ∀ i, i < 4 → l.getD i d = f i) : l = (List.range 4).map f := by
  match l, hl with
  | [x0, x1, x2, x3], _ =>
    have h0 := h 0 (by norm_num)
    have h1 := h 1 (by norm_num)
    have h2 := h 2 (by norm_num)
    have h3 := h 3 (by norm_num)
    simp only [List.getD_cons_zero, List.getD_cons_succ] at h0 h1 h2 h3
    simp [List.range, List.range.loop, h0, h1, h2, h3]

theorem mem_getD_of_length4 (l : List Nat) (hl : l.length = 4) (e : Nat) (he : e ∈ l) :
    ∃ i, i < 4 ∧ l.getD i 0 = e := by
  obtain ⟨i, hi, rfl⟩ := List.getElem_of_mem he
  exact ⟨i, by omega, by rw [List.getD_eq_getElem _ _ hi]⟩

/-- One round of acceptance, entered under the lane invariant: the scalar loop over
the four lanes and the body of the vector loop end with the same best-ever error and
endpoints and the same stop flag, and with the same working state unless stopped. -/
theorem Anneal_accept_equiv (thresh : Int) (ep : List rrDXT1UnpackedEndPoints)
    (err : List Nat) (s : AnnealLoop) (hd : s.done = false) (hc : s.cur.length = 4)
    (hce : s.curErr.length = 4) (hE : s.error < 536870912)
    (hinv : ∀ i, i < 4 → s.error ≤ s.curErr.getD i 0 ∧ s.curErr.getD i 0 < 536870912)
    (herr : ∀ i, i < 4 → err.getD i 0 < 536870912) (hlen : err.length = 4)
    (ht : 1 ≤ thresh) :
    ∀ a b, a = (List.range 4).foldl
        (fun s i => Anneal_accept thresh (ep.getD i default) (err.getD i 0) i s) s →
      b = Anneal_accept_vector thresh ep err s →
      a.error = b.error ∧ a.best = b.best ∧ a.done = b.done ∧
      (a.done = false → a.cur = b.cur ∧ a.curErr = b.curErr) := by
  intro a b ha hb
  obtain ⟨p1, p2, p3, p4, p5, p6⟩ :=
    Anneal_lanes_scalar thresh ep err s hd hc hce hinv herr ht 4 (le_refl _) a ha
  have hfit : ∀ e ∈ err, e < 2 ^ 29 := by
    intro e he
    obtain ⟨i, hi, rfl⟩ := mem_getD_of_length4 err hlen e he
    exact herr i hi
  obtain ⟨l1, l2, l3, l4⟩ := Anneal_best_lane_spec err hlen hfit
  have himp : ((List.range 4).any (fun i => decide (toS32 (err.getD i 0) < toS32 s.error)) = true)
      ↔ ∃ i, i < 4 ∧ err.getD i 0 < s.error := by
    rw [List.any_eq_true]
    constructor
    · rintro ⟨i, hi, h⟩
      have hi4 := List.mem_range.mp hi
      rw [decide_eq_true_iff, toS32_of_lt _ (by have := herr i hi4; omega),
        toS32_of_lt _ (by omega)] at h
      exact ⟨i, hi4, by exact_mod_cast h⟩
    · rintro ⟨i, hi4, h⟩
      refine ⟨i, List.mem_range.mpr hi4, ?_⟩
      rw [decide_eq_true_iff, toS32_of_lt _ (by have := herr i hi4; omega),
        toS32_of_lt _ (by omega)]
      exact_mod_cast h
  have hcur : (List.range 4).map (fun i =>
        if decide (toS32 ((err.getD i 0 + (4294967296 - s.curErr.getD i 0 % 4294967296))
            % 4294967296) < thresh) = true then ep.getD i default else s.cur.getD i default)
      = (List.range 4).map (fun i =>
        if 4 > i ∧ (err.getD i 0 : Int) - (s.curErr.getD i 0 : Int) < thresh
          then ep.getD i default else s.cur.getD i default) := by
    apply List.map_congr_left
    intro i hi
    have hi4 := List.mem_range.mp hi
    rw [toS32_wrap_sub _ _ (herr i hi4) (hinv i hi4).2]
    simp [hi4]
  have hcurErr : (List.range 4).map (fun i =>
        if decide (toS32 ((err.getD i 0 + (4294967296 - s.curErr.getD i 0 % 4294967296))
            % 4294967296) < thresh) = true then err.getD i 0 else s.curErr.getD i 0)
      = (List.range 4).map (fun i =>
        if 4 > i ∧ (err.getD i 0 : Int) - (s.curErr.getD i 0 : Int) < thresh
          then err.getD i 0 else s.curErr.getD i 0) := by
    apply List.map_congr_left
    intro i hi
    have hi4 := List.mem_range.mp hi
    rw [toS32_wrap_sub _ _ (herr i hi4) (hinv i hi4).2]
    simp [hi4]
  have hlanes : a.done = false →
      a.cur = (List.range 4).map (fun i =>
        if 4 > i ∧ (err.getD i 0 : Int) - (s.curErr.getD i 0 : Int) < thresh
          then ep.getD i default else s.cur.getD i default) ∧
      a.curErr = (List.range 4).map (fun i =>
        if 4 > i ∧ (err.getD i 0 : Int) - (s.curErr.getD i 0 : Int) < thresh
          then err.getD i 0 else s.curErr.getD i 0) := by
    intro h
    obtain ⟨q1, q2, q3⟩ := p6 h
    exact ⟨list_eq_map_range4 _ _ default q1 (fun i hi => (q3 i hi).1),
      list_eq_map_range4 _ _ 0 q2 (fun i hi => (q3 i hi).2)⟩
  subst hb
  unfold Anneal_accept_vector
  dsimp only
  rw [hcur, hcurErr]
  by_cases hi : ∃ i, i < 4 ∧ err.getD i 0 < s.error
  · rw [himp.mpr hi]
    simp only [if_true, true_and]
    obtain ⟨i0, hi0, hlt0⟩ := hi
    have hlt : a.error < s.error := lt_of_le_of_lt (p2 i0 hi0) hlt0
    obtain ⟨j1, hj1, e1, f1, b1⟩ := p4 hlt
    generalize (Anneal_best_lane err).1 = jv at l1 l2 l4
    generalize (Anneal_best_lane err).2 = m at l2 l3 l4
    have hm : m = (err.getD jv 0 : Int) := l2.symm
    subst hm
    have h3 : err.getD jv 0 ≤ err.getD j1 0 := by
      have hmem : err.getD j1 0 ∈ err := by
        rw [List.getD_eq_getElem _ _ (by omega)]
        exact List.getElem_mem _
      exact_mod_cast l3 _ hmem
    have hae : a.error = err.getD jv 0 := by
      have := p2 jv l1
      omega
    have hj : j1 = jv := by
      rcases Nat.lt_trichotomy j1 jv with h | h | h
      · have := l4 j1 h
        have : err.getD jv 0 < err.getD j1 0 := by exact_mod_cast this
        omega
      · exact h
      · have := f1 jv h
        omega
    subst hj
    have hto : ((err.getD j1 0 : Int) % 4294967296).toNat = err.getD j1 0 := by
      have := herr j1 hj1
      omega
    rw [hto]
    by_cases hz : (err.getD j1 0 : Int) = 0
    · rw [if_pos hz]
      dsimp only
      have hz2 : err.getD j1 0 = 0 := by exact_mod_cast hz
      have hdone : a.done = true := p5.mpr ⟨by omega, by omega⟩
      exact ⟨hae, b1, hdone, fun h => by rw [hdone] at h; cases h⟩
    · rw [if_neg hz]
      dsimp only
      have hz2 : err.getD j1 0 ≠ 0 := by exact_mod_cast hz
      have hdone : a.done = false := by
        cases hda : a.done
        · rfl
        · have := (p5.mp hda).1
          omega
      exact ⟨hae, b1, hdone, fun h => hlanes h⟩
  · have hf : (List.range 4).any (fun i => decide (toS32 (err.getD i 0) < toS32 s.error))
        = false := by
      cases hb : (List.range 4).any (fun i => decide (toS32 (err.getD i 0) < toS32 s.error))
      · rfl
      · exact absurd (himp.mp hb) hi
    rw [hf]
    simp only [Bool.false_eq_true, if_false, false_and]
    have hae : a.error = s.error := by
      rcases Nat.lt_or_ge a.error s.error with h | h
      · obtain ⟨j1, hj1, e1, _, _⟩ := p4 h
        exact absurd ⟨j1, hj1, by omega⟩ hi
      · omega
    have hdone : a.done = false := by
      cases hda : a.done
      · rfl
      · have := p5.mp hda
        omega
    exact ⟨hae, p3 hae, hdone, fun h => hlanes h⟩

theorem getD_lt_of_forall (l : List Nat) (k B : Nat) (hB : 0 < B) (h : ∀ b ∈ l, b < B) :
    l.getD k 0 < B := by
  by_cases hk : k < l.length
  · rw [List.getD_eq_getElem _ _ hk]
    exact h _ (List.getElem_mem _)
  · rw [List.getD_eq_default _ _ (by omega)]
    exact hB

theorem AnnealLoop_ext (a b : AnnealLoop) (h1 : a.cur = b.cur) (h2 : a.curErr = b.curErr)
    (h3 : a.error = b.error) (h4 : a.best = b.best) (h5 : a.done = b.done) : a = b := by
  cases a
  cases b
  simp only [AnnealLoop.mk.injEq]
  exact ⟨h1, h2, h3, h4, h5⟩

/-- One round of the scalar loop and of the vector loop from the same state under
the lane invariant. -/
theorem Anneal_round_equiv (K : Deps) (data : rrCompressDXT1_Startup_Data)
    (colors : rrColorBlock4x4) (mode : rrDXT1PaletteMode) (rng_bytes : List Nat)
    (s : AnnealLoop) (time : Nat)
    (hfit : ∀ ep, K.eval_palette colors (K.ComputePalette_Unpacked ep mode) < 536870912)
    (hrng : ∀ b ∈ rng_bytes, b < 256) (htime : time ≤ 63) (hs : AnnealLanes s)
    (hd : s.done = false) :
    ∀ a b, a = Anneal_round K data colors mode rng_bytes s time →
      b = Anneal_round_vector K data colors mode rng_bytes s time →
      a.error = b.error ∧ a.best = b.best ∧ a.done = b.done ∧
      (a.done = false → a = b ∧ AnnealLanes a) ∧ a.error ≤ s.error ∧
      (a.done = true ↔ a.error = 0 ∧ 0 < s.error) := by
  intro a b ha hb
  obtain ⟨hc, hce, hE, hinv, hleg⟩ := hs
  have hep : (List.range 4).map (fun i =>
        Anneal_trial_vector data.has_any_alpha (s.cur.getD i default)
          (rng_bytes.getD (time * 4 + i) 0))
      = (List.range 4).map (fun i =>
        Anneal_trial data.has_any_alpha (s.cur.getD i default)
          (rng_bytes.getD (time * 4 + i) 0)) := by
    apply List.map_congr_left
    intro i hi
    have hi4 := List.mem_range.mp hi
    exact (Anneal_trial_vector_eq _ _ _ (hleg i hi4).1 (hleg i hi4).2
      (getD_lt_of_forall _ _ 256 (by norm_num) hrng)).1
  unfold Anneal_round at ha
  unfold Anneal_round_vector at hb
  rw [if_neg (by simp [hd])] at ha hb
  dsimp only at ha hb
  rw [hep] at hb
  have hlen : ((List.range 4).map (fun i =>
      Anneal_trial data.has_any_alpha (s.cur.getD i default)
        (rng_bytes.getD (time * 4 + i) 0))).length = 4 := by simp
  have hepl : ∀ i, i < 4 → (((List.range 4).map (fun i =>
      Anneal_trial data.has_any_alpha (s.cur.getD i default)
        (rng_bytes.getD (time * 4 + i) 0))).getD i default).c0.IsLegal ∧
      (((List.range 4).map (fun i =>
      Anneal_trial data.has_any_alpha (s.cur.getD i default)
        (rng_bytes.getD (time * 4 + i) 0))).getD i default).c1.IsLegal := by
    intro i hi
    rw [List.getD_eq_getElem _ _ (by rw [hlen]; exact hi)]
    simp only [List.getElem_map, List.getElem_range]
    exact (Anneal_trial_vector_eq _ _ _ (hleg i hi).1 (hleg i hi).2
      (getD_lt_of_forall _ _ 256 (by norm_num) hrng)).2
  generalize (List.range 4).map (fun i =>
      Anneal_trial data.has_any_alpha (s.cur.getD i default)
        (rng_bytes.getD (time * 4 + i) 0)) = ep at ha hb hlen hepl
  have herr : ∀ i, i < 4 →
      (eval_palettes K colors (DXT1_ComputePalette_Batched K ep mode)).getD i 0 < 536870912 := by
    intro i hi
    rw [eval_palettes_getD K colors mode ep i (by rw [hlen]; exact hi)]
    exact hfit _
  have hel : (eval_palettes K colors (DXT1_ComputePalette_Batched K ep mode)).length = 4 := by
    simp [eval_palettes, DXT1_ComputePalette_Batched, hlen]
  generalize eval_palettes K colors (DXT1_ComputePalette_Batched K ep mode) = err
    at ha hb herr hel
  have ht : (1 : Int) ≤ thresholdBase - (time : Int) * thresholdStep := by
    unfold thresholdBase thresholdStep
    omega
  obtain ⟨e1, e2, e3, e4⟩ := Anneal_accept_equiv _ ep err s hd hc hce hE hinv herr hel ht a b ha hb
  obtain ⟨p1, p2, p3, p4, p5, p6⟩ :=
    Anneal_lanes_scalar _ ep err s hd hc hce hinv herr ht 4 (le_refl _) a ha
  refine ⟨e1, e2, e3, fun h => ⟨?_, ?_⟩, p1, p5⟩
  · exact AnnealLoop_ext a b (e4 h).1 (e4 h).2 e1 e2 e3
  · obtain ⟨q1, q2, q3⟩ := p6 h
    refine ⟨q1, q2, by omega, fun i hi => ?_, fun i hi => ?_⟩
    · rw [(q3 i hi).2]
      have := p2 i hi
      have := hinv i hi
      have := herr i hi
      split_ifs <;> omega
    · rw [(q3 i hi).1]
      split_ifs
      · exact hepl i hi
      · exact hleg i hi

/-- The start state of the annealing loop meets the lane invariant. -/
theorem Anneal_start_lanes (c0 c1 pError : Nat) (hE : pError < 536870912) :
    AnnealLanes ⟨List.replicate 4 ⟨rrColorUnpacked565.unpack c0, rrColorUnpacked565.unpack c1⟩,
      List.replicate 4 pError, pError,
      ⟨rrColorUnpacked565.unpack c0, rrColorUnpacked565.unpack c1⟩, false⟩ := by
  refine ⟨by simp, by simp, hE, fun i hi => ?_, fun i hi => ?_⟩
  · interval_cases i <;> simp [List.replicate] <;> omega
  · interval_cases i <;> simp [List.replicate, unpack_IsLegal]

/-- The scalar loop and the vector loop after the same number of rounds, started from
a state under the lane invariant. -/
theorem Anneal_rounds_equiv (K : Deps) (data : rrCompressDXT1_Startup_Data)
    (colors : rrColorBlock4x4) (mode : rrDXT1PaletteMode) (rng_bytes : List Nat)
    (s : AnnealLoop)
    (hfit : ∀ ep, K.eval_palette colors (K.ComputePalette_Unpacked ep mode) < 536870912)
    (hrng : ∀ b ∈ rng_bytes, b < 256) (hs : AnnealLanes s) (hd : s.done = false)
    (n : Nat) (hn : n ≤ 64) :
    ∀ a b, a = (List.range n).foldl (Anneal_round K data colors mode rng_bytes) s →
      b = (List.range n).foldl (Anneal_round_vector K data colors mode rng_bytes) s →
      a.error = b.error ∧ a.best = b.best ∧ a.done = b.done ∧
      (a.done = false → a = b ∧ AnnealLanes a) ∧ a.error ≤ s.error ∧
      (a.done = true ↔ a.error = 0 ∧ 0 < s.error) := by
  induction n with
  | zero =>
    intro a b ha hb
    simp only [List.range_zero, List.foldl_nil] at ha hb
    subst ha
    subst hb
    refine ⟨rfl, rfl, rfl, fun _ => ⟨rfl, hs⟩, le_refl _, ?_⟩
    rw [hd]
    constructor
    · intro h; cases h
    · intro h; omega
  | succ n ih =>
    intro a2 b2 ha2 hb2
    rw [List.range_succ, List.foldl_append] at ha2 hb2
    simp only [List.foldl_cons, List.foldl_nil] at ha2 hb2
    obtain ⟨r1, r2, r3, r4, r5, r6⟩ := ih (by omega) _ _ rfl rfl
    generalize (List.range n).foldl (Anneal_round K data colors mode rng_bytes) s = a
      at ha2 r1 r2 r3 r4 r5 r6
    generalize (List.range n).foldl (Anneal_round_vector K data colors mode rng_bytes) s = b
      at hb2 r1 r2 r3 r4
    by_cases hda : a.done = true
    · have hdb : b.done = true := by rw [← r3]; exact hda
      have ea : a2 = a := by rw [ha2]; unfold Anneal_round; rw [if_pos hda]
      have eb : b2 = b := by rw [hb2]; unfold Anneal_round_vector; rw [if_pos hdb]
      rw [ea, eb]
      exact ⟨r1, r2, r3, r4, r5, r6⟩
    · have hdf : a.done = false := by simpa using hda
      obtain ⟨eab, hla⟩ := r4 hdf
      subst eab
      obtain ⟨t1, t2, t3, t4, t5, t6⟩ :=
        Anneal_round_equiv K data colors mode rng_bytes a n hfit hrng (by omega) hla hdf
          a2 b2 ha2 hb2
      refine ⟨t1, t2, t3, t4, le_trans t5 r5, ?_⟩
      rw [t6]
      constructor
      · rintro ⟨h1, h2⟩
        exact ⟨h1, by omega⟩
      · rintro ⟨h1, h2⟩
        refine ⟨h1, ?_⟩
        by_contra h3
        exact hda (r6.mpr ⟨by omega, h2⟩)

/-- The accumulated terms in pixel order: the weight pair of pixel `i` is the table
entry of its two-bit index. -/
theorem LLS_terms_map_range (fourc : Bool) (g : Int → Int → Int) (cs : List rrColor32BGRA)
    (w : Nat) :
    (LLS_terms fourc cs w).map (fun t => g t.1 t.2.1)
      = (List.range cs.length).map (fun i =>
          g ((c_weights_ab fourc).getD (pixelIndex w i) (0, 0)).1
            ((c_weights_ab fourc).getD (pixelIndex w i) (0, 0)).2) := by
  induction cs generalizing w with
  | nil => simp [LLS_terms]
  | cons c cs ih =>
    have h0 : pixelIndex w 0 = w &&& 3 := by
      unfold pixelIndex; simp
    rw [List.length_cons, List.range_succ_eq_map]
    simp only [LLS_terms, List.map_cons, List.map_map, ih (w >>> 2), h0]
    congr 1
    apply List.map_congr_left
    intro i _
    simp only [Function.comp, pixelIndex_succ]

/-- With more iterations allowed than the entry error, the loop of the iterative
refinement leaves, after at most `pError + 1` iterations, with the result of the
bounded loop. -/
theorem Iterative_run_spec (K : Deps) (colors : rrColorBlock4x4) (mode : rrDXT1PaletteMode)
    (fuel : Nat) (pBlock : rrDXT1Block) (pError : Nat) (h : pError < fuel) :
    ∃ n, 1 ≤ n ∧ n ≤ pError + 1 ∧
      Iterative_run K colors mode fuel pBlock pError
        = some ((Iterative_loop K colors mode fuel pBlock pError).1,
                (Iterative_loop K colors mode fuel pBlock pError).2, n) := by
  induction fuel generalizing pBlock pError with
  | zero => omega
  | succ k ih =>
    unfold Iterative_run Iterative_loop
    dsimp only
    rcases Inherit_Reindex_cases K pBlock pError colors mode with h0 | ⟨c0, c1, h1, hlt, _⟩
    · rw [h0]
      exact ⟨1, le_refl _, by omega, by simp⟩
    · rw [h1]
      dsimp only
      by_cases hi : pBlock.indices
          = (K.DXT1_FindIndices colors (K.DXT1_ComputePalette c0 c1 mode)).1
      · exact ⟨1, le_refl _, by omega, by simp [hi]⟩
      · obtain ⟨n, hn1, hn2, hrun⟩ := ih
          ⟨c0, c1, (K.DXT1_FindIndices colors (K.DXT1_ComputePalette c0 c1 mode)).1⟩
          (K.DXT1_FindIndices colors (K.DXT1_ComputePalette c0 c1 mode)).2 (by omega)
        refine ⟨n + 1, by omega, by omega, ?_⟩
        simp [hi, hrun]

/-- The bounded loop of the iterative refinement does not depend on the bound once
it is above the entry error. -/
theorem Iterative_loop_fuel (K : Deps) (colors : rrColorBlock4x4) (mode : rrDXT1PaletteMode)
    (f1 f2 : Nat) (pBlock : rrDXT1Block) (pError : Nat) (h1 : pError < f1) (h2 : pError < f2) :
    Iterative_loop K colors mode f1 pBlock pError
      = Iterative_loop K colors mode f2 pBlock pError := by
  induction f1 generalizing f2 pBlock pError with
  | zero => omega
  | succ k ih =>
    cases f2 with
    | zero => omega
    | succ m =>
      unfold Iterative_loop
      dsimp only
      rcases Inherit_Reindex_cases K pBlock pError colors mode with h0 | ⟨c0, c1, hr, hlt, _⟩
      · rw [h0]; simp
      · rw [hr]
        dsimp only
        by_cases hi : pBlock.indices
            = (K.DXT1_FindIndices colors (K.DXT1_ComputePalette c0 c1 mode)).1
        · simp [hi]
        · simp only [hi, if_false, Bool.true_eq_false]
          exact ih m _ _ (by omega) (by omega)

/-- With more iterations allowed than the entry error, the loop of the greedy
search leaves, after at most `s.error + 1` iterations, with the result of the
bounded loop. -/
theorem Greedy_run_spec (K : Deps) (data : rrCompressDXT1_Startup_Data)
    (colors : rrColorBlock4x4) (mode : rrDXT1PaletteMode) (joint : Bool)
    (fuel : Nat) (s : GreedyLoop) (h : s.error < fuel) :
    ∃ n, 1 ≤ n ∧ n ≤ s.error + 1 ∧
      Greedy_run K data colors mode joint fuel s
        = some (Greedy_loop K data colors mode joint fuel s, n) := by
  induction fuel generalizing s with
  | zero => omega
  | succ k ih =>
    unfold Greedy_run Greedy_loop
    dsimp only
    split
    · rename_i hlt
      split
      · exact ⟨1, le_refl _, by omega, rfl⟩
      · obtain ⟨n, hn1, hn2, hrun⟩ := ih
          ⟨⟨((Greedy_trials data.has_any_alpha joint s.best0 s.best1).getD
              (find_best_palette K colors (DXT1_ComputePalette_Batched K
                (Greedy_trials data.has_any_alpha joint s.best0 s.best1) mode)
                &&& (COUNT_LIMIT K - 1)) default).c0.pack,
            ((Greedy_trials data.has_any_alpha joint s.best0 s.best1).getD
              (find_best_palette K colors (DXT1_ComputePalette_Batched K
                (Greedy_trials data.has_any_alpha joint s.best0 s.best1) mode)
                &&& (COUNT_LIMIT K - 1)) default).c1.pack, s.block.indices⟩,
            find_best_palette K colors (DXT1_ComputePalette_Batched K
                (Greedy_trials data.has_any_alpha joint s.best0 s.best1) mode)
              >>> K.COUNT_SHIFT, _, _⟩ (by dsimp only; omega)
        dsimp only at hn2
        refine ⟨n + 1, by omega, by omega, ?_⟩
        rw [hrun]
        rfl
    · exact ⟨1, le_refl _, by omega, rfl⟩

/-- The bounded loop of the greedy search does not depend on the bound once it is
above the entry error. -/
theorem Greedy_loop_fuel (K : Deps) (data : rrCompressDXT1_Startup_Data)
    (colors : rrColorBlock4x4) (mode : rrDXT1PaletteMode) (joint : Bool)
    (f1 f2 : Nat) (s : GreedyLoop) (h1 : s.error < f1) (h2 : s.error < f2) :
    Greedy_loop K data colors mode joint f1 s = Greedy_loop K data colors mode joint f2 s := by
  induction f1 generalizing f2 s with
  | zero => omega
  | succ k ih =>
    cases f2 with
    | zero => omega
    | succ m =>
      unfold Greedy_loop
      dsimp only
      split
      · rename_i hlt
        split
        · rfl
        · exact ih m _ (by dsimp only; omega) (by dsimp only; omega)
      · rfl

/-- One iteration of the greedy loop leaves the loop variables as they are or
lowers the error. -/
theorem Greedy_loop_one (K : Deps) (data : rrCompressDXT1_Startup_Data)
    (colors : rrColorBlock4x4) (mode : rrDXT1PaletteMode) (joint : Bool) (s : GreedyLoop) :
    Greedy_loop K data colors mode joint 1 s = s ∨
    (Greedy_loop K data colors mode joint 1 s).error < s.error := by
  unfold Greedy_loop
  dsimp only
  split
  · rename_i hlt
    right
    split
    · exact hlt
    · unfold Greedy_loop
      exact hlt
  · left; rfl

/-- An entry read with `getD` has a property that all entries and the default entry
have. -/
theorem getD_prop {α : Type} (P : α → Prop) (l : List α) (i : Nat) (d : α)
    (h : ∀ x ∈ l, P x) (hd : P d) : P (l.getD i d) := by
  by_cases hi : i < l.length
  · rw [List.getD_eq_getElem _ _ hi]; exact h _ (List.getElem_mem hi)
  · rw [List.getD_eq_default _ _ (by omega)]; exact hd

/-- Legal endpoints in word order pack to a block in three-colour order. -/
theorem pack_le_of_dw_le (a b : rrColorUnpacked565) (ha : a.IsLegal) (hb : b.IsLegal)
    (h : a.dw ≤ b.dw) : a.pack ≤ b.pack := by
  obtain ⟨h1, h2⟩ := IsLegal_pack_lt b a hb ha
  by_contra hc
  have : b.pack < a.pack := by omega
  have := h1.mp this
  omega

/-- The block `TryBatchedEndpoints` leaves is in three-colour order when the block on
entry and every candidate are. -/
theorem TryBatchedEndpoints_order (K : Deps) (pBlock : rrDXT1Block) (pError : Nat)
    (colors : rrColorBlock4x4) (mode : rrDXT1PaletteMode)
    (eps : List rrDXT1UnpackedEndPoints)
    (h : ∀ ep ∈ eps, ep.c0.pack ≤ ep.c1.pack) (h01 : pBlock.c0 ≤ pBlock.c1) :
    (TryBatchedEndpoints K pBlock pError colors mode eps).1.c0
      ≤ (TryBatchedEndpoints K pBlock pError colors mode eps).1.c1 := by
  unfold TryBatchedEndpoints
  dsimp only
  split
  · dsimp only
    exact getD_prop (fun ep => ep.c0.pack ≤ ep.c1.pack) eps _ default h (le_refl _)
  · exact h01

/-- Every candidate `AddEndPoints_BothWays` adds is a pair of quantised colours. -/
theorem BothWays_mem (K : Deps) (l : List rrDXT1UnpackedEndPoints) (a b : rrColor32BGRA)
    (P : rrDXT1UnpackedEndPoints → Prop) (hP : ∀ x y, P ⟨K.quantize x, K.quantize y⟩)
    (hl : ∀ ep ∈ l, P ep) : ∀ ep ∈ AddEndPoints_BothWays K l a b, P ep := by
  unfold AddEndPoints_BothWays
  dsimp only
  split
  · exact hl
  · intro ep hep
    simp only [List.append_assoc, List.mem_append, List.mem_singleton] at hep
    rcases hep with h | h | h
    · exact hl ep h
    · rw [h]; exact hP _ _
    · rw [h]; exact hP _ _

theorem TwoColorBest_mem (K : Deps) (l : List rrDXT1UnpackedEndPoints) (a b : rrColor32BGRA)
    (P : rrDXT1UnpackedEndPoints → Prop) (hP : ∀ x y, P ⟨K.quantize x, K.quantize y⟩)
    (hl : ∀ ep ∈ l, P ep) : ∀ ep ∈ AddEndPoints_TwoColorBest K l a b, P ep := by
  unfold AddEndPoints_TwoColorBest
  dsimp only
  split
  · exact BothWays_mem K l a b P hP hl
  · exact BothWays_mem K _ _ _ P hP (BothWays_mem K _ _ _ P hP (BothWays_mem K _ _ _ P hP
      (BothWays_mem K l a b P hP hl)))

/-- Every candidate of the 4-means stage is a pair of quantised colours. -/
theorem FourMeans_candidates_mem (K : Deps) (means : Means4) (flags : Nat)
    (P : rrDXT1UnpackedEndPoints → Prop) (hP : ∀ x y, P ⟨K.quantize x, K.quantize y⟩) :
    ∀ ep ∈ FourMeans_candidates K means flags, P ep := by
  have h0 : ∀ ep ∈ ([] : List rrDXT1UnpackedEndPoints), P ep := by simp
  unfold FourMeans_candidates
  dsimp only
  split
  · exact BothWays_mem K _ _ _ P hP (BothWays_mem K _ _ _ P hP (BothWays_mem K _ _ _ P hP
      (BothWays_mem K _ _ _ P hP (BothWays_mem K _ _ _ P hP (BothWays_mem K _ _ _ P hP h0)))))
  · exact TwoColorBest_mem K _ _ _ P hP (TwoColorBest_mem K _ _ _ P hP
      (TwoColorBest_mem K _ _ _ P hP (TwoColorBest_mem K _ _ _ P hP
      (TwoColorBest_mem K _ _ _ P hP (TwoColorBest_mem K _ _ _ P hP
      (TwoColorBest_mem K _ _ _ P hP h0))))))

/-- With alpha, the 4-means stage leaves a block in three-colour order. -/
theorem FourMeans_order (K : Deps) (data : rrCompressDXT1_Startup_Data)
    (pBlock : rrDXT1Block) (pError : Nat) (colors : rrColorBlock4x4)
    (mode : rrDXT1PaletteMode) (flags : Nat) (hq : ∀ c, (K.quantize c).IsLegal)
    (ha : data.has_any_alpha = true) (h01 : pBlock.c0 ≤ pBlock.c1) :
    (rrCompressDXT1_4Means K data pBlock pError colors mode flags).2.1.c0
      ≤ (rrCompressDXT1_4Means K data pBlock pError colors mode flags).2.1.c1 := by
  unfold rrCompressDXT1_4Means
  dsimp only
  apply TryBatchedEndpoints_order K pBlock pError colors mode _ _ h01
  intro ep hep
  unfold FourMeans_scored at hep
  dsimp only at hep
  rw [if_pos ha, FilterEndpoints_three _ _ (by decide)] at hep
  obtain ⟨hmem, hord⟩ := List.mem_filter.mp hep
  have hleg := FourMeans_candidates_mem K _ flags (fun ep => ep.c0.IsLegal ∧ ep.c1.IsLegal)
    (fun x y => ⟨hq x, hq y⟩) ep hmem
  exact pack_le_of_dw_le _ _ hleg.1 hleg.2 (of_decide_eq_true hord)

/-- With `fourc = false` the word `DXT1_OptimizeEndPointsFromIndices_Raw` writes is
in three-colour order, for a solver that returns 16-bit words. -/
theorem Raw_order_3c (K : Deps) (indices : Nat) (colors : rrColorBlock4x4)
    (hs : ∀ f AA AB BB AX BX, (K.solve_quantized f AA AB BB AX BX).1 < 65536 ∧
      (K.solve_quantized f AA AB BB AX BX).2 < 65536)
    (c0 c1 : Nat) (h0 : c0 < 65536)
    (h : DXT1_OptimizeEndPointsFromIndices_Raw K indices false colors
      = some (c0 + 65536 * c1)) : c0 ≤ c1 := by
  unfold DXT1_OptimizeEndPointsFromIndices_Raw BC1EndpointLLSSolver.solve_endpoints at h
  dsimp only at h
  split at h
  · cases h
  · rename_i q heq
    split at heq
    · cases heq
    · simp only [Option.some.injEq] at heq
      obtain ⟨hq1, hq2⟩ := hs ((BC1EndpointLLSSolver.init false).accumulate colors indices).fourc
        ((BC1EndpointLLSSolver.init false).accumulate colors indices).AA
        ((BC1EndpointLLSSolver.init false).accumulate colors indices).AB
        ((BC1EndpointLLSSolver.init false).accumulate colors indices).BB
        ((BC1EndpointLLSSolver.init false).accumulate colors indices).AX
        ((BC1EndpointLLSSolver.init false).accumulate colors indices).BX
      rw [heq] at hq1 hq2
      simp only [Option.some.injEq] at h
      by_cases hlt : q.2 < q.1
      · simp only [hlt, decide_True, Bool.bne_false, if_true, Nat.mod_eq_of_lt hq1,
          Nat.mod_eq_of_lt hq2] at h
        omega
      · simp only [hlt, decide_False, Bool.bne_false, if_false, Bool.false_eq_true,
          Nat.mod_eq_of_lt hq1, Nat.mod_eq_of_lt hq2] at h
        omega

/-- Outside FourColor mode the refinement keeps a block in three-colour order. -/
theorem Inherit_Reindex_order (K : Deps) (pBlock : rrDXT1Block) (pError : Nat)
    (colors : rrColorBlock4x4) (mode : rrDXT1PaletteMode)
    (hs : ∀ f AA AB BB AX BX, (K.solve_quantized f AA AB BB AX BX).1 < 65536 ∧
      (K.solve_quantized f AA AB BB AX BX).2 < 65536)
    (hm : mode ≠ rrDXT1PaletteMode.FourColor) (h01 : pBlock.c0 ≤ pBlock.c1) :
    (DXT1_OptimizeEndPointsFromIndices_Inherit_Reindex K pBlock pError colors mode).2.1.c0
      ≤ (DXT1_OptimizeEndPointsFromIndices_Inherit_Reindex K pBlock pError colors mode).2.1.c1
    := by
  rcases Inherit_Reindex_cases K pBlock pError colors mode with h | ⟨c0, c1, h, _, hraw, h0, h1, _⟩
  · rw [h]; exact h01
  · rw [h]
    dsimp only
    have hf : DXT1_Is4Color pBlock.c0 pBlock.c1 mode = false := by
      unfold DXT1_Is4Color
      have : ¬ pBlock.c1 < pBlock.c0 := by omega
      simp [hm, this]
    rw [hf] at hraw
    exact Raw_order_3c K _ colors hs c0 c1 h0 hraw

theorem Iterative_loop_order (K : Deps) (colors : rrColorBlock4x4) (mode : rrDXT1PaletteMode)
    (hs : ∀ f AA AB BB AX BX, (K.solve_quantized f AA AB BB AX BX).1 < 65536 ∧
      (K.solve_quantized f AA AB BB AX BX).2 < 65536)
    (hm : mode ≠ rrDXT1PaletteMode.FourColor) (fuel : Nat) (pBlock : rrDXT1Block)
    (pError : Nat) (h01 : pBlock.c0 ≤ pBlock.c1) :
    (Iterative_loop K colors mode fuel pBlock pError).1.c0
      ≤ (Iterative_loop K colors mode fuel pBlock pError).1.c1 := by
  induction fuel generalizing pBlock pError with
  | zero => exact h01
  | succ n ih =>
    unfold Iterative_loop
    have ho := Inherit_Reindex_order K pBlock pError colors mode hs hm h01
    simp only
    split
    · exact ho
    · split
      · exact ho
      · exact ih _ _ ho

/-- With alpha every trial of a greedy round is in word order. -/
theorem Greedy_trials_ordered (joint : Bool) (s0 s1 : rrColorUnpacked565)
    (x : rrDXT1UnpackedEndPoints) (hx : x ∈ Greedy_trials true joint s0 s1) :
    x.c0.dw ≤ x.c1.dw := by
  unfold Greedy_trials at hx
  split at hx
  · obtain ⟨w1, _, w2, _, _, hn, rfl⟩ := (mem_Greedy_trials_joint true s0 s1 x).mp hx
    simp only [true_and, not_lt] at hn
    exact hn
  · rcases (mem_Greedy_trials_independent true s0 s1 x).mp hx with ⟨w, _, _, hn, rfl⟩ |
      ⟨w, _, _, hn, rfl⟩
    · simp only [true_and, not_lt] at hn
      exact hn
    · simp only [true_and, not_lt] at hn
      exact hn

theorem Greedy_loop_order (K : Deps) (data : rrCompressDXT1_Startup_Data)
    (colors : rrColorBlock4x4) (mode : rrDXT1PaletteMode) (joint : Bool)
    (ha : data.has_any_alpha = true) (fuel : Nat) (s : GreedyLoop)
    (hl0 : s.best0.IsLegal) (hl1 : s.best1.IsLegal) (h01 : s.block.c0 ≤ s.block.c1) :
    (Greedy_loop K data colors mode joint fuel s).block.c0
      ≤ (Greedy_loop K data colors mode joint fuel s).block.c1 := by
  induction fuel generalizing s with
  | zero => exact h01
  | succ n ih =>
    unfold Greedy_loop
    dsimp only
    have hep := getD_prop (fun ep : rrDXT1UnpackedEndPoints =>
        ep.c0.IsLegal ∧ ep.c1.IsLegal ∧ ep.c0.dw ≤ ep.c1.dw)
      (Greedy_trials data.has_any_alpha joint s.best0 s.best1)
      (find_best_palette K colors (DXT1_ComputePalette_Batched K
        (Greedy_trials data.has_any_alpha joint s.best0 s.best1) mode) &&& (COUNT_LIMIT K - 1))
      default
      (fun x hx => ⟨(Greedy_trials_IsLegal _ joint _ _ hl0 hl1 x hx).1,
        (Greedy_trials_IsLegal _ joint _ _ hl0 hl1 x hx).2,
        Greedy_trials_ordered joint _ _ x (by rw [ha] at hx; exact hx)⟩)
      ⟨by decide, by decide, le_refl _⟩
    obtain ⟨e0, e1, e01⟩ := hep
    have hp := pack_le_of_dw_le _ _ e0 e1 e01
    split
    · split
      · exact hp
      · exact ih _ e0 e1 hp
    · exact h01

theorem Greedy_order (K : Deps) (data : rrCompressDXT1_Startup_Data) (pBlock : rrDXT1Block)
    (pError : Nat) (colors : rrColorBlock4x4) (mode : rrDXT1PaletteMode) (joint : Bool)
    (ha : data.has_any_alpha = true) (h01 : pBlock.c0 ≤ pBlock.c1) :
    (DXT1_GreedyOptimizeBlock K data pBlock pError colors mode joint).1.c0
      ≤ (DXT1_GreedyOptimizeBlock K data pBlock pError colors mode joint).1.c1 := by
  have h := Greedy_loop_order K data colors mode joint ha (pError + 1)
    ⟨pBlock, pError, rrColorUnpacked565.unpack pBlock.c0, rrColorUnpacked565.unpack pBlock.c1⟩
    (unpack_IsLegal _) (unpack_IsLegal _) h01
  unfold DXT1_GreedyOptimizeBlock DXT1_GreedyOptimizeBlock_Inner
  dsimp only
  split
  · exact h01
  · split
    · exact h
    · exact h

/-- With alpha a trial of the annealing loop from legal endpoints is legal and in
word order. -/
theorem Anneal_trial_order (cur : rrDXT1UnpackedEndPoints) (r : Nat)
    (h0 : cur.c0.IsLegal) (h1 : cur.c1.IsLegal) :
    (Anneal_trial true cur r).c0.IsLegal ∧ (Anneal_trial true cur r).c1.IsLegal ∧
    (Anneal_trial true cur r).c0.dw ≤ (Anneal_trial true cur r).c1.dw := by
  have w0 := Wiggle_IsLegal cur.c0 (r &&& 7) h0
  have w1 := Wiggle_IsLegal cur.c1 ((r >>> 3) &&& 7) h1
  unfold Anneal_trial
  dsimp only
  by_cases hlt : (Wiggle cur.c1 ((r >>> 3) &&& 7)).dw < (Wiggle cur.c0 (r &&& 7)).dw
  · rw [if_pos ⟨rfl, hlt⟩]
    exact ⟨w1, w0, le_of_lt hlt⟩
  · rw [if_neg (fun h => hlt h.2)]
    exact ⟨w0, w1, not_lt.mp hlt⟩

theorem Anneal_accept_order (e0 : Nat) (thresh : Int) (ep : rrDXT1UnpackedEndPoints)
    (err i : Nat) (s : AnnealLoop)
    (hep : ep.c0.IsLegal ∧ ep.c1.IsLegal ∧ ep.c0.dw ≤ ep.c1.dw)
    (h : (∀ x ∈ s.cur, x.c0.IsLegal ∧ x.c1.IsLegal) ∧
      (s.error = e0 ∨ (s.best.c0.IsLegal ∧ s.best.c1.IsLegal ∧ s.best.c0.dw ≤ s.best.c1.dw))) :
    (∀ x ∈ (Anneal_accept thresh ep err i s).cur, x.c0.IsLegal ∧ x.c1.IsLegal) ∧
    ((Anneal_accept thresh ep err i s).error = e0 ∨
      ((Anneal_accept thresh ep err i s).best.c0.IsLegal ∧
       (Anneal_accept thresh ep err i s).best.c1.IsLegal ∧
       (Anneal_accept thresh ep err i s).best.c0.dw
         ≤ (Anneal_accept thresh ep err i s).best.c1.dw)) := by
  obtain ⟨h1, h2⟩ := h
  have hset : ∀ x ∈ s.cur.set i ep, x.c0.IsLegal ∧ x.c1.IsLegal := by
    intro x hx
    rcases List.mem_or_eq_of_mem_set hx with h | h
    · exact h1 x h
    · rw [h]; exact ⟨hep.1, hep.2.1⟩
  unfold Anneal_accept
  split_ifs
  · exact ⟨h1, h2⟩
  · exact ⟨h1, h2⟩
  · exact ⟨h1, Or.inr hep⟩
  · exact ⟨hset, Or.inr hep⟩
  · exact ⟨hset, h2⟩

theorem Anneal_round_order (K : Deps) (data : rrCompressDXT1_Startup_Data)
    (colors : rrColorBlock4x4) (mode : rrDXT1PaletteMode) (rng_bytes : List Nat) (e0 : Nat)
    (ha : data.has_any_alpha = true) (s : AnnealLoop) (time : Nat)
    (h : (∀ x ∈ s.cur, x.c0.IsLegal ∧ x.c1.IsLegal) ∧
      (s.error = e0 ∨ (s.best.c0.IsLegal ∧ s.best.c1.IsLegal ∧ s.best.c0.dw ≤ s.best.c1.dw))) :
    (∀ x ∈ (Anneal_round K data colors mode rng_bytes s time).cur,
      x.c0.IsLegal ∧ x.c1.IsLegal) ∧
    ((Anneal_round K data colors mode rng_bytes s time).error = e0 ∨
      ((Anneal_round K data colors mode rng_bytes s time).best.c0.IsLegal ∧
       (Anneal_round K data colors mode rng_bytes s time).best.c1.IsLegal ∧
       (Anneal_round K data colors mode rng_bytes s time).best.c0.dw
         ≤ (Anneal_round K data colors mode rng_bytes s time).best.c1.dw)) := by
  unfold Anneal_round
  split
  · exact h
  · dsimp only
    apply foldl_invariant (fun t : AnnealLoop =>
      (∀ x ∈ t.cur, x.c0.IsLegal ∧ x.c1.IsLegal) ∧
      (t.error = e0 ∨ (t.best.c0.IsLegal ∧ t.best.c1.IsLegal ∧ t.best.c0.dw ≤ t.best.c1.dw)))
    · intro s2 i _ hs2
      apply Anneal_accept_order e0 _ _ _ i s2 _ hs2
      apply getD_prop (fun ep : rrDXT1UnpackedEndPoints =>
        ep.c0.IsLegal ∧ ep.c1.IsLegal ∧ ep.c0.dw ≤ ep.c1.dw)
      · intro x hx
        simp only [List.mem_map, List.mem_range] at hx
        obtain ⟨j, _, rfl⟩ := hx
        rw [ha]
        have hc := getD_prop (fun ep : rrDXT1UnpackedEndPoints =>
          ep.c0.IsLegal ∧ ep.c1.IsLegal) s.cur j default h.1 ⟨by decide, by decide⟩
        exact Anneal_trial_order _ _ hc.1 hc.2
      · exact ⟨by decide, by decide, le_refl _⟩
    · exact h

theorem Anneal_order (K : Deps) (data : rrCompressDXT1_Startup_Data) (pBlock : rrDXT1Block)
    (pError : Nat) (colors : rrColorBlock4x4) (mode : rrDXT1PaletteMode) (expensive_mode : Bool)
    (ha : data.has_any_alpha = true) (h01 : pBlock.c0 ≤ pBlock.c1) :
    (DXT1_AnnealBlock K data pBlock pError colors mode expensive_mode).1.c0
      ≤ (DXT1_AnnealBlock K data pBlock pError colors mode expensive_mode).1.c1 := by
  unfold DXT1_AnnealBlock
  dsimp only
  have h := foldl_invariant (fun t : AnnealLoop =>
      (∀ x ∈ t.cur, x.c0.IsLegal ∧ x.c1.IsLegal) ∧
      (t.error = pError ∨
        (t.best.c0.IsLegal ∧ t.best.c1.IsLegal ∧ t.best.c0.dw ≤ t.best.c1.dw)))
    (Anneal_round K data colors mode (Anneal_rng_bytes K colors)) (List.range 64)
    (fun s t _ hs => Anneal_round_order K data colors mode _ pError ha s t hs)
    ⟨List.replicate 4 ⟨rrColorUnpacked565.unpack pBlock.c0,
      rrColorUnpacked565.unpack pBlock.c1⟩, List.replicate 4 pError, pError,
      ⟨rrColorUnpacked565.unpack pBlock.c0, rrColorUnpacked565.unpack pBlock.c1⟩, false⟩
    ⟨fun x hx => by
        rw [List.eq_of_mem_replicate hx]
        exact ⟨unpack_IsLegal _, unpack_IsLegal _⟩,
      Or.inl rfl⟩
  dsimp only at h
  unfold Anneal_loop
  revert h
  generalize List.foldl (Anneal_round K data colors mode (Anneal_rng_bytes K colors)) _ _ = s
  intro h
  obtain ⟨_, h2⟩ := h
  split
  · rename_i hne
    rcases h2 with h2 | ⟨b0, b1, b01⟩
    · exact absurd h2 hne
    · exact pack_le_of_dw_le _ _ b0 b1 b01
  · exact h01

/-- On a canonical tile, when startup signals to continue, `has_any_alpha` is set
only in Alpha mode. -/
theorem Startup_alpha_mode (K : Deps) (data0 : rrCompressDXT1_Startup_Data)
    (pBlock : rrDXT1Block) (pError : Nat) (colors : rrColorBlock4x4)
    (mode : rrDXT1PaletteMode) (options : Nat) (hcan : IsBC1Canonical K colors mode)
    (hret : (rrCompressDXT1_Startup K data0 pBlock pError colors mode options).ret = true)
    (ha : (rrCompressDXT1_Startup K data0 pBlock pError colors mode options).data.has_any_alpha
      = true) : mode = rrDXT1PaletteMode.Alpha := by
  have hn := (scan_run_eq K mode colors).2.2.2.2.2.2
  unfold rrCompressDXT1_Startup rrCompressDXT1_Startup_Impl at hret ha
  dsimp only at hret ha
  generalize StartupScan.run K mode colors = s at hn hret ha
  have ht : 0 < s.num_transparent := by
    split_ifs at hret ha <;> simp_all
  rw [hn] at ht
  obtain ⟨c, hc, hdw⟩ := List.countP_pos_iff.mp ht
  simp only [decide_eq_true_eq] at hdw
  exact (hcan.2 c hc hdw).1

theorem Ref.quantize_IsLegal (c : rrColor32BGRA) : (Ref.deps.quantize c).IsLegal := by
  show (Ref.quantize c).IsLegal
  unfold Ref.quantize rrColorUnpacked565.ofRGB rrColorUnpacked565.IsLegal Ref.quantizeTo
  dsimp only
  have h1 : (min c.r 255 * 31 + 127) / 255 < 32 := by omega
  have h2 : (min c.g 255 * 63 + 127) / 255 < 64 := by omega
  have h3 : (min c.b 255 * 31 + 127) / 255 < 32 := by omega
  generalize (min c.r 255 * 31 + 127) / 255 = x at *
  generalize (min c.g 255 * 63 + 127) / 255 = y at *
  generalize (min c.b 255 * 31 + 127) / 255 = z at *
  refine ⟨?_, ?_, ?_⟩ <;> omega

theorem Ref.solveChannel_le (maxq n p q det u v : Int) (h : 0 ≤ maxq) :
    ((Ref.solveChannel maxq n p q det u v : Nat) : Int) ≤ maxq := by
  unfold Ref.solveChannel
  dsimp only
  rw [Int.toNat_of_nonneg (le_min h (le_max_left _ _))]
  exact min_le_left _ _

theorem Ref.solve_quantized_lt (f : Bool) (AA AB BB : Int) (AX BX : rrVec3i) :
    (Ref.deps.solve_quantized f AA AB BB AX BX).1 < 65536 ∧
    (Ref.deps.solve_quantized f AA AB BB AX BX).2 < 65536 := by
  show (Ref.solve_quantized f AA AB BB AX BX).1 < 65536 ∧
    (Ref.solve_quantized f AA AB BB AX BX).2 < 65536
  unfold Ref.solve_quantized
  dsimp only
  generalize (if f = true then (3 : Int) else 2) = n
  generalize AA * BB - AB * AB = det
  have a1 := Ref.solveChannel_le 31 n BB AB det AX.z BX.z (by norm_num)
  have a2 := Ref.solveChannel_le 63 n BB AB det AX.y BX.y (by norm_num)
  have a3 := Ref.solveChannel_le 31 n BB AB det AX.x BX.x (by norm_num)
  have b1 := Ref.solveChannel_le 31 n AA AB det BX.z AX.z (by norm_num)
  have b2 := Ref.solveChannel_le 63 n AA AB det BX.y AX.y (by norm_num)
  have b3 := Ref.solveChannel_le 31 n AA AB det BX.x AX.x (by norm_num)
  constructor <;> omega

theorem rrVec3q.eq_zero_iff (v : rrVec3q) :
    v = ⟨0, 0, 0⟩ ↔ (v.x * v.x + v.z * v.z) + v.y * v.y = 0 := by
  obtain ⟨x, y, z⟩ := v
  simp only [rrVec3q.mk.injEq]
  constructor
  · rintro ⟨rfl, rfl, rfl⟩; ring
  · intro h
    have hx := mul_self_nonneg x
    have hy := mul_self_nonneg y
    have hz := mul_self_nonneg z
    refine ⟨mul_self_eq_zero.mp (by linarith), mul_self_eq_zero.mp (by linarith),
      mul_self_eq_zero.mp (by linarith)⟩

theorem rrVec3q.len_sq_pos (v : rrVec3q) (h : v ≠ ⟨0, 0, 0⟩) :
    0 < (v.x * v.x + v.z * v.z) + v.y * v.y := by
  have hx := mul_self_nonneg v.x
  have hy := mul_self_nonneg v.y
  have hz := mul_self_nonneg v.z
  rcases lt_or_eq_of_le (by linarith : 0 ≤ (v.x * v.x + v.z * v.z) + v.y * v.y) with h1 | h1
  · exact h1
  · exact absurd ((rrVec3q.eq_zero_iff v).mpr h1.symm) h

/-- The matrix `cov` is symmetric. -/
theorem COV_PCA_MULT_symm (s : PCAScan) (u v : rrVec3q) :
    rrVec3q.dot u (COV_PCA_MULT s v) = rrVec3q.dot (COV_PCA_MULT s u) v := by
  unfold rrVec3q.dot COV_PCA_MULT
  dsimp only
  ring

/-- A vector that two multiplications by `cov` annihilate is annihilated by one. -/
theorem COV_PCA_MULT_sq_ne (s : PCAScan) (w : rrVec3q)
    (h : COV_PCA_MULT s w ≠ ⟨0, 0, 0⟩) : COV_PCA_MULT s (COV_PCA_MULT s w) ≠ ⟨0, 0, 0⟩ := by
  intro h2
  apply h
  have hs := COV_PCA_MULT_symm s w (COV_PCA_MULT s w)
  rw [h2] at hs
  rw [rrVec3q.eq_zero_iff]
  unfold rrVec3q.dot at hs
  dsimp only at hs
  linarith

/-- One pixel adds the square of its deviation along `v` to the quadratic form. -/
theorem PCAScan_step_quad (avgF : rrVec3q) (s : PCAScan) (c : rrColor32BGRA) (v : rrVec3q) :
    rrVec3q.dot v (COV_PCA_MULT (PCAScan.step avgF s c) v)
      = rrVec3q.dot v (COV_PCA_MULT s v) + (rrVec3q.dot (PCA_dev avgF c) v) ^ 2 := by
  unfold rrVec3q.dot COV_PCA_MULT PCAScan.step
  dsimp only
  ring

/-- The quadratic form of `cov` after the loop: the sum of the squares of the
deviations along `v`. -/
theorem PCAScan_fold_quad (avgF : rrVec3q) (cs : List rrColor32BGRA) (s : PCAScan)
    (v : rrVec3q) :
    rrVec3q.dot v (COV_PCA_MULT (cs.foldl (PCAScan.step avgF) s) v)
      = rrVec3q.dot v (COV_PCA_MULT s v)
        + (cs.map (fun c => (rrVec3q.dot (PCA_dev avgF c) v) ^ 2)).sum := by
  induction cs generalizing s with
  | nil => simp
  | cons c cs ih =>
    rw [List.foldl_cons, ih, PCAScan_step_quad, List.map_cons, List.sum_cons]
    ring

/-- The seed after the loop: `longest_len2` bounds the squared length of every
deviation, and `pca` is as before or a deviation of that squared length. -/
theorem PCAScan_fold_seed (avgF : rrVec3q) (cs : List rrColor32BGRA) (s : PCAScan) :
    s.longest_len2 ≤ (cs.foldl (PCAScan.step avgF) s).longest_len2 ∧
    (∀ c ∈ cs, ((PCA_dev avgF c).x * (PCA_dev avgF c).x
        + (PCA_dev avgF c).z * (PCA_dev avgF c).z) + (PCA_dev avgF c).y * (PCA_dev avgF c).y
      ≤ (cs.foldl (PCAScan.step avgF) s).longest_len2) ∧
    (((cs.foldl (PCAScan.step avgF) s).pca = s.pca ∧
        (cs.foldl (PCAScan.step avgF) s).longest_len2 = s.longest_len2) ∨
      ∃ c ∈ cs, (cs.foldl (PCAScan.step avgF) s).pca = PCA_dev avgF c ∧
        ((PCA_dev avgF c).x * (PCA_dev avgF c).x
          + (PCA_dev avgF c).z * (PCA_dev avgF c).z) + (PCA_dev avgF c).y * (PCA_dev avgF c).y
        = (cs.foldl (PCAScan.step avgF) s).longest_len2) := by
  induction cs generalizing s with
  | nil => simp
  | cons c cs ih =>
    rw [List.foldl_cons]
    obtain ⟨h1, h2, h3⟩ := ih (PCAScan.step avgF s c)
    have hstep : s.longest_len2 ≤ (PCAScan.step avgF s c).longest_len2 ∧
        ((PCA_dev avgF c).x * (PCA_dev avgF c).x
          + (PCA_dev avgF c).z * (PCA_dev avgF c).z) + (PCA_dev avgF c).y * (PCA_dev avgF c).y
          ≤ (PCAScan.step avgF s c).longest_len2 ∧
        (((PCAScan.step avgF s c).pca = s.pca ∧
            (PCAScan.step avgF s c).longest_len2 = s.longest_len2) ∨
          ((PCAScan.step avgF s c).pca = PCA_dev avgF c ∧
            ((PCA_dev avgF c).x * (PCA_dev avgF c).x
              + (PCA_dev avgF c).z * (PCA_dev avgF c).z)
              + (PCA_dev avgF c).y * (PCA_dev avgF c).y
            = (PCAScan.step avgF s c).longest_len2)) := by
      unfold PCAScan.step
      dsimp only
      by_cases hgt : ((PCA_dev avgF c).x * (PCA_dev avgF c).x
          + (PCA_dev avgF c).z * (PCA_dev avgF c).z) + (PCA_dev avgF c).y * (PCA_dev avgF c).y
          > s.longest_len2
      · rw [if_pos hgt, if_pos hgt]
        exact ⟨le_of_lt hgt, le_refl _, Or.inr ⟨rfl, rfl⟩⟩
      · rw [if_neg hgt, if_neg hgt]
        exact ⟨le_refl _, not_lt.mp hgt, Or.inl ⟨rfl, rfl⟩⟩
    obtain ⟨g1, g2, g3⟩ := hstep
    refine ⟨le_trans g1 h1, ?_, ?_⟩
    · intro x hx
      rcases List.mem_cons.mp hx with rfl | hx
      · exact le_trans g2 h1
      · exact h2 x hx
    · rcases h3 with ⟨e1, e2⟩ | ⟨x, hx, e1, e2⟩
      · rcases g3 with ⟨f1, f2⟩ | ⟨f1, f2⟩
        · left; exact ⟨e1.trans f1, e2.trans f2⟩
        · right
          exact ⟨c, List.mem_cons_self _ _, e1.trans f1, f2.trans e2.symm⟩
      · right
        exact ⟨x, List.mem_cons_of_mem _ hx, e1, e2⟩

/-- Two pixels that differ in a colour channel do not both equal `avgF`. -/
theorem PCA_dev_ne_zero (avgF : rrVec3q) (c1 c2 : rrColor32BGRA)
    (h : c1.b ≠ c2.b ∨ c1.g ≠ c2.g ∨ c1.r ≠ c2.r) :
    PCA_dev avgF c1 ≠ ⟨0, 0, 0⟩ ∨ PCA_dev avgF c2 ≠ ⟨0, 0, 0⟩ := by
  by_contra hc
  push_neg at hc
  obtain ⟨h1, h2⟩ := hc
  unfold PCA_dev at h1 h2
  simp only [rrVec3q.mk.injEq] at h1 h2
  obtain ⟨a1, a2, a3⟩ := h1
  obtain ⟨b1, b2, b3⟩ := h2
  have e1 : (c1.b : ℚ) = c2.b := by linarith
  have e2 : (c1.g : ℚ) = c2.g := by linarith
  have e3 : (c1.r : ℚ) = c2.r := by linarith
  rcases h with h | h | h
  · exact h (Nat.cast_injective e1)
  · exact h (Nat.cast_injective e2)
  · exact h (Nat.cast_injective e3)

/-- The seed of the power iteration on a tile with two different colours: the
longest squared length is positive, `pca` is a deviation of that squared length and
no deviation is longer, and one multiplication by `cov` does not annihilate it. -/
theorem PCAScan_run_seed (avgF : rrVec3q) (colors : rrColorBlock4x4)
    (h : ∃ c1 ∈ colors.colors, ∃ c2 ∈ colors.colors,
      c1.b ≠ c2.b ∨ c1.g ≠ c2.g ∨ c1.r ≠ c2.r) :
    0 < (PCAScan.run avgF colors).longest_len2 ∧
    (∃ c ∈ colors.colors, (PCAScan.run avgF colors).pca = PCA_dev avgF c) ∧
    (((PCAScan.run avgF colors).pca.x * (PCAScan.run avgF colors).pca.x
        + (PCAScan.run avgF colors).pca.z * (PCAScan.run avgF colors).pca.z)
        + (PCAScan.run avgF colors).pca.y * (PCAScan.run avgF colors).pca.y
      = (PCAScan.run avgF colors).longest_len2) ∧
    (∀ c ∈ colors.colors, ((PCA_dev avgF c).x * (PCA_dev avgF c).x
        + (PCA_dev avgF c).z * (PCA_dev avgF c).z) + (PCA_dev avgF c).y * (PCA_dev avgF c).y
      ≤ (PCAScan.run avgF colors).longest_len2) ∧
    (PCAScan.run avgF colors).pca ≠ ⟨0, 0, 0⟩ ∧
    COV_PCA_MULT (PCAScan.run avgF colors) (PCAScan.run avgF colors).pca ≠ ⟨0, 0, 0⟩ := by
  obtain ⟨c1, hc1, c2, hc2, hne⟩ := h
  obtain ⟨_, hmax, hseed⟩ := PCAScan_fold_seed avgF colors.colors PCAScan.init
  have hquad := PCAScan_fold_quad avgF colors.colors PCAScan.init
  unfold PCAScan.run
  generalize colors.colors.foldl (PCAScan.step avgF) PCAScan.init = s at hmax hseed hquad
  have hpos : 0 < s.longest_len2 := by
    rcases PCA_dev_ne_zero avgF c1 c2 hne with hd | hd
    · exact lt_of_lt_of_le (rrVec3q.len_sq_pos _ hd) (hmax c1 hc1)
    · exact lt_of_lt_of_le (rrVec3q.len_sq_pos _ hd) (hmax c2 hc2)
  have hk : ∃ c ∈ colors.colors, s.pca = PCA_dev avgF c ∧
      ((PCA_dev avgF c).x * (PCA_dev avgF c).x + (PCA_dev avgF c).z * (PCA_dev avgF c).z)
        + (PCA_dev avgF c).y * (PCA_dev avgF c).y = s.longest_len2 := by
    rcases hseed with ⟨_, e2⟩ | hx
    · rw [e2] at hpos
      exact absurd hpos (lt_irrefl _)
    · exact hx
  obtain ⟨c, hc, hp, hl⟩ := hk
  have hlen : (s.pca.x * s.pca.x + s.pca.z * s.pca.z) + s.pca.y * s.pca.y
      = s.longest_len2 := by rw [hp]; exact hl
  have hnz : s.pca ≠ ⟨0, 0, 0⟩ := by
    intro h0
    have := (rrVec3q.eq_zero_iff s.pca).mp h0
    rw [hlen] at this
    rw [this] at hpos
    exact lt_irrefl _ hpos
  refine ⟨hpos, ⟨c, hc, hp⟩, hlen, hmax, hnz, ?_⟩
  intro h0
  have hq := hquad s.pca
  rw [h0] at hq
  have hinit : rrVec3q.dot s.pca (COV_PCA_MULT PCAScan.init s.pca) = 0 := by
    unfold rrVec3q.dot COV_PCA_MULT PCAScan.init
    simp
  have hzero : rrVec3q.dot s.pca ⟨0, 0, 0⟩ = 0 := by
    unfold rrVec3q.dot; simp
  rw [hinit, hzero, zero_add] at hq
  have hterm : (rrVec3q.dot (PCA_dev avgF c) s.pca) ^ 2
      ≤ (colors.colors.map (fun c => (rrVec3q.dot (PCA_dev avgF c) s.pca) ^ 2)).sum := by
    apply List.single_le_sum
    · intro x hx
      obtain ⟨y, _, rfl⟩ := List.mem_map.mp hx
      exact sq_nonneg _
    · exact List.mem_map.mpr ⟨c, hc, rfl⟩
  rw [← hq, ← hp] at hterm
  have hdot : rrVec3q.dot s.pca s.pca = s.longest_len2 := by
    rw [← hlen]; unfold rrVec3q.dot; ring
  rw [hdot] at hterm
  have : 0 < s.longest_len2 ^ 2 := by positivity
  linarith

/-- Every power iterate of a vector that `cov` does not annihilate is non-zero. -/
theorem COV_PCA_MULT_iterate_ne (s : PCAScan) (w : rrVec3q)
    (h : COV_PCA_MULT s w ≠ ⟨0, 0, 0⟩) (n : Nat) :
    (COV_PCA_MULT s)^[n + 1] w ≠ ⟨0, 0, 0⟩ := by
  induction n generalizing w with
  | zero => exact h
  | succ k ih =>
    rw [Function.iterate_succ_apply]
    exact ih (COV_PCA_MULT s w) (COV_PCA_MULT_sq_ne s w h)

/-- The multiplication by `cov` commutes with the division by a scalar. -/
theorem COV_PCA_MULT_div (s : PCAScan) (q : rrVec3q) (len : ℚ) :
    COV_PCA_MULT s ⟨q.x / len, q.y / len, q.z / len⟩
      = ⟨(COV_PCA_MULT s q).x / len, (COV_PCA_MULT s q).y / len, (COV_PCA_MULT s q).z / len⟩
    := by
  unfold COV_PCA_MULT
  simp only [rrVec3q.mk.injEq]
  refine ⟨?_, ?_, ?_⟩ <;> ring

theorem rrVec3q.div_ne_zero (q : rrVec3q) (len : ℚ) (hq : q ≠ ⟨0, 0, 0⟩) (hl : len ≠ 0) :
    (⟨q.x / len, q.y / len, q.z / len⟩ : rrVec3q) ≠ ⟨0, 0, 0⟩ := by
  intro h
  apply hq
  simp only [rrVec3q.mk.injEq, div_eq_zero_iff, hl, or_false] at h
  obtain ⟨x, y, z⟩ := q
  simp only [rrVec3q.mk.injEq]
  exact h

/-- One iteration of the power loop from an axis that `cov` does not annihilate: the
normalisation takes the branch `len_sq > 0`, and the new axis is non-zero and not
annihilated by `cov`. -/
theorem PCA_power_iter_ne (sqrtf : ℚ → ℚ) (hsq : ∀ t, 0 < t → sqrtf t ≠ 0) (s : PCAScan)
    (p : rrVec3q) (h : COV_PCA_MULT s p ≠ ⟨0, 0, 0⟩) :
    0 < ((COV_PCA_MULT s (COV_PCA_MULT s p)).x * (COV_PCA_MULT s (COV_PCA_MULT s p)).x
        + (COV_PCA_MULT s (COV_PCA_MULT s p)).z * (COV_PCA_MULT s (COV_PCA_MULT s p)).z)
        + (COV_PCA_MULT s (COV_PCA_MULT s p)).y * (COV_PCA_MULT s (COV_PCA_MULT s p)).y ∧
    PCA_power_iter sqrtf s p ≠ ⟨0, 0, 0⟩ ∧
    COV_PCA_MULT s (PCA_power_iter sqrtf s p) ≠ ⟨0, 0, 0⟩ := by
  have h2 := COV_PCA_MULT_sq_ne s p h
  have h3 := COV_PCA_MULT_sq_ne s _ h2
  have hpos := rrVec3q.len_sq_pos _ h2
  refine ⟨hpos, ?_, ?_⟩
  · unfold PCA_power_iter rrNormalize
    dsimp only
    rw [if_pos hpos]
    exact rrVec3q.div_ne_zero _ _ h2 (hsq _ hpos)
  · unfold PCA_power_iter rrNormalize
    dsimp only
    rw [if_pos hpos, COV_PCA_MULT_div]
    exact rrVec3q.div_ne_zero _ _ h3 (hsq _ hpos)

/-- The axis after any number of iterations of the power loop is not annihilated by
`cov`. -/
theorem PCA_power_loop_ne (sqrtf : ℚ → ℚ) (hsq : ∀ t, 0 < t → sqrtf t ≠ 0) (s : PCAScan)
    (n : Nat) (p : rrVec3q) (h : COV_PCA_MULT s p ≠ ⟨0, 0, 0⟩) :
    COV_PCA_MULT s (PCA_power_loop sqrtf s n p) ≠ ⟨0, 0, 0⟩ := by
  induction n with
  | zero => exact h
  | succ k ih =>
    unfold PCA_power_loop at ih ⊢
    rw [List.range_succ, List.foldl_append]
    exact (PCA_power_iter_ne sqrtf hsq s _ ih).2.2

/-- The exclusion test of the source is the criterion of the specification. -/
theorem IsTransparentOrBlack_eq_spec (K : Deps) (mode : rrDXT1PaletteMode) :
    rrDXT1_IsTransparentOrBlack K mode = Startup_excluded_spec K mode := by
  funext c
  unfold rrDXT1_IsTransparentOrBlack Startup_excluded_spec BLACKNESS_DISTANCE
  cases mode
  · by_cases hb : c.b < 12 <;> by_cases hg : c.g < 12 <;> by_cases hr : c.r < 12 <;>
      simp [hb, hg, hr]
  · simp
  · simp

/-- The stage `TryBatchedEndpoints` does not regress; the bound on the incoming error
is needed for an empty batch only. -/
theorem TryBatchedEndpoints_monotone_of (K : Deps) (pBlock : rrDXT1Block) (pError : Nat)
    (colors : rrColorBlock4x4) (mode : rrDXT1PaletteMode)
    (eps : List rrDXT1UnpackedEndPoints) (hcount : eps.length < COUNT_LIMIT K)
    (hK : EvalContract K colors mode)
    (hE : eps = [] → pError ≤ 4294967295 >>> K.COUNT_SHIFT) :
    StageMonotone pBlock pError (TryBatchedEndpoints K pBlock pError colors mode eps) := by
  by_cases hne : eps = []
  · exact TryBatchedEndpoints_monotone K pBlock pError colors mode eps hcount hK (hE hne)
  · obtain ⟨j, _, _, h⟩ := TryBatchedEndpoints_spec K pBlock pError colors mode eps hne hcount hK
    rw [h]
    split
    · exact StageMonotone.of_lt _ _ _ (by assumption)
    · exact StageMonotone.refl _ _

/-! ## The claims -/

/-- C5: with the evaluator returning the minimum of the keys `(err_i << shift) | i`
over a non-empty batch of fewer than `2^shift` candidates whose errors fit the key,
`>> shift` yields the minimum error and `& (2^shift - 1)` the smallest index that
attains it; likewise for the four signed lane keys `(err << 2) | lane` of the
vector annealing loop. -/
theorem C5_packed_key_gives_min_error_and_first_index (shift : Nat) (errs lanes : List Nat)
    (hne : errs ≠ []) (hcount : errs.length < 2 ^ shift)
    (hfit : ∀ e ∈ errs, e < 2 ^ (32 - shift))
    (hlanes : lanes.length = 4) (hlfit : ∀ e ∈ lanes, e < 2 ^ 29) :
    ((minKey (packKeys shift 0 errs) &&& (2 ^ shift - 1)) < errs.length ∧
     errs.getD (minKey (packKeys shift 0 errs) &&& (2 ^ shift - 1)) 0
       = minKey (packKeys shift 0 errs) >>> shift ∧
     (∀ e ∈ errs, minKey (packKeys shift 0 errs) >>> shift ≤ e) ∧
     (∀ t, t < (minKey (packKeys shift 0 errs) &&& (2 ^ shift - 1)) →
       minKey (packKeys shift 0 errs) >>> shift < errs.getD t 0)) ∧
    ((Anneal_best_lane lanes).1 < 4 ∧
     (lanes.getD (Anneal_best_lane lanes).1 0 : Int) = (Anneal_best_lane lanes).2 ∧
     (∀ e ∈ lanes, (Anneal_best_lane lanes).2 ≤ (e : Int)) ∧
     (∀ t, t < (Anneal_best_lane lanes).1 →
       (Anneal_best_lane lanes).2 < (lanes.getD t 0 : Int))) := by
  constructor
  · obtain ⟨j, hj, hk, hmin⟩ := minKey_spec shift errs hne hcount hfit
    have hjs : j < 2 ^ shift := lt_trans hj hcount
    rw [hk, key_div _ _ _ hjs, key_mod _ _ _ hjs]
    refine ⟨hj, rfl, ?_, ?_⟩
    · intro e he
      obtain ⟨t, ht, rfl⟩ := List.getElem_of_mem he
      have := (hmin t ht).1
      rwa [List.getD_eq_getElem _ _ ht] at this
    · intro t ht
      have h1 := hmin t (lt_trans ht hj)
      rcases Nat.lt_or_ge (errs.getD j 0) (errs.getD t 0) with h | h
      · exact h
      · have := h1.2 (le_antisymm h h1.1)
        omega
  · match lanes, hlanes with
    | [e0, e1, e2, e3], _ =>
      have h0 : e0 < 2 ^ 29 := hlfit e0 (by simp)
      have h1 : e1 < 2 ^ 29 := hlfit e1 (by simp)
      have h2 : e2 < 2 ^ 29 := hlfit e2 (by simp)
      have h3 : e3 < 2 ^ 29 := hlfit e3 (by simp)
      have k0 : packKey 2 e0 0 = e0 * 4 + 0 :=
        packKey_eq 2 e0 0 (by norm_num at h0 ⊢; omega) (by norm_num)
      have k1 : packKey 2 e1 1 = e1 * 4 + 1 :=
        packKey_eq 2 e1 1 (by norm_num at h1 ⊢; omega) (by norm_num)
      have k2 : packKey 2 e2 2 = e2 * 4 + 2 :=
        packKey_eq 2 e2 2 (by norm_num at h2 ⊢; omega) (by norm_num)
      have k3 : packKey 2 e3 3 = e3 * 4 + 3 :=
        packKey_eq 2 e3 3 (by norm_num at h3 ⊢; omega) (by norm_num)
      have hs : ∀ n : Nat, n < 2147483648 → toS32 n = (n : Int) := by
        intro n hn
        unfold toS32
        rw [Nat.mod_eq_of_lt (by omega), if_pos hn]
      norm_num at h0 h1 h2 h3
      simp only [Anneal_best_lane, List.range, List.range.loop, List.map, List.getD_cons_zero,
        List.getD_cons_succ, List.foldl, List.headD, k0, k1, k2, k3]
      rw [hs _ (by omega), hs _ (by omega), hs _ (by omega), hs _ (by omega)]
      push_cast
      have m0 : ((e0 : Int) * 4 + 0) % 4 = 0 := by omega
      have m1 : ((e1 : Int) * 4 + 1) % 4 = 1 := by omega
      have m2 : ((e2 : Int) * 4 + 2) % 4 = 2 := by omega
      have m3 : ((e3 : Int) * 4 + 3) % 4 = 3 := by omega
      have d0 : ((e0 : Int) * 4 + 0) / 4 = e0 := by omega
      have d1 : ((e1 : Int) * 4 + 1) / 4 = e1 := by omega
      have d2 : ((e2 : Int) * 4 + 2) / 4 = e2 := by omega
      have d3 : ((e3 : Int) * 4 + 3) / 4 = e3 := by omega
      have t0 : (0 : Int).toNat = 0 := rfl
      have t1 : (1 : Int).toNat = 1 := rfl
      have t2 : (2 : Int).toNat = 2 := rfl
      have t3 : (3 : Int).toNat = 3 := rfl
      simp only [List.mem_cons, List.mem_singleton, forall_eq_or_imp, forall_eq, List.not_mem_nil]
      simp only [min_def]
      split_ifs <;>
        simp only [m0, m1, m2, m3, d0, d1, d2, d3, t0, t1, t2, t3, List.getD_cons_zero,
          List.getD_cons_succ] <;>
        refine ⟨by omega, trivial,
          ⟨by omega, by omega, by omega, by omega, fun _ h => h.elim⟩, ?_⟩ <;>
        intro t ht <;> interval_cases t <;>
        simp only [List.getD_cons_zero, List.getD_cons_succ] <;> omega

/-- C5 at a batch of four errors with a tie and at four lane errors with a tie. -/
theorem C5_witness :
    ([5, 3, 3, 9] : List Nat) ≠ [] ∧ ([5, 3, 3, 9] : List Nat).length < 2 ^ 7 ∧
    (∀ e ∈ ([5, 3, 3, 9] : List Nat), e < 2 ^ (32 - 7)) ∧
    ([4, 2, 2, 7] : List Nat).length = 4 ∧ (∀ e ∈ ([4, 2, 2, 7] : List Nat), e < 2 ^ 29) ∧
    (minKey (packKeys 7 0 [5, 3, 3, 9]) >>> 7 = 3 ∧
      minKey (packKeys 7 0 [5, 3, 3, 9]) &&& (2 ^ 7 - 1) = 1 ∧
      Anneal_best_lane [4, 2, 2, 7] = (1, 2)) ∧
    ([5, 3, 3, 9] : List Nat).getD (minKey (packKeys 7 0 [5, 3, 3, 9]) &&& (2 ^ 7 - 1)) 0
      = minKey (packKeys 7 0 [5, 3, 3, 9]) >>> 7 :=
  ⟨by decide, by decide, by decide, by decide, by decide, by decide,
    (C5_packed_key_gives_min_error_and_first_index 7 [5, 3, 3, 9] [4, 2, 2, 7]
      (by decide) (by decide) (by decide) (by decide) (by decide)).1.2.1⟩

/-- C4: `TryBatchedEndpoints` on a batch of fewer than `COUNT_LIMIT` candidates, where
`i` is the first candidate of least error `m`: if `m < *pError` the block becomes the
packed endpoints of candidate `i` with the nearest-palette indices of its palette and
`*pError` becomes `m`; if `m >= *pError` block and error are as they were. -/
theorem C4_TryBatchedEndpoints_commits_first_minimum (K : Deps) (pBlock : rrDXT1Block)
    (pError : Nat) (colors : rrColorBlock4x4) (mode : rrDXT1PaletteMode)
    (eps : List rrDXT1UnpackedEndPoints) (m i : Nat)
    (hK : EvalContract K colors mode) (hcount : eps.length < COUNT_LIMIT K)
    (hi : i < eps.length) (hm : candErr K colors mode eps i = m)
    (hmin : ∀ t, t < eps.length → m ≤ candErr K colors mode eps t)
    (hfirst : ∀ t, t < i → m < candErr K colors mode eps t) :
    (m < pError →
      TryBatchedEndpoints K pBlock pError colors mode eps =
        (⟨(eps.getD i default).c0.pack, (eps.getD i default).c1.pack,
          (K.DXT1_FindIndices colors
            (K.ComputePalette_Unpacked (eps.getD i default) mode)).1⟩, m)) ∧
    (pError ≤ m → TryBatchedEndpoints K pBlock pError colors mode eps = (pBlock, pError)) := by
  have hne : eps ≠ [] := by intro h; rw [h] at hi; exact Nat.not_lt_zero _ hi
  obtain ⟨j, hj, hjmin, h⟩ := TryBatchedEndpoints_spec K pBlock pError colors mode eps hne hcount hK
  have hji : j = i := by
    have h1 := hjmin i hi
    have h2 := hmin j hj
    rw [hm] at h1
    have heq : candErr K colors mode eps j = m := le_antisymm h1.1 h2
    rcases Nat.lt_trichotomy j i with hlt | heq2 | hgt
    · have := hfirst j hlt; omega
    · exact heq2
    · have := h1.2 heq.symm; omega
  subst hji
  rw [h, hm]
  constructor
  · intro hlt; rw [if_pos hlt]; rfl
  · intro hge; rw [if_neg (by omega)]

/-- C4 at the reference collaborators, the ramp tile and a batch with a tie. -/
theorem C4_witness :
    EvalContract Ref.deps Ref.rampTile rrDXT1PaletteMode.NoAlpha ∧
    Ref.sampleBatch.length < COUNT_LIMIT Ref.deps ∧ 1 < Ref.sampleBatch.length ∧
    candErr Ref.deps Ref.rampTile rrDXT1PaletteMode.NoAlpha Ref.sampleBatch 1 = 157014 ∧
    (∀ t, t < Ref.sampleBatch.length →
      157014 ≤ candErr Ref.deps Ref.rampTile rrDXT1PaletteMode.NoAlpha Ref.sampleBatch t) ∧
    (∀ t, t < 1 →
      157014 < candErr Ref.deps Ref.rampTile rrDXT1PaletteMode.NoAlpha Ref.sampleBatch t) ∧
    (157014 < 200000 →
      TryBatchedEndpoints Ref.deps ⟨0, 0, 0⟩ 200000 Ref.rampTile rrDXT1PaletteMode.NoAlpha
        Ref.sampleBatch =
        (⟨(Ref.sampleBatch.getD 1 default).c0.pack, (Ref.sampleBatch.getD 1 default).c1.pack,
          (Ref.deps.DXT1_FindIndices Ref.rampTile
            (Ref.deps.ComputePalette_Unpacked (Ref.sampleBatch.getD 1 default)
              rrDXT1PaletteMode.NoAlpha)).1⟩, 157014)) :=
  ⟨Ref.evalContract _ _ (by decide) (by decide), by decide, by decide, by decide, by decide,
    by decide,
    (C4_TryBatchedEndpoints_commits_first_minimum Ref.deps ⟨0, 0, 0⟩ 200000 Ref.rampTile
      rrDXT1PaletteMode.NoAlpha Ref.sampleBatch 157014 1
      (Ref.evalContract _ _ (by decide) (by decide)) (by decide) (by decide) (by decide)
      (by decide) (by decide)).1⟩

/-- C1: each stage returns an error not above the incoming one and changes the block
only when the error has strictly decreased (`StageMonotone`), for every tile, mode,
incoming block and incoming error.  `TryBatchedEndpoints` and `rrCompressDXT1_4Means`
take the error from `DXT1_FindIndices`, so for them the scoring collaborators must
agree; with an empty batch they would read the unwritten entry `endpoints[best_i]`
when the incoming error is above the largest error of a key, so for an empty batch
(and only then) the incoming error is bounded.  In the compressor the first call
has a non-empty batch on a canonical tile, and every later call has an incoming
error within the bound. -/
theorem C1_no_stage_regresses (K : Deps) (colors : rrColorBlock4x4)
    (mode : rrDXT1PaletteMode) (data : rrCompressDXT1_Startup_Data) (pBlock : rrDXT1Block)
    (pError : Nat) (eps : List rrDXT1UnpackedEndPoints) (flags : Nat)
    (do_joint_optimization expensive_mode : Bool)
    (hK : EvalContract K colors mode) (hL : 56 < COUNT_LIMIT K)
    (hcount : eps.length < COUNT_LIMIT K)
    (hE : eps = [] → pError ≤ 4294967295 >>> K.COUNT_SHIFT)
    (hE4 : FourMeans_scored K data colors flags = [] →
      pError ≤ 4294967295 >>> K.COUNT_SHIFT) :
    StageMonotone pBlock pError (TryBatchedEndpoints K pBlock pError colors mode eps) ∧
    StageMonotone pBlock pError
      (rrCompressDXT1_4Means K data pBlock pError colors mode flags).2 ∧
    StageMonotone pBlock pError
      (DXT1_OptimizeEndPointsFromIndices_Inherit_Reindex K pBlock pError colors mode).2 ∧
    StageMonotone pBlock pError
      (DXT1_OptimizeEndPointsFromIndicesIterative K pBlock pError colors mode) ∧
    StageMonotone pBlock pError (Compress_TryAllPairs_Heavy K pBlock pError colors mode).2 ∧
    StageMonotone pBlock pError
      (DXT1_GreedyOptimizeBlock K data pBlock pError colors mode do_joint_optimization) ∧
    StageMonotone pBlock pError
      (DXT1_AnnealBlock K data pBlock pError colors mode expensive_mode) ∧
    (IsBC1Canonical K colors mode → ∀ data0,
      (rrCompressDXT1_Startup_Impl K data0 colors mode []).2.2 ≠ []) ∧
    (IsBC1Canonical K colors mode → DecodeContract K colors mode → ∀ data0 b0 options,
      (rrCompressDXT1_Startup K data0 b0 K.RR_DXTC_INIT_ERROR colors mode options).error
        ≤ 4294967295 >>> K.COUNT_SHIFT) := by
  refine ⟨TryBatchedEndpoints_monotone_of K pBlock pError colors mode eps hcount hK hE, ?_,
    Inherit_Reindex_monotone K pBlock pError colors mode,
    Iterative_monotone K pBlock pError colors mode,
    Heavy_monotone K pBlock pError colors mode,
    Greedy_monotone K data pBlock pError colors mode do_joint_optimization,
    Anneal_monotone K data pBlock pError colors mode expensive_mode, ?_, ?_⟩
  · unfold rrCompressDXT1_4Means
    exact TryBatchedEndpoints_monotone_of K pBlock pError colors mode _
      (lt_of_le_of_lt (FourMeans_scored_length K data colors flags) hL) hK hE4
  · intro hcan data0 h
    have h1 := (Startup_Impl_count K data0 colors mode hcan).1
    rw [h] at h1
    simp at h1
  · intro hcan hD data0 b0 options
    exact (Startup_committed K data0 b0 colors mode options hK hD hL hcan).error_le_maxKey hK hD

set_option maxRecDepth 1000000 in
set_option maxHeartbeats 400000000 in
/-- C1 at the reference collaborators, the ramp tile and its startup data, with the
incoming error `RR_DXTC_INIT_ERROR` of the first call of every level. -/
theorem C1_witness :
    StageMonotone ⟨0, 0, 0⟩ Ref.deps.RR_DXTC_INIT_ERROR
      (TryBatchedEndpoints Ref.deps ⟨0, 0, 0⟩ Ref.deps.RR_DXTC_INIT_ERROR Ref.rampTile
        rrDXT1PaletteMode.NoAlpha Ref.sampleBatch) :=
  (C1_no_stage_regresses Ref.deps Ref.rampTile rrDXT1PaletteMode.NoAlpha
    (rrCompressDXT1_Startup Ref.deps default ⟨0, 0, 0⟩ Ref.deps.RR_DXTC_INIT_ERROR
      Ref.rampTile rrDXT1PaletteMode.NoAlpha 0).data ⟨0, 0, 0⟩
    Ref.deps.RR_DXTC_INIT_ERROR Ref.sampleBatch 2 true false
    (Ref.evalContract _ _ (by decide) (by decide))
    (by decide) (by decide) (fun h => absurd h (by decide))
    (fun h => absurd h (by decide!))).1

/-- C9: the 256 control bytes of `DXT1_AnnealBlock` are bytes computed from the 32-bit
words of the 16 pixels alone (two tiles with the same pixel words give the same
bytes; mode, incoming block, incoming error and `expensive_mode` are not inputs of
`Anneal_rng_bytes`), and the result of `DXT1_AnnealBlock` does not depend on
`expensive_mode` nor on any field of the startup data other than `has_any_alpha`. -/
theorem C9_anneal_random_bytes_depend_on_tile_only (K : Deps)
    (colors colors2 : rrColorBlock4x4) (data data2 : rrCompressDXT1_Startup_Data)
    (pBlock : rrDXT1Block) (pError : Nat) (mode : rrDXT1PaletteMode)
    (expensive_mode expensive_mode2 : Bool)
    (hpix : colors.colors.map rrColor32BGRA.dw = colors2.colors.map rrColor32BGRA.dw)
    (halpha : data.has_any_alpha = data2.has_any_alpha) :
    (Anneal_rng_bytes K colors).length = 256 ∧
    (∀ b ∈ Anneal_rng_bytes K colors, b < 256) ∧
    Anneal_rng_bytes K colors = Anneal_rng_bytes K colors2 ∧
    DXT1_AnnealBlock K data pBlock pError colors mode expensive_mode
      = DXT1_AnnealBlock K data2 pBlock pError colors mode expensive_mode2 := by
  refine ⟨?_, ?_, ?_, ?_⟩
  · unfold Anneal_rng_bytes; rw [rng_fill_length]; rfl
  · intro b hb; exact rng_fill_lt K _ _ b hb
  · unfold Anneal_rng_bytes; rw [tileWords_eq, tileWords_eq, hpix]
  · unfold DXT1_AnnealBlock Anneal_loop
    dsimp only
    rw [Anneal_round_data K data data2 halpha]

/-- C9 at the ramp tile, with and without the expensive flag and with two different
startup statistics. -/
theorem C9_witness :
    Ref.rampTile.colors.map rrColor32BGRA.dw = Ref.rampTile.colors.map rrColor32BGRA.dw ∧
    (default : rrCompressDXT1_Startup_Data).has_any_alpha
      = ({ (default : rrCompressDXT1_Startup_Data) with avg := ⟨1, 2, 3⟩ }).has_any_alpha ∧
    (Anneal_rng_bytes Ref.deps Ref.rampTile).length = 256 ∧
    DXT1_AnnealBlock Ref.deps default ⟨0, 0, 0⟩ 1000 Ref.rampTile rrDXT1PaletteMode.Alpha true
      = DXT1_AnnealBlock Ref.deps { (default : rrCompressDXT1_Startup_Data) with avg := ⟨1, 2, 3⟩ }
          ⟨0, 0, 0⟩ 1000 Ref.rampTile rrDXT1PaletteMode.Alpha false :=
  ⟨rfl, rfl,
    (C9_anneal_random_bytes_depend_on_tile_only Ref.deps Ref.rampTile Ref.rampTile default
      { (default : rrCompressDXT1_Startup_Data) with avg := ⟨1, 2, 3⟩ } ⟨0, 0, 0⟩ 1000
      rrDXT1PaletteMode.Alpha true false rfl rfl).1,
    (C9_anneal_random_bytes_depend_on_tile_only Ref.deps Ref.rampTile Ref.rampTile default
      { (default : rrCompressDXT1_Startup_Data) with avg := ⟨1, 2, 3⟩ } ⟨0, 0, 0⟩ 1000
      rrDXT1PaletteMode.Alpha true false rfl rfl).2.2.2⟩

/-- C10: `rrCompressDXT1Block` selects FourColor whenever `isBC23ColorBlock` is set,
otherwise Alpha when the one-bit-alpha option bit is set, otherwise NoAlpha; it runs
`rrCompressDXT1_3` for level >= VerySlow, `_2` for Slow, `_1` for Fast and `_0`
otherwise; and its result is the canonicalised block of that pipeline when the mode
is FourColor and the pipeline's block itself otherwise. -/
theorem C10_mode_and_level_dispatch (K : Deps) (data0 : rrCompressDXT1_Startup_Data)
    (pBlock : rrDXT1Block) (colors : rrColorBlock4x4) (level options : Nat)
    (isBC23ColorBlock : Bool) :
    (isBC23ColorBlock = true →
      selectMode K options isBC23ColorBlock = rrDXT1PaletteMode.FourColor) ∧
    (isBC23ColorBlock = false → options &&& K.rrDXTCOptions_BC1_OneBitAlpha ≠ 0 →
      selectMode K options isBC23ColorBlock = rrDXT1PaletteMode.Alpha) ∧
    (isBC23ColorBlock = false → options &&& K.rrDXTCOptions_BC1_OneBitAlpha = 0 →
      selectMode K options isBC23ColorBlock = rrDXT1PaletteMode.NoAlpha) ∧
    (∀ mode, rrDXTCLevel_VerySlow ≤ level →
      levelDispatch K data0 pBlock colors level options mode
        = rrCompressDXT1_3 K data0 pBlock colors options mode level) ∧
    (∀ mode, level = rrDXTCLevel_Slow →
      levelDispatch K data0 pBlock colors level options mode
        = rrCompressDXT1_2 K data0 pBlock colors options mode) ∧
    (∀ mode, level = rrDXTCLevel_Fast →
      levelDispatch K data0 pBlock colors level options mode
        = rrCompressDXT1_1 K data0 pBlock colors options mode) ∧
    (∀ mode, level < rrDXTCLevel_VerySlow → level ≠ rrDXTCLevel_Slow →
      level ≠ rrDXTCLevel_Fast →
      levelDispatch K data0 pBlock colors level options mode
        = rrCompressDXT1_0 K data0 pBlock colors options mode) ∧
    (selectMode K options isBC23ColorBlock = rrDXT1PaletteMode.FourColor →
      rrCompressDXT1Block K data0 pBlock colors level options isBC23ColorBlock
        = (K.rrDXT1Block_BC3_Canonicalize
            (levelDispatch K data0 pBlock colors level options
              (selectMode K options isBC23ColorBlock)).1,
           (levelDispatch K data0 pBlock colors level options
              (selectMode K options isBC23ColorBlock)).2)) ∧
    (selectMode K options isBC23ColorBlock ≠ rrDXT1PaletteMode.FourColor →
      rrCompressDXT1Block K data0 pBlock colors level options isBC23ColorBlock
        = levelDispatch K data0 pBlock colors level options
            (selectMode K options isBC23ColorBlock)) := by
  refine ⟨?_, ?_, ?_, ?_, ?_, ?_, ?_, ?_, ?_⟩
  · intro h; simp [selectMode, h]
  · intro h h2; simp [selectMode, h, h2]
  · intro h h2; simp [selectMode, h, h2]
  · intro mode h; simp [levelDispatch, h]
  · intro mode h; subst h; simp [levelDispatch, rrDXTCLevel_VerySlow, rrDXTCLevel_Slow]
  · intro mode h; subst h
    simp [levelDispatch, rrDXTCLevel_VerySlow, rrDXTCLevel_Slow, rrDXTCLevel_Fast]
  · intro mode h1 h2 h3
    simp [levelDispatch, Nat.not_le.mpr h1, h2, h3]
  · intro h; simp [rrCompressDXT1Block, h]
  · intro h; simp [rrCompressDXT1Block, h]

/-- C7: for the tile of sixteen pixels (0,0,0,0), with the one-bit-alpha option (Alpha
mode) and at every level, startup signals stop with endpoints `c0 = c1 = 0` and
error 0, and the compressor returns exactly the block and error startup left; the
collaborators are taken to score the all-black/transparent palette of (0,0) as exact
on this tile. -/
theorem C7_all_transparent_tile (K : Deps) (data0 : rrCompressDXT1_Startup_Data)
    (pBlock : rrDXT1Block) (level options : Nat)
    (hopt : options &&& K.rrDXTCOptions_BC1_OneBitAlpha ≠ 0)
    (hinit : 0 < K.RR_DXTC_INIT_ERROR)
    (heval : K.eval_palette (flatTile ⟨0, 0, 0, 0⟩)
      (K.ComputePalette_Unpacked ⟨⟨0⟩, ⟨0⟩⟩ rrDXT1PaletteMode.Alpha) = 0)
    (hfind : (K.DXT1_FindIndices (flatTile ⟨0, 0, 0, 0⟩)
      (K.ComputePalette_Unpacked ⟨⟨0⟩, ⟨0⟩⟩ rrDXT1PaletteMode.Alpha)).2 = 0) :
    selectMode K options false = rrDXT1PaletteMode.Alpha ∧
    (rrCompressDXT1_Startup K data0 pBlock K.RR_DXTC_INIT_ERROR (flatTile ⟨0, 0, 0, 0⟩)
      rrDXT1PaletteMode.Alpha options).ret = false ∧
    (rrCompressDXT1_Startup K data0 pBlock K.RR_DXTC_INIT_ERROR (flatTile ⟨0, 0, 0, 0⟩)
      rrDXT1PaletteMode.Alpha options).block.c0 = 0 ∧
    (rrCompressDXT1_Startup K data0 pBlock K.RR_DXTC_INIT_ERROR (flatTile ⟨0, 0, 0, 0⟩)
      rrDXT1PaletteMode.Alpha options).block.c1 = 0 ∧
    (rrCompressDXT1_Startup K data0 pBlock K.RR_DXTC_INIT_ERROR (flatTile ⟨0, 0, 0, 0⟩)
      rrDXT1PaletteMode.Alpha options).error = 0 ∧
    rrCompressDXT1Block K data0 pBlock (flatTile ⟨0, 0, 0, 0⟩) level options false
      = ((rrCompressDXT1_Startup K data0 pBlock K.RR_DXTC_INIT_ERROR (flatTile ⟨0, 0, 0, 0⟩)
            rrDXT1PaletteMode.Alpha options).block,
         (rrCompressDXT1_Startup K data0 pBlock K.RR_DXTC_INIT_ERROR (flatTile ⟨0, 0, 0, 0⟩)
            rrDXT1PaletteMode.Alpha options).error) := by
  have hmode : selectMode K options false = rrDXT1PaletteMode.Alpha := by
    simp [selectMode, hopt]
  have himpl : rrCompressDXT1_Startup_Impl K data0 (flatTile ⟨0, 0, 0, 0⟩)
      rrDXT1PaletteMode.Alpha [] = (false, data0, [⟨⟨0⟩, ⟨0⟩⟩]) := by
    unfold rrCompressDXT1_Startup_Impl
    have h0 : (StartupScan.run K rrDXT1PaletteMode.Alpha (flatTile ⟨0, 0, 0, 0⟩)).hiC
        = ⟨0, 0, 0, 0⟩ := by
      unfold StartupScan.run
      apply scan_hiC_zero
      · intro c hc
        simp only [flatTile, List.mem_replicate] at hc
        rw [hc.2]; exact ⟨rfl, rfl, rfl⟩
      · rfl
    simp [h0, rrColor32BGRA.dw]
  have hstart : rrCompressDXT1_Startup K data0 pBlock K.RR_DXTC_INIT_ERROR
      (flatTile ⟨0, 0, 0, 0⟩) rrDXT1PaletteMode.Alpha options
      = ⟨false, data0, commitBlock K (flatTile ⟨0, 0, 0, 0⟩) rrDXT1PaletteMode.Alpha
          ⟨⟨0⟩, ⟨0⟩⟩, 0⟩ := by
    unfold rrCompressDXT1_Startup
    rw [himpl]
    dsimp only
    rw [TryBatchedEndpoints_singleton K pBlock _ _ _ _ (by rw [hfind, heval])
      (by rw [heval]; exact Nat.two_pow_pos _), heval, if_pos hinit]
  refine ⟨hmode, ?_, ?_, ?_, ?_, ?_⟩
  · rw [hstart]
  · rw [hstart]; rfl
  · rw [hstart]; rfl
  · rw [hstart]
  · have hret : (rrCompressDXT1_Startup K data0 pBlock K.RR_DXTC_INIT_ERROR
        (flatTile ⟨0, 0, 0, 0⟩) rrDXT1PaletteMode.Alpha options).ret = false := by rw [hstart]
    obtain ⟨l0, l1, l2, l3⟩ := levels_of_startup_stop K data0 pBlock (flatTile ⟨0, 0, 0, 0⟩)
      options rrDXT1PaletteMode.Alpha hret
    have herr : (rrCompressDXT1_Startup K data0 pBlock K.RR_DXTC_INIT_ERROR
        (flatTile ⟨0, 0, 0, 0⟩) rrDXT1PaletteMode.Alpha options).error = 0 := by rw [hstart]
    unfold rrCompressDXT1Block
    rw [hmode]
    dsimp only
    rw [if_neg (by decide)]
    unfold levelDispatch
    split
    · rw [l3, herr, Greedy_zero]
    · split
      · exact l2
      · split
        · exact l1
        · exact l0

/-- C7 at the reference collaborators, level Reference. -/
theorem C7_witness :
    (1 &&& Ref.deps.rrDXTCOptions_BC1_OneBitAlpha ≠ 0) ∧ 0 < Ref.deps.RR_DXTC_INIT_ERROR ∧
    Ref.deps.eval_palette (flatTile ⟨0, 0, 0, 0⟩)
      (Ref.deps.ComputePalette_Unpacked ⟨⟨0⟩, ⟨0⟩⟩ rrDXT1PaletteMode.Alpha) = 0 ∧
    (Ref.deps.DXT1_FindIndices (flatTile ⟨0, 0, 0, 0⟩)
      (Ref.deps.ComputePalette_Unpacked ⟨⟨0⟩, ⟨0⟩⟩ rrDXT1PaletteMode.Alpha)).2 = 0 ∧
    (rrCompressDXT1_Startup Ref.deps default ⟨7, 7, 7⟩ Ref.deps.RR_DXTC_INIT_ERROR
      (flatTile ⟨0, 0, 0, 0⟩) rrDXT1PaletteMode.Alpha 1).error = 0 :=
  ⟨by decide, by decide, by decide, by decide,
    (C7_all_transparent_tile Ref.deps default ⟨7, 7, 7⟩ rrDXTCLevel_Reference 1
      (by decide) (by decide) (by decide) (by decide)).2.2.2.2.1⟩

/-- C8: for a tile of sixteen copies of an opaque colour `c` that is not pure black
and not excluded under the mode, the rounded average `(sum+8)>>4` is `c`, startup
emits exactly one candidate, the four-colour single-colour table fit of `c`, and
signals stop; levels VeryFast, Fast and Slow return the packed endpoints of that
pair with the nearest indices of its palette (the collaborators agreeing on its
error, which is below `RR_DXTC_INIT_ERROR`). -/
theorem C8_flat_tile_single_colour_fit (K : Deps) (data0 : rrCompressDXT1_Startup_Data)
    (pBlock : rrDXT1Block) (options : Nat) (mode : rrDXT1PaletteMode) (c : rrColor32BGRA)
    (hb : c.b ≤ 255) (hg : c.g ≤ 255) (hr : c.r ≤ 255) (ha : c.a = 255)
    (hblack : ¬(c.b = 0 ∧ c.g = 0 ∧ c.r = 0))
    (hx : rrDXT1_IsTransparentOrBlack K mode c = false)
    (hfind : (K.DXT1_FindIndices (flatTile c)
        (K.ComputePalette_Unpacked (SingleColor_Compact_4C K c) mode)).2
      = K.eval_palette (flatTile c) (K.ComputePalette_Unpacked (SingleColor_Compact_4C K c) mode))
    (hfit : K.eval_palette (flatTile c)
        (K.ComputePalette_Unpacked (SingleColor_Compact_4C K c) mode) < 2 ^ (32 - K.COUNT_SHIFT))
    (hinit : K.eval_palette (flatTile c)
        (K.ComputePalette_Unpacked (SingleColor_Compact_4C K c) mode) < K.RR_DXTC_INIT_ERROR) :
    Vec3iToColor ⟨((StartupScan.run K mode (flatTile c)).avg.x + 8) / 16,
      ((StartupScan.run K mode (flatTile c)).avg.y + 8) / 16,
      ((StartupScan.run K mode (flatTile c)).avg.z + 8) / 16⟩ = c ∧
    rrCompressDXT1_Startup_Impl K data0 (flatTile c) mode []
      = (false, { data0 with has_any_alpha := false }, [SingleColor_Compact_4C K c]) ∧
    rrCompressDXT1_0 K data0 pBlock (flatTile c) options mode
      = (⟨(SingleColor_Compact_4C K c).c0.pack, (SingleColor_Compact_4C K c).c1.pack,
          (K.DXT1_FindIndices (flatTile c)
            (K.ComputePalette_Unpacked (SingleColor_Compact_4C K c) mode)).1⟩,
         K.eval_palette (flatTile c)
           (K.ComputePalette_Unpacked (SingleColor_Compact_4C K c) mode)) ∧
    rrCompressDXT1_1 K data0 pBlock (flatTile c) options mode
      = rrCompressDXT1_0 K data0 pBlock (flatTile c) options mode ∧
    rrCompressDXT1_2 K data0 pBlock (flatTile c) options mode
      = rrCompressDXT1_0 K data0 pBlock (flatTile c) options mode := by
  have hdw : c.dw ≠ 0 := by unfold rrColor32BGRA.dw; omega
  have himpl := Startup_Impl_flatTile K data0 mode c hb hg hr ha hblack hx
  have hstart : rrCompressDXT1_Startup K data0 pBlock K.RR_DXTC_INIT_ERROR (flatTile c) mode
      options = ⟨false, { data0 with has_any_alpha := false },
        commitBlock K (flatTile c) mode (SingleColor_Compact_4C K c),
        K.eval_palette (flatTile c)
          (K.ComputePalette_Unpacked (SingleColor_Compact_4C K c) mode)⟩ := by
    unfold rrCompressDXT1_Startup
    rw [himpl]
    dsimp only
    unfold AddEndPoints_SingleColor_Compact_4C
    rw [List.nil_append, TryBatchedEndpoints_singleton K pBlock _ _ _ _ hfind hfit, if_pos hinit]
  have hret : (rrCompressDXT1_Startup K data0 pBlock K.RR_DXTC_INIT_ERROR (flatTile c) mode
      options).ret = false := by rw [hstart]
  obtain ⟨l0, l1, l2, _⟩ := levels_of_startup_stop K data0 pBlock (flatTile c) options mode hret
  refine ⟨?_, ?_, ?_, ?_, ?_⟩
  · rw [scan_flatTile K mode c hb hg hr hdw hx]
    unfold Vec3iToColor StartupScan.flat
    have e1 : ((((16 : Nat) : Int) * (c.b : Int) + 8) / 16).toNat % 256 = c.b := by omega
    have e2 : ((((16 : Nat) : Int) * (c.g : Int) + 8) / 16).toNat % 256 = c.g := by omega
    have e3 : ((((16 : Nat) : Int) * (c.r : Int) + 8) / 16).toNat % 256 = c.r := by omega
    simp only [e1, e2, e3]
    cases c; simp_all
  · rw [himpl]; rfl
  · rw [l0, hstart]; rfl
  · rw [l1, l0]
  · rw [l2, l0]

/-- C8 at the reference collaborators and the flat red tile. -/
theorem C8_witness :
    (0 : Nat) ≤ 255 ∧ (0 : Nat) ≤ 255 ∧ (255 : Nat) ≤ 255 ∧
    (⟨0, 0, 255, 255⟩ : rrColor32BGRA).a = 255 ∧
    ¬((⟨0, 0, 255, 255⟩ : rrColor32BGRA).b = 0 ∧ (⟨0, 0, 255, 255⟩ : rrColor32BGRA).g = 0 ∧
      (⟨0, 0, 255, 255⟩ : rrColor32BGRA).r = 0) ∧
    rrDXT1_IsTransparentOrBlack Ref.deps rrDXT1PaletteMode.NoAlpha ⟨0, 0, 255, 255⟩ = false ∧
    Ref.deps.eval_palette (flatTile ⟨0, 0, 255, 255⟩)
      (Ref.deps.ComputePalette_Unpacked (SingleColor_Compact_4C Ref.deps ⟨0, 0, 255, 255⟩)
        rrDXT1PaletteMode.NoAlpha) < Ref.deps.RR_DXTC_INIT_ERROR ∧
    rrCompressDXT1_Startup_Impl Ref.deps default (flatTile ⟨0, 0, 255, 255⟩)
        rrDXT1PaletteMode.NoAlpha []
      = (false, { (default : rrCompressDXT1_Startup_Data) with has_any_alpha := false },
          [SingleColor_Compact_4C Ref.deps ⟨0, 0, 255, 255⟩]) :=
  ⟨by decide, by decide, by decide, rfl, by decide, by decide, by decide,
    (C8_flat_tile_single_colour_fit Ref.deps default ⟨0, 0, 0⟩ 0 rrDXT1PaletteMode.NoAlpha
      ⟨0, 0, 255, 255⟩ (by decide) (by decide) (by decide) rfl (by decide) (by decide)
      rfl (by decide) (by decide)).2.1⟩

/-- C2: on a canonical tile, for every mode and each of the four level functions,
the error returned is the decoded sum of squared differences of the returned block
(`DXT1_ComputeSSD_OneBitTransparent`), given that the collaborators agree: the
evaluator and `DXT1_FindIndices` report, for the palette of a pair, the decoded
error of the block built from the pair and the indices found (and errors fit the
packed key and lie below `RR_DXTC_INIT_ERROR`). -/
theorem C2_returned_error_is_decoded_error (K : Deps) (data0 : rrCompressDXT1_Startup_Data)
    (pBlock : rrDXT1Block) (colors : rrColorBlock4x4) (mode : rrDXT1PaletteMode)
    (options level : Nat)
    (hK : EvalContract K colors mode) (hD : DecodeContract K colors mode)
    (hL : 56 < COUNT_LIMIT K) (hcan : IsBC1Canonical K colors mode) :
    (rrCompressDXT1_0 K data0 pBlock colors options mode).2
      = K.DXT1_ComputeSSD_OneBitTransparent colors
          (rrCompressDXT1_0 K data0 pBlock colors options mode).1 mode ∧
    (rrCompressDXT1_1 K data0 pBlock colors options mode).2
      = K.DXT1_ComputeSSD_OneBitTransparent colors
          (rrCompressDXT1_1 K data0 pBlock colors options mode).1 mode ∧
    (rrCompressDXT1_2 K data0 pBlock colors options mode).2
      = K.DXT1_ComputeSSD_OneBitTransparent colors
          (rrCompressDXT1_2 K data0 pBlock colors options mode).1 mode ∧
    (rrCompressDXT1_3 K data0 pBlock colors options mode level).2
      = K.DXT1_ComputeSSD_OneBitTransparent colors
          (rrCompressDXT1_3 K data0 pBlock colors options mode level).1 mode := by
  obtain ⟨h0, h1, h2, h3⟩ := levels_committed K data0 pBlock colors mode options level hK hD hL hcan
  exact ⟨(h0.facts hK hD).2.2.1, (h1.facts hK hD).2.2.1, (h2.facts hK hD).2.2.1,
    (h3.facts hK hD).2.2.1⟩

/-- C2 at the reference collaborators and the ramp tile, level Slow. -/
theorem C2_witness :
    EvalContract Ref.deps Ref.rampTile rrDXT1PaletteMode.NoAlpha ∧
    DecodeContract Ref.deps Ref.rampTile rrDXT1PaletteMode.NoAlpha ∧
    56 < COUNT_LIMIT Ref.deps ∧
    IsBC1Canonical Ref.deps Ref.rampTile rrDXT1PaletteMode.NoAlpha ∧
    (rrCompressDXT1_2 Ref.deps default ⟨0, 0, 0⟩ Ref.rampTile 0 rrDXT1PaletteMode.NoAlpha).2
      = Ref.deps.DXT1_ComputeSSD_OneBitTransparent Ref.rampTile
          (rrCompressDXT1_2 Ref.deps default ⟨0, 0, 0⟩ Ref.rampTile 0
            rrDXT1PaletteMode.NoAlpha).1 rrDXT1PaletteMode.NoAlpha :=
  ⟨Ref.evalContract _ _ (by decide) (by decide), Ref.decodeContract _ _ (by decide) (by decide),
    by decide, by decide,
    (C2_returned_error_is_decoded_error Ref.deps default ⟨0, 0, 0⟩ Ref.rampTile
      rrDXT1PaletteMode.NoAlpha 0 rrDXTCLevel_Slow
      (Ref.evalContract _ _ (by decide) (by decide))
      (Ref.decodeContract _ _ (by decide) (by decide)) (by decide) (by decide)).2.2.1⟩

/-- C6 (as amended): for every tile, palette mode and option word, and whatever the
collaborators, the final error of `rrCompressDXT1Block` at level Slow is at most its
final error at level Fast. -/
theorem C6_slow_not_worse_than_fast (K : Deps) (data0 : rrCompressDXT1_Startup_Data)
    (pBlock : rrDXT1Block) (colors : rrColorBlock4x4) (options : Nat)
    (isBC23ColorBlock : Bool) :
    (rrCompressDXT1Block K data0 pBlock colors rrDXTCLevel_Slow options isBC23ColorBlock).2
      ≤ (rrCompressDXT1Block K data0 pBlock colors rrDXTCLevel_Fast options
          isBC23ColorBlock).2 :=
  Block_slow_le_fast K data0 pBlock colors options isBC23ColorBlock

set_option maxRecDepth 1000000 in
set_option maxHeartbeats 400000000 in
/-- C6 (counterexample): on the gradient tile in NoAlpha mode the final error at level
Fast is above the final error at level VeryFast.  The seeds of `Scalar_Calc_4Means`
are the same at both levels and are a fixed point of the refinement of 4-means, so
that the refinement has nothing to move.  With the reduced candidates 4-means commits
the pair `(30296, 29999)` of error 1500, which one least-squares step improves to
`(30329, 29999)` of error 1072; with the full candidates it commits the pair
`(30329, 30032)` of error 1242, which is its own least-squares solution. -/
theorem C6_counterexample :
    Ref.IsExactMeans Ref.gradientTile
        (Scalar_Calc_4Means Ref.sqrtf
          (rrCompressDXT1_Startup Ref.deps default ⟨0, 0, 0⟩ Ref.deps.RR_DXTC_INIT_ERROR
            Ref.gradientTile rrDXT1PaletteMode.NoAlpha 0).data
          Ref.gradientTile DXT1_4MEANS_REDUCED_CANDIDATES) = true ∧
    Ref.IsExactMeans Ref.gradientTile
        (Scalar_Calc_4Means Ref.sqrtf
          (rrCompressDXT1_Startup Ref.deps default ⟨0, 0, 0⟩ Ref.deps.RR_DXTC_INIT_ERROR
            Ref.gradientTile rrDXT1PaletteMode.NoAlpha 0).data
          Ref.gradientTile 0) = true ∧
    (rrCompressDXT1Block Ref.deps default ⟨0, 0, 0⟩ Ref.gradientTile
        rrDXTCLevel_VeryFast 0 false).2
      < (rrCompressDXT1Block Ref.deps default ⟨0, 0, 0⟩ Ref.gradientTile
          rrDXTCLevel_Fast 0 false).2 := by
  have e0 : (rrCompressDXT1Block Ref.deps default ⟨0, 0, 0⟩ Ref.gradientTile
      rrDXTCLevel_VeryFast 0 false).2 = 1072 := by decide!
  have e1 : (rrCompressDXT1Block Ref.deps default ⟨0, 0, 0⟩ Ref.gradientTile
      rrDXTCLevel_Fast 0 false).2 = 1242 := by decide!
  refine ⟨by decide!, by decide!, ?_⟩
  rw [e0, e1]
  decide

/-- C11: the function `FilterEndpoints` returns the empty list when neither mode bit
of the mask is set, the list unchanged when both are set, the candidates in
four-colour order (`c0 > c1`) in their original order when only the four-colour bit
is set, and those in three-colour order (`c0 <= c1`) when only the three-colour bit
is set; the result is a sub-sequence of the input, never longer, and filtering twice
with one mask is filtering once. -/
theorem C11_FilterEndpoints_keeps_allowed_mode (endpoints : List rrDXT1UnpackedEndPoints)
    (allow_which : Nat) :
    (allow_which &&& 3 = 0 → FilterEndpoints endpoints allow_which = []) ∧
    (allow_which &&& 3 = 3 → FilterEndpoints endpoints allow_which = endpoints) ∧
    (allow_which &&& 3 = 1 → FilterEndpoints endpoints allow_which
      = endpoints.filter (fun ep => decide (ep.c1.dw < ep.c0.dw))) ∧
    (allow_which &&& 3 = 2 → FilterEndpoints endpoints allow_which
      = endpoints.filter (fun ep => decide (ep.c0.dw ≤ ep.c1.dw))) ∧
    (FilterEndpoints endpoints allow_which).Sublist endpoints ∧
    (FilterEndpoints endpoints allow_which).length ≤ endpoints.length ∧
    FilterEndpoints (FilterEndpoints endpoints allow_which) allow_which
      = FilterEndpoints endpoints allow_which := by
  have h0 : allow_which &&& 3 = 0 → FilterEndpoints endpoints allow_which = [] := by
    intro h
    unfold FilterEndpoints
    simp [FilterEndpoints_AllowBoth, h]
  have h3 : ∀ l : List rrDXT1UnpackedEndPoints, allow_which &&& 3 = 3 →
      FilterEndpoints l allow_which = l := by
    intro l h
    unfold FilterEndpoints
    simp [FilterEndpoints_AllowBoth, h]
  refine ⟨h0, h3 endpoints, FilterEndpoints_four endpoints allow_which,
    FilterEndpoints_three endpoints allow_which, ?_, FilterEndpoints_length _ _, ?_⟩
  · rcases and_three_cases allow_which with h | h | h | h
    · rw [h0 h]; exact List.nil_sublist _
    · rw [FilterEndpoints_four _ _ h]; exact List.filter_sublist _
    · rw [FilterEndpoints_three _ _ h]; exact List.filter_sublist _
    · rw [h3 _ h]
  · rcases and_three_cases allow_which with h | h | h | h
    · rw [h0 h]
      unfold FilterEndpoints
      simp [FilterEndpoints_AllowBoth, h]
    · rw [FilterEndpoints_four _ _ h, FilterEndpoints_four _ _ h, List.filter_filter]
      simp
    · rw [FilterEndpoints_three _ _ h, FilterEndpoints_three _ _ h, List.filter_filter]
      simp
    · rw [h3 _ h, h3 _ h]

/-- C11 on three sample candidates: the masks 0, 1, 2, 3. -/
theorem C11_witness :
    FilterEndpoints Ref.sampleEndpoints 0 = [] ∧
    FilterEndpoints Ref.sampleEndpoints 3 = Ref.sampleEndpoints ∧
    FilterEndpoints Ref.sampleEndpoints 1
      = [⟨⟨0x1F0000⟩, ⟨0x00001F⟩⟩, ⟨⟨0x000200⟩, ⟨0x000100⟩⟩] ∧
    FilterEndpoints Ref.sampleEndpoints 2 = [⟨⟨0x000102⟩, ⟨0x030405⟩⟩] :=
  ⟨(C11_FilterEndpoints_keeps_allowed_mode Ref.sampleEndpoints 0).1 (by decide),
   (C11_FilterEndpoints_keeps_allowed_mode Ref.sampleEndpoints 3).2.1 (by decide),
   ((C11_FilterEndpoints_keeps_allowed_mode Ref.sampleEndpoints 1).2.2.1 (by decide)).trans
     (by decide),
   ((C11_FilterEndpoints_keeps_allowed_mode Ref.sampleEndpoints 2).2.2.2.1 (by decide)).trans
     (by decide)⟩

/-- C12: the function `AddEndPoints_BothWays` appends nothing when the two colours
quantise to the same value, and otherwise appends exactly the pair `(q1, q2)`
followed by `(q2, q1)`; of the two exactly one is in four-colour order (`c0 > c1`
as words), and as packed 5:6:5 values whenever the quantiser returns legal fields. -/
theorem C12_BothWays_appends_both_orders (K : Deps) (pEndPoints : List rrDXT1UnpackedEndPoints)
    (end1 end2 : rrColor32BGRA) :
    (K.quantize end1 = K.quantize end2 →
      AddEndPoints_BothWays K pEndPoints end1 end2 = pEndPoints) ∧
    (K.quantize end1 ≠ K.quantize end2 →
      AddEndPoints_BothWays K pEndPoints end1 end2
        = pEndPoints ++ [⟨K.quantize end1, K.quantize end2⟩, ⟨K.quantize end2, K.quantize end1⟩] ∧
      ((K.quantize end2).dw < (K.quantize end1).dw ∧ ¬ (K.quantize end1).dw < (K.quantize end2).dw
        ∨ (K.quantize end1).dw < (K.quantize end2).dw
          ∧ ¬ (K.quantize end2).dw < (K.quantize end1).dw) ∧
      ((K.quantize end1).IsLegal → (K.quantize end2).IsLegal →
        ((K.quantize end2).pack < (K.quantize end1).pack
            ∧ ¬ (K.quantize end1).pack < (K.quantize end2).pack
          ∨ (K.quantize end1).pack < (K.quantize end2).pack
            ∧ ¬ (K.quantize end2).pack < (K.quantize end1).pack))) := by
  refine ⟨?_, ?_⟩
  · intro h
    unfold AddEndPoints_BothWays
    simp [h]
  · intro h
    have hdw : (K.quantize end1).dw ≠ (K.quantize end2).dw := by
      intro hd
      apply h
      cases h1 : K.quantize end1
      cases h2 : K.quantize end2
      rw [h1, h2] at hd
      simp only at hd
      rw [hd]
    refine ⟨?_, by omega, ?_⟩
    · unfold AddEndPoints_BothWays
      simp [h]
    · intro l1 l2
      have hp := IsLegal_pack_lt _ _ l1 l2
      have hp2 := IsLegal_pack_lt _ _ l2 l1
      have hne : (K.quantize end1).pack ≠ (K.quantize end2).pack := fun he => hdw (hp.2.mp he)
      omega

/-- C12 at the reference quantiser: equal colours add nothing, black and white add
both orders. -/
theorem C12_witness :
    AddEndPoints_BothWays Ref.deps [] ⟨10, 20, 30, 255⟩ ⟨10, 20, 30, 255⟩ = [] ∧
    AddEndPoints_BothWays Ref.deps [] ⟨0, 0, 0, 255⟩ ⟨255, 255, 255, 255⟩
      = [⟨⟨0⟩, ⟨0x1F3F1F⟩⟩, ⟨⟨0x1F3F1F⟩, ⟨0⟩⟩] :=
  ⟨(C12_BothWays_appends_both_orders Ref.deps [] ⟨10, 20, 30, 255⟩ ⟨10, 20, 30, 255⟩).1 rfl,
   ((C12_BothWays_appends_both_orders Ref.deps [] ⟨0, 0, 0, 255⟩ ⟨255, 255, 255, 255⟩).2
     (by decide)).1.trans (by decide)⟩

/-- C13: the function `AddEndPoints_Default` appends nothing when the two colours
quantise to the same value; otherwise it appends the quantised pair `(q1, q2)`,
followed by the swapped pair `(q2, q1)` exactly when the mode is not FourColor. -/
theorem C13_Default_appends_pair_and_swap (K : Deps)
    (pEndPoints : List rrDXT1UnpackedEndPoints) (mode : rrDXT1PaletteMode)
    (end1 end2 : rrColor32BGRA) :
    (K.quantize end1 = K.quantize end2 →
      AddEndPoints_Default K pEndPoints mode end1 end2 = pEndPoints) ∧
    (K.quantize end1 ≠ K.quantize end2 → mode ≠ rrDXT1PaletteMode.FourColor →
      AddEndPoints_Default K pEndPoints mode end1 end2
        = pEndPoints ++ [⟨K.quantize end1, K.quantize end2⟩,
            ⟨K.quantize end2, K.quantize end1⟩]) ∧
    (K.quantize end1 ≠ K.quantize end2 → mode = rrDXT1PaletteMode.FourColor →
      AddEndPoints_Default K pEndPoints mode end1 end2
        = pEndPoints ++ [⟨K.quantize end1, K.quantize end2⟩]) := by
  refine ⟨?_, ?_, ?_⟩
  · intro h
    unfold AddEndPoints_Default
    simp [h]
  · intro h hm
    unfold AddEndPoints_Default
    simp [h, hm]
  · intro h hm
    unfold AddEndPoints_Default
    simp [h, hm]

/-- C13 at the reference quantiser: black and white in NoAlpha and in FourColor mode,
and two equal colours. -/
theorem C13_witness :
    AddEndPoints_Default Ref.deps [] rrDXT1PaletteMode.NoAlpha ⟨10, 20, 30, 255⟩
      ⟨10, 20, 30, 255⟩ = [] ∧
    AddEndPoints_Default Ref.deps [] rrDXT1PaletteMode.NoAlpha ⟨0, 0, 0, 255⟩
      ⟨255, 255, 255, 255⟩ = [⟨⟨0⟩, ⟨0x1F3F1F⟩⟩, ⟨⟨0x1F3F1F⟩, ⟨0⟩⟩] ∧
    AddEndPoints_Default Ref.deps [] rrDXT1PaletteMode.FourColor ⟨0, 0, 0, 255⟩
      ⟨255, 255, 255, 255⟩ = [⟨⟨0⟩, ⟨0x1F3F1F⟩⟩] :=
  ⟨(C13_Default_appends_pair_and_swap Ref.deps [] rrDXT1PaletteMode.NoAlpha
      ⟨10, 20, 30, 255⟩ ⟨10, 20, 30, 255⟩).1 rfl,
   ((C13_Default_appends_pair_and_swap Ref.deps [] rrDXT1PaletteMode.NoAlpha
      ⟨0, 0, 0, 255⟩ ⟨255, 255, 255, 255⟩).2.1 (by decide) (by decide)).trans (by decide),
   ((C13_Default_appends_pair_and_swap Ref.deps [] rrDXT1PaletteMode.FourColor
      ⟨0, 0, 0, 255⟩ ⟨255, 255, 255, 255⟩).2.2 (by decide) rfl).trans (by decide)⟩

/-- C14: each ordered generator appends exactly one pair.  The pair of
`AddEndPoints_SingleColor_Compact_3C` and of `AddEndPoints_Force3C` has `c0 <= c1`,
the pair of `AddEndPoints_SingleColor_Compact_4C` has `c0 >= c1`, with `c0 > c1`
unless the two table endpoints are equal; the pair is the table lo/hi pair
(respectively the two quantised inputs) or its swap.  The order is that of the
words, and that of the packed 5:6:5 values whenever the two endpoints have legal
fields. -/
theorem C14_ordered_generators (K : Deps) (pEndPoints : List rrDXT1UnpackedEndPoints)
    (c end1 end2 : rrColor32BGRA) :
    (∃ ep, AddEndPoints_SingleColor_Compact_3C K pEndPoints c = pEndPoints ++ [ep] ∧
      ep.c0.dw ≤ ep.c1.dw ∧
      (ep.c0.IsLegal → ep.c1.IsLegal → ep.c0.pack ≤ ep.c1.pack) ∧
      (ep = ⟨rrColorUnpacked565.ofRGB (K.bc1_optimal_3c 0 c.r).1 (K.bc1_optimal_3c 1 c.g).1
                (K.bc1_optimal_3c 0 c.b).1,
              rrColorUnpacked565.ofRGB (K.bc1_optimal_3c 0 c.r).2 (K.bc1_optimal_3c 1 c.g).2
                (K.bc1_optimal_3c 0 c.b).2⟩ ∨
       ep = ⟨rrColorUnpacked565.ofRGB (K.bc1_optimal_3c 0 c.r).2 (K.bc1_optimal_3c 1 c.g).2
                (K.bc1_optimal_3c 0 c.b).2,
              rrColorUnpacked565.ofRGB (K.bc1_optimal_3c 0 c.r).1 (K.bc1_optimal_3c 1 c.g).1
                (K.bc1_optimal_3c 0 c.b).1⟩)) ∧
    (∃ ep, AddEndPoints_Force3C K pEndPoints end1 end2 = pEndPoints ++ [ep] ∧
      ep.c0.dw ≤ ep.c1.dw ∧
      (ep.c0.IsLegal → ep.c1.IsLegal → ep.c0.pack ≤ ep.c1.pack) ∧
      (ep = ⟨K.quantize end1, K.quantize end2⟩ ∨ ep = ⟨K.quantize end2, K.quantize end1⟩)) ∧
    (∃ ep, AddEndPoints_SingleColor_Compact_4C K pEndPoints c = pEndPoints ++ [ep] ∧
      ep.c1.dw ≤ ep.c0.dw ∧
      (ep.c0 ≠ ep.c1 → ep.c1.dw < ep.c0.dw) ∧
      (ep.c0.IsLegal → ep.c1.IsLegal → ep.c1.pack ≤ ep.c0.pack ∧
        (ep.c0 ≠ ep.c1 → ep.c1.pack < ep.c0.pack)) ∧
      (ep = ⟨rrColorUnpacked565.ofRGB (K.bc1_optimal_4c 0 c.r).1 (K.bc1_optimal_4c 1 c.g).1
                (K.bc1_optimal_4c 0 c.b).1,
              rrColorUnpacked565.ofRGB (K.bc1_optimal_4c 0 c.r).2 (K.bc1_optimal_4c 1 c.g).2
                (K.bc1_optimal_4c 0 c.b).2⟩ ∨
       ep = ⟨rrColorUnpacked565.ofRGB (K.bc1_optimal_4c 0 c.r).2 (K.bc1_optimal_4c 1 c.g).2
                (K.bc1_optimal_4c 0 c.b).2,
              rrColorUnpacked565.ofRGB (K.bc1_optimal_4c 0 c.r).1 (K.bc1_optimal_4c 1 c.g).1
                (K.bc1_optimal_4c 0 c.b).1⟩)) := by
  have key : ∀ a b : rrColorUnpacked565, a.dw ≤ b.dw → a.IsLegal → b.IsLegal →
      a.pack ≤ b.pack := by
    intro a b h la lb
    have h1 := IsLegal_pack_lt b a lb la
    have h2 := IsLegal_pack_lt a b la lb
    by_contra hc
    have : b.pack < a.pack := by omega
    have := h1.1.mp this
    omega
  have key2 : ∀ a b : rrColorUnpacked565, a.dw < b.dw → a.IsLegal → b.IsLegal →
      a.pack < b.pack := fun a b h la lb => (IsLegal_pack_lt a b la lb).1.mpr h
  have hne : ∀ a b : rrColorUnpacked565, a ≠ b → a.dw ≠ b.dw := by
    intro a b h hd
    apply h
    cases a; cases b
    simp only at hd
    rw [hd]
  refine ⟨?_, ?_, ?_⟩
  · refine ⟨SingleColor_Compact_3C K c, rfl, ?_, ?_, ?_⟩
    · unfold SingleColor_Compact_3C
      dsimp only
      split <;> dsimp only <;> omega
    · intro la lb
      apply key _ _ _ la lb
      unfold SingleColor_Compact_3C
      dsimp only
      split <;> dsimp only <;> omega
    · unfold SingleColor_Compact_3C
      dsimp only
      split
      · right; rfl
      · left; rfl
  · unfold AddEndPoints_Force3C
    dsimp only
    split
    · rename_i h
      exact ⟨_, rfl, by dsimp only; omega, fun la lb => key _ _ (by dsimp only; omega) la lb,
        Or.inr rfl⟩
    · rename_i h
      exact ⟨_, rfl, by dsimp only; omega, fun la lb => key _ _ (by dsimp only; omega) la lb,
        Or.inl rfl⟩
  · refine ⟨SingleColor_Compact_4C K c, rfl, ?_, ?_, ?_, ?_⟩
    · unfold SingleColor_Compact_4C
      dsimp only
      split <;> dsimp only <;> omega
    · intro h
      have h2 := hne _ _ h
      have h3 : (SingleColor_Compact_4C K c).c1.dw ≤ (SingleColor_Compact_4C K c).c0.dw := by
        unfold SingleColor_Compact_4C
        dsimp only
        split <;> dsimp only <;> omega
      omega
    · intro la lb
      have h3 : (SingleColor_Compact_4C K c).c1.dw ≤ (SingleColor_Compact_4C K c).c0.dw := by
        unfold SingleColor_Compact_4C
        dsimp only
        split <;> dsimp only <;> omega
      refine ⟨key _ _ h3 lb la, fun h => key2 _ _ ?_ lb la⟩
      have h2 := hne _ _ h
      omega
    · unfold SingleColor_Compact_4C
      dsimp only
      split
      · right; rfl
      · left; rfl

/-- C14 at the reference collaborators: the three-colour pair of one colour and the
forced three-colour pair of white and black. -/
theorem C14_witness :
    AddEndPoints_Force3C Ref.deps [] ⟨255, 255, 255, 255⟩ ⟨0, 0, 0, 255⟩
      = [⟨⟨0⟩, ⟨0x1F3F1F⟩⟩] ∧
    (∃ ep, AddEndPoints_Force3C Ref.deps [] ⟨255, 255, 255, 255⟩ ⟨0, 0, 0, 255⟩ = [] ++ [ep] ∧
      ep.c0.dw ≤ ep.c1.dw ∧
      (ep.c0.IsLegal → ep.c1.IsLegal → ep.c0.pack ≤ ep.c1.pack) ∧
      (ep = ⟨Ref.deps.quantize ⟨255, 255, 255, 255⟩, Ref.deps.quantize ⟨0, 0, 0, 255⟩⟩ ∨
       ep = ⟨Ref.deps.quantize ⟨0, 0, 0, 255⟩, Ref.deps.quantize ⟨255, 255, 255, 255⟩⟩)) :=
  ⟨by decide,
   (C14_ordered_generators Ref.deps [] ⟨1, 2, 3, 255⟩ ⟨255, 255, 255, 255⟩ ⟨0, 0, 0, 255⟩).2.1⟩

/-- C15: with `delta = c2 - c1` and `delta2 = delta / 2` per channel, truncated toward
zero, the function `AddEndPoints_TwoColorBest` appends what `AddEndPoints_BothWays`
appends for `(c1, c2)` when the squared length of `delta2` is below 6, and otherwise
the concatenation of what it appends for `(c1, c2)`, `(clamp(c1 - delta), clamp(c2 +
delta))`, `(clamp(c1 - delta2), c2)` and `(c1, clamp(c2 + delta2))`; the number of
pairs appended is even and at most 8. -/
theorem C15_TwoColorBest_candidates (K : Deps) (pEndPoints : List rrDXT1UnpackedEndPoints)
    (c1 c2 : rrColor32BGRA) (delta delta2 : rrVec3i)
    (hdelta : delta = (ColorToVec3i c2).sub (ColorToVec3i c1))
    (hdelta2 : delta2 = ⟨Int.tdiv delta.x 2, Int.tdiv delta.y 2, Int.tdiv delta.z 2⟩) :
    (LengthSqr delta2 < 6 →
      AddEndPoints_TwoColorBest K pEndPoints c1 c2
        = pEndPoints ++ AddEndPoints_BothWays K [] c1 c2) ∧
    (6 ≤ LengthSqr delta2 →
      AddEndPoints_TwoColorBest K pEndPoints c1 c2
        = pEndPoints ++ (AddEndPoints_BothWays K [] c1 c2
            ++ AddEndPoints_BothWays K [] (Vec3iToColorClamp ((ColorToVec3i c1).sub delta))
                (Vec3iToColorClamp ((ColorToVec3i c2).add delta))
            ++ AddEndPoints_BothWays K [] (Vec3iToColorClamp ((ColorToVec3i c1).sub delta2)) c2
            ++ AddEndPoints_BothWays K [] c1
                (Vec3iToColorClamp ((ColorToVec3i c2).add delta2)))) ∧
    (∃ k, k ≤ 4 ∧
      (AddEndPoints_TwoColorBest K pEndPoints c1 c2).length = pEndPoints.length + 2 * k) := by
  subst hdelta
  subst hdelta2
  have h1 : LengthSqr ⟨Int.tdiv ((ColorToVec3i c2).sub (ColorToVec3i c1)).x 2,
      Int.tdiv ((ColorToVec3i c2).sub (ColorToVec3i c1)).y 2,
      Int.tdiv ((ColorToVec3i c2).sub (ColorToVec3i c1)).z 2⟩ < 6 →
      AddEndPoints_TwoColorBest K pEndPoints c1 c2
        = pEndPoints ++ AddEndPoints_BothWays K [] c1 c2 := by
    intro h
    unfold AddEndPoints_TwoColorBest
    dsimp only
    rw [if_pos h]
    exact BothWays_append K _ _ _
  have h2 : 6 ≤ LengthSqr ⟨Int.tdiv ((ColorToVec3i c2).sub (ColorToVec3i c1)).x 2,
      Int.tdiv ((ColorToVec3i c2).sub (ColorToVec3i c1)).y 2,
      Int.tdiv ((ColorToVec3i c2).sub (ColorToVec3i c1)).z 2⟩ →
      AddEndPoints_TwoColorBest K pEndPoints c1 c2
        = pEndPoints ++ (AddEndPoints_BothWays K [] c1 c2
            ++ AddEndPoints_BothWays K []
                (Vec3iToColorClamp ((ColorToVec3i c1).sub
                  ((ColorToVec3i c2).sub (ColorToVec3i c1))))
                (Vec3iToColorClamp ((ColorToVec3i c2).add
                  ((ColorToVec3i c2).sub (ColorToVec3i c1))))
            ++ AddEndPoints_BothWays K [] (Vec3iToColorClamp ((ColorToVec3i c1).sub
                ⟨Int.tdiv ((ColorToVec3i c2).sub (ColorToVec3i c1)).x 2,
                 Int.tdiv ((ColorToVec3i c2).sub (ColorToVec3i c1)).y 2,
                 Int.tdiv ((ColorToVec3i c2).sub (ColorToVec3i c1)).z 2⟩)) c2
            ++ AddEndPoints_BothWays K [] c1
                (Vec3iToColorClamp ((ColorToVec3i c2).add
                  ⟨Int.tdiv ((ColorToVec3i c2).sub (ColorToVec3i c1)).x 2,
                   Int.tdiv ((ColorToVec3i c2).sub (ColorToVec3i c1)).y 2,
                   Int.tdiv ((ColorToVec3i c2).sub (ColorToVec3i c1)).z 2⟩))) := by
    intro h
    unfold AddEndPoints_TwoColorBest
    dsimp only
    rw [if_neg (by omega)]
    rw [BothWays_append K (AddEndPoints_BothWays K (AddEndPoints_BothWays K
      (AddEndPoints_BothWays K pEndPoints c1 c2) _ _) _ _),
      BothWays_append K (AddEndPoints_BothWays K (AddEndPoints_BothWays K pEndPoints c1 c2) _ _),
      BothWays_append K (AddEndPoints_BothWays K pEndPoints c1 c2),
      BothWays_append K pEndPoints]
    simp only [List.append_assoc]
  refine ⟨h1, h2, ?_⟩
  by_cases h : LengthSqr ⟨Int.tdiv ((ColorToVec3i c2).sub (ColorToVec3i c1)).x 2,
      Int.tdiv ((ColorToVec3i c2).sub (ColorToVec3i c1)).y 2,
      Int.tdiv ((ColorToVec3i c2).sub (ColorToVec3i c1)).z 2⟩ < 6
  · rw [h1 h, List.length_append]
    rcases BothWays_length_cases K c1 c2 with e | e
    · exact ⟨0, by norm_num, by omega⟩
    · exact ⟨1, by norm_num, by omega⟩
  · rw [h2 (by omega)]
    simp only [List.length_append]
    rcases BothWays_length_cases K c1 c2 with e1 | e1 <;>
    rcases BothWays_length_cases K
      (Vec3iToColorClamp ((ColorToVec3i c1).sub ((ColorToVec3i c2).sub (ColorToVec3i c1))))
      (Vec3iToColorClamp ((ColorToVec3i c2).add ((ColorToVec3i c2).sub (ColorToVec3i c1))))
      with e2 | e2 <;>
    rcases BothWays_length_cases K (Vec3iToColorClamp ((ColorToVec3i c1).sub
        ⟨Int.tdiv ((ColorToVec3i c2).sub (ColorToVec3i c1)).x 2,
         Int.tdiv ((ColorToVec3i c2).sub (ColorToVec3i c1)).y 2,
         Int.tdiv ((ColorToVec3i c2).sub (ColorToVec3i c1)).z 2⟩)) c2 with e3 | e3 <;>
    rcases BothWays_length_cases K c1 (Vec3iToColorClamp ((ColorToVec3i c2).add
        ⟨Int.tdiv ((ColorToVec3i c2).sub (ColorToVec3i c1)).x 2,
         Int.tdiv ((ColorToVec3i c2).sub (ColorToVec3i c1)).y 2,
         Int.tdiv ((ColorToVec3i c2).sub (ColorToVec3i c1)).z 2⟩)) with e4 | e4 <;>
    rw [e1, e2, e3, e4] <;>
    first
      | exact ⟨0, by norm_num, by omega⟩
      | exact ⟨1, by norm_num, by omega⟩
      | exact ⟨2, by norm_num, by omega⟩
      | exact ⟨3, by norm_num, by omega⟩
      | exact ⟨4, by norm_num, by omega⟩

/-- C15 at the reference quantiser for the colours (90,90,90) and (100,100,100): the
half delta (5,5,5) has squared length 75, and eight pairs are appended. -/
theorem C15_witness :
    (⟨10, 10, 10⟩ : rrVec3i)
      = (ColorToVec3i ⟨100, 100, 100, 255⟩).sub (ColorToVec3i ⟨90, 90, 90, 255⟩) ∧
    (⟨5, 5, 5⟩ : rrVec3i) = ⟨Int.tdiv 10 2, Int.tdiv 10 2, Int.tdiv 10 2⟩ ∧
    6 ≤ LengthSqr ⟨5, 5, 5⟩ ∧
    AddEndPoints_TwoColorBest Ref.deps [] ⟨90, 90, 90, 255⟩ ⟨100, 100, 100, 255⟩
      = AddEndPoints_BothWays Ref.deps [] ⟨90, 90, 90, 255⟩ ⟨100, 100, 100, 255⟩
        ++ AddEndPoints_BothWays Ref.deps [] ⟨80, 80, 80, 255⟩ ⟨110, 110, 110, 255⟩
        ++ AddEndPoints_BothWays Ref.deps [] ⟨85, 85, 85, 255⟩ ⟨100, 100, 100, 255⟩
        ++ AddEndPoints_BothWays Ref.deps [] ⟨90, 90, 90, 255⟩ ⟨105, 105, 105, 255⟩ ∧
    (AddEndPoints_TwoColorBest Ref.deps [] ⟨90, 90, 90, 255⟩ ⟨100, 100, 100, 255⟩).length = 8 :=
  ⟨by decide, by decide, by decide,
   ((C15_TwoColorBest_candidates Ref.deps [] ⟨90, 90, 90, 255⟩ ⟨100, 100, 100, 255⟩
      ⟨10, 10, 10⟩ ⟨5, 5, 5⟩ (by decide) (by decide)).2.1 (by decide)).trans (by decide),
   by decide⟩

/-- C18: the function `DXT1_OptimizeEndPointsFromIndices_Inherit_Reindex` returns true
exactly when the solver succeeds, the solved endpoints differ from the current ones
and the error after re-indexing against the new palette is strictly below `*pError`;
it then stores the new endpoints, indices and error, and when it returns false the
block and `*pError` are as on entry.  The solver succeeds exactly when
`solve_endpoints` does. -/
theorem C18_Inherit_Reindex_accepts_strict_improvement (K : Deps) (pBlock : rrDXT1Block)
    (pError : Nat) (colors : rrColorBlock4x4) (mode : rrDXT1PaletteMode) :
    ((DXT1_OptimizeEndPointsFromIndices_Inherit_Reindex K pBlock pError colors mode).1 = true ↔
      ∃ endpoints,
        DXT1_OptimizeEndPointsFromIndices_Raw K pBlock.indices
          (DXT1_Is4Color pBlock.c0 pBlock.c1 mode) colors = some endpoints ∧
        endpoints ≠ pBlock.endpoints ∧
        (K.DXT1_FindIndices colors
          (K.DXT1_ComputePalette (endpoints % 65536) (endpoints / 65536) mode)).2 < pError) ∧
    ((DXT1_OptimizeEndPointsFromIndices_Inherit_Reindex K pBlock pError colors mode).1 = false →
      (DXT1_OptimizeEndPointsFromIndices_Inherit_Reindex K pBlock pError colors mode).2
        = (pBlock, pError)) ∧
    (∀ endpoints,
      DXT1_OptimizeEndPointsFromIndices_Raw K pBlock.indices
        (DXT1_Is4Color pBlock.c0 pBlock.c1 mode) colors = some endpoints →
      (DXT1_OptimizeEndPointsFromIndices_Inherit_Reindex K pBlock pError colors mode).1 = true →
      (DXT1_OptimizeEndPointsFromIndices_Inherit_Reindex K pBlock pError colors mode).2
        = (⟨endpoints % 65536, endpoints / 65536,
            (K.DXT1_FindIndices colors
              (K.DXT1_ComputePalette (endpoints % 65536) (endpoints / 65536) mode)).1⟩,
           (K.DXT1_FindIndices colors
              (K.DXT1_ComputePalette (endpoints % 65536) (endpoints / 65536) mode)).2)) ∧
    (DXT1_OptimizeEndPointsFromIndices_Raw K pBlock.indices
        (DXT1_Is4Color pBlock.c0 pBlock.c1 mode) colors = none ↔
      ((BC1EndpointLLSSolver.init (DXT1_Is4Color pBlock.c0 pBlock.c1 mode)).accumulate colors
        pBlock.indices).solve_endpoints K = none) := by
  refine ⟨?_, ?_, ?_, ?_⟩
  · unfold DXT1_OptimizeEndPointsFromIndices_Inherit_Reindex
    cases hraw : DXT1_OptimizeEndPointsFromIndices_Raw K pBlock.indices
        (DXT1_Is4Color pBlock.c0 pBlock.c1 mode) colors with
    | none => simp only [hraw]; simp
    | some endpoints =>
      simp only [hraw, Option.some.injEq, exists_eq_left']
      by_cases h1 : endpoints = pBlock.endpoints
      · simp [h1]
      · by_cases h2 : (K.DXT1_FindIndices colors
            (K.DXT1_ComputePalette (endpoints % 65536) (endpoints / 65536) mode)).2 < pError
        · simp [h1, h2]
        · simp [h1, h2]
  · unfold DXT1_OptimizeEndPointsFromIndices_Inherit_Reindex
    cases hraw : DXT1_OptimizeEndPointsFromIndices_Raw K pBlock.indices
        (DXT1_Is4Color pBlock.c0 pBlock.c1 mode) colors with
    | none => simp only [hraw]; simp
    | some endpoints =>
      simp only [hraw]
      split_ifs <;> simp
  · intro endpoints hraw
    unfold DXT1_OptimizeEndPointsFromIndices_Inherit_Reindex
    simp only [hraw]
    split_ifs <;> simp
  · unfold DXT1_OptimizeEndPointsFromIndices_Raw
    dsimp only
    cases ((BC1EndpointLLSSolver.init (DXT1_Is4Color pBlock.c0 pBlock.c1 mode)).accumulate colors
        pBlock.indices).solve_endpoints K <;> simp

/-- C18 at the reference collaborators: on a block whose sixteen indices are all 0
the system is singular, the function returns false and block and error stay. -/
theorem C18_witness :
    (DXT1_OptimizeEndPointsFromIndices_Inherit_Reindex Ref.deps ⟨0x1234, 0x0042, 0⟩ 777
        Ref.rampTile rrDXT1PaletteMode.NoAlpha).1 = false ∧
    (DXT1_OptimizeEndPointsFromIndices_Inherit_Reindex Ref.deps ⟨0x1234, 0x0042, 0⟩ 777
        Ref.rampTile rrDXT1PaletteMode.NoAlpha).2 = (⟨0x1234, 0x0042, 0⟩, 777) :=
  ⟨by decide,
   (C18_Inherit_Reindex_accepts_strict_improvement Ref.deps ⟨0x1234, 0x0042, 0⟩ 777
      Ref.rampTile rrDXT1PaletteMode.NoAlpha).2.1 (by decide)⟩

/-- C19: the functions `DXT1_GreedyOptimizeBlock` and `DXT1_AnnealBlock` return the
block unchanged whenever the error they return equals the error on entry, greedy
does nothing when the error on entry is 0, neither raises the error, and when the
returned error differs from the one on entry the returned indices are those
`DXT1_FindIndices` computes for the palette of the returned endpoints. -/
theorem C19_greedy_and_anneal_frame (K : Deps) (data : rrCompressDXT1_Startup_Data)
    (pBlock : rrDXT1Block) (pError : Nat) (colors : rrColorBlock4x4)
    (mode : rrDXT1PaletteMode) (flag : Bool) :
    ((DXT1_GreedyOptimizeBlock K data pBlock pError colors mode flag).2 = pError →
      (DXT1_GreedyOptimizeBlock K data pBlock pError colors mode flag).1 = pBlock) ∧
    (pError = 0 → DXT1_GreedyOptimizeBlock K data pBlock pError colors mode flag
      = (pBlock, pError)) ∧
    (DXT1_GreedyOptimizeBlock K data pBlock pError colors mode flag).2 ≤ pError ∧
    ((DXT1_GreedyOptimizeBlock K data pBlock pError colors mode flag).2 ≠ pError →
      (DXT1_GreedyOptimizeBlock K data pBlock pError colors mode flag).1.indices
        = (K.DXT1_FindIndices colors (K.DXT1_ComputePalette
            (DXT1_GreedyOptimizeBlock K data pBlock pError colors mode flag).1.c0
            (DXT1_GreedyOptimizeBlock K data pBlock pError colors mode flag).1.c1 mode)).1) ∧
    ((DXT1_AnnealBlock K data pBlock pError colors mode flag).2 = pError →
      (DXT1_AnnealBlock K data pBlock pError colors mode flag).1 = pBlock) ∧
    (DXT1_AnnealBlock K data pBlock pError colors mode flag).2 ≤ pError ∧
    ((DXT1_AnnealBlock K data pBlock pError colors mode flag).2 ≠ pError →
      (DXT1_AnnealBlock K data pBlock pError colors mode flag).1.indices
        = (K.DXT1_FindIndices colors (K.DXT1_ComputePalette
            (DXT1_AnnealBlock K data pBlock pError colors mode flag).1.c0
            (DXT1_AnnealBlock K data pBlock pError colors mode flag).1.c1 mode)).1) := by
  have hg := Greedy_monotone K data pBlock pError colors mode flag
  have ha := Anneal_monotone K data pBlock pError colors mode flag
  unfold StageMonotone at hg ha
  refine ⟨?_, ?_, hg.1, ?_, ?_, ha.1, ?_⟩
  · intro h
    by_contra hne
    have := hg.2 hne
    omega
  · intro h
    unfold DXT1_GreedyOptimizeBlock
    rw [if_pos h]
  · unfold DXT1_GreedyOptimizeBlock
    split
    · intro h; exact absurd rfl h
    · dsimp only
      split
      · intro _; rfl
      · intro h; rename_i h2; exact absurd (not_not.mp h2) h
  · intro h
    by_contra hne
    have := ha.2 hne
    omega
  · unfold DXT1_AnnealBlock
    dsimp only
    split
    · intro _; rfl
    · intro h; exact absurd rfl h

/-- C19 at the reference collaborators: greedy entered with error 0 returns its
input. -/
theorem C19_witness :
    DXT1_GreedyOptimizeBlock Ref.deps default ⟨0x1234, 0x0042, 7⟩ 0 Ref.rampTile
      rrDXT1PaletteMode.NoAlpha true = (⟨0x1234, 0x0042, 7⟩, 0) :=
  (C19_greedy_and_anneal_frame Ref.deps default ⟨0x1234, 0x0042, 7⟩ 0 Ref.rampTile
    rrDXT1PaletteMode.NoAlpha true).2.1 rfl

/-- C20: when `DXT1_GreedyOptimizeBlock` returns, the error is 0 or no trial of a
round generated from the returned endpoints scores strictly below the returned
error, given that the evaluator and the index search agree, errors fit the packed
key and the block holds 16-bit endpoints.  The trials of a round are, with
`do_joint_optimization`, the pairs `(Wiggle(e0,w1), Wiggle(e1,w2))` for
`w1, w2 <= 6` that move an endpoint and are not rejected for alpha (at most 48),
and otherwise the wiggles `w < 6` of one endpoint that move it and are not rejected
for alpha (at most 12). -/
theorem C20_greedy_result_is_local_optimum (K : Deps) (data : rrCompressDXT1_Startup_Data)
    (pBlock : rrDXT1Block) (pError : Nat) (colors : rrColorBlock4x4)
    (mode : rrDXT1PaletteMode) (joint : Bool)
    (hK : EvalContract K colors mode) (hL : 56 < COUNT_LIMIT K)
    (hE : pError ≤ 4294967295 >>> K.COUNT_SHIFT)
    (hc0 : pBlock.c0 < 65536) (hc1 : pBlock.c1 < 65536) :
    ((DXT1_GreedyOptimizeBlock K data pBlock pError colors mode joint).2 = 0 ∨
      ∀ ep ∈ Greedy_trials data.has_any_alpha joint
          (rrColorUnpacked565.unpack
            (DXT1_GreedyOptimizeBlock K data pBlock pError colors mode joint).1.c0)
          (rrColorUnpacked565.unpack
            (DXT1_GreedyOptimizeBlock K data pBlock pError colors mode joint).1.c1),
        (DXT1_GreedyOptimizeBlock K data pBlock pError colors mode joint).2
          ≤ K.eval_palette colors (K.ComputePalette_Unpacked ep mode)) ∧
    (∀ (a : Bool) (e0 e1 : rrColorUnpacked565) (x : rrDXT1UnpackedEndPoints),
      x ∈ Greedy_trials a true e0 e1 ↔
        ∃ w1, w1 ≤ 6 ∧ ∃ w2, w2 ≤ 6 ∧
          ¬ (Wiggle e0 w1 = e0 ∧ Wiggle e1 w2 = e1) ∧
          ¬ (a = true ∧ (Wiggle e1 w2).dw < (Wiggle e0 w1).dw) ∧
          x = ⟨Wiggle e0 w1, Wiggle e1 w2⟩) ∧
    (∀ (a : Bool) (e0 e1 : rrColorUnpacked565) (x : rrDXT1UnpackedEndPoints),
      x ∈ Greedy_trials a false e0 e1 ↔
        (∃ w, w < 6 ∧ Wiggle e0 w ≠ e0 ∧
          ¬ (a = true ∧ e1.dw < (Wiggle e0 w).dw) ∧ x = ⟨Wiggle e0 w, e1⟩) ∨
        (∃ w, w < 6 ∧ Wiggle e1 w ≠ e1 ∧
          ¬ (a = true ∧ (Wiggle e1 w).dw < e0.dw) ∧ x = ⟨e0, Wiggle e1 w⟩)) ∧
    (∀ (a : Bool) (e0 e1 : rrColorUnpacked565),
      (e0.dw < 4294967296 → e1.dw < 4294967296 → (Greedy_trials a true e0 e1).length ≤ 48) ∧
      (Greedy_trials a false e0 e1).length ≤ 12) := by
  refine ⟨?_, ?_, ?_, ?_⟩
  · unfold DXT1_GreedyOptimizeBlock
    by_cases h0 : pError = 0
    · rw [if_pos h0]; left; exact h0
    · rw [if_neg h0]
      unfold DXT1_GreedyOptimizeBlock_Inner
      dsimp only
      obtain ⟨l0, l1, b0, b1, hopt⟩ := Greedy_loop_final K data colors mode joint hK hL
        (pError + 1)
        ⟨pBlock, pError, rrColorUnpacked565.unpack pBlock.c0,
          rrColorUnpacked565.unpack pBlock.c1⟩ hE (Nat.lt_succ_self _)
        (unpack_IsLegal _) (unpack_IsLegal _)
        ⟨(pack_unpack _ hc0).symm, (pack_unpack _ hc1).symm⟩
      revert l0 l1 b0 b1 hopt
      generalize Greedy_loop K data colors mode joint (pError + 1)
        ⟨pBlock, pError, rrColorUnpacked565.unpack pBlock.c0,
          rrColorUnpacked565.unpack pBlock.c1⟩ = t
      intro l0 l1 b0 b1 hopt
      split
      · dsimp only
        rw [b0, b1, unpack_pack _ l0, unpack_pack _ l1]
        exact hopt
      · dsimp only
        rw [b0, b1, unpack_pack _ l0, unpack_pack _ l1]
        exact hopt
  · intro a e0 e1 x
    unfold Greedy_trials
    rw [if_pos rfl]
    exact mem_Greedy_trials_joint a e0 e1 x
  · intro a e0 e1 x
    unfold Greedy_trials
    rw [if_neg (by decide)]
    exact mem_Greedy_trials_independent a e0 e1 x
  · intro a e0 e1
    exact Greedy_trials_count a e0 e1

/-- C20 at the reference collaborators on the ramp tile, independent wiggles, entered
with the endpoints (0xF800, 0x001F) and an error bound of 100000. -/
theorem C20_witness :
    EvalContract Ref.deps Ref.rampTile rrDXT1PaletteMode.NoAlpha ∧
    56 < COUNT_LIMIT Ref.deps ∧
    100000 ≤ 4294967295 >>> Ref.deps.COUNT_SHIFT ∧
    ((DXT1_GreedyOptimizeBlock Ref.deps default ⟨0xF800, 0x001F, 0⟩ 100000 Ref.rampTile
        rrDXT1PaletteMode.NoAlpha false).2 = 0 ∨
      ∀ ep ∈ Greedy_trials (default : rrCompressDXT1_Startup_Data).has_any_alpha false
          (rrColorUnpacked565.unpack
            (DXT1_GreedyOptimizeBlock Ref.deps default ⟨0xF800, 0x001F, 0⟩ 100000 Ref.rampTile
              rrDXT1PaletteMode.NoAlpha false).1.c0)
          (rrColorUnpacked565.unpack
            (DXT1_GreedyOptimizeBlock Ref.deps default ⟨0xF800, 0x001F, 0⟩ 100000 Ref.rampTile
              rrDXT1PaletteMode.NoAlpha false).1.c1),
        (DXT1_GreedyOptimizeBlock Ref.deps default ⟨0xF800, 0x001F, 0⟩ 100000 Ref.rampTile
            rrDXT1PaletteMode.NoAlpha false).2
          ≤ Ref.deps.eval_palette Ref.rampTile
              (Ref.deps.ComputePalette_Unpacked ep rrDXT1PaletteMode.NoAlpha)) :=
  ⟨Ref.evalContract _ _ (by decide) (by decide), by decide, by decide,
   (C20_greedy_result_is_local_optimum Ref.deps default ⟨0xF800, 0x001F, 0⟩ 100000
      Ref.rampTile rrDXT1PaletteMode.NoAlpha false
      (Ref.evalContract _ _ (by decide) (by decide)) (by decide) (by decide) (by decide)
      (by decide)).1⟩

/-- C16: on a solver freshly accumulated over a tile of 16 pixels, the determinant
`AA*BB - AB*AB` is never negative, `solve_endpoints` fails exactly when it is 0, and
that is exactly when all pixels whose index has a non-zero weight pair use one
palette index: in four-colour mode when all sixteen two-bit indices are equal, in
three-colour mode when all pixels of index other than 3 share one index. -/
theorem C16_solver_fails_iff_one_index (K : Deps) (colors : rrColorBlock4x4)
    (indices : Nat) (fourc : Bool) (S : BC1EndpointLLSSolver)
    (hlen : colors.colors.length = 16)
    (hS : S = (BC1EndpointLLSSolver.init fourc).accumulate colors indices) :
    0 ≤ S.AA * S.BB - S.AB * S.AB ∧
    (S.solve_endpoints K = none ↔ S.AA * S.BB - S.AB * S.AB = 0) ∧
    (S.solve_endpoints K = none ↔
      ∀ i j, i < 16 → j < 16 →
        (c_weights_ab fourc).getD (pixelIndex indices i) (0, 0) ≠ (0, 0) →
        (c_weights_ab fourc).getD (pixelIndex indices j) (0, 0) ≠ (0, 0) →
        pixelIndex indices i = pixelIndex indices j) ∧
    (fourc = true → (S.solve_endpoints K = none ↔
      ∀ i j, i < 16 → j < 16 → pixelIndex indices i = pixelIndex indices j)) ∧
    (fourc = false → (S.solve_endpoints K = none ↔
      ∀ i j, i < 16 → j < 16 → pixelIndex indices i ≠ 3 → pixelIndex indices j ≠ 3 →
        pixelIndex indices i = pixelIndex indices j)) := by
  obtain ⟨eAA, eAB, eBB, _⟩ := accumulate_sums fourc colors indices (by omega)
  obtain ⟨hnn, hz⟩ := lls_det (LLS_terms fourc colors.colors indices)
  obtain ⟨hw1, hw2⟩ := LLS_terms_weights fourc colors.colors indices
  rw [hlen] at hw1 hw2
  rw [← eAA, ← eAB, ← eBB, ← hS] at hnn hz
  have hsolve : S.solve_endpoints K = none ↔ S.AA * S.BB - S.AB * S.AB = 0 := by
    unfold BC1EndpointLLSSolver.solve_endpoints
    dsimp only
    by_cases hd : S.AA * S.BB - S.AB * S.AB = 0
    · rw [if_pos hd]; exact ⟨fun _ => hd, fun _ => rfl⟩
    · rw [if_neg hd]; exact ⟨fun h => (by cases h), fun h => absurd h hd⟩
  have hidx : S.AA * S.BB - S.AB * S.AB = 0 ↔
      ∀ i j, i < 16 → j < 16 →
        (c_weights_ab fourc).getD (pixelIndex indices i) (0, 0) ≠ (0, 0) →
        (c_weights_ab fourc).getD (pixelIndex indices j) (0, 0) ≠ (0, 0) →
        pixelIndex indices i = pixelIndex indices j := by
    rw [hz]
    constructor
    · intro h i j hi hj ni nj
      obtain ⟨s, hs, es⟩ := hw2 i hi
      obtain ⟨t, ht, et⟩ := hw2 j hj
      have hp := h s hs t ht
      have e1 := congrArg Prod.fst es
      have e2 := congrArg Prod.snd es
      have e3 := congrArg Prod.fst et
      have e4 := congrArg Prod.snd et
      simp only at e1 e2 e3 e4
      rw [e1, e2, e3, e4] at hp
      rcases (weights_parallel fourc _ _ (pixelIndex_lt indices i)
        (pixelIndex_lt indices j)).1.mp hp with r | r | r
      · exact absurd r ni
      · exact absurd r nj
      · exact r
    · intro h s hs t ht
      obtain ⟨i, hi, es⟩ := hw1 s hs
      obtain ⟨j, hj, et⟩ := hw1 t ht
      have e1 := congrArg Prod.fst es
      have e2 := congrArg Prod.snd es
      have e3 := congrArg Prod.fst et
      have e4 := congrArg Prod.snd et
      simp only at e1 e2 e3 e4
      rw [e1, e2, e3, e4]
      apply (weights_parallel fourc _ _ (pixelIndex_lt indices i)
        (pixelIndex_lt indices j)).1.mpr
      by_cases ni : (c_weights_ab fourc).getD (pixelIndex indices i) (0, 0) = (0, 0)
      · exact Or.inl ni
      · by_cases nj : (c_weights_ab fourc).getD (pixelIndex indices j) (0, 0) = (0, 0)
        · exact Or.inr (Or.inl nj)
        · exact Or.inr (Or.inr (h i j hi hj ni nj))
  refine ⟨hnn, hsolve, hsolve.trans hidx, ?_, ?_⟩
  · intro hf
    rw [hsolve, hidx]
    constructor
    · intro h i j hi hj
      apply h i j hi hj
      · intro hc
        have := ((weights_parallel fourc _ 0 (pixelIndex_lt indices i) (by norm_num)).2.mp hc).1
        rw [hf] at this
        exact absurd this (by decide)
      · intro hc
        have := ((weights_parallel fourc _ 0 (pixelIndex_lt indices j) (by norm_num)).2.mp hc).1
        rw [hf] at this
        exact absurd this (by decide)
    · intro h i j hi hj _ _
      exact h i j hi hj
  · intro hf
    rw [hsolve, hidx]
    constructor
    · intro h i j hi hj ni nj
      apply h i j hi hj
      · intro hc
        exact ni ((weights_parallel fourc _ 0 (pixelIndex_lt indices i) (by norm_num)).2.mp hc).2
      · intro hc
        exact nj ((weights_parallel fourc _ 0 (pixelIndex_lt indices j) (by norm_num)).2.mp hc).2
    · intro h i j hi hj ni nj
      apply h i j hi hj
      · intro hc
        exact ni ((weights_parallel fourc _ 0 (pixelIndex_lt indices i) (by norm_num)).2.mpr
          ⟨hf, hc⟩)
      · intro hc
        exact nj ((weights_parallel fourc _ 0 (pixelIndex_lt indices j) (by norm_num)).2.mpr
          ⟨hf, hc⟩)

/-- C16 on the ramp tile: with all sixteen indices 0 the four-colour solver fails,
and with pixel 0 moved to index 1 it does not. -/
theorem C16_witness :
    Ref.rampTile.colors.length = 16 ∧
    ((BC1EndpointLLSSolver.init true).accumulate Ref.rampTile 0).solve_endpoints Ref.deps
      = none ∧
    ((BC1EndpointLLSSolver.init true).accumulate Ref.rampTile 1).solve_endpoints Ref.deps
      ≠ none :=
  ⟨by decide,
   ((C16_solver_fails_iff_one_index Ref.deps Ref.rampTile 0 true _ (by decide) rfl).2.2.2.1
      rfl).mpr (fun i j _ _ => by unfold pixelIndex; simp),
   fun h => absurd
     (((C16_solver_fails_iff_one_index Ref.deps Ref.rampTile 1 true _ (by decide) rfl).2.2.2.1
        rfl).mp h 0 1 (by decide) (by decide)) (by decide)⟩

/-- C17: in exact arithmetic, on a solver freshly accumulated over a tile of 16
pixels with non-zero determinant, the un-quantised endpoints `(A, B)` of
`solve_endpoints` satisfy the normal equations `AA*A + AB*B = n*AX` and
`AB*A + BB*B = n*BX` in each channel, and they are the unique minimiser of the sum
over the pixels of `|(a_i*A + b_i*B)/n - x_i|^2`, with `n` 3 in four-colour and 2 in
three-colour mode. -/
theorem C17_exact_endpoints_minimise (colors : rrColorBlock4x4) (indices : Nat)
    (fourc : Bool) (S : BC1EndpointLLSSolver)
    (hlen : colors.colors.length = 16)
    (hS : S = (BC1EndpointLLSSolver.init fourc).accumulate colors indices)
    (hdet : S.AA * S.BB - S.AB * S.AB ≠ 0) :
    ∃ A B : rrVec3q, S.solve_exact = some (A, B) ∧
      ((S.AA : ℚ) * A.x + S.AB * B.x = normalization_factor fourc * S.AX.x ∧
        (S.AB : ℚ) * A.x + S.BB * B.x = normalization_factor fourc * S.BX.x) ∧
      ((S.AA : ℚ) * A.y + S.AB * B.y = normalization_factor fourc * S.AX.y ∧
        (S.AB : ℚ) * A.y + S.BB * B.y = normalization_factor fourc * S.BX.y) ∧
      ((S.AA : ℚ) * A.z + S.AB * B.z = normalization_factor fourc * S.AX.z ∧
        (S.AB : ℚ) * A.z + S.BB * B.z = normalization_factor fourc * S.BX.z) ∧
      (∀ A2 B2 : rrVec3q,
        LLS_cost fourc colors indices A B ≤ LLS_cost fourc colors indices A2 B2) ∧
      (∀ A2 B2 : rrVec3q,
        LLS_cost fourc colors indices A2 B2 = LLS_cost fourc colors indices A B →
          A2 = A ∧ B2 = B) := by
  obtain ⟨eAA, eAB, eBB, ax, ay, az, bx, by_, bz, ef⟩ :=
    accumulate_sums fourc colors indices (by omega)
  rw [← hS] at eAA eAB eBB ax ay az bx by_ bz ef
  obtain ⟨hnn, _⟩ := lls_det (LLS_terms fourc colors.colors indices)
  rw [← eAA, ← eAB, ← eBB] at hnn
  have hpos : 0 < S.AA * S.BB - S.AB * S.AB := lt_of_le_of_ne hnn (Ne.symm hdet)
  have hD : ((S.AA : ℚ) * S.BB - S.AB * S.AB) ≠ 0 := by
    have : ((S.AA * S.BB - S.AB * S.AB : ℤ) : ℚ) ≠ 0 := by exact_mod_cast hdet
    push_cast at this
    exact this
  have hn : normalization_factor fourc ≠ 0 := by
    unfold normalization_factor
    split <;> norm_num
  have hsol : S.solve_exact = some
      (⟨(S.BB * (normalization_factor fourc / ((S.AA : ℚ) * S.BB - S.AB * S.AB))) * S.AX.x
          + (-S.AB * (normalization_factor fourc / ((S.AA : ℚ) * S.BB - S.AB * S.AB))) * S.BX.x,
        (S.BB * (normalization_factor fourc / ((S.AA : ℚ) * S.BB - S.AB * S.AB))) * S.AX.y
          + (-S.AB * (normalization_factor fourc / ((S.AA : ℚ) * S.BB - S.AB * S.AB))) * S.BX.y,
        (S.BB * (normalization_factor fourc / ((S.AA : ℚ) * S.BB - S.AB * S.AB))) * S.AX.z
          + (-S.AB * (normalization_factor fourc / ((S.AA : ℚ) * S.BB - S.AB * S.AB))) * S.BX.z⟩,
       ⟨(-S.AB * (normalization_factor fourc / ((S.AA : ℚ) * S.BB - S.AB * S.AB))) * S.AX.x
          + (S.AA * (normalization_factor fourc / ((S.AA : ℚ) * S.BB - S.AB * S.AB))) * S.BX.x,
        (-S.AB * (normalization_factor fourc / ((S.AA : ℚ) * S.BB - S.AB * S.AB))) * S.AX.y
          + (S.AA * (normalization_factor fourc / ((S.AA : ℚ) * S.BB - S.AB * S.AB))) * S.BX.y,
        (-S.AB * (normalization_factor fourc / ((S.AA : ℚ) * S.BB - S.AB * S.AB))) * S.AX.z
          + (S.AA * (normalization_factor fourc / ((S.AA : ℚ) * S.BB - S.AB * S.AB))) * S.BX.z⟩) := by
    unfold BC1EndpointLLSSolver.solve_exact
    dsimp only
    rw [if_neg hdet, ef]
    push_cast
    rfl
  have hex : ∃ A B : rrVec3q, S.solve_exact = some (A, B) ∧
      ((S.AA : ℚ) * A.x + S.AB * B.x = normalization_factor fourc * S.AX.x ∧
        (S.AB : ℚ) * A.x + S.BB * B.x = normalization_factor fourc * S.BX.x) ∧
      ((S.AA : ℚ) * A.y + S.AB * B.y = normalization_factor fourc * S.AX.y ∧
        (S.AB : ℚ) * A.y + S.BB * B.y = normalization_factor fourc * S.BX.y) ∧
      ((S.AA : ℚ) * A.z + S.AB * B.z = normalization_factor fourc * S.AX.z ∧
        (S.AB : ℚ) * A.z + S.BB * B.z = normalization_factor fourc * S.BX.z) := by
    refine ⟨_, _, hsol, ⟨?_, ?_⟩, ⟨?_, ?_⟩, ⟨?_, ?_⟩⟩ <;> (dsimp only; field_simp; ring)
  obtain ⟨A, B, hs, hx, hy, hz⟩ := hex
  have hdT : 0 < ((LLS_terms fourc colors.colors indices).map (fun t => t.1 * t.1)).sum
      * ((LLS_terms fourc colors.colors indices).map (fun t => t.2.1 * t.2.1)).sum
      - ((LLS_terms fourc colors.colors indices).map (fun t => t.1 * t.2.1)).sum
        * ((LLS_terms fourc colors.colors indices).map (fun t => t.1 * t.2.1)).sum := by
    rw [← eAA, ← eAB, ← eBB]; exact hpos
  rw [eAA, eAB, eBB] at hx hy hz
  have cx := fun A2 B2 : rrVec3q => lls_channel (LLS_terms fourc colors.colors indices)
    (fun v => v.x) (normalization_factor fourc) A.x B.x A2.x B2.x hn hdT
    (by have := hx.1; rw [ax] at this; exact this)
    (by have := hx.2; rw [bx] at this; exact this)
  have cy := fun A2 B2 : rrVec3q => lls_channel (LLS_terms fourc colors.colors indices)
    (fun v => v.y) (normalization_factor fourc) A.y B.y A2.y B2.y hn hdT
    (by have := hy.1; rw [ay] at this; exact this)
    (by have := hy.2; rw [by_] at this; exact this)
  have cz := fun A2 B2 : rrVec3q => lls_channel (LLS_terms fourc colors.colors indices)
    (fun v => v.z) (normalization_factor fourc) A.z B.z A2.z B2.z hn hdT
    (by have := hz.1; rw [az] at this; exact this)
    (by have := hz.2; rw [bz] at this; exact this)
  rw [← eAA, ← eAB, ← eBB] at hx hy hz
  refine ⟨A, B, hs, hx, hy, hz, ?_, ?_⟩
  · intro A2 B2
    rw [LLS_cost_channels, LLS_cost_channels]
    have h1 := (cx A2 B2).1
    have h2 := (cy A2 B2).1
    have h3 := (cz A2 B2).1
    linarith
  · intro A2 B2 he
    rw [LLS_cost_channels, LLS_cost_channels] at he
    have h1 := (cx A2 B2).1
    have h2 := (cy A2 B2).1
    have h3 := (cz A2 B2).1
    obtain ⟨x1, x2⟩ := (cx A2 B2).2 (by linarith)
    obtain ⟨y1, y2⟩ := (cy A2 B2).2 (by linarith)
    obtain ⟨z1, z2⟩ := (cz A2 B2).2 (by linarith)
    constructor
    · cases A2; cases A; simp only at x1 y1 z1; rw [x1, y1, z1]
    · cases B2; cases B; simp only at x2 y2 z2; rw [x2, y2, z2]

/-- C17 on the ramp tile in four-colour mode with pixel 0 at index 1 and the others
at index 0: the determinant is not zero. -/
theorem C17_witness :
    Ref.rampTile.colors.length = 16 ∧
    ((BC1EndpointLLSSolver.init true).accumulate Ref.rampTile 1).AA
        * ((BC1EndpointLLSSolver.init true).accumulate Ref.rampTile 1).BB
      - ((BC1EndpointLLSSolver.init true).accumulate Ref.rampTile 1).AB
        * ((BC1EndpointLLSSolver.init true).accumulate Ref.rampTile 1).AB ≠ 0 ∧
    ∃ A B : rrVec3q,
      ((BC1EndpointLLSSolver.init true).accumulate Ref.rampTile 1).solve_exact = some (A, B) ∧
      (∀ A2 B2 : rrVec3q,
        LLS_cost true Ref.rampTile 1 A B ≤ LLS_cost true Ref.rampTile 1 A2 B2) :=
  ⟨by decide, by decide,
   (C17_exact_endpoints_minimise Ref.rampTile 1 true _ (by decide) rfl (by decide)).imp
     (fun _ h => h.imp (fun _ h2 => ⟨h2.1, h2.2.2.2.2.1⟩))⟩

/-- Claim C21.  For every unpacked colour whose blue and red bytes are in 0..31 and
whose green byte is in 0..63 (any fourth byte, a 32-bit word) and every selector
`how` in 0..7, `Wiggle` is the saturating perturbation: selector 0 / 1 moves red by
+1 / -1, 2 / 3 green, 4 / 5 blue, 6 / 7 nothing, a step out of the field range
leaves the field where it is; the other fields and the fourth byte are unchanged
and the result is a word with its fields in range again. -/
theorem C21_Wiggle_is_saturating_step (color : rrColorUnpacked565) (how : Nat)
    (hb : color.b < 32) (hg : color.g < 64) (hr : color.r < 32)
    (hdw : color.dw < 4294967296) (hhow : how ≤ 7) :
    Wiggle color how = Wiggle_saturating color how ∧
    (Wiggle color how).r
      = (if how = 0 then min (color.r + 1) 31 else if how = 1 then color.r - 1 else color.r) ∧
    (Wiggle color how).g
      = (if how = 2 then min (color.g + 1) 63 else if how = 3 then color.g - 1 else color.g) ∧
    (Wiggle color how).b
      = (if how = 4 then min (color.b + 1) 31 else if how = 5 then color.b - 1 else color.b) ∧
    (Wiggle color how).a = color.a ∧
    ((Wiggle color how).b < 32 ∧ (Wiggle color how).g < 64 ∧ (Wiggle color how).r < 32 ∧
      (Wiggle color how).dw < 4294967296) :=
  Wiggle_spec color how hb hg hr hdw hhow

/-- Witness for C21: red at the top of its range stays there on selector 0 (with
a non-zero fourth byte), and green steps down on selector 3. -/
theorem C21_witness :
    (Wiggle ⟨0xFF1F2A05⟩ 0).r = 31 ∧ (Wiggle ⟨0xFF1F2A05⟩ 0).a = 255 ∧
    (Wiggle ⟨0x0A2A05⟩ 3).g = 41 :=
  ⟨(C21_Wiggle_is_saturating_step ⟨0xFF1F2A05⟩ 0 (by decide) (by decide) (by decide)
      (by decide) (by decide)).2.1.trans (by decide),
   (C21_Wiggle_is_saturating_step ⟨0xFF1F2A05⟩ 0 (by decide) (by decide) (by decide)
      (by decide) (by decide)).2.2.2.2.1.trans (by decide),
   (C21_Wiggle_is_saturating_step ⟨0x0A2A05⟩ 3 (by decide) (by decide) (by decide)
      (by decide) (by decide)).2.2.1.trans (by decide)⟩

/-- Claim C22, counterexample.  At loop entry with best-ever error 100 (every lane's
working error is 100), a trial of error 0 in lane 0 passes the test of round 0
(`0 - 100 < 253`), yet the loop stops before the working state of the lane is
written: the lane keeps its endpoints and its error 100.  Lane 1 is then not
processed either, although its trial of error 50 passes the test as well. -/
theorem C22_counterexample :
    ((0 : Int) - 100 < thresholdBase - (0 : Nat) * thresholdStep) ∧
    (Anneal_accept (thresholdBase - (0 : Nat) * thresholdStep) ⟨⟨1⟩, ⟨0⟩⟩ 0 0
      ⟨List.replicate 4 ⟨⟨0⟩, ⟨0⟩⟩, List.replicate 4 100, 100, ⟨⟨0⟩, ⟨0⟩⟩, false⟩).cur.getD 0 default
      ≠ ⟨⟨1⟩, ⟨0⟩⟩ ∧
    (Anneal_accept (thresholdBase - (0 : Nat) * thresholdStep) ⟨⟨1⟩, ⟨0⟩⟩ 0 0
      ⟨List.replicate 4 ⟨⟨0⟩, ⟨0⟩⟩, List.replicate 4 100, 100, ⟨⟨0⟩, ⟨0⟩⟩, false⟩).curErr.getD 0 0
      = 100 ∧
    ((50 : Int) - 100 < thresholdBase - (0 : Nat) * thresholdStep) ∧
    (Anneal_accept (thresholdBase - (0 : Nat) * thresholdStep) ⟨⟨0⟩, ⟨1⟩⟩ 50 1
      (Anneal_accept (thresholdBase - (0 : Nat) * thresholdStep) ⟨⟨1⟩, ⟨0⟩⟩ 0 0
        ⟨List.replicate 4 ⟨⟨0⟩, ⟨0⟩⟩, List.replicate 4 100, 100, ⟨⟨0⟩, ⟨0⟩⟩, false⟩)).curErr.getD 1 0
      = 100 := by
  decide

/-- Claim C22, amended.  In round `time` of 0..63 the threshold is `253 - 4*time`,
at least 1 and strictly below the threshold of the round before.  For a lane the
loop processes (`done` not set), with errors below `2^31`: a trial that fails the
test `err - curErr < thresh` changes nothing; a trial that passes replaces the
working endpoints and error of its lane and of no other lane, unless it has error 0
below the best-ever error, in which case the loop stops with the working state as
it was; once the loop has stopped no lane changes; a trial whose error is not above
the working error of its lane passes the test. -/
theorem C22_anneal_acceptance_threshold (time i : Nat) (ep : rrDXT1UnpackedEndPoints)
    (err : Nat) (s : AnnealLoop) (htime : time ≤ 63) (herr : err < 2147483648)
    (hcur : s.curErr.getD i 0 < 2147483648) :
    (thresholdBase - (time : Int) * thresholdStep = 253 - 4 * (time : Int) ∧
      1 ≤ thresholdBase - (time : Int) * thresholdStep ∧
      thresholdBase - ((time + 1 : Nat) : Int) * thresholdStep
        < thresholdBase - (time : Int) * thresholdStep) ∧
    (s.done = false → ¬ ((err : Int) - (s.curErr.getD i 0 : Int) < 253 - 4 * (time : Int)) →
      Anneal_accept (thresholdBase - (time : Int) * thresholdStep) ep err i s = s) ∧
    (s.done = false → (err : Int) - (s.curErr.getD i 0 : Int) < 253 - 4 * (time : Int) →
      ¬ (err = 0 ∧ err < s.error) →
      (Anneal_accept (thresholdBase - (time : Int) * thresholdStep) ep err i s).cur
        = s.cur.set i ep ∧
      (Anneal_accept (thresholdBase - (time : Int) * thresholdStep) ep err i s).curErr
        = s.curErr.set i err ∧
      (Anneal_accept (thresholdBase - (time : Int) * thresholdStep) ep err i s).done = false) ∧
    (s.done = false → (err : Int) - (s.curErr.getD i 0 : Int) < 253 - 4 * (time : Int) →
      err = 0 → err < s.error →
      Anneal_accept (thresholdBase - (time : Int) * thresholdStep) ep err i s
        = { s with error := 0, best := ep, done := true }) ∧
    (s.done = true →
      Anneal_accept (thresholdBase - (time : Int) * thresholdStep) ep err i s = s) ∧
    (err ≤ s.curErr.getD i 0 →
      (err : Int) - (s.curErr.getD i 0 : Int) < 253 - 4 * (time : Int)) := by
  have ht : thresholdBase - (time : Int) * thresholdStep = 253 - 4 * (time : Int) := by
    unfold thresholdBase thresholdStep; ring
  have ht1 : thresholdBase - ((time + 1 : Nat) : Int) * thresholdStep
      = 253 - 4 * (time : Int) - 4 := by
    unfold thresholdBase thresholdStep; push_cast; ring
  refine ⟨⟨ht, by rw [ht]; omega, by rw [ht, ht1]; omega⟩, ?_, ?_, ?_, ?_, ?_⟩
  · intro hd hrej
    unfold Anneal_accept
    rw [if_neg (by simp [hd]), toS32_of_lt _ herr, toS32_of_lt _ hcur, ht, if_pos (by omega)]
  · intro hd hacc hstop
    unfold Anneal_accept
    rw [if_neg (by simp [hd]), toS32_of_lt _ herr, toS32_of_lt _ hcur, ht, if_neg (by omega)]
    split_ifs with h1 h2
    · exact absurd ⟨h2, h1⟩ hstop
    · exact ⟨rfl, rfl, rfl⟩
    · exact ⟨rfl, rfl, hd⟩
  · intro hd hacc h0 hlt
    unfold Anneal_accept
    rw [if_neg (by simp [hd]), toS32_of_lt _ herr, toS32_of_lt _ hcur, ht, if_neg (by omega),
      if_pos hlt, if_pos h0, h0]
  · intro hd
    unfold Anneal_accept
    rw [if_pos hd]
  · intro hle
    omega

/-- Witness for C22 in round 10 (threshold 213): a trial of error 300 against a
working error of 100 passes the test and replaces the lane. -/
theorem C22_witness :
    (Anneal_accept (thresholdBase - (10 : Nat) * thresholdStep) ⟨⟨1⟩, ⟨0⟩⟩ 300 2
      ⟨List.replicate 4 ⟨⟨0⟩, ⟨0⟩⟩, List.replicate 4 100, 100, ⟨⟨0⟩, ⟨0⟩⟩, false⟩).curErr
      = [100, 100, 300, 100] :=
  ((C22_anneal_acceptance_threshold 10 2 ⟨⟨1⟩, ⟨0⟩⟩ 300
      ⟨List.replicate 4 ⟨⟨0⟩, ⟨0⟩⟩, List.replicate 4 100, 100, ⟨⟨0⟩, ⟨0⟩⟩, false⟩
      (by decide) (by decide) (by decide)).2.2.1 rfl (by decide) (by decide)).2.1.trans
    (by decide)

set_option maxRecDepth 1000000 in
set_option maxHeartbeats 400000000 in
/-- Claim C24, counterexample.  On a three-colour tile in NoAlpha mode, with the
reference collaborators, the first refinement of the pair `(42294, 48838)` moves
the endpoints to `(37939, 46660)`, so the second trial of the pair starts from
`(46660, 37939)` and not from `(48838, 42294)`; the search returns error 35533,
while the search that starts from both orderings of every pair returns 35135. -/
theorem C24_counterexample :
    (42294, 48838) ∈ allPairs (Heavy_uniques Ref.deps Ref.heavyTile) ∧
    (Heavy_trial Ref.deps Ref.heavyTile rrDXT1PaletteMode.NoAlpha 42294 48838).1.c0 = 37939 ∧
    (Heavy_trial Ref.deps Ref.heavyTile rrDXT1PaletteMode.NoAlpha 42294 48838).1.c1 = 46660 ∧
    (Compress_TryAllPairs_Heavy Ref.deps ⟨0, 0, 0⟩ 1000000000 Ref.heavyTile
      rrDXT1PaletteMode.NoAlpha).2.2 = 35533 ∧
    (Compress_TryAllPairs_Heavy_bothOrderings Ref.deps ⟨0, 0, 0⟩ 1000000000 Ref.heavyTile
      rrDXT1PaletteMode.NoAlpha).2.2 = 35135 := by
  decide!

/-- Claim C24, amended.  The unique list holds the quantised colours of the pixels
in strictly increasing order, and the pair loop runs over every pair `a < b` of
it.  For every pair the loop body starts a full iterative refinement from `(a, b)`
and commits it when strictly better; in a mode other than FourColor it then starts
a second one from the swapped endpoints of the first trial block as the first
refinement left it, which is `(b, a)` when the first refinement did not move the
endpoints; in FourColor mode there is no second trial.  With a single unique
colour the search returns false with block and error unchanged.  In every case the
search returns false with block and error unchanged or true with a strictly lower
error. -/
theorem C24_heavy_pair_search (K : Deps) (pBlock : rrDXT1Block) (pError : Nat)
    (colors : rrColorBlock4x4) (mode : rrDXT1PaletteMode) :
    (∀ a, a ∈ Heavy_uniques K colors ↔ ∃ c ∈ colors.colors, K.Quantize c % 65536 = a) ∧
    (∀ a b, (a, b) ∈ allPairs (Heavy_uniques K colors)
      ↔ a ∈ Heavy_uniques K colors ∧ b ∈ Heavy_uniques K colors ∧ a < b) ∧
    ((Heavy_uniques K colors).length ≠ 1 →
      Compress_TryAllPairs_Heavy K pBlock pError colors mode
        = (allPairs (Heavy_uniques K colors)).foldl (Heavy_pair K colors mode)
            (false, pBlock, pError)) ∧
    (∀ c0 c1, Heavy_trial K colors mode c0 c1
      = DXT1_OptimizeEndPointsFromIndicesIterative K
          ⟨c0, c1, (K.DXT1_FindIndices colors (K.DXT1_ComputePalette c0 c1 mode)).1⟩
          (K.DXT1_FindIndices colors (K.DXT1_ComputePalette c0 c1 mode)).2 colors mode) ∧
    (∀ st p, mode ≠ rrDXT1PaletteMode.FourColor →
      Heavy_pair K colors mode st p
        = (if (Heavy_trial K colors mode (Heavy_trial K colors mode p.1 p.2).1.c1
                (Heavy_trial K colors mode p.1 p.2).1.c0).2
              < (if (Heavy_trial K colors mode p.1 p.2).2 < st.2.2
                  then (true, (Heavy_trial K colors mode p.1 p.2).1,
                    (Heavy_trial K colors mode p.1 p.2).2) else st).2.2
           then (true, (Heavy_trial K colors mode (Heavy_trial K colors mode p.1 p.2).1.c1
                (Heavy_trial K colors mode p.1 p.2).1.c0).1,
              (Heavy_trial K colors mode (Heavy_trial K colors mode p.1 p.2).1.c1
                (Heavy_trial K colors mode p.1 p.2).1.c0).2)
           else (if (Heavy_trial K colors mode p.1 p.2).2 < st.2.2
                  then (true, (Heavy_trial K colors mode p.1 p.2).1,
                    (Heavy_trial K colors mode p.1 p.2).2) else st))) ∧
    (∀ st p, mode ≠ rrDXT1PaletteMode.FourColor →
      (Heavy_trial K colors mode p.1 p.2).1.c0 = p.1 →
      (Heavy_trial K colors mode p.1 p.2).1.c1 = p.2 →
      Heavy_pair K colors mode st p = Heavy_pair_bothOrderings K colors mode st p) ∧
    (∀ st p, mode = rrDXT1PaletteMode.FourColor →
      Heavy_pair K colors mode st p
        = (if (Heavy_trial K colors mode p.1 p.2).2 < st.2.2
            then (true, (Heavy_trial K colors mode p.1 p.2).1,
              (Heavy_trial K colors mode p.1 p.2).2) else st)) ∧
    ((Heavy_uniques K colors).length = 1 →
      Compress_TryAllPairs_Heavy K pBlock pError colors mode = (false, pBlock, pError)) ∧
    (((Compress_TryAllPairs_Heavy K pBlock pError colors mode).1 = false ∧
        (Compress_TryAllPairs_Heavy K pBlock pError colors mode).2 = (pBlock, pError)) ∨
      ((Compress_TryAllPairs_Heavy K pBlock pError colors mode).1 = true ∧
        (Compress_TryAllPairs_Heavy K pBlock pError colors mode).2.2 < pError)) := by
  refine ⟨Heavy_uniques_mem K colors, allPairs_mem_iff _ (Heavy_uniques_sorted K colors),
    ?_, fun _ _ => rfl, ?_, ?_, ?_, ?_, ?_⟩
  · intro h
    unfold Compress_TryAllPairs_Heavy
    simp only [if_neg h]
  · intro st p hm
    unfold Heavy_pair
    simp only [if_pos hm]
  · intro st p hm h0 h1
    unfold Heavy_pair Heavy_pair_bothOrderings
    simp only [h0, h1]
  · intro st p hm
    unfold Heavy_pair
    simp only [hm, ne_eq, not_true_eq_false, if_false]
  · intro h
    unfold Compress_TryAllPairs_Heavy
    simp only [if_pos h]
  · unfold Compress_TryAllPairs_Heavy
    dsimp only
    split
    · exact Or.inl ⟨rfl, rfl⟩
    · exact Heavy_fold_flag K colors mode pBlock pError _ _ (Or.inl ⟨rfl, rfl⟩)

/-- Witness for C24: the pair of the two largest quantised colours of the
three-colour tile is one of the pairs of the loop. -/
theorem C24_witness :
    (42294, 48838) ∈ allPairs (Heavy_uniques Ref.deps Ref.heavyTile) :=
  ((C24_heavy_pair_search Ref.deps ⟨0, 0, 0⟩ 1000000000 Ref.heavyTile
    rrDXT1PaletteMode.NoAlpha).2.1 42294 48838).mpr ⟨by decide, by decide, by decide⟩

/-- Claim C25.  `DXT1_OptimizeEndPointsFromIndices_Inherit_NoReindex` never changes
the indices.  When it returns true the block holds the endpoints the solver
returned for the entry indices, with the entry indices, and the error is the error
of that block and strictly lower than before; when it returns false block and
error are unchanged.  In Alpha mode, for a block in four-colour order with a pixel
of index 3, solved endpoints in three-colour order make the call return false
(given that the transparency mask of a three-colour block is non-zero when a pixel
has index 3), so a successful call leaves such a block in four-colour order. -/
theorem C25_NoReindex_keeps_indices (K : Deps) (pBlock : rrDXT1Block) (pError : Nat)
    (colors : rrColorBlock4x4) (mode : rrDXT1PaletteMode)
    (hmask : ∀ indices, (∃ i, i < 16 ∧ pixelIndex indices i = 3) →
      K.DXT1_OneBitTransparent_Mask_FromIndices true indices ≠ 0) :
    (DXT1_OptimizeEndPointsFromIndices_Inherit_NoReindex K pBlock pError colors mode).2.1.indices
      = pBlock.indices ∧
    ((DXT1_OptimizeEndPointsFromIndices_Inherit_NoReindex K pBlock pError colors mode).1 = true →
      ∃ endpoints,
        DXT1_OptimizeEndPointsFromIndices_Raw K pBlock.indices
          (DXT1_Is4Color pBlock.c0 pBlock.c1 mode) colors = some endpoints ∧
        endpoints ≠ pBlock.endpoints ∧
        (DXT1_OptimizeEndPointsFromIndices_Inherit_NoReindex K pBlock pError colors mode).2.1
          = ⟨endpoints % 65536, endpoints / 65536, pBlock.indices⟩ ∧
        (DXT1_OptimizeEndPointsFromIndices_Inherit_NoReindex K pBlock pError colors mode).2.2
          = K.DXT1_ComputeSSD_RGBA colors
              ⟨endpoints % 65536, endpoints / 65536, pBlock.indices⟩ mode ∧
        (DXT1_OptimizeEndPointsFromIndices_Inherit_NoReindex K pBlock pError colors mode).2.2
          < pError) ∧
    ((DXT1_OptimizeEndPointsFromIndices_Inherit_NoReindex K pBlock pError colors mode).1 = false →
      (DXT1_OptimizeEndPointsFromIndices_Inherit_NoReindex K pBlock pError colors mode).2
        = (pBlock, pError)) ∧
    (mode = rrDXT1PaletteMode.Alpha → DXT1_Is4Color pBlock.c0 pBlock.c1 mode = true →
      (∃ i, i < 16 ∧ pixelIndex pBlock.indices i = 3) →
      (∀ endpoints, DXT1_OptimizeEndPointsFromIndices_Raw K pBlock.indices
          (DXT1_Is4Color pBlock.c0 pBlock.c1 mode) colors = some endpoints →
        DXT1_Is4Color (endpoints % 65536) (endpoints / 65536) mode = false →
        DXT1_OptimizeEndPointsFromIndices_Inherit_NoReindex K pBlock pError colors mode
          = (false, pBlock, pError)) ∧
      ((DXT1_OptimizeEndPointsFromIndices_Inherit_NoReindex K pBlock pError colors mode).1 = true →
        DXT1_Is4Color
          (DXT1_OptimizeEndPointsFromIndices_Inherit_NoReindex K pBlock pError colors mode).2.1.c0
          (DXT1_OptimizeEndPointsFromIndices_Inherit_NoReindex K pBlock pError colors mode).2.1.c1
          mode = true)) := by
  unfold DXT1_OptimizeEndPointsFromIndices_Inherit_NoReindex
  dsimp only
  cases hraw : DXT1_OptimizeEndPointsFromIndices_Raw K pBlock.indices
      (DXT1_Is4Color pBlock.c0 pBlock.c1 mode) colors with
  | none => simp
  | some endpoints =>
    dsimp only
    by_cases he : endpoints = pBlock.endpoints
    · simp [he]
    · by_cases hg : mode = rrDXT1PaletteMode.Alpha ∧
          DXT1_Is4Color pBlock.c0 pBlock.c1 mode = true ∧
          K.DXT1_OneBitTransparent_Mask_FromIndices
            (!DXT1_Is4Color (endpoints % 65536) (endpoints / 65536) mode) pBlock.indices ≠ 0
      · simp only [if_neg he, if_pos hg]
        simp
      · rw [if_neg he, if_neg hg]
        by_cases hlt : K.DXT1_ComputeSSD_RGBA colors
            ⟨endpoints % 65536, endpoints / 65536, pBlock.indices⟩ mode < pError
        · rw [if_pos hlt]
          refine ⟨rfl, fun _ => ⟨endpoints, rfl, he, rfl, rfl, hlt⟩, fun h => (by cases h),
            fun hm h4 h3 => ⟨?_, ?_⟩⟩
          · intro e2 he2 h3c
            simp only [Option.some.injEq] at he2
            subst he2
            exfalso
            apply hg
            refine ⟨hm, h4, ?_⟩
            rw [h3c]
            exact hmask _ h3
          · intro _
            by_contra h3c
            apply hg
            refine ⟨hm, h4, ?_⟩
            simp only [Bool.not_eq_true] at h3c
            rw [h3c]
            exact hmask _ h3
        · simp only [if_neg hlt]
          simp

/-- Witness for C25 with the reference collaborators: a call on a block of the
three-colour tile keeps the index word. -/
theorem C25_witness :
    (DXT1_OptimizeEndPointsFromIndices_Inherit_NoReindex Ref.deps ⟨35084, 37293, 336593152⟩
      1000000 Ref.threeColourTile rrDXT1PaletteMode.Alpha).2.1.indices = 336593152 :=
  (C25_NoReindex_keeps_indices Ref.deps ⟨35084, 37293, 336593152⟩ 1000000 Ref.threeColourTile
    rrDXT1PaletteMode.Alpha (fun indices h => Ref.mask_of_index3 indices h)).1

/-- Claim C28.  Startup never emits more than 5 candidates, and on a tile of 16
pixels in which an all-zero pixel occurs only in Alpha mode (where the transparency
test holds for it) it emits at least 1; `rrCompressDXT1_Startup` scores exactly
that list, so its assertions `count >= 1` and `count <= 16` hold. -/
theorem C28_startup_candidate_count (K : Deps) (pData : rrCompressDXT1_Startup_Data)
    (pBlock : rrDXT1Block) (pError : Nat) (colors : rrColorBlock4x4)
    (mode : rrDXT1PaletteMode) (options : Nat) (hcan : IsBC1Canonical K colors mode) :
    1 ≤ (rrCompressDXT1_Startup_Impl K pData colors mode []).2.2.length ∧
    (rrCompressDXT1_Startup_Impl K pData colors mode []).2.2.length ≤ 5 ∧
    (rrCompressDXT1_Startup_Impl K pData colors mode []).2.2.length ≤ 16 ∧
    ((rrCompressDXT1_Startup K pData pBlock pError colors mode options).block,
      (rrCompressDXT1_Startup K pData pBlock pError colors mode options).error)
      = TryBatchedEndpoints K pBlock pError colors mode
          (rrCompressDXT1_Startup_Impl K pData colors mode []).2.2 := by
  have h := Startup_Impl_count K pData colors mode hcan
  exact ⟨h.1, h.2, le_trans h.2 (by norm_num), rfl⟩

/-- Witness for C28 on the canonical Alpha-mode tile with thirteen transparent
pixels. -/
theorem C28_witness :
    1 ≤ (rrCompressDXT1_Startup_Impl Ref.deps default Ref.alphaTile
      rrDXT1PaletteMode.Alpha []).2.2.length :=
  (C28_startup_candidate_count Ref.deps default ⟨0, 0, 0⟩ 1000000000 Ref.alphaTile
    rrDXT1PaletteMode.Alpha 0 (by decide)).1

/-- Claim C29.  The fixed-capacity buffers are large enough for every input:
`rrCompressDXT1_4Means` generates at most 12 candidates in reduced mode and at most
56 otherwise, and scores no more than it generates (buffer of `NUM_PAIRS = 70`);
a greedy round generates at most 12 trials with independent wiggles and, with
joint wiggles, at most 48 from 32-bit start words and never more than 49 (buffer
of `MAX_TRIALS = 49`); the annealing loop reads the control byte
`4*time + lane <= 255` of its 256 bytes, and different round and lane read
different bytes. -/
theorem C29_buffers_in_range (K : Deps) (data : rrCompressDXT1_Startup_Data)
    (colors : rrColorBlock4x4) (means : Means4) (flags : Nat) (a joint : Bool)
    (e0 e1 : rrColorUnpacked565) :
    (flags &&& DXT1_4MEANS_REDUCED_CANDIDATES ≠ 0 →
      (FourMeans_candidates K means flags).length ≤ 12) ∧
    (FourMeans_candidates K means flags).length ≤ 56 ∧
    (FourMeans_scored K data colors flags).length
      ≤ (FourMeans_candidates K (FourMeans_means K data colors flags) flags).length ∧
    56 ≤ NUM_PAIRS ∧
    (Greedy_trials a false e0 e1).length ≤ 12 ∧
    (e0.dw < 4294967296 → e1.dw < 4294967296 → (Greedy_trials a true e0 e1).length ≤ 48) ∧
    (Greedy_trials a joint e0 e1).length ≤ MAX_TRIALS ∧
    (Anneal_rng_bytes K colors).length = NITER ∧ NITER = 256 ∧
    (∀ time lane, time < 64 → lane < 4 →
      time * 4 + lane ≤ 255 ∧ time * 4 + lane < (Anneal_rng_bytes K colors).length) ∧
    (∀ time lane time2 lane2, lane < 4 → lane2 < 4 →
      time * 4 + lane = time2 * 4 + lane2 → time = time2 ∧ lane = lane2) := by
  refine ⟨FourMeans_reduced_length K means flags, FourMeans_candidates_length K means flags,
    ?_, by decide, (Greedy_trials_count a e0 e1).2, (Greedy_trials_count a e0 e1).1,
    Greedy_trials_length a joint e0 e1, Anneal_rng_bytes_length K colors, rfl, ?_, ?_⟩
  · unfold FourMeans_scored
    exact FilterEndpoints_length _ _
  · intro time lane ht hl
    rw [Anneal_rng_bytes_length]
    omega
  · intro time lane time2 lane2 h1 h2 h
    omega

/-- Witness for C29: a joint greedy round from two legal colours. -/
theorem C29_witness :
    (Greedy_trials false true ⟨0x0A2A05⟩ ⟨0x1F3F1F⟩).length ≤ 48 :=
  (C29_buffers_in_range Ref.deps default Ref.rampTile default 0 false true
    ⟨0x0A2A05⟩ ⟨0x1F3F1F⟩).2.2.2.2.2.1 (by decide) (by decide)

/-- Claim C26.  On a tile of 16 byte pixels `rrCompressDXT1_Startup_Impl` returns
true exactly when the squared length of the diagonal `hi - lo` of the all-pixel
bounding box is greater than 12.  When it returns true the statistics hold the
per-channel sum of the pixels, the average `(sum + 8) >> 4` with every channel in
0..255, the diagonal, the two corners, and `has_any_alpha` is set exactly when
some pixel is all-zero.  The corners are the per-channel minimum and maximum:
bounds of every pixel, each attained by a pixel. -/
theorem C26_startup_continue_iff_diagonal (K : Deps) (pData : rrCompressDXT1_Startup_Data)
    (colors : rrColorBlock4x4) (mode : rrDXT1PaletteMode)
    (endptr : List rrDXT1UnpackedEndPoints)
    (hlen : colors.colors.length = 16) (hbytes : TileBytes colors) :
    ((rrCompressDXT1_Startup_Impl K pData colors mode endptr).1 = true
      ↔ 12 < LengthSqr ((ColorToVec3i (bboxHi colors.colors)).sub
          (ColorToVec3i (bboxLo colors.colors)))) ∧
    ((rrCompressDXT1_Startup_Impl K pData colors mode endptr).1 = true →
      (rrCompressDXT1_Startup_Impl K pData colors mode endptr).2.1.sum = tileSum colors.colors ∧
      (rrCompressDXT1_Startup_Impl K pData colors mode endptr).2.1.avg = tileAvg colors.colors ∧
      (rrCompressDXT1_Startup_Impl K pData colors mode endptr).2.1.diagonal
        = (ColorToVec3i (bboxHi colors.colors)).sub (ColorToVec3i (bboxLo colors.colors)) ∧
      (rrCompressDXT1_Startup_Impl K pData colors mode endptr).2.1.loC = bboxLo colors.colors ∧
      (rrCompressDXT1_Startup_Impl K pData colors mode endptr).2.1.hiC = bboxHi colors.colors ∧
      ((rrCompressDXT1_Startup_Impl K pData colors mode endptr).2.1.has_any_alpha = true
        ↔ ∃ c ∈ colors.colors, c.dw = 0)) ∧
    (0 ≤ (tileAvg colors.colors).x ∧ (tileAvg colors.colors).x ≤ 255 ∧
      0 ≤ (tileAvg colors.colors).y ∧ (tileAvg colors.colors).y ≤ 255 ∧
      0 ≤ (tileAvg colors.colors).z ∧ (tileAvg colors.colors).z ≤ 255) ∧
    (∀ c ∈ colors.colors,
      (bboxLo colors.colors).b ≤ c.b ∧ c.b ≤ (bboxHi colors.colors).b ∧
      (bboxLo colors.colors).g ≤ c.g ∧ c.g ≤ (bboxHi colors.colors).g ∧
      (bboxLo colors.colors).r ≤ c.r ∧ c.r ≤ (bboxHi colors.colors).r) ∧
    ((∃ c ∈ colors.colors, c.b = (bboxLo colors.colors).b) ∧
      (∃ c ∈ colors.colors, c.g = (bboxLo colors.colors).g) ∧
      (∃ c ∈ colors.colors, c.r = (bboxLo colors.colors).r) ∧
      (∃ c ∈ colors.colors, c.b = (bboxHi colors.colors).b) ∧
      (∃ c ∈ colors.colors, c.g = (bboxHi colors.colors).g) ∧
      (∃ c ∈ colors.colors, c.r = (bboxHi colors.colors).r)) := by
  have hne : colors.colors ≠ [] := by
    intro h; rw [h] at hlen; simp at hlen
  have hB : ∀ c ∈ colors.colors, c.b ≤ 255 := fun c hc => (hbytes c hc).1
  have hG : ∀ c ∈ colors.colors, c.g ≤ 255 := fun c hc => (hbytes c hc).2.1
  have hR : ∀ c ∈ colors.colors, c.r ≤ 255 := fun c hc => (hbytes c hc).2.2.1
  obtain ⟨hhi, hlo, havg, _, _, _, hnt⟩ := scan_run_eq K mode colors
  have hdiag := diag_zero_of_corner _ _ _ _ _ _
    (tileMin_le_tileMax (fun c => c.b) _ hne) (tileMin_le_tileMax (fun c => c.g) _ hne)
    (tileMin_le_tileMax (fun c => c.r) _ hne) (tileMax_le _ _ hB) (tileMax_le _ _ hG)
    (tileMax_le _ _ hR)
  have hsb := sum_le_of_bytes (fun c => c.b) _ hB
  have hsg := sum_le_of_bytes (fun c => c.g) _ hG
  have hsr := sum_le_of_bytes (fun c => c.r) _ hR
  rw [hlen] at hsb hsg hsr
  refine ⟨?_, ?_, ?_, ?_, ?_⟩
  · unfold rrCompressDXT1_Startup_Impl
    dsimp only
    rw [hhi, hlo]
    by_cases h0 : (bboxHi colors.colors).dw = 0
    · rw [if_pos h0]
      have := hdiag (Or.inl h0)
      unfold bboxHi bboxLo
      rw [this]
      simp
    · rw [if_neg h0]
      by_cases h1 : (bboxLo colors.colors).dw = (bboxHi colors.colors).dw
      · rw [if_pos h1]
        have := hdiag (Or.inr h1)
        unfold bboxHi bboxLo
        rw [this]
        simp
      · rw [if_neg h1]
        by_cases h2 : LengthSqr ((ColorToVec3i (bboxHi colors.colors)).sub
            (ColorToVec3i (bboxLo colors.colors))) ≤ 12
        · rw [if_pos h2]
          simp only [Bool.false_eq_true, false_iff, not_lt]
          exact h2
        · rw [if_neg h2]
          simp only [true_iff]
          omega
  · unfold rrCompressDXT1_Startup_Impl
    dsimp only
    rw [hhi, hlo, havg, hnt]
    by_cases h0 : (bboxHi colors.colors).dw = 0
    · rw [if_pos h0]; intro h; cases h
    · rw [if_neg h0]
      by_cases h1 : (bboxLo colors.colors).dw = (bboxHi colors.colors).dw
      · rw [if_pos h1]; intro h; cases h
      · rw [if_neg h1]
        by_cases h2 : LengthSqr ((ColorToVec3i (bboxHi colors.colors)).sub
            (ColorToVec3i (bboxLo colors.colors))) ≤ 12
        · rw [if_pos h2]; intro h; cases h
        · rw [if_neg h2]
          intro _
          refine ⟨rfl, rfl, rfl, rfl, rfl, ?_⟩
          dsimp only
          rw [decide_eq_true_iff, List.countP_pos_iff]
          simp
  · unfold tileAvg tileSum
    dsimp only
    refine ⟨?_, ?_, ?_, ?_, ?_, ?_⟩ <;> omega
  · intro c hc
    exact ⟨(tileMin_spec (fun c => c.b) _ hB).1 c hc, (tileMax_spec (fun c => c.b) _).1 c hc,
      (tileMin_spec (fun c => c.g) _ hG).1 c hc, (tileMax_spec (fun c => c.g) _).1 c hc,
      (tileMin_spec (fun c => c.r) _ hR).1 c hc, (tileMax_spec (fun c => c.r) _).1 c hc⟩
  · exact ⟨(tileMin_spec (fun c => c.b) _ hB).2 hne, (tileMin_spec (fun c => c.g) _ hG).2 hne,
      (tileMin_spec (fun c => c.r) _ hR).2 hne, (tileMax_spec (fun c => c.b) _).2 hne,
      (tileMax_spec (fun c => c.g) _).2 hne, (tileMax_spec (fun c => c.r) _).2 hne⟩

/-- Witness for C26: startup continues on the three-colour tile, whose bounding box
has squared diagonal 690. -/
theorem C26_witness :
    (rrCompressDXT1_Startup_Impl Ref.deps default Ref.threeColourTile
      rrDXT1PaletteMode.NoAlpha []).1 = true :=
  (C26_startup_continue_iff_diagonal Ref.deps default Ref.threeColourTile
    rrDXT1PaletteMode.NoAlpha [] (by decide) (by decide)).1.mpr (by decide)

/-- Claim C27.  On a tile of 16 byte pixels the candidate list of
`rrCompressDXT1_Startup_Impl` is the list of the specification: the single pair
`(0, 0)` when the all-pixel maximum is 0; otherwise, in this order, the four-colour
single fit of the average when no pixel is all-zero, the three-colour single fit
of the midpoint of the box of the pixels not excluded (of all pixels when every
pixel is excluded) when some pixel is excluded, the Force3C pair of the corners of
that box when moreover they differ, and the Default pairs of the all-pixel corners
when these differ and the squared diagonal is at most 12.  A pixel is excluded when
it is transparent in Alpha mode, when its three colour channels are all below 12 in
NoAlpha mode, and never in FourColor mode (`Startup_excluded_spec`). -/
theorem C27_startup_candidate_list (K : Deps) (pData : rrCompressDXT1_Startup_Data)
    (colors : rrColorBlock4x4) (mode : rrDXT1PaletteMode)
    (hlen : colors.colors.length = 16) (hbytes : TileBytes colors) :
    (rrCompressDXT1_Startup_Impl K pData colors mode []).2.2
      = Startup_candidates_spec K colors mode := by
  obtain ⟨hhi, hlo, havg, hhic, hloc, hnc, hnt⟩ := scan_run_eq K mode colors
  have hkept : ∀ c ∈ colors.colors.filter (fun c => !rrDXT1_IsTransparentOrBlack K mode c),
      c.b ≤ 255 ∧ c.g ≤ 255 ∧ c.r ≤ 255 ∧ c.a ≤ 255 :=
    fun c hc => hbytes c (List.mem_of_mem_filter hc)
  have hex : (StartupScan.run K mode colors).num_colors < 16
      ↔ ∃ c ∈ colors.colors, rrDXT1_IsTransparentOrBlack K mode c = true := by
    rw [hnc, ← hlen]
    exact countP_lt_length_iff _ _
  have hz : (StartupScan.run K mode colors).num_colors = 0
      ↔ colors.colors.filter (fun c => !rrDXT1_IsTransparentOrBlack K mode c) = [] := by
    rw [hnc]
    exact countP_zero_iff_filter _ _
  have ht : (decide (0 < (StartupScan.run K mode colors).num_transparent) = true)
      ↔ ∃ c ∈ colors.colors, c.dw = 0 := by
    rw [hnt, decide_eq_true_iff, List.countP_pos_iff]
    simp
  unfold rrCompressDXT1_Startup_Impl Startup_candidates_spec
  rw [← IsTransparentOrBlack_eq_spec K mode]
  dsimp only
  rw [hhi, hlo, havg]
  by_cases h0 : (bboxHi colors.colors).dw = 0
  · rw [if_pos h0, if_pos ((bboxHi_dw_zero _).mp h0)]
    rfl
  · rw [if_neg h0, if_neg (fun h => h0 ((bboxHi_dw_zero _).mpr h))]
    have hd1 : (bboxLo colors.colors).dw = (bboxHi colors.colors).dw
        ↔ bboxLo colors.colors = bboxHi colors.colors := bbox_dw_inj _ _ hbytes
    have hd2 : (bboxLo (colors.colors.filter
          (fun c => !rrDXT1_IsTransparentOrBlack K mode c))).dw
        = (bboxHi (colors.colors.filter (fun c => !rrDXT1_IsTransparentOrBlack K mode c))).dw
        ↔ bboxLo (colors.colors.filter (fun c => !rrDXT1_IsTransparentOrBlack K mode c))
          = bboxHi (colors.colors.filter (fun c => !rrDXT1_IsTransparentOrBlack K mode c)) :=
      bbox_dw_inj _ _ hkept
    have ht2 : ((!decide (0 < (StartupScan.run K mode colors).num_transparent)) = true)
        ↔ ¬ ∃ c ∈ colors.colors, c.dw = 0 := by
      rw [← ht]; simp
    simp only [hex, hz, ht2, hhic, hloc, hd1]
    have hF : ∀ (x : rrDXT1UnpackedEndPoints) (l : List rrDXT1UnpackedEndPoints)
        (a b : rrColor32BGRA),
        AddEndPoints_Force3C K (x :: l) a b = (x :: l) ++ AddEndPoints_Force3C K [] a b :=
      fun x l a b => Force3C_append K (x :: l) a b
    have hDf : ∀ (x : rrDXT1UnpackedEndPoints) (l : List rrDXT1UnpackedEndPoints)
        (a b : rrColor32BGRA),
        AddEndPoints_Default K (x :: l) mode a b
          = (x :: l) ++ AddEndPoints_Default K [] mode a b :=
      fun x l a b => Default_append K (x :: l) mode a b
    by_cases hK : colors.colors.filter (fun c => !rrDXT1_IsTransparentOrBlack K mode c) = []
    · simp only [hK, if_true, hd1]
      by_cases hA : ∃ c ∈ colors.colors, c.dw = 0 <;>
      by_cases hE : ∃ c ∈ colors.colors, rrDXT1_IsTransparentOrBlack K mode c = true <;>
      by_cases hB : bboxLo colors.colors = bboxHi colors.colors <;>
      by_cases hD : LengthSqr ((ColorToVec3i (bboxHi colors.colors)).sub
        (ColorToVec3i (bboxLo colors.colors))) ≤ 12 <;>
      simp only [hA, hE, hB, hD, if_true, if_false, not_true_eq_false, not_false_eq_true,
        and_true, and_false, true_and, false_and, ne_eq, AddEndPoints_SingleColor_Compact_3C,
        AddEndPoints_SingleColor_Compact_4C, List.nil_append, List.append_nil,
        List.singleton_append, List.cons_append, hF, hDf, tileAvg]
    · simp only [hK, if_false, hd2]
      by_cases hA : ∃ c ∈ colors.colors, c.dw = 0 <;>
      by_cases hE : ∃ c ∈ colors.colors, rrDXT1_IsTransparentOrBlack K mode c = true <;>
      by_cases hB2 : bboxLo (colors.colors.filter
          (fun c => !rrDXT1_IsTransparentOrBlack K mode c))
        = bboxHi (colors.colors.filter (fun c => !rrDXT1_IsTransparentOrBlack K mode c)) <;>
      by_cases hB : bboxLo colors.colors = bboxHi colors.colors <;>
      by_cases hD : LengthSqr ((ColorToVec3i (bboxHi colors.colors)).sub
        (ColorToVec3i (bboxLo colors.colors))) ≤ 12 <;>
      simp only [hA, hE, hB, hB2, hD, if_true, if_false, not_true_eq_false, not_false_eq_true,
        and_true, and_false, true_and, false_and, ne_eq, AddEndPoints_SingleColor_Compact_3C,
        AddEndPoints_SingleColor_Compact_4C, List.nil_append, List.append_nil,
        List.singleton_append, List.cons_append, hF, hDf, tileAvg]

/-- Witness for C27 on the Alpha-mode tile with transparent pixels. -/
theorem C27_witness :
    (rrCompressDXT1_Startup_Impl Ref.deps default Ref.alphaTile rrDXT1PaletteMode.Alpha []).2.2
      = Startup_candidates_spec Ref.deps Ref.alphaTile rrDXT1PaletteMode.Alpha :=
  C27_startup_candidate_list Ref.deps default Ref.alphaTile rrDXT1PaletteMode.Alpha
    (by decide) (by decide)

/-- Claim C23.  With evaluator errors and entry error below `2^29`, after every
number `n <= 64` of rounds from the start state of `DXT1_AnnealBlock` the scalar
loop and the vector loop hold the same best-ever error, the same best-ever
endpoints and the same stop flag.  In the scalar loop the best-ever error is never
above the working error of a lane, so a trial below the best-ever error passes the
acceptance test of every round (the threshold is at least 1); the loop has stopped
exactly when the error has dropped to 0 from a non-zero entry error.  In
particular the complete loops agree. -/
theorem C23_scalar_loop_tracks_vector_best (K : Deps) (data : rrCompressDXT1_Startup_Data)
    (colors : rrColorBlock4x4) (mode : rrDXT1PaletteMode) (pBlock : rrDXT1Block)
    (pError n : Nat)
    (hfit : ∀ ep, K.eval_palette colors (K.ComputePalette_Unpacked ep mode) < 536870912)
    (hE : pError < 536870912) (hn : n ≤ 64) :
    ∀ s0 a b,
      s0 = (⟨List.replicate 4
          ⟨rrColorUnpacked565.unpack pBlock.c0, rrColorUnpacked565.unpack pBlock.c1⟩,
        List.replicate 4 pError, pError,
        ⟨rrColorUnpacked565.unpack pBlock.c0, rrColorUnpacked565.unpack pBlock.c1⟩, false⟩ :
          AnnealLoop) →
      a = (List.range n).foldl (Anneal_round K data colors mode (Anneal_rng_bytes K colors)) s0 →
      b = (List.range n).foldl
        (Anneal_round_vector K data colors mode (Anneal_rng_bytes K colors)) s0 →
      (a.error = b.error ∧ a.best = b.best ∧ a.done = b.done) ∧
      (∀ i, i < 4 → a.error ≤ a.curErr.getD i 0) ∧
      (∀ time i e, time ≤ 63 → i < 4 → e < a.error →
        (e : Int) - (a.curErr.getD i 0 : Int) < thresholdBase - (time : Int) * thresholdStep) ∧
      (a.done = true ↔ a.error = 0 ∧ 0 < pError) ∧
      ((Anneal_loop K data colors mode (Anneal_rng_bytes K colors) s0).error
          = (Anneal_loop_vector K data colors mode (Anneal_rng_bytes K colors) s0).error ∧
        (Anneal_loop K data colors mode (Anneal_rng_bytes K colors) s0).best
          = (Anneal_loop_vector K data colors mode (Anneal_rng_bytes K colors) s0).best) := by
  intro s0 a b hs0 ha hb
  have hlanes : AnnealLanes s0 := by rw [hs0]; exact Anneal_start_lanes _ _ _ hE
  have hd : s0.done = false := by rw [hs0]
  have hse : s0.error = pError := by rw [hs0]
  have hrng : ∀ x ∈ Anneal_rng_bytes K colors, x < 256 := by
    intro x hx
    unfold Anneal_rng_bytes at hx
    exact rng_fill_lt K _ _ x hx
  obtain ⟨r1, r2, r3, r4, r5, r6⟩ :=
    Anneal_rounds_equiv K data colors mode _ s0 hfit hrng hlanes hd n hn a b ha hb
  obtain ⟨f1, f2, _, _, _, _⟩ :=
    Anneal_rounds_equiv K data colors mode _ s0 hfit hrng hlanes hd 64 (le_refl _) _ _ rfl rfl
  have hinv : ∀ i, i < 4 → a.error ≤ a.curErr.getD i 0 := by
    intro i hi
    cases hda : a.done
    · exact ((r4 hda).2.2.2.2.1 i hi).1
    · have := (r6.mp hda).1
      omega
  refine ⟨⟨r1, r2, r3⟩, hinv, ?_, by rw [r6, hse], f1, f2⟩
  intro time i e ht hi he
  have := hinv i hi
  unfold thresholdBase thresholdStep
  omega

/-- Witness for C23 with the reference collaborators on the three-colour tile: the
complete loops (64 rounds) from an entry error of 1000 hold the same best-ever
error. -/
theorem C23_witness :
    ((List.range 64).foldl (Anneal_round Ref.deps default Ref.threeColourTile
        rrDXT1PaletteMode.NoAlpha (Anneal_rng_bytes Ref.deps Ref.threeColourTile))
      ⟨List.replicate 4 ⟨rrColorUnpacked565.unpack 35084, rrColorUnpacked565.unpack 37293⟩,
        List.replicate 4 1000, 1000,
        ⟨rrColorUnpacked565.unpack 35084, rrColorUnpacked565.unpack 37293⟩, false⟩).error
      = ((List.range 64).foldl (Anneal_round_vector Ref.deps default Ref.threeColourTile
        rrDXT1PaletteMode.NoAlpha (Anneal_rng_bytes Ref.deps Ref.threeColourTile))
      ⟨List.replicate 4 ⟨rrColorUnpacked565.unpack 35084, rrColorUnpacked565.unpack 37293⟩,
        List.replicate 4 1000, 1000,
        ⟨rrColorUnpacked565.unpack 35084, rrColorUnpacked565.unpack 37293⟩, false⟩).error :=
  (C23_scalar_loop_tracks_vector_best Ref.deps default Ref.threeColourTile
    rrDXT1PaletteMode.NoAlpha ⟨35084, 37293, 0⟩ 1000 64
    (fun ep => lt_of_lt_of_le
      ((Ref.evalContract Ref.threeColourTile rrDXT1PaletteMode.NoAlpha (by decide)
        (by decide)).eval_fit ep) (by decide))
    (by decide) (by decide) _ _ _ rfl rfl rfl).1.1

/-- Claim C38.  For every solver state, every index word and a tile of 16 pixels,
`accumulate` adds to `AA`, `AB` and `BB` exactly the sums of `a_i^2`, `a_i*b_i` and
`b_i^2` over the 16 pixels, with `(a_i, b_i)` the weight pair of the two-bit index
of pixel `i` in the table of the solver's mode.  The 32-bit word that accumulates
the packed products holds the three sums in its three low bytes without a carry:
the sums are at most 144, 32 and 144. -/
theorem C38_accumulate_sums_exact (S : BC1EndpointLLSSolver) (colors : rrColorBlock4x4)
    (indices : Nat) (hlen : colors.colors.length = 16) :
    (S.accumulate colors indices).AA = S.AA + ((List.range 16).map (fun i =>
      ((c_weights_ab S.fourc).getD (pixelIndex indices i) (0, 0)).1
        * ((c_weights_ab S.fourc).getD (pixelIndex indices i) (0, 0)).1)).sum ∧
    (S.accumulate colors indices).AB = S.AB + ((List.range 16).map (fun i =>
      ((c_weights_ab S.fourc).getD (pixelIndex indices i) (0, 0)).1
        * ((c_weights_ab S.fourc).getD (pixelIndex indices i) (0, 0)).2)).sum ∧
    (S.accumulate colors indices).BB = S.BB + ((List.range 16).map (fun i =>
      ((c_weights_ab S.fourc).getD (pixelIndex indices i) (0, 0)).2
        * ((c_weights_ab S.fourc).getD (pixelIndex indices i) (0, 0)).2)).sum ∧
    (((colors.colors.foldl (AccumulateLoop.step S.fourc)
        ⟨indices, 0, S.AX, S.BX⟩).products : Nat) : Int)
      = ((List.range 16).map (fun i =>
          ((c_weights_ab S.fourc).getD (pixelIndex indices i) (0, 0)).1
            * ((c_weights_ab S.fourc).getD (pixelIndex indices i) (0, 0)).1)).sum
        + 256 * ((List.range 16).map (fun i =>
          ((c_weights_ab S.fourc).getD (pixelIndex indices i) (0, 0)).1
            * ((c_weights_ab S.fourc).getD (pixelIndex indices i) (0, 0)).2)).sum
        + 65536 * ((List.range 16).map (fun i =>
          ((c_weights_ab S.fourc).getD (pixelIndex indices i) (0, 0)).2
            * ((c_weights_ab S.fourc).getD (pixelIndex indices i) (0, 0)).2)).sum ∧
    (0 ≤ ((List.range 16).map (fun i =>
        ((c_weights_ab S.fourc).getD (pixelIndex indices i) (0, 0)).1
          * ((c_weights_ab S.fourc).getD (pixelIndex indices i) (0, 0)).1)).sum ∧
      ((List.range 16).map (fun i =>
        ((c_weights_ab S.fourc).getD (pixelIndex indices i) (0, 0)).1
          * ((c_weights_ab S.fourc).getD (pixelIndex indices i) (0, 0)).1)).sum ≤ 144 ∧
      0 ≤ ((List.range 16).map (fun i =>
        ((c_weights_ab S.fourc).getD (pixelIndex indices i) (0, 0)).1
          * ((c_weights_ab S.fourc).getD (pixelIndex indices i) (0, 0)).2)).sum ∧
      ((List.range 16).map (fun i =>
        ((c_weights_ab S.fourc).getD (pixelIndex indices i) (0, 0)).1
          * ((c_weights_ab S.fourc).getD (pixelIndex indices i) (0, 0)).2)).sum ≤ 32 ∧
      0 ≤ ((List.range 16).map (fun i =>
        ((c_weights_ab S.fourc).getD (pixelIndex indices i) (0, 0)).2
          * ((c_weights_ab S.fourc).getD (pixelIndex indices i) (0, 0)).2)).sum ∧
      ((List.range 16).map (fun i =>
        ((c_weights_ab S.fourc).getD (pixelIndex indices i) (0, 0)).2
          * ((c_weights_ab S.fourc).getD (pixelIndex indices i) (0, 0)).2)).sum ≤ 144) := by
  obtain ⟨A2, AB, B2, h1, h2, h3, hprod, e1, e2, e3, _⟩ :=
    accumulate_fold S.fourc colors.colors ⟨indices, 0, S.AX, S.BX⟩ (by norm_num)
  have r1 := LLS_terms_map_range S.fourc (fun a _ => a * a) colors.colors indices
  have r2 := LLS_terms_map_range S.fourc (fun a b => a * b) colors.colors indices
  have r3 := LLS_terms_map_range S.fourc (fun _ b => b * b) colors.colors indices
  rw [hlen] at r1 r2 r3 h1 h2 h3
  dsimp only at r1 r2 r3 e1 e2 e3 hprod
  rw [r1] at e1
  rw [r2] at e2
  rw [r3] at e3
  rw [← e1, ← e2, ← e3]
  have hp : (colors.colors.foldl (AccumulateLoop.step S.fourc)
      ⟨indices, 0, S.AX, S.BX⟩).products = A2 + 256 * AB + 65536 * B2 := by
    rw [hprod]; omega
  unfold BC1EndpointLLSSolver.accumulate
  dsimp only
  rw [hp, Nat.shiftRight_zero, Nat.shiftRight_eq_div_pow, Nat.shiftRight_eq_div_pow, and_255,
    and_255, and_255]
  refine ⟨?_, ?_, ?_, ?_, ?_⟩
  · congr 1; omega
  · congr 1; omega
  · congr 1; omega
  · push_cast; ring
  · omega

/-- Witness for C38 on the ramp tile with an index word that uses all four
indices, three-colour mode. -/
theorem C38_witness :
    ((BC1EndpointLLSSolver.init false).accumulate Ref.rampTile 0xE4E4E4E4).AA
      = 0 + ((List.range 16).map (fun i =>
          ((c_weights_ab false).getD (pixelIndex 0xE4E4E4E4 i) (0, 0)).1
            * ((c_weights_ab false).getD (pixelIndex 0xE4E4E4E4 i) (0, 0)).1)).sum :=
  (C38_accumulate_sums_exact (BC1EndpointLLSSolver.init false) Ref.rampTile 0xE4E4E4E4
    (by decide)).1

/-- Claim C39.  For every legal unpacked colour (fields in range, fourth byte 0) and
every control byte `r`, a lane of `Wiggle4x<0>` is `Wiggle` with the selector
`r & 7` and a lane of `Wiggle4x<3>` is `Wiggle` with the selector `(r >> 3) & 7`;
hence the trial of a lane of the vector annealing loop is the trial of the scalar
loop. -/
theorem C39_Wiggle4x_agrees_with_Wiggle (color : rrColorUnpacked565) (r : Nat)
    (hl : color.IsLegal) (hr : r < 256) :
    Wiggle4x 0 color r = Wiggle color (r &&& 7) ∧
    Wiggle4x 3 color r = Wiggle color ((r >>> 3) &&& 7) ∧
    (∀ (a : Bool) (c1 : rrColorUnpacked565), c1.IsLegal →
      Anneal_trial_vector a ⟨color, c1⟩ r = Anneal_trial a ⟨color, c1⟩ r) :=
  ⟨Wiggle4x0_eq color r hl hr, Wiggle4x3_eq color r hl hr,
    fun a c1 h1 => (Anneal_trial_vector_eq a ⟨color, c1⟩ r hl h1 hr).1⟩

/-- Witness for C39: control byte `0x0C` steps blue up in lane 0 of `Wiggle4x<0>`
and red down in `Wiggle4x<3>`. -/
theorem C39_witness :
    Wiggle4x 0 ⟨0x0A2A05⟩ 0x0C = Wiggle ⟨0x0A2A05⟩ (0x0C &&& 7) ∧
    Wiggle4x 3 ⟨0x0A2A05⟩ 0x0C = Wiggle ⟨0x0A2A05⟩ ((0x0C >>> 3) &&& 7) :=
  ⟨(C39_Wiggle4x_agrees_with_Wiggle ⟨0x0A2A05⟩ 0x0C (by decide) (by decide)).1,
   (C39_Wiggle4x_agrees_with_Wiggle ⟨0x0A2A05⟩ 0x0C (by decide) (by decide)).2.1⟩

/-- Claim C35.  The Slow pipeline returns what the Fast pipeline returns when
startup signals a degenerate block, and otherwise the result of
`DXT1_GreedyOptimizeBlock` with independent wiggles on the block and error the Fast
pipeline returns.  Hence its error is not above the error of Fast, and the two
results are equal when startup signals a degenerate block or Fast returns error
0. -/
theorem C35_slow_is_fast_then_greedy (K : Deps) (data0 : rrCompressDXT1_Startup_Data)
    (pBlock : rrDXT1Block) (colors : rrColorBlock4x4) (options : Nat)
    (mode : rrDXT1PaletteMode) :
    ((rrCompressDXT1_Startup K data0 pBlock K.RR_DXTC_INIT_ERROR colors mode options).ret = false →
      rrCompressDXT1_2 K data0 pBlock colors options mode
        = rrCompressDXT1_1 K data0 pBlock colors options mode) ∧
    ((rrCompressDXT1_Startup K data0 pBlock K.RR_DXTC_INIT_ERROR colors mode options).ret = true →
      rrCompressDXT1_2 K data0 pBlock colors options mode
        = DXT1_GreedyOptimizeBlock K
            (rrCompressDXT1_Startup K data0 pBlock K.RR_DXTC_INIT_ERROR colors mode options).data
            (rrCompressDXT1_1 K data0 pBlock colors options mode).1
            (rrCompressDXT1_1 K data0 pBlock colors options mode).2 colors mode false) ∧
    (rrCompressDXT1_2 K data0 pBlock colors options mode).2
      ≤ (rrCompressDXT1_1 K data0 pBlock colors options mode).2 ∧
    ((rrCompressDXT1_1 K data0 pBlock colors options mode).2 = 0 →
      rrCompressDXT1_2 K data0 pBlock colors options mode
        = rrCompressDXT1_1 K data0 pBlock colors options mode) := by
  have hA : (rrCompressDXT1_Startup K data0 pBlock K.RR_DXTC_INIT_ERROR colors mode options).ret
      = false → rrCompressDXT1_2 K data0 pBlock colors options mode
        = rrCompressDXT1_1 K data0 pBlock colors options mode := by
    intro h
    unfold rrCompressDXT1_2 rrCompressDXT1_1
    dsimp only
    rw [if_pos h, if_pos h]
  have hB : (rrCompressDXT1_Startup K data0 pBlock K.RR_DXTC_INIT_ERROR colors mode options).ret
      = true → rrCompressDXT1_2 K data0 pBlock colors options mode
        = DXT1_GreedyOptimizeBlock K
            (rrCompressDXT1_Startup K data0 pBlock K.RR_DXTC_INIT_ERROR colors mode options).data
            (rrCompressDXT1_1 K data0 pBlock colors options mode).1
            (rrCompressDXT1_1 K data0 pBlock colors options mode).2 colors mode false := by
    intro h
    unfold rrCompressDXT1_2 rrCompressDXT1_1 rrCompressDXT1_4Means
    dsimp only
    simp [h]
  refine ⟨hA, hB, rrCompressDXT1_2_le_1 K data0 pBlock colors options mode, ?_⟩
  intro h0
  cases hr : (rrCompressDXT1_Startup K data0 pBlock K.RR_DXTC_INIT_ERROR colors mode
    options).ret
  · exact hA hr
  · rw [hB hr]
    generalize rrCompressDXT1_1 K data0 pBlock colors options mode = f at h0 ⊢
    obtain ⟨b, e⟩ := f
    dsimp only at h0 ⊢
    subst h0
    exact Greedy_zero K _ b colors mode false

/-- Witness for C35 with the reference collaborators on the three-colour tile,
where startup signals to continue. -/
theorem C35_witness :
    rrCompressDXT1_2 Ref.deps default ⟨0, 0, 0⟩ Ref.threeColourTile 0 rrDXT1PaletteMode.NoAlpha
      = DXT1_GreedyOptimizeBlock Ref.deps
          (rrCompressDXT1_Startup Ref.deps default ⟨0, 0, 0⟩ Ref.deps.RR_DXTC_INIT_ERROR
            Ref.threeColourTile rrDXT1PaletteMode.NoAlpha 0).data
          (rrCompressDXT1_1 Ref.deps default ⟨0, 0, 0⟩ Ref.threeColourTile 0
            rrDXT1PaletteMode.NoAlpha).1
          (rrCompressDXT1_1 Ref.deps default ⟨0, 0, 0⟩ Ref.threeColourTile 0
            rrDXT1PaletteMode.NoAlpha).2 Ref.threeColourTile rrDXT1PaletteMode.NoAlpha false :=
  (C35_slow_is_fast_then_greedy Ref.deps default ⟨0, 0, 0⟩ Ref.threeColourTile 0
    rrDXT1PaletteMode.NoAlpha).2.1 (by decide)

/-- Claim C36.  With `s` the result of startup: when startup signals a degenerate
block, a level below VerySlow returns the startup block and error, and a level of
VerySlow or above returns the result of the joint-wiggle greedy optimisation on
them and runs nothing else.  When startup signals to continue at VerySlow or
above, with `it` the result of 4-means (PCA flag) and the iterative least-squares
stage: below level Reference the heavy search is not run, from Reference on it is;
when the error after that is 0 the result is returned as it is, otherwise
annealing and the joint-wiggle greedy pass follow. -/
theorem C36_degenerate_and_zero_error_paths (K : Deps) (data0 : rrCompressDXT1_Startup_Data)
    (pBlock : rrDXT1Block) (colors : rrColorBlock4x4) (options : Nat)
    (mode : rrDXT1PaletteMode) (level : Nat) :
    ∀ s it hv,
      s = rrCompressDXT1_Startup K data0 pBlock K.RR_DXTC_INIT_ERROR colors mode options →
      it = DXT1_OptimizeEndPointsFromIndicesIterative K
        (rrCompressDXT1_4Means K s.data s.block s.error colors mode DXT1_4MEANS_PCA).2.1
        (rrCompressDXT1_4Means K s.data s.block s.error colors mode DXT1_4MEANS_PCA).2.2
        colors mode →
      hv = Compress_TryAllPairs_Heavy K it.1 it.2 colors mode →
      (s.ret = false → level < rrDXTCLevel_VerySlow →
        levelDispatch K data0 pBlock colors level options mode = (s.block, s.error)) ∧
      (s.ret = false → rrDXTCLevel_VerySlow ≤ level →
        levelDispatch K data0 pBlock colors level options mode
          = DXT1_GreedyOptimizeBlock K s.data s.block s.error colors mode true) ∧
      (s.ret = true → rrDXTCLevel_VerySlow ≤ level → level < rrDXTCLevel_Reference →
        (it.2 = 0 → levelDispatch K data0 pBlock colors level options mode = it) ∧
        (it.2 ≠ 0 → levelDispatch K data0 pBlock colors level options mode
          = DXT1_GreedyOptimizeBlock K s.data
              (DXT1_AnnealBlock K s.data it.1 it.2 colors mode false).1
              (DXT1_AnnealBlock K s.data it.1 it.2 colors mode false).2 colors mode true)) ∧
      (s.ret = true → rrDXTCLevel_Reference ≤ level →
        (hv.2.2 = 0 → levelDispatch K data0 pBlock colors level options mode
          = (hv.2.1, hv.2.2)) ∧
        (hv.2.2 ≠ 0 → levelDispatch K data0 pBlock colors level options mode
          = DXT1_GreedyOptimizeBlock K s.data
              (DXT1_AnnealBlock K s.data hv.2.1 hv.2.2 colors mode true).1
              (DXT1_AnnealBlock K s.data hv.2.1 hv.2.2 colors mode true).2 colors mode true)) := by
  intro s it hv hs hit hhv
  have hstop := levels_of_startup_stop K data0 pBlock colors options mode
  rw [← hs] at hstop
  refine ⟨?_, ?_, ?_, ?_⟩
  · intro h hl
    obtain ⟨h0, h1, h2, _⟩ := hstop h
    unfold levelDispatch
    unfold rrDXTCLevel_VerySlow at hl
    rw [if_neg (by unfold rrDXTCLevel_VerySlow; omega)]
    split_ifs
    · exact h2
    · exact h1
    · exact h0
  · intro h hl
    obtain ⟨_, _, _, h3⟩ := hstop h
    unfold levelDispatch
    rw [if_pos hl]
    exact h3 level
  · intro h hl hr
    have hm : (rrCompressDXT1_4Means K s.data s.block s.error colors mode DXT1_4MEANS_PCA).1
        = true := rfl
    unfold levelDispatch
    rw [if_pos hl]
    unfold rrCompressDXT1_3
    dsimp only
    rw [← hs]
    have hnr : ¬ rrDXTCLevel_Reference ≤ level := not_le.mpr hr
    have hd : decide (rrDXTCLevel_Reference ≤ level) = false := by
      simp only [decide_eq_false_iff_not]; exact hnr
    simp only [h, hm, Bool.true_eq_false, if_false, hnr, ← hit, hd]
    constructor
    · intro h0
      rw [if_pos h0]
    · intro h0
      rw [if_neg h0]
      simp only [decide_False, decide_True]
  · intro h hr
    have hl : rrDXTCLevel_VerySlow ≤ level := by
      unfold rrDXTCLevel_VerySlow
      unfold rrDXTCLevel_Reference at hr
      omega
    have hm : (rrCompressDXT1_4Means K s.data s.block s.error colors mode DXT1_4MEANS_PCA).1
        = true := rfl
    unfold levelDispatch
    rw [if_pos hl]
    unfold rrCompressDXT1_3
    dsimp only
    rw [← hs]
    have hd : decide (rrDXTCLevel_Reference ≤ level) = true := by
      simp only [decide_eq_true_eq]; exact hr
    simp only [h, hm, Bool.true_eq_false, if_false, hr, if_true, ← hit, ← hhv, hd]
    constructor
    · intro h0
      rw [if_pos h0]
    · intro h0
      rw [if_neg h0]
      simp only [decide_False, decide_True]

/-- Witness for C36 on a flat tile, where startup signals a degenerate block: level
Slow returns the startup result. -/
theorem C36_witness :
    levelDispatch Ref.deps default ⟨0, 0, 0⟩ (flatTile ⟨10, 20, 30, 255⟩) rrDXTCLevel_Slow 0
        rrDXT1PaletteMode.NoAlpha
      = ((rrCompressDXT1_Startup Ref.deps default ⟨0, 0, 0⟩ Ref.deps.RR_DXTC_INIT_ERROR
            (flatTile ⟨10, 20, 30, 255⟩) rrDXT1PaletteMode.NoAlpha 0).block,
         (rrCompressDXT1_Startup Ref.deps default ⟨0, 0, 0⟩ Ref.deps.RR_DXTC_INIT_ERROR
            (flatTile ⟨10, 20, 30, 255⟩) rrDXT1PaletteMode.NoAlpha 0).error) :=
  (C36_degenerate_and_zero_error_paths Ref.deps default ⟨0, 0, 0⟩ (flatTile ⟨10, 20, 30, 255⟩) 0
    rrDXT1PaletteMode.NoAlpha rrDXTCLevel_Slow _ _ _ rfl rfl rfl).1 (by decide) (by decide)

/-- Claim C33.  With `S` the solver state after `accumulate`: when `solve_endpoints`
fails, `DXT1_OptimizeEndPointsFromIndices_Raw` fails and writes no word (so both
callers return false with the block and error unchanged); when it yields the
16-bit words `q = (qA, qB)`, the call succeeds with the word `c0 | c1 << 16` where
`(c0, c1)` is `(qA, qB)` or `(qB, qA)`, with `c0 <= c1` for `fourc = false`, and for
`fourc = true` with `c0 >= c1`, and `c0 > c1` exactly when `qA` and `qB` differ. -/
theorem C33_Raw_requested_order (K : Deps) (indices : Nat) (fourc : Bool)
    (colors : rrColorBlock4x4) :
    ∀ S, S = (BC1EndpointLLSSolver.init fourc).accumulate colors indices →
      (S.solve_endpoints K = none →
        DXT1_OptimizeEndPointsFromIndices_Raw K indices fourc colors = none) ∧
      (∀ q, S.solve_endpoints K = some q → q.1 < 65536 → q.2 < 65536 →
        ∃ c0 c1, DXT1_OptimizeEndPointsFromIndices_Raw K indices fourc colors
            = some (c0 + 65536 * c1) ∧ c0 < 65536 ∧ c1 < 65536 ∧
          ((c0 = q.1 ∧ c1 = q.2) ∨ (c0 = q.2 ∧ c1 = q.1)) ∧
          (fourc = false → c0 ≤ c1) ∧
          (fourc = true → c1 ≤ c0 ∧ (c1 < c0 ↔ q.1 ≠ q.2))) ∧
      (∀ (pBlock : rrDXT1Block) (pError : Nat) (mode : rrDXT1PaletteMode),
        DXT1_OptimizeEndPointsFromIndices_Raw K pBlock.indices
          (DXT1_Is4Color pBlock.c0 pBlock.c1 mode) colors = none →
        DXT1_OptimizeEndPointsFromIndices_Inherit_Reindex K pBlock pError colors mode
          = (false, pBlock, pError) ∧
        DXT1_OptimizeEndPointsFromIndices_Inherit_NoReindex K pBlock pError colors mode
          = (false, pBlock, pError)) := by
  intro S hS
  refine ⟨?_, ?_, ?_⟩
  · intro h
    unfold DXT1_OptimizeEndPointsFromIndices_Raw
    dsimp only
    rw [← hS, h]
  · intro q h h1 h2
    unfold DXT1_OptimizeEndPointsFromIndices_Raw
    dsimp only
    rw [← hS, h]
    dsimp only
    cases fourc
    · by_cases hlt : q.2 < q.1
      · refine ⟨q.2, q.1, ?_, h2, h1, Or.inr ⟨rfl, rfl⟩, fun _ => le_of_lt hlt,
          fun hf => by cases hf⟩
        simp [hlt, Nat.mod_eq_of_lt h1, Nat.mod_eq_of_lt h2]
      · refine ⟨q.1, q.2, ?_, h1, h2, Or.inl ⟨rfl, rfl⟩, fun _ => by omega,
          fun hf => by cases hf⟩
        simp [hlt, Nat.mod_eq_of_lt h1, Nat.mod_eq_of_lt h2]
    · by_cases hlt : q.2 < q.1
      · refine ⟨q.1, q.2, ?_, h1, h2, Or.inl ⟨rfl, rfl⟩, fun hf => (by cases hf),
          fun _ => ⟨le_of_lt hlt, ?_⟩⟩
        · simp [hlt, Nat.mod_eq_of_lt h1, Nat.mod_eq_of_lt h2]
        · constructor
          · intro _; omega
          · intro _; exact hlt
      · refine ⟨q.2, q.1, ?_, h2, h1, Or.inr ⟨rfl, rfl⟩, fun hf => (by cases hf),
          fun _ => ⟨by omega, ?_⟩⟩
        · simp [hlt, Nat.mod_eq_of_lt h1, Nat.mod_eq_of_lt h2]
        · constructor
          · intro h3; omega
          · intro h3; omega
  · intro pBlock pError mode h
    constructor
    · unfold DXT1_OptimizeEndPointsFromIndices_Inherit_Reindex
      simp only [h]
    · unfold DXT1_OptimizeEndPointsFromIndices_Inherit_NoReindex
      simp only [h]

/-- Witness for C33 on the ramp tile with the reference solver, four-colour mode:
the solved words `(41549, 37552)` are returned in four-colour order. -/
theorem C33_witness :
    ∃ c0 c1, DXT1_OptimizeEndPointsFromIndices_Raw Ref.deps 0xE4E4E4E4 true Ref.rampTile
        = some (c0 + 65536 * c1) ∧ c0 < 65536 ∧ c1 < 65536 ∧
      ((c0 = (Ref.deps.solve_quantized true
            ((BC1EndpointLLSSolver.init true).accumulate Ref.rampTile 0xE4E4E4E4).AA
            ((BC1EndpointLLSSolver.init true).accumulate Ref.rampTile 0xE4E4E4E4).AB
            ((BC1EndpointLLSSolver.init true).accumulate Ref.rampTile 0xE4E4E4E4).BB
            ((BC1EndpointLLSSolver.init true).accumulate Ref.rampTile 0xE4E4E4E4).AX
            ((BC1EndpointLLSSolver.init true).accumulate Ref.rampTile 0xE4E4E4E4).BX).1 ∧
        c1 = (Ref.deps.solve_quantized true
            ((BC1EndpointLLSSolver.init true).accumulate Ref.rampTile 0xE4E4E4E4).AA
            ((BC1EndpointLLSSolver.init true).accumulate Ref.rampTile 0xE4E4E4E4).AB
            ((BC1EndpointLLSSolver.init true).accumulate Ref.rampTile 0xE4E4E4E4).BB
            ((BC1EndpointLLSSolver.init true).accumulate Ref.rampTile 0xE4E4E4E4).AX
            ((BC1EndpointLLSSolver.init true).accumulate Ref.rampTile 0xE4E4E4E4).BX).2) ∨
       (c0 = (Ref.deps.solve_quantized true
            ((BC1EndpointLLSSolver.init true).accumulate Ref.rampTile 0xE4E4E4E4).AA
            ((BC1EndpointLLSSolver.init true).accumulate Ref.rampTile 0xE4E4E4E4).AB
            ((BC1EndpointLLSSolver.init true).accumulate Ref.rampTile 0xE4E4E4E4).BB
            ((BC1EndpointLLSSolver.init true).accumulate Ref.rampTile 0xE4E4E4E4).AX
            ((BC1EndpointLLSSolver.init true).accumulate Ref.rampTile 0xE4E4E4E4).BX).2 ∧
        c1 = (Ref.deps.solve_quantized true
            ((BC1EndpointLLSSolver.init true).accumulate Ref.rampTile 0xE4E4E4E4).AA
            ((BC1EndpointLLSSolver.init true).accumulate Ref.rampTile 0xE4E4E4E4).AB
            ((BC1EndpointLLSSolver.init true).accumulate Ref.rampTile 0xE4E4E4E4).BB
            ((BC1EndpointLLSSolver.init true).accumulate Ref.rampTile 0xE4E4E4E4).AX
            ((BC1EndpointLLSSolver.init true).accumulate Ref.rampTile 0xE4E4E4E4).BX).1)) ∧
      (true = false → c0 ≤ c1) ∧
      (true = true → c1 ≤ c0 ∧ (c1 < c0 ↔
        (Ref.deps.solve_quantized true
            ((BC1EndpointLLSSolver.init true).accumulate Ref.rampTile 0xE4E4E4E4).AA
            ((BC1EndpointLLSSolver.init true).accumulate Ref.rampTile 0xE4E4E4E4).AB
            ((BC1EndpointLLSSolver.init true).accumulate Ref.rampTile 0xE4E4E4E4).BB
            ((BC1EndpointLLSSolver.init true).accumulate Ref.rampTile 0xE4E4E4E4).AX
            ((BC1EndpointLLSSolver.init true).accumulate Ref.rampTile 0xE4E4E4E4).BX).1 ≠
        (Ref.deps.solve_quantized true
            ((BC1EndpointLLSSolver.init true).accumulate Ref.rampTile 0xE4E4E4E4).AA
            ((BC1EndpointLLSSolver.init true).accumulate Ref.rampTile 0xE4E4E4E4).AB
            ((BC1EndpointLLSSolver.init true).accumulate Ref.rampTile 0xE4E4E4E4).BB
            ((BC1EndpointLLSSolver.init true).accumulate Ref.rampTile 0xE4E4E4E4).AX
            ((BC1EndpointLLSSolver.init true).accumulate Ref.rampTile 0xE4E4E4E4).BX).2)) :=
  (C33_Raw_requested_order Ref.deps 0xE4E4E4E4 true Ref.rampTile _ rfl).2.1 _
    (by decide) (by decide) (by decide)

/-- Claim C32.  Both loops without a fixed count leave for every input.  An
iteration of `DXT1_OptimizeEndPointsFromIndicesIterative` stays in the loop only
when `DXT1_OptimizeEndPointsFromIndices_Inherit_Reindex` returns true, and then the
error is lower than before; one iteration of `DXT1_GreedyOptimizeBlock_Inner`
leaves the loop variables unchanged (and breaks) or lowers the error.  Hence with
any bound above the entry error each loop leaves after at most `pError + 1`
iterations, with the result of the function. -/
theorem C32_loops_terminate (K : Deps) (data : rrCompressDXT1_Startup_Data)
    (pBlock : rrDXT1Block) (pError : Nat) (colors : rrColorBlock4x4)
    (mode : rrDXT1PaletteMode) (joint : Bool) (fuel : Nat) (h : pError < fuel) :
    ((DXT1_OptimizeEndPointsFromIndices_Inherit_Reindex K pBlock pError colors mode).1 = true →
      (DXT1_OptimizeEndPointsFromIndices_Inherit_Reindex K pBlock pError colors mode).2.2
        < pError) ∧
    (∃ n, 1 ≤ n ∧ n ≤ pError + 1 ∧
      Iterative_run K colors mode fuel pBlock pError
        = some ((DXT1_OptimizeEndPointsFromIndicesIterative K pBlock pError colors mode).1,
                (DXT1_OptimizeEndPointsFromIndicesIterative K pBlock pError colors mode).2, n)) ∧
    (∀ s : GreedyLoop, Greedy_loop K data colors mode joint 1 s = s ∨
      (Greedy_loop K data colors mode joint 1 s).error < s.error) ∧
    (∃ n s, 1 ≤ n ∧ n ≤ pError + 1 ∧
      Greedy_run K data colors mode joint fuel
          ⟨pBlock, pError, rrColorUnpacked565.unpack pBlock.c0,
            rrColorUnpacked565.unpack pBlock.c1⟩ = some (s, n) ∧
      DXT1_GreedyOptimizeBlock_Inner K data pBlock pError colors mode joint
        = (s.block, s.error)) := by
  refine ⟨?_, ?_, Greedy_loop_one K data colors mode joint, ?_⟩
  · intro ht
    rcases Inherit_Reindex_cases K pBlock pError colors mode with h0 | ⟨c0, c1, h1, hlt, _⟩
    · rw [h0] at ht; cases ht
    · rw [h1]; exact hlt
  · obtain ⟨n, hn1, hn2, hrun⟩ := Iterative_run_spec K colors mode fuel pBlock pError h
    refine ⟨n, hn1, hn2, ?_⟩
    rw [hrun]
    unfold DXT1_OptimizeEndPointsFromIndicesIterative
    rw [Iterative_loop_fuel K colors mode fuel (pError + 1) pBlock pError h (by omega)]
  · obtain ⟨n, hn1, hn2, hrun⟩ := Greedy_run_spec K data colors mode joint fuel
      ⟨pBlock, pError, rrColorUnpacked565.unpack pBlock.c0,
        rrColorUnpacked565.unpack pBlock.c1⟩ h
    refine ⟨n, _, hn1, hn2, hrun, ?_⟩
    unfold DXT1_GreedyOptimizeBlock_Inner
    dsimp only
    rw [Greedy_loop_fuel K data colors mode joint fuel (pError + 1) _ h
      (by dsimp only; omega)]

/-- Witness for C32 with the reference collaborators on the three-colour tile:
from the block `(0, 0, 0)` of error 100 a bound of 101 iterations is enough. -/
theorem C32_witness :
    ∃ n, 1 ≤ n ∧ n ≤ 100 + 1 ∧
      Iterative_run Ref.deps Ref.threeColourTile rrDXT1PaletteMode.NoAlpha 101 ⟨0, 0, 0⟩ 100
        = some ((DXT1_OptimizeEndPointsFromIndicesIterative Ref.deps ⟨0, 0, 0⟩ 100
                  Ref.threeColourTile rrDXT1PaletteMode.NoAlpha).1,
                (DXT1_OptimizeEndPointsFromIndicesIterative Ref.deps ⟨0, 0, 0⟩ 100
                  Ref.threeColourTile rrDXT1PaletteMode.NoAlpha).2, n) :=
  (C32_loops_terminate Ref.deps default ⟨0, 0, 0⟩ 100 Ref.threeColourTile
    rrDXT1PaletteMode.NoAlpha false 101 (by decide)).2.1

/-- Claim C34.  With `has_any_alpha` set and a block that enters with `c0 <= c1`,
the block that `rrCompressDXT1_4Means`, `DXT1_GreedyOptimizeBlock` and
`DXT1_AnnealBlock` leave has `c0 <= c1`, and outside FourColor mode so has the block
that `DXT1_OptimizeEndPointsFromIndices_Inherit_Reindex` and
`DXT1_OptimizeEndPointsFromIndicesIterative` leave, for every evaluator and index
search; quantisation yields legal 5:6:5 colours and the solver 16-bit words.  On a
canonical tile, when startup signals to continue, `has_any_alpha` is set only in
Alpha mode. -/
theorem C34_three_colour_order_preserved (K : Deps) (data : rrCompressDXT1_Startup_Data)
    (pBlock : rrDXT1Block) (pError : Nat) (colors : rrColorBlock4x4)
    (mode : rrDXT1PaletteMode) (flags : Nat) (joint expensive_mode : Bool)
    (hq : ∀ c, (K.quantize c).IsLegal)
    (hs : ∀ f AA AB BB AX BX, (K.solve_quantized f AA AB BB AX BX).1 < 65536 ∧
      (K.solve_quantized f AA AB BB AX BX).2 < 65536)
    (ha : data.has_any_alpha = true) (h01 : pBlock.c0 ≤ pBlock.c1) :
    (rrCompressDXT1_4Means K data pBlock pError colors mode flags).2.1.c0
      ≤ (rrCompressDXT1_4Means K data pBlock pError colors mode flags).2.1.c1 ∧
    (mode ≠ rrDXT1PaletteMode.FourColor →
      (DXT1_OptimizeEndPointsFromIndices_Inherit_Reindex K pBlock pError colors mode).2.1.c0
        ≤ (DXT1_OptimizeEndPointsFromIndices_Inherit_Reindex K pBlock pError colors mode).2.1.c1
      ∧
      (DXT1_OptimizeEndPointsFromIndicesIterative K pBlock pError colors mode).1.c0
        ≤ (DXT1_OptimizeEndPointsFromIndicesIterative K pBlock pError colors mode).1.c1) ∧
    (DXT1_GreedyOptimizeBlock K data pBlock pError colors mode joint).1.c0
      ≤ (DXT1_GreedyOptimizeBlock K data pBlock pError colors mode joint).1.c1 ∧
    (DXT1_AnnealBlock K data pBlock pError colors mode expensive_mode).1.c0
      ≤ (DXT1_AnnealBlock K data pBlock pError colors mode expensive_mode).1.c1 ∧
    (∀ data0 b0 e0 options, IsBC1Canonical K colors mode →
      (rrCompressDXT1_Startup K data0 b0 e0 colors mode options).ret = true →
      (rrCompressDXT1_Startup K data0 b0 e0 colors mode options).data.has_any_alpha = true →
      mode = rrDXT1PaletteMode.Alpha) :=
  ⟨FourMeans_order K data pBlock pError colors mode flags hq ha h01,
   fun hm => ⟨Inherit_Reindex_order K pBlock pError colors mode hs hm h01,
     Iterative_loop_order K colors mode hs hm _ pBlock pError h01⟩,
   Greedy_order K data pBlock pError colors mode joint ha h01,
   Anneal_order K data pBlock pError colors mode expensive_mode ha h01,
   fun data0 b0 e0 options hcan hret hal =>
     Startup_alpha_mode K data0 b0 e0 colors mode options hcan hret hal⟩

/-- Witness for C34 with the reference collaborators on the Alpha-mode tile: the
greedy search from the block `(100, 200)` leaves `c0 <= c1`. -/
theorem C34_witness :
    (DXT1_GreedyOptimizeBlock Ref.deps
        ⟨⟨0, 0, 0⟩, ⟨0, 0, 0⟩, ⟨0, 0, 0⟩, ⟨0, 0, 0, 0⟩, ⟨200, 60, 30, 255⟩, true⟩
        ⟨100, 200, 0⟩ 5000 Ref.alphaTile rrDXT1PaletteMode.Alpha true).1.c0
      ≤ (DXT1_GreedyOptimizeBlock Ref.deps
        ⟨⟨0, 0, 0⟩, ⟨0, 0, 0⟩, ⟨0, 0, 0⟩, ⟨0, 0, 0, 0⟩, ⟨200, 60, 30, 255⟩, true⟩
        ⟨100, 200, 0⟩ 5000 Ref.alphaTile rrDXT1PaletteMode.Alpha true).1.c1 :=
  (C34_three_colour_order_preserved Ref.deps
    ⟨⟨0, 0, 0⟩, ⟨0, 0, 0⟩, ⟨0, 0, 0⟩, ⟨0, 0, 0, 0⟩, ⟨200, 60, 30, 255⟩, true⟩
    ⟨100, 200, 0⟩ 5000 Ref.alphaTile rrDXT1PaletteMode.Alpha 0 true false
    Ref.quantize_IsLegal Ref.solve_quantized_lt rfl (by decide)).2.2.1

/-- Claim C37.  In exact arithmetic, on a tile with two pixels that differ in B, G
or R, and for every value of `data.sum` (in particular the sum of the pixels, so
that `avgF` is the average): after the pixel loop of the PCA branch
`longest_len2 > 0`, the seed `pca` is the deviation of a pixel, of squared length
`longest_len2`, no deviation is longer, and the seed is non-zero; with `cov` the sum
of the outer products of the deviations, every power iterate `cov^n pca` with
`n >= 1` is non-zero; and in every iteration of the power loop the normalisation
takes the branch `len_sq > 0` and returns a non-zero axis, for a square root that is
non-zero on positive numbers. -/
theorem C37_PCA_iterates_nonzero (sqrtf : ℚ → ℚ) (data : rrCompressDXT1_Startup_Data)
    (colors : rrColorBlock4x4)
    (hsq : ∀ t, 0 < t → sqrtf t ≠ 0)
    (h : ∃ c1 ∈ colors.colors, ∃ c2 ∈ colors.colors,
      c1.b ≠ c2.b ∨ c1.g ≠ c2.g ∨ c1.r ≠ c2.r) :
    ∀ s, s = PCAScan.run (PCA_avgF data.sum) colors →
      0 < s.longest_len2 ∧
      (∃ c ∈ colors.colors, s.pca = PCA_dev (PCA_avgF data.sum) c) ∧
      (s.pca.x * s.pca.x + s.pca.z * s.pca.z) + s.pca.y * s.pca.y = s.longest_len2 ∧
      (∀ c ∈ colors.colors,
        ((PCA_dev (PCA_avgF data.sum) c).x * (PCA_dev (PCA_avgF data.sum) c).x
          + (PCA_dev (PCA_avgF data.sum) c).z * (PCA_dev (PCA_avgF data.sum) c).z)
          + (PCA_dev (PCA_avgF data.sum) c).y * (PCA_dev (PCA_avgF data.sum) c).y
        ≤ s.longest_len2) ∧
      s.pca ≠ ⟨0, 0, 0⟩ ∧
      (∀ v, rrVec3q.dot v (COV_PCA_MULT s v)
        = (colors.colors.map (fun c =>
            (rrVec3q.dot (PCA_dev (PCA_avgF data.sum) c) v) ^ 2)).sum) ∧
      (∀ n, 1 ≤ n → (COV_PCA_MULT s)^[n] s.pca ≠ ⟨0, 0, 0⟩) ∧
      (∀ k, 0 < ((COV_PCA_MULT s (COV_PCA_MULT s (PCA_power_loop sqrtf s k s.pca))).x
              * (COV_PCA_MULT s (COV_PCA_MULT s (PCA_power_loop sqrtf s k s.pca))).x
            + (COV_PCA_MULT s (COV_PCA_MULT s (PCA_power_loop sqrtf s k s.pca))).z
              * (COV_PCA_MULT s (COV_PCA_MULT s (PCA_power_loop sqrtf s k s.pca))).z)
            + (COV_PCA_MULT s (COV_PCA_MULT s (PCA_power_loop sqrtf s k s.pca))).y
              * (COV_PCA_MULT s (COV_PCA_MULT s (PCA_power_loop sqrtf s k s.pca))).y ∧
          PCA_power_loop sqrtf s (k + 1) s.pca ≠ ⟨0, 0, 0⟩) ∧
      Scalar_Calc_4Means_pca sqrtf data colors DXT1_4MEANS_PCA ≠ ⟨0, 0, 0⟩ := by
  intro s hs
  obtain ⟨h1, h2, h3, h4, h5, h6⟩ := PCAScan_run_seed (PCA_avgF data.sum) colors h
  rw [← hs] at h1 h2 h3 h4 h5 h6
  have hloop : ∀ k, 0 < ((COV_PCA_MULT s (COV_PCA_MULT s (PCA_power_loop sqrtf s k s.pca))).x
              * (COV_PCA_MULT s (COV_PCA_MULT s (PCA_power_loop sqrtf s k s.pca))).x
            + (COV_PCA_MULT s (COV_PCA_MULT s (PCA_power_loop sqrtf s k s.pca))).z
              * (COV_PCA_MULT s (COV_PCA_MULT s (PCA_power_loop sqrtf s k s.pca))).z)
            + (COV_PCA_MULT s (COV_PCA_MULT s (PCA_power_loop sqrtf s k s.pca))).y
              * (COV_PCA_MULT s (COV_PCA_MULT s (PCA_power_loop sqrtf s k s.pca))).y ∧
          PCA_power_loop sqrtf s (k + 1) s.pca ≠ ⟨0, 0, 0⟩ := by
    intro k
    obtain ⟨a, b, _⟩ := PCA_power_iter_ne sqrtf hsq s _ (PCA_power_loop_ne sqrtf hsq s k s.pca h6)
    refine ⟨a, ?_⟩
    have e : PCA_power_loop sqrtf s (k + 1) s.pca
        = PCA_power_iter sqrtf s (PCA_power_loop sqrtf s k s.pca) := by
      unfold PCA_power_loop
      rw [List.range_succ, List.foldl_append]
      rfl
    rw [e]
    exact b
  refine ⟨h1, h2, h3, h4, h5, ?_, ?_, hloop, ?_⟩
  · intro v
    have hq := PCAScan_fold_quad (PCA_avgF data.sum) colors.colors PCAScan.init v
    have hinit : rrVec3q.dot v (COV_PCA_MULT PCAScan.init v) = 0 := by
      unfold rrVec3q.dot COV_PCA_MULT PCAScan.init
      simp
    rw [hinit, zero_add] at hq
    rw [hs]
    exact hq
  · intro n hn
    obtain ⟨m, rfl⟩ : ∃ m, n = m + 1 := ⟨n - 1, by omega⟩
    exact COV_PCA_MULT_iterate_ne s s.pca h6 m
  · unfold Scalar_Calc_4Means_pca
    dsimp only
    rw [if_pos (by decide), ← hs]
    exact (hloop 3).2

/-- Witness for C37 on the three-colour tile with its pixel sum and the identity
as square root: the assertion `longest_len2 > 0` holds. -/
theorem C37_witness :
    0 < (PCAScan.run (PCA_avgF (tileSum Ref.threeColourTile.colors))
      Ref.threeColourTile).longest_len2 :=
  (C37_PCA_iterates_nonzero (fun t => t)
    ⟨⟨0, 0, 0⟩, ⟨0, 0, 0⟩, tileSum Ref.threeColourTile.colors, ⟨0, 0, 0, 0⟩, ⟨0, 0, 0, 0⟩,
      false⟩
    Ref.threeColourTile (fun _ ht => ne_of_gt ht)
    ⟨⟨96, 36, 156, 255⟩, by decide, ⟨96, 32, 143, 255⟩, by decide, Or.inr (Or.inl (by decide))⟩
    _ rfl).1

end RR
